import Mathlib

/-!
# Inventory storage engine: slots, slot groups and the group collection

A shallow embedding of `FInventorySlot` (InventorySlot.h), `FInventorySlots`
(InventorySlots.h), `FInventorySlotsGroup` (InventorySlotsGroup.h) and the stack
operations of `UItemBase` (ItemBase.cpp).

Modelling conventions

* `int32` values are `Int`.  The slot operations only add and subtract amounts
  bounded by the stacks and maxima involved (an amount moved is a `min` with the
  free space or with the stack it is taken from), so for inputs in the `int32`
  range no step wraps around; totals over several slots are mathematical sums.
* A `UItemBase*` is an `ItemPtr := Option Nat`: `none` is `nullptr`, `some r`
  is the address of the `r`-th object of the `Heap`.  Item objects are mutable
  and shared between the caller and the slots, so every operation that reads or
  writes an item takes the heap and, when it writes, returns the new heap.
* `IsValid(p)` is `p ≠ nullptr` and the object is alive (`bValid`).
* `TArray` is `List`, `TMap` is an association list.
* `FMath::Min` is `min`, `FMath::Clamp(x, lo, hi)` is `max (min x hi) lo`; the
  two engine versions of `Clamp` agree whenever `lo ≤ hi`.
-/

namespace InventorySystem

/-! ## Engine helpers -/

/-- Engine `FMath::Clamp` on `int32`. -/
def Clamp (X Lo Hi : Int) : Int := max (min X Hi) Lo

/-! ## Items (ItemBase.h, ItemBase.cpp, ItemDefinition.h) -/

/-- The part of `FItemDefinition` read by the storage engine. -/
structure FItemDefinition where
  ItemID : String
  InventorySlotTypeIDs : List Int
deriving DecidableEq, Inhabited

/-- Embeds `FItemDefinition()`. -/
def FItemDefinition.ctor : FItemDefinition := { ItemID := "None", InventorySlotTypeIDs := [0] }

/-- Embeds `FItemDefinition::SetItemID`: an empty string is rejected. -/
def FItemDefinition.SetItemID (d : FItemDefinition) (NewID : String) : FItemDefinition :=
  if NewID ≠ "" then { d with ItemID := NewID } else d

/-- Embeds `FItemDefinition::SetInventorySlotTypeIDs`: rejected when some ID is negative. -/
def FItemDefinition.SetInventorySlotTypeIDs (d : FItemDefinition) (NewTypeIDs : List Int) :
    FItemDefinition :=
  if ∀ ID ∈ NewTypeIDs, ¬ ID < 0 then { d with InventorySlotTypeIDs := NewTypeIDs } else d

/-- The fields of `UItemBase` used by stacking; `bValid` is what `IsValid` reports. -/
structure UItemBase where
  ItemDefinition : FItemDefinition
  bIsStackable : Bool
  MaxStackSize : Int
  CurrentStackSize : Int
  bValid : Bool
deriving DecidableEq

/-- Embeds `UItemBase::UItemBase()`. -/
def UItemBase.ctor : UItemBase :=
  { ItemDefinition := FItemDefinition.ctor,
    bIsStackable := false, MaxStackSize := 1, CurrentStackSize := 1, bValid := true }

instance : Inhabited UItemBase := ⟨UItemBase.ctor⟩

/-- A `UItemBase*`: `none` is `nullptr`. -/
abbrev ItemPtr := Option Nat

/-- The object store: the `r`-th entry is the object at address `r`. -/
abbrev Heap := List UItemBase

/-- Dereference `p->`; only used on pointers the code has checked. -/
def Heap.deref (h : Heap) (p : ItemPtr) : UItemBase :=
  match p with
  | some r => h.getD r UItemBase.ctor
  | none => UItemBase.ctor

/-- Engine `IsValid(p)`: non-null and alive. -/
def IsValid (h : Heap) (p : ItemPtr) : Prop :=
  match p with
  | some r => r < h.length ∧ (h.getD r UItemBase.ctor).bValid = true
  | none => False

instance (h : Heap) (p : ItemPtr) : Decidable (IsValid h p) := by
  unfold IsValid; cases p <;> infer_instance

/-- Embeds `p->GetItemDefinition().GetItemID()`. -/
def GetItemID (h : Heap) (p : ItemPtr) : String := (h.deref p).ItemDefinition.ItemID

/-- Embeds `UItemBase::SetCurrentStackSize` applied to the object itself. -/
def UItemBase.SetCurrentStackSize (it : UItemBase) (NewSize : Int) : UItemBase :=
  if it.bIsStackable then { it with CurrentStackSize := Clamp NewSize 0 it.MaxStackSize }
  else { it with CurrentStackSize := 1 }

/-- Embeds `p->SetCurrentStackSize(NewSize)` as a heap update. -/
def SetCurrentStackSize (h : Heap) (p : ItemPtr) (NewSize : Int) : Heap :=
  match p with
  | some r => h.set r ((h.deref p).SetCurrentStackSize NewSize)
  | none => h

/-- Embeds `UItemBase::CopyDefinitionTo`, for the fields of the definition that are
modelled: the copy goes through the validating setters. -/
def UItemBase.CopyDefinitionTo (it TargetItem : UItemBase) : UItemBase :=
  { TargetItem with
    ItemDefinition :=
      (TargetItem.ItemDefinition.SetItemID it.ItemDefinition.ItemID).SetInventorySlotTypeIDs
        it.ItemDefinition.InventorySlotTypeIDs }

/-- Embeds `UItemBase::SplitStack`: on success the receiver loses `Amount` and a new
object is allocated at the end of the heap, given the receiver's definition,
stackability and maximum, and `Amount` units.  `NewObject` is taken to succeed
and to start from the defaults of `UItemBase()`. -/
def SplitStack (h : Heap) (p : ItemPtr) (Amount : Int) : Heap × ItemPtr :=
  match p with
  | none => (h, none)
  | some r =>
    let it := h.deref p
    if ¬ it.bIsStackable = true then (h, none)
    else if Amount ≤ 0 then (h, none)
    else if Amount ≥ it.CurrentStackSize then (h, none)
    else
      let h1 := h.set r { it with CurrentStackSize := it.CurrentStackSize - Amount }
      let NewItem := it.CopyDefinitionTo UItemBase.ctor
      let NewItem1 := { NewItem with bIsStackable := it.bIsStackable,
                                     MaxStackSize := it.MaxStackSize }
      (h1 ++ [NewItem1.SetCurrentStackSize Amount], some h1.length)

/-! ## Operation results (InventoryOperationResult.h) -/

/-- The uniform outcome value. -/
structure FInventoryOperationResult where
  bSuccess : Bool
  Message : String
deriving DecidableEq

/-- Embeds `FInventoryOperationResult::Ok()`. -/
def FInventoryOperationResult.Ok : FInventoryOperationResult := ⟨true, "Success"⟩

/-- Embeds `FInventoryOperationResult::Fail(Reason)`. -/
def FInventoryOperationResult.Fail (Reason : String) : FInventoryOperationResult :=
  ⟨false, Reason⟩

/-! ## A single slot (InventorySlot.h) -/

/-- A storage cell: item reference, current and maximum stack size. -/
structure FInventorySlot where
  Item : ItemPtr
  CurrentStackSize : Int
  MaxStackSize : Int
deriving DecidableEq

namespace FInventorySlot

/-- Embeds `FInventorySlot()`. -/
def ctor : FInventorySlot := ⟨none, 0, 1⟩

/-- Embeds `IsEmpty()`: no item, or a non-positive stack. -/
def IsEmpty (s : FInventorySlot) : Prop := s.Item = none ∨ s.CurrentStackSize ≤ 0

instance (s : FInventorySlot) : Decidable s.IsEmpty := by
  unfold IsEmpty; infer_instance

/-- Embeds `IsFull()`. -/
def IsFull (s : FInventorySlot) : Prop := s.CurrentStackSize ≥ s.MaxStackSize

instance (s : FInventorySlot) : Decidable s.IsFull := by
  unfold IsFull; infer_instance

/-- Embeds `GetAvailableSpace()`. -/
def GetAvailableSpace (s : FInventorySlot) : Int := s.MaxStackSize - s.CurrentStackSize

/-- Embeds `CanStackItem(InItem)`. -/
def CanStackItem (h : Heap) (s : FInventorySlot) (InItem : ItemPtr) : Prop :=
  if s.IsEmpty ∨ ¬ IsValid h InItem ∨ s.IsFull then False
  else GetItemID h s.Item = GetItemID h InItem

instance (h : Heap) (s : FInventorySlot) (p : ItemPtr) : Decidable (CanStackItem h s p) := by
  unfold CanStackItem; infer_instance

/-- Embeds `CanAcceptItem(InItem)`. -/
def CanAcceptItem (h : Heap) (s : FInventorySlot) (InItem : ItemPtr) : Prop :=
  if ¬ IsValid h InItem then False
  else if s.IsEmpty then True
  else CanStackItem h s InItem

instance (h : Heap) (s : FInventorySlot) (p : ItemPtr) : Decidable (CanAcceptItem h s p) := by
  unfold CanAcceptItem; infer_instance

/-- Embeds `ClearSlot()`. -/
def ClearSlot (_s : FInventorySlot) : FInventorySlot := ⟨none, 0, 1⟩

/-- Embeds `SetItem(InItem, InQuantity)`. -/
def SetItem (h : Heap) (s : FInventorySlot) (InItem : ItemPtr) (InQuantity : Int) :
    FInventorySlot :=
  if ¬ IsValid h InItem then s.ClearSlot
  else
    { Item := InItem,
      MaxStackSize := (h.deref InItem).MaxStackSize,
      CurrentStackSize := Clamp InQuantity 0 (h.deref InItem).MaxStackSize }

/-- Embeds `AddToStack(AmountToAdd)`: the new slot and the returned overflow. -/
def AddToStack (s : FInventorySlot) (AmountToAdd : Int) : FInventorySlot × Int :=
  if AmountToAdd ≤ 0 ∨ s.IsEmpty then (s, AmountToAdd)
  else
    let ActualAdd := min AmountToAdd s.GetAvailableSpace
    ({ s with CurrentStackSize := s.CurrentStackSize + ActualAdd }, AmountToAdd - ActualAdd)

/-- Embeds `RemoveFromStack(AmountToRemove)`: the new slot and the amount removed. -/
def RemoveFromStack (s : FInventorySlot) (AmountToRemove : Int) : FInventorySlot × Int :=
  if AmountToRemove ≤ 0 then (s, 0)
  else
    let ActualRemove := min AmountToRemove s.CurrentStackSize
    let s1 := { s with CurrentStackSize := s.CurrentStackSize - ActualRemove }
    if s1.CurrentStackSize ≤ 0 then (s1.ClearSlot, ActualRemove) else (s1, ActualRemove)

/-- Embeds `TransferTo(TargetSlot, Amount)` for two distinct slots: the new source, the
new target and the amount reported as moved. -/
def TransferTo (h : Heap) (s TargetSlot : FInventorySlot) (Amount : Int) :
    FInventorySlot × FInventorySlot × Int :=
  if Amount ≤ 0 ∨ s.IsEmpty then (s, TargetSlot, 0)
  else if ¬ TargetSlot.IsEmpty ∧ ¬ CanStackItem h TargetSlot s.Item then (s, TargetSlot, 0)
  else
    let MaxCanTransfer := min Amount s.CurrentStackSize
    let TargetSpace := if TargetSlot.IsEmpty then s.MaxStackSize else TargetSlot.GetAvailableSpace
    let ActualTransfer := min MaxCanTransfer TargetSpace
    if ActualTransfer ≤ 0 then (s, TargetSlot, 0)
    else
      let t1 := if TargetSlot.IsEmpty then TargetSlot.SetItem h s.Item ActualTransfer
                else (TargetSlot.AddToStack ActualTransfer).1
      ((s.RemoveFromStack ActualTransfer).1, t1, ActualTransfer)

/-- Embeds `ValidateSlot(OutErrors)`: the returned flag (the error texts are not modelled). -/
def ValidateSlot (s : FInventorySlot) : Bool :=
  let b1 := if s.CurrentStackSize < 0 then false else true
  let b2 := if s.CurrentStackSize > s.MaxStackSize then false else b1
  let b3 := if s.Item ≠ none ∧ s.CurrentStackSize = 0 then false else b2
  if s.Item = none ∧ s.CurrentStackSize > 0 then false else b3

end FInventorySlot

/-- The slot invariant of the data model: `item = none ↔ currentStack = 0` and
`0 ≤ currentStack ≤ maxStack`. -/
def SlotInvariant (s : FInventorySlot) : Prop :=
  (s.Item = none ↔ s.CurrentStackSize = 0) ∧
    0 ≤ s.CurrentStackSize ∧ s.CurrentStackSize ≤ s.MaxStackSize

instance (s : FInventorySlot) : Decidable (SlotInvariant s) := by
  unfold SlotInvariant; infer_instance

/-! ## A slot group (InventorySlots.h) -/

/-- A bounded array of slots with its allowed type IDs. -/
structure FInventorySlots where
  MaxSlotSize : Int
  TypeIDMap : List (Int × String)
  Slots : List FInventorySlot
deriving DecidableEq

/-- Sum of `CurrentStackSize` over a slot array. -/
def sumStacks (l : List FInventorySlot) : Int := (l.map (fun s => s.CurrentStackSize)).sum

namespace FInventorySlots

/-- Embeds `FInventorySlots()` with its default member initialisers. -/
def ctor : FInventorySlots := ⟨64, [], []⟩

/-- Embeds `InitializeInventory(Size, NewTypeIDMap)`; `SetNum` is only defined for
a non-negative `Size`, a negative one is taken as no slots. -/
def InitializeInventory (_g : FInventorySlots) (Size : Int) (NewTypeIDMap : List (Int × String)) :
    FInventorySlots :=
  { MaxSlotSize := Size, TypeIDMap := NewTypeIDMap,
    Slots := List.replicate Size.toNat FInventorySlot.ctor }

/-- Embeds `TypeIDMap.Contains(ID)`. -/
def ContainsTypeID (g : FInventorySlots) (ID : Int) : Prop := ∃ kv ∈ g.TypeIDMap, kv.1 = ID

instance (g : FInventorySlots) (ID : Int) : Decidable (g.ContainsTypeID ID) := by
  unfold ContainsTypeID; infer_instance

/-- Embeds `IsTypeSupported(Item)`. -/
def IsTypeSupported (h : Heap) (g : FInventorySlots) (Item : ItemPtr) : Prop :=
  if ¬ IsValid h Item then False
  else ∃ ID ∈ (h.deref Item).ItemDefinition.InventorySlotTypeIDs, g.ContainsTypeID ID

instance (h : Heap) (g : FInventorySlots) (p : ItemPtr) : Decidable (g.IsTypeSupported h p) := by
  unfold IsTypeSupported; infer_instance

/-- Embeds `Slots.IsValidIndex(Index)`. -/
def IsValidIndex (l : List FInventorySlot) (Index : Int) : Prop :=
  0 ≤ Index ∧ Index < (l.length : Int)

instance (l : List FInventorySlot) (i : Int) : Decidable (IsValidIndex l i) := by
  unfold IsValidIndex; infer_instance

/-- Embeds `Slots[Index]` for a checked index. -/
def slotAt (l : List FInventorySlot) (Index : Int) : FInventorySlot :=
  l.getD Index.toNat FInventorySlot.ctor

/-- The state of the stacking loop of `AddItem` (lines 92-107): the slots, the
remaining amount, and whether the loop left the function by `return Ok()`. -/
structure StackPass where
  slots : List FInventorySlot
  remaining : Int
  returned : Bool

/-- The stacking loop of `AddItem` over the slots in index order. -/
def stackLoop (h : Heap) (NewItem : ItemPtr) :
    List FInventorySlot → Int → StackPass
  | [], RemainingToStack => ⟨[], RemainingToStack, false⟩
  | Slot :: rest, RemainingToStack =>
    if ¬ Slot.IsEmpty ∧ GetItemID h Slot.Item = GetItemID h NewItem then
      if ¬ Slot.IsFull then
        let r := Slot.AddToStack RemainingToStack
        if r.2 ≤ 0 then ⟨r.1 :: rest, r.2, true⟩
        else
          let k := stackLoop h NewItem rest r.2
          ⟨r.1 :: k.slots, k.remaining, k.returned⟩
      else
        let k := stackLoop h NewItem rest RemainingToStack
        ⟨Slot :: k.slots, k.remaining, k.returned⟩
    else
      let k := stackLoop h NewItem rest RemainingToStack
      ⟨Slot :: k.slots, k.remaining, k.returned⟩

/-- The empty-slot loop of `AddItem` (lines 112-119): `some` of the new slots when
an empty slot took the item, `none` when the loop ran to its end. -/
def placeLoop (h : Heap) (NewItem : ItemPtr) (RemainingToStack : Int) :
    List FInventorySlot → Option (List FInventorySlot)
  | [] => none
  | Slot :: rest =>
    if Slot.IsEmpty then some (Slot.SetItem h NewItem RemainingToStack :: rest)
    else (placeLoop h NewItem RemainingToStack rest).map (fun l => Slot :: l)

/-- Lines 88-108 of `AddItem`: `RemainingToStack` starts as the item's stack size
and the stacking loop runs only for a stackable item. -/
def stackPhase (h : Heap) (g : FInventorySlots) (NewItem : ItemPtr) : StackPass :=
  if (h.deref NewItem).bIsStackable = true then
    stackLoop h NewItem g.Slots (h.deref NewItem).CurrentStackSize
  else ⟨g.Slots, (h.deref NewItem).CurrentStackSize, false⟩

/-- Lines 110-120 of `AddItem`: the empty-slot loop runs only for a positive remainder. -/
def placePhase (h : Heap) (NewItem : ItemPtr) (k : StackPass) : Option (List FInventorySlot) :=
  if k.remaining > 0 then placeLoop h NewItem k.remaining k.slots else none

/-- Embeds `AddItem(NewItem)`: the result, the group afterwards and the heap afterwards. -/
def AddItem (h : Heap) (g : FInventorySlots) (NewItem : ItemPtr) :
    FInventoryOperationResult × FInventorySlots × Heap :=
  if ¬ IsValid h NewItem then
    (.Fail "The item you are trying to add is invalid", g, h)
  else if ¬ g.IsTypeSupported h NewItem then
    (.Fail "The item type is not supported by this inventory", g, h)
  else
    let k := stackPhase h g NewItem
    if k.returned = true then (.Ok, { g with Slots := k.slots }, h)
    else
      match placePhase h NewItem k with
      | some l => (.Ok, { g with Slots := l }, h)
      | none =>
        (.Fail "Inventory is full. Remaining items were left in the source object",
          { g with Slots := k.slots }, SetCurrentStackSize h NewItem k.remaining)

/-- Embeds `AddItemToSlot(NewItem, TargetIndex)`. -/
def AddItemToSlot (h : Heap) (g : FInventorySlots) (NewItem : ItemPtr) (TargetIndex : Int) :
    FInventoryOperationResult × FInventorySlots × Heap :=
  if ¬ IsValid h NewItem then (.Fail "Provided item is invalid", g, h)
  else if ¬ IsValidIndex g.Slots TargetIndex then
    (.Fail "Target slot index is out of bounds", g, h)
  else if ¬ g.IsTypeSupported h NewItem then
    (.Fail "Item type is not supported by this inventory", g, h)
  else
    let TargetSlot := slotAt g.Slots TargetIndex
    if TargetSlot.IsEmpty then
      let placed := TargetSlot.SetItem h NewItem (h.deref NewItem).CurrentStackSize
      (.Ok, { g with Slots := g.Slots.set TargetIndex.toNat placed }, h)
    else if (h.deref NewItem).bIsStackable = true ∧
        GetItemID h TargetSlot.Item = GetItemID h NewItem ∧ ¬ TargetSlot.IsFull then
      let r := TargetSlot.AddToStack (h.deref NewItem).CurrentStackSize
      let g1 := { g with Slots := g.Slots.set TargetIndex.toNat r.1 }
      if r.2 ≤ 0 then (.Ok, g1, h)
      else AddItem (SetCurrentStackSize h NewItem r.2) g1 NewItem
    else AddItem h g NewItem

/-- Embeds `RemoveItem(Index)`: the group afterwards and the returned pointer. -/
def RemoveItem (g : FInventorySlots) (Index : Int) : FInventorySlots × ItemPtr :=
  if IsValidIndex g.Slots Index ∧ ¬ (slotAt g.Slots Index).IsEmpty then
    ({ g with Slots := g.Slots.set Index.toNat (slotAt g.Slots Index).ClearSlot },
      (slotAt g.Slots Index).Item)
  else (g, none)

/-- Embeds `GetSlotAtIndex(Index)`: `none` is the null result. -/
def GetSlotAtIndex (g : FInventorySlots) (Index : Int) : Option FInventorySlot :=
  if IsValidIndex g.Slots Index then some (slotAt g.Slots Index) else none

/-- The body of the loop of `GetTotalItemCount` (lines 343-346): what one slot
adds to the total of `ItemID`. -/
def slotShare (h : Heap) (ItemID : String) (Slot : FInventorySlot) : Int :=
  if ¬ Slot.IsEmpty ∧ GetItemID h Slot.Item = ItemID then Slot.CurrentStackSize else 0

/-- The loop of `GetTotalItemCount` (lines 341-347). -/
def totalLoop (h : Heap) (ItemID : String) : List FInventorySlot → Int
  | [] => 0
  | Slot :: rest => slotShare h ItemID Slot + totalLoop h ItemID rest

/-- Embeds `GetTotalItemCount(ItemID)`. -/
def GetTotalItemCount (h : Heap) (g : FInventorySlots) (ItemID : String) : Int :=
  totalLoop h ItemID g.Slots

/-- Embeds `SplitStack(SourceIndex, TargetIndex, Amount)`. -/
def SplitStack (h : Heap) (g : FInventorySlots) (SourceIndex TargetIndex Amount : Int) :
    FInventoryOperationResult × FInventorySlots × Heap :=
  if ¬ IsValidIndex g.Slots SourceIndex ∨ ¬ IsValidIndex g.Slots TargetIndex then
    (.Fail "Invalid source or target slot index", g, h)
  else if (slotAt g.Slots SourceIndex).IsEmpty then (.Fail "Source slot is empty", g, h)
  else if ¬ (slotAt g.Slots TargetIndex).IsEmpty then (.Fail "Target slot is not empty", g, h)
  else if Amount ≤ 0 then (.Fail "Split amount must be greater than zero", g, h)
  else if (slotAt g.Slots SourceIndex).CurrentStackSize ≤ Amount then
    (.Fail "Split amount must be less than current stack size", g, h)
  else
    let OriginalItem := (slotAt g.Slots SourceIndex).Item
    if OriginalItem = none then (.Fail "Source slot item is invalid", g, h)
    else
      let sp := InventorySystem.SplitStack h OriginalItem Amount
      if sp.2 = none then (.Fail "Failed to create split item instance", g, sp.1)
      else
        let l1 := g.Slots.set SourceIndex.toNat
          ((slotAt g.Slots SourceIndex).SetItem sp.1 OriginalItem
            (sp.1.deref OriginalItem).CurrentStackSize)
        let l2 := l1.set TargetIndex.toNat ((slotAt l1 TargetIndex).SetItem sp.1 sp.2 Amount)
        (.Ok, { g with Slots := l2 }, sp.1)

/-- The inner loop of `ConsolidateStacks` (lines 510-530) for a fixed `i`, from
index `j` on; the first argument counts the iterations left. -/
def innerLoop (h : Heap) (i : Nat) : Nat → Nat → List FInventorySlot → List FInventorySlot
  | 0, _, l => l
  | n + 1, j, l =>
    if (l.getD j FInventorySlot.ctor).IsEmpty ∨
        GetItemID h (l.getD j FInventorySlot.ctor).Item ≠
          GetItemID h (l.getD i FInventorySlot.ctor).Item then
      innerLoop h i n (j + 1) l
    else
      let RoomInI := (l.getD i FInventorySlot.ctor).GetAvailableSpace
      let AmountInJ := (l.getD j FInventorySlot.ctor).CurrentStackSize
      let TransferAmount := min RoomInI AmountInJ
      let l1 := l.set i ((l.getD i FInventorySlot.ctor).AddToStack TransferAmount).1
      let l2 := l1.set j ((l1.getD j FInventorySlot.ctor).RemoveFromStack TransferAmount).1
      if (l2.getD i FInventorySlot.ctor).IsFull then l2 else innerLoop h i n (j + 1) l2

/-- The outer loop of `ConsolidateStacks` (lines 503-531) from index `i` on; the
first argument counts the iterations left. -/
def outerLoop (h : Heap) : Nat → Nat → List FInventorySlot → List FInventorySlot
  | 0, _, l => l
  | n + 1, i, l =>
    if (l.getD i FInventorySlot.ctor).IsEmpty ∨
        ¬ (h.deref (l.getD i FInventorySlot.ctor).Item).bIsStackable = true ∨
        (l.getD i FInventorySlot.ctor).IsFull then
      outerLoop h n (i + 1) l
    else outerLoop h n (i + 1) (innerLoop h i (l.length - (i + 1)) (i + 1) l)

/-- Embeds `ConsolidateStacks()` on the slot array. -/
def ConsolidateStacks (h : Heap) (l : List FInventorySlot) : List FInventorySlot :=
  outerLoop h l.length 0 l

/-- Embeds `Slots.Swap(A, B)`. -/
def Swap (l : List FInventorySlot) (A B : Nat) : List FInventorySlot :=
  (l.set A (l.getD B FInventorySlot.ctor)).set B (l.getD A FInventorySlot.ctor)

/-- The compaction loop of `ConsolidateAndSort` (lines 285-296) from `ReadIndex`
on; the first argument counts the iterations left. -/
def compactLoop : Nat → Nat → Nat → List FInventorySlot → List FInventorySlot
  | 0, _, _, l => l
  | n + 1, WriteIndex, ReadIndex, l =>
    if ¬ (l.getD ReadIndex FInventorySlot.ctor).IsEmpty then
      compactLoop n (WriteIndex + 1) (ReadIndex + 1)
        (if WriteIndex ≠ ReadIndex then Swap l WriteIndex ReadIndex else l)
    else compactLoop n WriteIndex (ReadIndex + 1) l

/-- Embeds `ConsolidateAndSort()`. -/
def ConsolidateAndSort (h : Heap) (g : FInventorySlots) : FInventorySlots :=
  let merged := ConsolidateStacks h g.Slots
  { g with Slots := compactLoop merged.length 0 0 merged }

/-- Embeds `SwapSlots(IndexA, IndexB)`. -/
def SwapSlots (g : FInventorySlots) (IndexA IndexB : Int) :
    FInventoryOperationResult × FInventorySlots :=
  if ¬ IsValidIndex g.Slots IndexA ∨ ¬ IsValidIndex g.Slots IndexB then
    (.Fail ("Invalid slot index: A=" ++ toString IndexA ++ ", B=" ++ toString IndexB), g)
  else (.Ok, FInventorySlots.mk g.MaxSlotSize g.TypeIDMap (Swap g.Slots IndexA.toNat IndexB.toNat))

end FInventorySlots

/-! ## The group collection (InventorySlotsGroup.h) -/

/-- Embeds `TMap<int32, int32>::Add`: replaces the value of an existing key. -/
def TMapAdd (m : List (Int × Nat)) (k : Int) (v : Nat) : List (Int × Nat) :=
  if (∃ kv ∈ m, kv.1 = k) then m.map (fun kv => if kv.1 = k then (k, v) else kv)
  else m ++ [(k, v)]

/-- Embeds `TMap<int32, int32>::Find`. -/
def TMapFind (m : List (Int × Nat)) (k : Int) : Option Nat :=
  (m.find? (fun kv => kv.1 = k)).map (fun kv => kv.2)

/-- The ordered collection of groups with its lazily rebuilt type-ID cache. -/
structure FInventorySlotsGroup where
  InventoryGroups : List FInventorySlots
  TypeIDToIndexCache : List (Int × Nat)
  bCacheNeedsRebuild : Bool
deriving DecidableEq

namespace FInventorySlotsGroup

/-- Embeds `FInventorySlotsGroup()`. -/
def ctor : FInventorySlotsGroup := ⟨[], [], true⟩

/-- Embeds `AddInventoryGroup(NewSlots)`. -/
def AddInventoryGroup (c : FInventorySlotsGroup) (NewSlots : FInventorySlots) :
    FInventorySlotsGroup :=
  { c with InventoryGroups := c.InventoryGroups ++ [NewSlots], bCacheNeedsRebuild := true }

/-- The loop of `RebuildCache` from group index `i` on. -/
def rebuildLoop : List FInventorySlots → Nat → List (Int × Nat) → List (Int × Nat)
  | [], _, m => m
  | g :: rest, i, m =>
    rebuildLoop rest (i + 1) ((g.TypeIDMap.map (fun kv => kv.1)).foldl (fun m k => TMapAdd m k i) m)

/-- Embeds `RebuildCache()`. -/
def RebuildCache (c : FInventorySlotsGroup) : FInventorySlotsGroup :=
  { c with TypeIDToIndexCache := rebuildLoop c.InventoryGroups 0 [],
           bCacheNeedsRebuild := false }

/-- Lines 87-90 of `GetGroupByID`: `if (bCacheNeedsRebuild) RebuildCache();`. -/
def refreshed (c : FInventorySlotsGroup) : FInventorySlotsGroup :=
  if c.bCacheNeedsRebuild = true then c.RebuildCache else c

/-- Embeds `GetGroupByID(TypeID)`: the collection afterwards (the cache may have been
rebuilt) and the position of the group the returned pointer refers to, `none`
for the null pointer. -/
def GetGroupByID (c : FInventorySlotsGroup) (TypeID : Int) : FInventorySlotsGroup × Option Nat :=
  (c.refreshed,
    match TMapFind c.refreshed.TypeIDToIndexCache TypeID with
    | some i => if i < c.refreshed.InventoryGroups.length then some i else none
    | none => none)

/-- Embeds `InventoryGroups[i]` for a position returned by `GetGroupByID`. -/
def groupAt (l : List FInventorySlots) (i : Nat) : FInventorySlots :=
  l.getD i FInventorySlots.ctor

/-- Lines 159-186 of `TransferItem`, after both groups were found: `si` and `di`
are the positions of `SourceGroup` and `DestGroup`.  The two pointers may refer
to the same group, so every step reads and writes the group array at these
positions. -/
def transferBetween (h : Heap) (c : FInventorySlotsGroup) (si di : Nat)
    (FromIndex ToIndex : Int) : FInventoryOperationResult × FInventorySlotsGroup × Heap :=
  match (groupAt c.InventoryGroups si).GetSlotAtIndex FromIndex with
  | none => (.Fail "Source slot is empty or invalid.", c, h)
  | some SourceSlot =>
    if SourceSlot.IsEmpty then (.Fail "Source slot is empty or invalid.", c, h)
    else
      let ItemToMove := SourceSlot.Item
      if ¬ (groupAt c.InventoryGroups di).IsTypeSupported h ItemToMove then
        (.Fail "The item cannot be moved because the destination group does not support its type.",
          c, h)
      else
        let rm := (groupAt c.InventoryGroups si).RemoveItem FromIndex
        let groups1 := c.InventoryGroups.set si rm.1
        if rm.2 = none then
          (.Fail "Failed to remove item from source slot.",
            { c with InventoryGroups := groups1 }, h)
        else
          let AddResult := (groupAt groups1 di).AddItemToSlot h rm.2 ToIndex
          let groups2 := groups1.set di AddResult.2.1
          if ¬ AddResult.1.bSuccess = true then
            let back := (groupAt groups2 si).AddItemToSlot AddResult.2.2 rm.2 FromIndex
            (.Fail ("Transfer failed: " ++ AddResult.1.Message),
              { c with InventoryGroups := groups2.set si back.2.1 }, back.2.2)
          else (.Ok, { c with InventoryGroups := groups2 }, AddResult.2.2)

/-- Embeds `TransferItem(FromTypeID, FromIndex, ToTypeID, ToIndex)`. -/
def TransferItem (h : Heap) (c : FInventorySlotsGroup)
    (FromTypeID FromIndex ToTypeID ToIndex : Int) :
    FInventoryOperationResult × FInventorySlotsGroup × Heap :=
  let a := c.GetGroupByID FromTypeID
  let b := a.1.GetGroupByID ToTypeID
  match a.2, b.2 with
  | some si, some di => transferBetween h b.1 si di FromIndex ToIndex
  | _, _ =>
    (.Fail "One of the inventory groups involved in the transfer was not found.", b.1, h)

/-- Embeds `GetGlobalTotalItemCount(ItemID)`. -/
def GetGlobalTotalItemCount (h : Heap) (c : FInventorySlotsGroup) (ItemID : String) : Int :=
  (c.InventoryGroups.map (fun g => g.GetTotalItemCount h ItemID)).sum

/-- Embeds `OrganizeAll()`. -/
def OrganizeAll (h : Heap) (c : FInventorySlotsGroup) : FInventorySlotsGroup :=
  { c with InventoryGroups := c.InventoryGroups.map (fun g => g.ConsolidateAndSort h) }

/-- The range-for loop of the untargeted `AddItem` (lines 130-140) over the groups
still to visit: the result returned from inside the loop (`none` when the loop
runs to its end), the groups and the objects afterwards. -/
def addLoop (h : Heap) (ItemBase : ItemPtr) :
    List FInventorySlots → Option FInventoryOperationResult × List FInventorySlots × Heap
  | [] => (none, [], h)
  | Group :: rest =>
    if Group.IsTypeSupported h ItemBase then
      if (Group.AddItem h ItemBase).1.bSuccess = true then
        (some (Group.AddItem h ItemBase).1, (Group.AddItem h ItemBase).2.1 :: rest,
          (Group.AddItem h ItemBase).2.2)
      else
        ((addLoop (Group.AddItem h ItemBase).2.2 ItemBase rest).1,
          (Group.AddItem h ItemBase).2.1 ::
            (addLoop (Group.AddItem h ItemBase).2.2 ItemBase rest).2.1,
          (addLoop (Group.AddItem h ItemBase).2.2 ItemBase rest).2.2)
    else
      ((addLoop h ItemBase rest).1, Group :: (addLoop h ItemBase rest).2.1,
        (addLoop h ItemBase rest).2.2)

/-- Lines 114-127 of `AddItem`: the branch taken for `TargetTypeID != -1`. -/
def addTargeted (h : Heap) (c : FInventorySlotsGroup) (ItemBase : ItemPtr) (TargetTypeID : Int) :
    FInventoryOperationResult × FInventorySlotsGroup × Heap :=
  match (c.GetGroupByID TargetTypeID).2 with
  | none => (.Fail "Target inventory group not found.", (c.GetGroupByID TargetTypeID).1, h)
  | some i =>
    if ¬ (groupAt (c.GetGroupByID TargetTypeID).1.InventoryGroups i).IsTypeSupported h ItemBase then
      (.Fail "The item type is not compatible with the target group.",
        (c.GetGroupByID TargetTypeID).1, h)
    else
      (((groupAt (c.GetGroupByID TargetTypeID).1.InventoryGroups i).AddItem h ItemBase).1,
        FInventorySlotsGroup.mk
          ((c.GetGroupByID TargetTypeID).1.InventoryGroups.set i
            ((groupAt (c.GetGroupByID TargetTypeID).1.InventoryGroups i).AddItem h ItemBase).2.1)
          (c.GetGroupByID TargetTypeID).1.TypeIDToIndexCache
          (c.GetGroupByID TargetTypeID).1.bCacheNeedsRebuild,
        ((groupAt (c.GetGroupByID TargetTypeID).1.InventoryGroups i).AddItem h ItemBase).2.2)

/-- Embeds `AddItem(ItemBase, TargetTypeID)` of the collection; the default
argument is `TargetTypeID = -1`. -/
def AddItem (h : Heap) (c : FInventorySlotsGroup) (ItemBase : ItemPtr) (TargetTypeID : Int) :
    FInventoryOperationResult × FInventorySlotsGroup × Heap :=
  if ¬ IsValid h ItemBase then (.Fail "Cannot add an invalid or null item.", c, h)
  else if TargetTypeID ≠ -1 then addTargeted h c ItemBase TargetTypeID
  else
    (((addLoop h ItemBase c.InventoryGroups).1).getD
        (.Fail "No suitable group found or all compatible groups are full."),
      FInventorySlotsGroup.mk (addLoop h ItemBase c.InventoryGroups).2.1 c.TypeIDToIndexCache
        c.bCacheNeedsRebuild,
      (addLoop h ItemBase c.InventoryGroups).2.2)

/-- Embeds the non-const `GetInventoryGroups()`: the flag is raised before the
reference to the group array is handed out. -/
def GetInventoryGroups (c : FInventorySlotsGroup) : FInventorySlotsGroup :=
  { c with bCacheNeedsRebuild := true }

/-- Embeds the non-const `GetGroupByIndex(Index)`: the position the returned
pointer refers to, `none` for the null pointer.  The collection is not touched. -/
def GetGroupByIndex (c : FInventorySlotsGroup) (Index : Int) : Option Nat :=
  if 0 ≤ Index ∧ Index < c.InventoryGroups.length then some Index.toNat else none

/-- Embeds `InvalidateCache()`. -/
def InvalidateCache (c : FInventorySlotsGroup) : FInventorySlotsGroup :=
  { c with bCacheNeedsRebuild := true }

/-- A write of the caller through a `FInventorySlots*` obtained from the
collection: the group at position `i` becomes `f` of itself, nothing else moves. -/
def writeThrough (c : FInventorySlotsGroup) (i : Option Nat)
    (f : FInventorySlots → FInventorySlots) : FInventorySlotsGroup :=
  match i with
  | none => c
  | some i =>
    FInventorySlotsGroup.mk (c.InventoryGroups.set i (f (groupAt c.InventoryGroups i)))
      c.TypeIDToIndexCache c.bCacheNeedsRebuild

/-- A write of the caller through the `TArray<FInventorySlots>&` that an earlier
call of the non-const `GetInventoryGroups()` returned: the group array becomes
`f` of itself.  The flag was raised by that call, not by the write; at the time
of the write it is as the steps made since then left it. -/
def writeArray (c : FInventorySlotsGroup) (f : List FInventorySlots → List FInventorySlots) :
    FInventorySlotsGroup :=
  FInventorySlotsGroup.mk (f c.InventoryGroups) c.TypeIDToIndexCache c.bCacheNeedsRebuild

end FInventorySlotsGroup

/-! ## Objects for the concrete scenarios -/

/-- An alive item object declaring the single slot type ID 0. -/
def mkItem (ItemID : String) (bIsStackable : Bool) (MaxStackSize CurrentStackSize : Int) :
    UItemBase :=
  { ItemDefinition := { ItemID := ItemID, InventorySlotTypeIDs := [0] },
    bIsStackable := bIsStackable, MaxStackSize := MaxStackSize,
    CurrentStackSize := CurrentStackSize, bValid := true }

/-- A group initialised with `Size` slots that allows the type ID 0. -/
def bag (Size : Int) : FInventorySlots :=
  FInventorySlots.ctor.InitializeInventory Size [(0, "Bag")]

/-- An alive, non-stackable item object of stack 1 declaring the given slot type IDs. -/
def mkTypedItem (ItemID : String) (TypeIDs : List Int) : UItemBase :=
  { ItemDefinition := { ItemID := ItemID, InventorySlotTypeIDs := TypeIDs },
    bIsStackable := false, MaxStackSize := 1, CurrentStackSize := 1, bValid := true }

/-- A collection of two one-slot groups: the first allows type ID 0 and holds
object 0, the second allows type ID 1 and holds object 1. -/
def twoGroups : FInventorySlotsGroup :=
  (FInventorySlotsGroup.ctor.AddInventoryGroup ⟨1, [(0, "Bag")], [⟨some 0, 1, 1⟩]⟩).AddInventoryGroup
    ⟨1, [(1, "Belt")], [⟨some 1, 1, 1⟩]⟩

/-- The objects of the stacking scenario: five "A" items (maxStack 5) holding
1, 3, 5, 1 and 1 units. -/
def scenarioHeap : Heap :=
  [mkItem "A" true 5 1, mkItem "A" true 5 3, mkItem "A" true 5 5, mkItem "A" true 5 1,
    mkItem "A" true 5 1]

/-- The stacking scenario: the items of `scenarioHeap` with the addresses in
`ps` are added one after the other to a group of two slots. -/
def scenarioAdd : List Nat → FInventoryOperationResult × FInventorySlots × Heap
  | [] => (.Ok, bag 2, scenarioHeap)
  | r :: ps => (scenarioAdd ps).2.1.AddItem (scenarioAdd ps).2.2 (some r)

/-- The state before the split scenario: a group of three slots receives an "A"
item of 4 units and then an "A" item of 5 units (maxStack 5). -/
def splitScenario : FInventoryOperationResult × FInventorySlots × Heap :=
  ((bag 3).AddItem [mkItem "A" true 5 4, mkItem "A" true 5 5] (some 0)).2.1.AddItem
    ((bag 3).AddItem [mkItem "A" true 5 4, mkItem "A" true 5 5] (some 0)).2.2 (some 1)

/-! ## Predicates and reference functions used by the statements -/

/-- A slot the stacking loop of `AddItem` merges into: non-empty, same item ID,
not full. -/
def FInventorySlots.Merges (h : Heap) (p : ItemPtr) (s : FInventorySlot) : Prop :=
  (¬ s.IsEmpty ∧ GetItemID h s.Item = GetItemID h p) ∧ ¬ s.IsFull

/-- Every slot that reports `IsEmpty` carries a zero stack.  It holds for a
freshly initialised group and for every slot array whose slots satisfy the slot
invariant. -/
def EmptySlotsAreZero (l : List FInventorySlot) : Prop :=
  ∀ s ∈ l, s.IsEmpty → s.CurrentStackSize = 0

instance (l : List FInventorySlot) : Decidable (EmptySlotsAreZero l) := by
  unfold EmptySlotsAreZero; infer_instance

/-- How a merge may change a slot: an empty slot is left exactly as it is, a
non-empty slot stays non-empty and keeps its item and its maximum. -/
def MergedFrom (s t : FInventorySlot) : Prop :=
  (s.IsEmpty → t = s) ∧
    (¬ s.IsEmpty → ¬ t.IsEmpty ∧ t.Item = s.Item ∧ t.MaxStackSize = s.MaxStackSize)

/-- Two heaps hold the same objects up to their stack sizes: same addresses,
same liveness, same definitions. -/
def SameObjects (h h1 : Heap) : Prop :=
  h1.length = h.length ∧
    ∀ r : Nat, (h1.getD r UItemBase.ctor).bValid = (h.getD r UItemBase.ctor).bValid ∧
      (h1.getD r UItemBase.ctor).ItemDefinition = (h.getD r UItemBase.ctor).ItemDefinition

/-- How consolidation may change a slot: the new slot is empty, or the old one
was non-empty and the new one holds the same item instance. -/
def Shrunk (t t1 : FInventorySlot) : Prop :=
  t1.IsEmpty ∨ (¬ t.IsEmpty ∧ t1.Item = t.Item)

/-- No slot of `l` is a non-empty slot with the item ID of `s`. -/
def NoMatch (h : Heap) (s : FInventorySlot) (l : List FInventorySlot) : Prop :=
  ∀ t ∈ l, t.IsEmpty ∨ GetItemID h t.Item ≠ GetItemID h s.Item

/-- Stacks are packed: a non-empty, stackable, non-full slot is followed by no
non-empty slot holding the same item ID. -/
def Packed (h : Heap) : List FInventorySlot → Prop
  | [] => True
  | s :: rest =>
    ((¬ s.IsEmpty ∧ (h.deref s.Item).bIsStackable = true ∧ ¬ s.IsFull) → NoMatch h s rest) ∧
      Packed h rest

/-- List form of the inner loop of `ConsolidateStacks`, used in the proofs: `si`
is `Slots[i]`, the list holds `Slots[j]` for the indices `j` still to visit.
Returns `Slots[i]` and those later slots as the loop leaves them
(`innerLoop_eq` relates it to `innerLoop`). -/
def FInventorySlots.absorbLoop (h : Heap) : FInventorySlot → List FInventorySlot →
    FInventorySlot × List FInventorySlot
  | si, [] => (si, [])
  | si, sj :: rest =>
    if sj.IsEmpty ∨ GetItemID h sj.Item ≠ GetItemID h si.Item then
      let k := FInventorySlots.absorbLoop h si rest
      (k.1, sj :: k.2)
    else
      let RoomInI := si.GetAvailableSpace
      let AmountInJ := sj.CurrentStackSize
      let TransferAmount := min RoomInI AmountInJ
      let si1 := (si.AddToStack TransferAmount).1
      let sj1 := (sj.RemoveFromStack TransferAmount).1
      if si1.IsFull then (si1, sj1 :: rest)
      else
        let k := FInventorySlots.absorbLoop h si1 rest
        (k.1, sj1 :: k.2)

/-- List form of the outer loop of `ConsolidateStacks`, used in the proofs: the
list holds `Slots[i], Slots[i+1], ...`; iteration `i` only touches `Slots[i]` and
later slots (`outerLoop_eq` relates it to `outerLoop`). -/
def FInventorySlots.consolidateFrom (h : Heap) : Nat → List FInventorySlot → List FInventorySlot
  | 0, l => l
  | _ + 1, [] => []
  | n + 1, si :: rest =>
    if si.IsEmpty ∨ ¬ (h.deref si.Item).bIsStackable = true ∨ si.IsFull then
      si :: FInventorySlots.consolidateFrom h n rest
    else
      let k := FInventorySlots.absorbLoop h si rest
      k.1 :: FInventorySlots.consolidateFrom h n k.2

/-- Reference merge pass in the words of the spec: scan the slots left to right
and give each non-empty, non-full slot holding the same item ID
`min(remaining, free space)` units.  Returns the slots and the remainder. -/
def firstFitMerge (h : Heap) (p : ItemPtr) :
    List FInventorySlot → Int → List FInventorySlot × Int
  | [], q => ([], q)
  | s :: rest, q =>
    if ¬ s.IsEmpty ∧ ¬ s.IsFull ∧ GetItemID h s.Item = GetItemID h p then
      let given := min q (s.MaxStackSize - s.CurrentStackSize)
      ({ s with CurrentStackSize := s.CurrentStackSize + given } ::
          (firstFitMerge h p rest (q - given)).1,
        (firstFitMerge h p rest (q - given)).2)
    else (s :: (firstFitMerge h p rest q).1, (firstFitMerge h p rest q).2)

/-- Reference placement in the words of the spec: the slot content `t` goes into
the lowest-index empty slot; `none` when no slot is empty. -/
def placeLowestEmpty (t : FInventorySlot) : List FInventorySlot → Option (List FInventorySlot)
  | [] => none
  | s :: rest =>
    if s.IsEmpty then some (t :: rest) else (placeLowestEmpty t rest).map (fun l => s :: l)

/-- The spec's `setItem(item, qty)` for a valid item: adopt the item, take
`maxStack` from the item, clamp the quantity to `[0, maxStack]`. -/
def specSetItem (h : Heap) (p : ItemPtr) (qty : Int) : FInventorySlot :=
  { Item := p, MaxStackSize := (h.deref p).MaxStackSize,
    CurrentStackSize := Clamp qty 0 (h.deref p).MaxStackSize }

/-- The first-fit reference for adding a stackable item: merge pass, then, if a
remainder is left, the lowest-index empty slot takes it; when the merges absorb
the whole quantity no empty slot is consumed.  Returns success and the slots. -/
def AddItemFirstFit (h : Heap) (g : FInventorySlots) (p : ItemPtr) :
    Bool × List FInventorySlot :=
  let m := firstFitMerge h p g.Slots (h.deref p).CurrentStackSize
  if m.2 ≤ 0 then (true, m.1)
  else
    match placeLowestEmpty (specSetItem h p m.2) m.1 with
    | some l => (true, l)
    | none => (false, m.1)

/-- The greatest position in the group array of a group whose allowed-type map
has the key `t`, `none` when no group has it. -/
def lastGroupWith (t : Int) : List FInventorySlots → Option Nat
  | [] => none
  | g :: rest =>
    match lastGroupWith t rest with
    | some j => some (j + 1)
    | none => if g.ContainsTypeID t then some 0 else none

/-- The cache may be used: either the flag asks for a rebuild on the next lookup
or the cache is what `RebuildCache` computes from the groups as they are now. -/
def CacheCoherent (c : FInventorySlotsGroup) : Prop :=
  c.bCacheNeedsRebuild = true ∨
    c.TypeIDToIndexCache = FInventorySlotsGroup.rebuildLoop c.InventoryGroups 0 []

/-- The answer of `GetGroupByID(t)` is true to the groups as they are now: a
returned group has the key `t` in its allowed-type map, and no group is returned
only when no group has it. -/
def CoherentLookup (c : FInventorySlotsGroup) (t : Int) : Prop :=
  match (c.GetGroupByID t).2 with
  | some i =>
    i < c.InventoryGroups.length ∧ (FInventorySlotsGroup.groupAt c.InventoryGroups i).ContainsTypeID t
  | none => ∀ g ∈ c.InventoryGroups, ¬ g.ContainsTypeID t

/-- One step of a caller on a collection.  A call of a non-const accessor is a
step of its own: it hands out a reference or a pointer that the caller may keep,
and the writes made through it (`writeArray` for the reference of
`GetInventoryGroups()`, `writeGroup` for a group pointer of `GetGroupByIndex` or
`GetGroupByID`) are later steps, with any other steps in between.  A group pointer
is the position it refers to, `none` for the null pointer. -/
inductive CollectionOp where
  | AddInventoryGroup (NewSlots : FInventorySlots)
  | GetGroupByID (TypeID : Int)
  | AddItem (ItemBase : ItemPtr) (TargetTypeID : Int)
  | TransferItem (FromTypeID FromIndex ToTypeID ToIndex : Int)
  | OrganizeAll
  | InvalidateCache
  | GetInventoryGroups
  | GetGroupByIndex (Index : Int)
  | writeArray (f : List FInventorySlots → List FInventorySlots)
  | writeGroup (p : Option Nat) (f : FInventorySlots → FInventorySlots)

/-- The collection and the objects after one step. -/
def CollectionOp.run (s : FInventorySlotsGroup × Heap) :
    CollectionOp → FInventorySlotsGroup × Heap
  | .AddInventoryGroup NewSlots => (s.1.AddInventoryGroup NewSlots, s.2)
  | .GetGroupByID TypeID => ((s.1.GetGroupByID TypeID).1, s.2)
  | .AddItem ItemBase TargetTypeID => (FInventorySlotsGroup.AddItem s.2 s.1 ItemBase TargetTypeID).2
  | .TransferItem a fi b ti => (FInventorySlotsGroup.TransferItem s.2 s.1 a fi b ti).2
  | .OrganizeAll => (s.1.OrganizeAll s.2, s.2)
  | .InvalidateCache => (s.1.InvalidateCache, s.2)
  | .GetInventoryGroups => (s.1.GetInventoryGroups, s.2)
  | .GetGroupByIndex _ => s
  | .writeArray f => (s.1.writeArray f, s.2)
  | .writeGroup p f => (s.1.writeThrough p f, s.2)

/-- A step that cannot leave a stale cache behind when made on the collection `c`.
A write through a kept reference or pointer qualifies when the rebuild flag is
raised at that moment, or when it leaves the allowed-type maps of the groups as
they were; the other steps qualify as they are. -/
def CollectionOp.FlagSafe (c : FInventorySlotsGroup) : CollectionOp → Prop
  | .writeArray f =>
    c.bCacheNeedsRebuild = true ∨
      (f c.InventoryGroups).map (fun g => g.TypeIDMap) =
        c.InventoryGroups.map (fun g => g.TypeIDMap)
  | .writeGroup _ f => c.bCacheNeedsRebuild = true ∨ ∀ g, (f g).TypeIDMap = g.TypeIDMap
  | _ => True

/-- Every step of the sequence, made one after the other from the state `s`, is
`FlagSafe` on the collection it is made on. -/
def Disciplined : FInventorySlotsGroup × Heap → List CollectionOp → Prop
  | _, [] => True
  | s, op :: ops => op.FlagSafe s.1 ∧ Disciplined (op.run s) ops

/-- A collection of one group allowing type ID 1, looked up once so that the
cache is built. -/
def staleScenario : FInventorySlotsGroup :=
  ((FInventorySlotsGroup.ctor.AddInventoryGroup
    (FInventorySlots.ctor.InitializeInventory 1 [(1, "Bag")])).GetGroupByID 1).1

/-- A collection of one group allowing type ID 1 on which the non-const
`GetInventoryGroups()` was called (the caller keeps the reference) and type ID 1
was looked up afterwards. -/
def keptReferenceScenario : FInventorySlotsGroup :=
  (((FInventorySlotsGroup.ctor.AddInventoryGroup
    (FInventorySlots.ctor.InitializeInventory 1 [(1, "Bag")])).GetInventoryGroups).GetGroupByID 1).1

/-- The objects as they are when the loop of the untargeted `AddItem` reaches
position `j` of the group array without having returned: every supporting group
before `j` has run its `AddItem` on the item. -/
def heapAt (p : ItemPtr) : Heap → List FInventorySlots → Nat → Heap
  | h, [], _ => h
  | h, _ :: _, 0 => h
  | h, g :: rest, j + 1 =>
    if g.IsTypeSupported h p then heapAt p (g.AddItem h p).2.2 rest j else heapAt p h rest j

/-- A collection for the `AddItem` scenarios: group 0 allows type ID 0 and has one
slot, group 1 allows type ID 1 and has one slot, group 2 allows type IDs 1 and 2
and has one slot. -/
def threeGroups : FInventorySlotsGroup :=
  ((FInventorySlotsGroup.ctor.AddInventoryGroup
      (FInventorySlots.ctor.InitializeInventory 1 [(0, "Bag")])).AddInventoryGroup
      (FInventorySlots.ctor.InitializeInventory 1 [(1, "Belt")])).AddInventoryGroup
    (FInventorySlots.ctor.InitializeInventory 1 [(1, "Belt"), (2, "Pouch")])

/-! ## Item pools (ItemPoolTypes.h, ItemPoolSubsystem.cpp, EngineItemPoolSubsystem.cpp) -/

/-- The `Outer` of an item object: an object of the caller, the world's pool
subsystem, or the engine's pool subsystem. -/
inductive UOuter where
  | Caller (o : Nat)
  | WorldPool
  | EnginePool
deriving DecidableEq

/-- An item object as the pools see it: its class, its `Outer` and its item fields
(`Item.bValid` is cleared by `MarkAsGarbage`). -/
structure UPooledItem where
  Class : Nat
  Outer : UOuter
  Item : UItemBase
deriving DecidableEq

/-- The item objects created so far; a `UItemBase*` is a position in this table. -/
abbrev ObjectTable := List UPooledItem

/-- Embeds `NewObject<UItemBase>(Outer, ItemClass)`: a new object with the fields
set by `UItemBase::UItemBase()` (the defaults of subclasses are not represented);
the allocation itself does not fail. -/
def NewObject (objs : ObjectTable) (Outer : UOuter) (ItemClass : Nat) : ObjectTable × ItemPtr :=
  (objs ++ [⟨ItemClass, Outer, UItemBase.ctor⟩], some objs.length)

/-- A write to the object `p` points to; nothing happens for the null pointer and
for a pointer that refers to no object of the table. -/
def updateObject (objs : ObjectTable) (p : ItemPtr) (f : UPooledItem → UPooledItem) :
    ObjectTable :=
  match p with
  | none => objs
  | some r =>
    match objs.get? r with
    | some o => objs.set r (f o)
    | none => objs

/-- Embeds `Item->GetClass()`. -/
def GetClass (objs : ObjectTable) (p : ItemPtr) : Option Nat :=
  match p with
  | none => none
  | some r => (objs.get? r).map (fun o => o.Class)

/-- Embeds `Item->Rename(nullptr, NewOuter)`. -/
def Rename (objs : ObjectTable) (p : ItemPtr) (NewOuter : UOuter) : ObjectTable :=
  updateObject objs p (fun o => UPooledItem.mk o.Class NewOuter o.Item)

/-- Embeds `Item->MarkAsGarbage()`. -/
def MarkAsGarbage (objs : ObjectTable) (p : ItemPtr) : ObjectTable :=
  updateObject objs p (fun o => UPooledItem.mk o.Class o.Outer { o.Item with bValid := false })

/-- Embeds the stack part of `UItemBase::InitializeItem_Implementation` (lines
100-109); the generated item ID, the item name and the module hooks that follow
are not represented. -/
def UItemBase.InitializeItem (it : UItemBase) : UItemBase :=
  if it.bIsStackable then
    { it with MaxStackSize := max 1 it.MaxStackSize,
              CurrentStackSize := Clamp it.CurrentStackSize 1 (max 1 it.MaxStackSize) }
  else { it with MaxStackSize := 1, CurrentStackSize := 1 }

/-- Embeds `Item->InitializeItem()` as an update of the object table. -/
def InitializeItem (objs : ObjectTable) (p : ItemPtr) : ObjectTable :=
  updateObject objs p (fun o => UPooledItem.mk o.Class o.Outer o.Item.InitializeItem)

/-- Embeds `ResetItem(Item)` of both subsystems: `SetCurrentStackSize(1)`; the
inventory back-references and the module resets are not represented. -/
def ResetItem (objs : ObjectTable) (p : ItemPtr) : ObjectTable :=
  updateObject objs p (fun o => UPooledItem.mk o.Class o.Outer (o.Item.SetCurrentStackSize 1))

/-- Embeds `FItemPool`. -/
structure FItemPool where
  AvailableItems : List ItemPtr
  ActiveItems : List ItemPtr
  MaxPoolSize : Int
  PrewarmCount : Int
  bStrictLimit : Bool
  bAutoGrow : Bool
  HitCount : Int
  MissCount : Int
  ReturnCount : Int
  OverflowCount : Int
deriving DecidableEq

/-- Embeds the default member initialisers of `FItemPool`. -/
def FItemPool.ctor : FItemPool := ⟨[], [], 100, 10, false, false, 0, 0, 0, 0⟩

/-- Embeds `TMap<TSubclassOf<UItemBase>, FItemPool>::Find`. -/
def PoolsFind (m : List (Nat × FItemPool)) (c : Nat) : Option FItemPool :=
  (m.find? (fun kv => kv.1 = c)).map (fun kv => kv.2)

/-- Embeds `TMap<TSubclassOf<UItemBase>, FItemPool>::Add`, and a write through the
`FItemPool*` that `Find` returned: the value of an existing key is replaced. -/
def PoolsAdd (m : List (Nat × FItemPool)) (c : Nat) (v : FItemPool) : List (Nat × FItemPool) :=
  if (∃ kv ∈ m, kv.1 = c) then m.map (fun kv => if kv.1 = c then (c, v) else kv)
  else m ++ [(c, v)]

/-- Embeds the member fields of `UItemPoolSubsystem` (ItemPoolSubsystem.h). -/
structure UItemPoolSubsystem where
  ItemPools : List (Nat × FItemPool)
  bEnablePooling : Bool
  DefaultMaxPoolSize : Int
  DefaultPrewarmCount : Int
  bDefaultStrictLimit : Bool
  bDefaultAutoGrow : Bool
deriving DecidableEq

/-- Embeds a `UItemPoolSubsystem` as constructed: no pools and the default member
initialisers of ItemPoolSubsystem.h. -/
def UItemPoolSubsystem.ctor : UItemPoolSubsystem := ⟨[], true, 100, 10, false, true⟩

/-- The member fields of `UEngineItemPoolSubsystem`: EngineItemPoolSubsystem.cpp
reads and writes members of exactly these names and types; their initial values
are left open. -/
abbrev UEngineItemPoolSubsystem := UItemPoolSubsystem

/-- The pool of a class in a subsystem, `none` when the class has no pool yet. -/
def UItemPoolSubsystem.pool (s : UItemPoolSubsystem) (c : Nat) : Option FItemPool :=
  PoolsFind s.ItemPools c

/-- A write through the `FItemPool*` of class `c`. -/
def UItemPoolSubsystem.setPool (s : UItemPoolSubsystem) (c : Nat) (v : FItemPool) :
    UItemPoolSubsystem :=
  { s with ItemPools := PoolsAdd s.ItemPools c v }

namespace PoolTier

/-- The loop of `PrewarmPool` (ItemPoolSubsystem.cpp lines 179-188,
EngineItemPoolSubsystem.cpp lines 166-175) with `n` rounds to go; `this` is the
subsystem the new objects are created in. -/
def prewarmLoop (this : UOuter) (ItemClass : Nat) :
    Nat → ObjectTable → FItemPool → ObjectTable × FItemPool
  | 0, objs, Pool => (objs, Pool)
  | n + 1, objs, Pool =>
    prewarmLoop this ItemClass n
      (ResetItem (InitializeItem (NewObject objs this ItemClass).1 (NewObject objs this ItemClass).2)
        (NewObject objs this ItemClass).2)
      { Pool with AvailableItems := Pool.AvailableItems ++ [(NewObject objs this ItemClass).2] }

/-- The lookup that opens every pool operation: `ItemPools.Find(ItemClass)` and,
if there is no pool, `CreatePool(ItemClass)`. -/
def findOrCreate
    (CreatePool : ObjectTable → UItemPoolSubsystem → Option Nat → ObjectTable × UItemPoolSubsystem)
    (objs : ObjectTable) (s : UItemPoolSubsystem) (c : Nat) : ObjectTable × UItemPoolSubsystem :=
  if (s.pool c).isSome then (objs, s) else CreatePool objs s (some c)

/-- The body of `PrewarmPool(ItemClass, Count)`, which is the same text in both
subsystems, with the `CreatePool` it calls as a parameter. -/
def prewarmWith (this : UOuter)
    (CreatePool : ObjectTable → UItemPoolSubsystem → Option Nat → ObjectTable × UItemPoolSubsystem)
    (objs : ObjectTable) (s : UItemPoolSubsystem) (ItemClass : Option Nat) (Count : Int) :
    ObjectTable × UItemPoolSubsystem :=
  match ItemClass with
  | none => (objs, s)
  | some c =>
    if Count ≤ 0 then (objs, s)
    else
      match (findOrCreate CreatePool objs s c).2.pool c with
      | none => findOrCreate CreatePool objs s c
      | some Pool =>
        ((prewarmLoop this c Count.toNat (findOrCreate CreatePool objs s c).1 Pool).1,
          (findOrCreate CreatePool objs s c).2.setPool c
            (prewarmLoop this c Count.toNat (findOrCreate CreatePool objs s c).1 Pool).2)

/-- The `NewPool` of `CreatePool` (lines 311-315 of the engine file, 331-335 of the
other): a default `FItemPool` given the defaults of the subsystem. -/
def NewPool (s : UItemPoolSubsystem) : FItemPool :=
  { FItemPool.ctor with MaxPoolSize := s.DefaultMaxPoolSize,
                        PrewarmCount := s.DefaultPrewarmCount,
                        bStrictLimit := s.bDefaultStrictLimit,
                        bAutoGrow := s.bDefaultAutoGrow }

/-- Embeds `CreatePool(ItemClass)` of both subsystems.  The `PrewarmPool` call at
its end finds the pool that was just added, so the `CreatePool` inside that call
is never reached and is passed as the identity. -/
def CreatePool (this : UOuter) (objs : ObjectTable) (s : UItemPoolSubsystem)
    (ItemClass : Option Nat) : ObjectTable × UItemPoolSubsystem :=
  match ItemClass with
  | none => (objs, s)
  | some c =>
    prewarmWith this (fun o x _ => (o, x)) objs (s.setPool c (NewPool s)) (some c)
      (NewPool s).PrewarmCount

/-- Embeds `PrewarmPool(ItemClass, Count)` of both subsystems. -/
def PrewarmPool (this : UOuter) (objs : ObjectTable) (s : UItemPoolSubsystem)
    (ItemClass : Option Nat) (Count : Int) : ObjectTable × UItemPoolSubsystem :=
  prewarmWith this (CreatePool this) objs s ItemClass Count

/-- Embeds `ConfigurePool(ItemClass, bStrictLimit, bAutoGrow)` of both subsystems. -/
def ConfigurePool (this : UOuter) (objs : ObjectTable) (s : UItemPoolSubsystem)
    (ItemClass : Option Nat) (bStrictLimit bAutoGrow : Bool) : ObjectTable × UItemPoolSubsystem :=
  match ItemClass with
  | none => (objs, s)
  | some c =>
    match (findOrCreate (CreatePool this) objs s c).2.pool c with
    | none => findOrCreate (CreatePool this) objs s c
    | some Pool =>
      ((findOrCreate (CreatePool this) objs s c).1,
        (findOrCreate (CreatePool this) objs s c).2.setPool c
          { Pool with bStrictLimit := bStrictLimit, bAutoGrow := bAutoGrow })

/-- The branch `if (Pool->AvailableItems.Num() > 0)` of `GetItemFromPool`
(ItemPoolSubsystem.cpp lines 51-66, EngineItemPoolSubsystem.cpp lines 49-63):
the objects, the pool and `Item` afterwards. -/
def popAvailable (objs : ObjectTable) (Pool : FItemPool) (Outer : Option Nat) :
    ObjectTable × FItemPool × ItemPtr :=
  if Pool.AvailableItems.getLast?.join ≠ none then
    (InitializeItem
        (ResetItem
          (match Outer with
            | some o => Rename objs Pool.AvailableItems.getLast?.join (.Caller o)
            | none => objs)
          Pool.AvailableItems.getLast?.join)
        Pool.AvailableItems.getLast?.join,
      { Pool with AvailableItems := Pool.AvailableItems.dropLast, HitCount := Pool.HitCount + 1 },
      Pool.AvailableItems.getLast?.join)
  else (objs, { Pool with AvailableItems := Pool.AvailableItems.dropLast }, none)

/-- The end of `GetItemFromPool` (ItemPoolSubsystem.cpp lines 72-98,
EngineItemPoolSubsystem.cpp lines 66-92), entered with the objects, the pool and
`Item` as the first part left them. -/
def missOrActivate (a : ObjectTable × FItemPool × ItemPtr) (ItemClass : Nat)
    (Outer : Option Nat) : ObjectTable × FItemPool × ItemPtr :=
  if a.2.2 = none then
    if a.2.1.bStrictLimit = true then (a.1, { a.2.1 with MissCount := a.2.1.MissCount + 1 }, none)
    else
      match Outer with
      | some o =>
        (InitializeItem (NewObject a.1 (.Caller o) ItemClass).1 (NewObject a.1 (.Caller o) ItemClass).2,
          { a.2.1 with MissCount := a.2.1.MissCount + 1,
                       ActiveItems := a.2.1.ActiveItems ++ [(NewObject a.1 (.Caller o) ItemClass).2] },
          (NewObject a.1 (.Caller o) ItemClass).2)
      | none => (a.1, { a.2.1 with MissCount := a.2.1.MissCount + 1 }, none)
  else (a.1, { a.2.1 with ActiveItems := a.2.1.ActiveItems ++ [a.2.2] }, a.2.2)

/-- The branch `if (!ItemClass || !bEnablePooling)` of `GetItemFromPool` for a
non-null class: a plain `NewObject` when there is an `Outer`. -/
def unpooled (objs : ObjectTable) (ItemClass : Nat) (Outer : Option Nat) : ObjectTable × ItemPtr :=
  match Outer with
  | some o =>
    (InitializeItem (NewObject objs (.Caller o) ItemClass).1 (NewObject objs (.Caller o) ItemClass).2,
      (NewObject objs (.Caller o) ItemClass).2)
  | none => (objs, none)

/-- The middle of `ReturnItemToPool` (ItemPoolSubsystem.cpp lines 122-146,
EngineItemPoolSubsystem.cpp lines 116-141): `ActiveItems.Remove(Item)` and the
capacity test.  The flag tells whether the pool took the item; when it did not,
the overflow has been counted and the item is still to be disposed of. -/
def acceptReturn (this : UOuter) (objs : ObjectTable) (Pool : FItemPool) (Item : ItemPtr) :
    ObjectTable × FItemPool × Bool :=
  if (Pool.AvailableItems.length : Int) < Pool.MaxPoolSize then
    (Rename (ResetItem objs Item) Item this,
      { Pool with ActiveItems := Pool.ActiveItems.filter (fun x => x ≠ Item),
                  ReturnCount := Pool.ReturnCount + 1,
                  AvailableItems := Pool.AvailableItems ++ [Item] },
      true)
  else if Pool.bAutoGrow = true then
    (Rename (ResetItem objs Item) Item this,
      { Pool with ActiveItems := Pool.ActiveItems.filter (fun x => x ≠ Item),
                  ReturnCount := Pool.ReturnCount + 1,
                  MaxPoolSize := Pool.MaxPoolSize + 1,
                  AvailableItems := Pool.AvailableItems ++ [Item] },
      true)
  else
    (objs,
      { Pool with ActiveItems := Pool.ActiveItems.filter (fun x => x ≠ Item),
                  OverflowCount := Pool.OverflowCount + 1 },
      false)

/-- The loop `while (Pool->AvailableItems.Num() > MaxSize)` of `SetMaxPoolSize`:
every popped non-null item is handed to `dispose`, which acts on the state `σ`
outside the pool.  `n` bounds the rounds; the length of the list is enough. -/
def trimLoop {σ : Type} (dispose : σ → ItemPtr → σ) (MaxSize : Int) :
    Nat → σ → List ItemPtr → σ × List ItemPtr
  | 0, st, avail => (st, avail)
  | n + 1, st, avail =>
    if (avail.length : Int) > MaxSize then
      trimLoop dispose MaxSize n
        (if avail.getLast?.join ≠ none then dispose st avail.getLast?.join else st) avail.dropLast
    else (st, avail)

end PoolTier

namespace UEngineItemPoolSubsystem

/-- Embeds `UEngineItemPoolSubsystem::CreatePool(ItemClass)`. -/
def CreatePool (objs : ObjectTable) (e : UEngineItemPoolSubsystem) (ItemClass : Option Nat) :
    ObjectTable × UEngineItemPoolSubsystem :=
  PoolTier.CreatePool .EnginePool objs e ItemClass

/-- Embeds `UEngineItemPoolSubsystem::PrewarmPool(ItemClass, Count)`. -/
def PrewarmPool (objs : ObjectTable) (e : UEngineItemPoolSubsystem) (ItemClass : Option Nat)
    (Count : Int) : ObjectTable × UEngineItemPoolSubsystem :=
  PoolTier.PrewarmPool .EnginePool objs e ItemClass Count

/-- Embeds `UEngineItemPoolSubsystem::ConfigurePool(ItemClass, bStrictLimit, bAutoGrow)`. -/
def ConfigurePool (objs : ObjectTable) (e : UEngineItemPoolSubsystem) (ItemClass : Option Nat)
    (bStrictLimit bAutoGrow : Bool) : ObjectTable × UEngineItemPoolSubsystem :=
  PoolTier.ConfigurePool .EnginePool objs e ItemClass bStrictLimit bAutoGrow

/-- Lines 46-92 of `UEngineItemPoolSubsystem::GetItemFromPool`, with `Pool` the
pool found for the class `c`. -/
def getFound (objs : ObjectTable) (e : UEngineItemPoolSubsystem) (c : Nat) (Pool : FItemPool)
    (Outer : Option Nat) : ObjectTable × UEngineItemPoolSubsystem × ItemPtr :=
  ((PoolTier.missOrActivate
      (if Pool.AvailableItems.length > 0 then PoolTier.popAvailable objs Pool Outer
        else (objs, Pool, none)) c Outer).1,
    e.setPool c (PoolTier.missOrActivate
      (if Pool.AvailableItems.length > 0 then PoolTier.popAvailable objs Pool Outer
        else (objs, Pool, none)) c Outer).2.1,
    (PoolTier.missOrActivate
      (if Pool.AvailableItems.length > 0 then PoolTier.popAvailable objs Pool Outer
        else (objs, Pool, none)) c Outer).2.2)

/-- Embeds `UEngineItemPoolSubsystem::GetItemFromPool(ItemClass, Outer)`: the
objects and the subsystem afterwards and the returned pointer. -/
def GetItemFromPool (objs : ObjectTable) (e : UEngineItemPoolSubsystem) (ItemClass : Option Nat)
    (Outer : Option Nat) : ObjectTable × UEngineItemPoolSubsystem × ItemPtr :=
  match ItemClass with
  | none => (objs, e, none)
  | some c =>
    if ¬ e.bEnablePooling = true then
      ((PoolTier.unpooled objs c Outer).1, e, (PoolTier.unpooled objs c Outer).2)
    else
      match (PoolTier.findOrCreate CreatePool objs e c).2.pool c with
      | none =>
        ((PoolTier.findOrCreate CreatePool objs e c).1,
          (PoolTier.findOrCreate CreatePool objs e c).2, none)
      | some Pool =>
        getFound (PoolTier.findOrCreate CreatePool objs e c).1
          (PoolTier.findOrCreate CreatePool objs e c).2 c Pool Outer

/-- Lines 116-144 of `UEngineItemPoolSubsystem::ReturnItemToPool`, with `Pool` the
pool found for the class `c` of the item: an item the pool does not take is
marked as garbage. -/
def returnFound (objs : ObjectTable) (e : UEngineItemPoolSubsystem) (c : Nat) (Pool : FItemPool)
    (Item : ItemPtr) : ObjectTable × UEngineItemPoolSubsystem :=
  (if (PoolTier.acceptReturn .EnginePool objs Pool Item).2.2 = true then
      (PoolTier.acceptReturn .EnginePool objs Pool Item).1
    else MarkAsGarbage (PoolTier.acceptReturn .EnginePool objs Pool Item).1 Item,
    e.setPool c (PoolTier.acceptReturn .EnginePool objs Pool Item).2.1)

/-- Embeds `UEngineItemPoolSubsystem::ReturnItemToPool(Item)`.  A non-null pointer
that refers to no object of the table changes nothing. -/
def ReturnItemToPool (objs : ObjectTable) (e : UEngineItemPoolSubsystem) (Item : ItemPtr) :
    ObjectTable × UEngineItemPoolSubsystem :=
  if Item = none ∨ ¬ e.bEnablePooling = true then (objs, e)
  else
    match GetClass objs Item with
    | none => (objs, e)
    | some c =>
      match (PoolTier.findOrCreate CreatePool objs e c).2.pool c with
      | none => PoolTier.findOrCreate CreatePool objs e c
      | some Pool =>
        returnFound (PoolTier.findOrCreate CreatePool objs e c).1
          (PoolTier.findOrCreate CreatePool objs e c).2 c Pool Item

/-- Lines 268-280 of `UEngineItemPoolSubsystem::SetMaxPoolSize`, with `Pool` the
pool found for the class `c`: the popped items are marked as garbage. -/
def resizeFound (objs : ObjectTable) (e : UEngineItemPoolSubsystem) (c : Nat) (Pool : FItemPool)
    (MaxSize : Int) : ObjectTable × UEngineItemPoolSubsystem :=
  ((PoolTier.trimLoop MarkAsGarbage MaxSize Pool.AvailableItems.length objs
      Pool.AvailableItems).1,
    e.setPool c
      { Pool with MaxPoolSize := MaxSize,
                  AvailableItems := (PoolTier.trimLoop MarkAsGarbage MaxSize
                    Pool.AvailableItems.length objs Pool.AvailableItems).2 })

/-- Embeds `UEngineItemPoolSubsystem::SetMaxPoolSize(ItemClass, MaxSize)`. -/
def SetMaxPoolSize (objs : ObjectTable) (e : UEngineItemPoolSubsystem) (ItemClass : Option Nat)
    (MaxSize : Int) : ObjectTable × UEngineItemPoolSubsystem :=
  match ItemClass with
  | none => (objs, e)
  | some c =>
    if MaxSize < 0 then (objs, e)
    else
      match (PoolTier.findOrCreate CreatePool objs e c).2.pool c with
      | none => PoolTier.findOrCreate CreatePool objs e c
      | some Pool =>
        resizeFound (PoolTier.findOrCreate CreatePool objs e c).1
          (PoolTier.findOrCreate CreatePool objs e c).2 c Pool MaxSize

end UEngineItemPoolSubsystem

/-- The state the world's pool subsystem works on: the item objects, the
subsystem itself and what `GEngine->GetEngineSubsystem<UEngineItemPoolSubsystem>()`
returns (`none` for the null pointer). -/
structure PoolWorld where
  Objects : ObjectTable
  World : UItemPoolSubsystem
  Engine : Option UEngineItemPoolSubsystem
deriving DecidableEq

namespace UItemPoolSubsystem

/-- Embeds `UItemPoolSubsystem::CreatePool(ItemClass)`. -/
def CreatePool (objs : ObjectTable) (s : UItemPoolSubsystem) (ItemClass : Option Nat) :
    ObjectTable × UItemPoolSubsystem :=
  PoolTier.CreatePool .WorldPool objs s ItemClass

/-- Embeds `UItemPoolSubsystem::PrewarmPool(ItemClass, Count)`. -/
def PrewarmPool (w : PoolWorld) (ItemClass : Option Nat) (Count : Int) : PoolWorld :=
  PoolWorld.mk (PoolTier.PrewarmPool .WorldPool w.Objects w.World ItemClass Count).1
    (PoolTier.PrewarmPool .WorldPool w.Objects w.World ItemClass Count).2 w.Engine

/-- Embeds `UItemPoolSubsystem::ConfigurePool(ItemClass, bStrictLimit, bAutoGrow)`. -/
def ConfigurePool (w : PoolWorld) (ItemClass : Option Nat) (bStrictLimit bAutoGrow : Bool) :
    PoolWorld :=
  PoolWorld.mk (PoolTier.ConfigurePool .WorldPool w.Objects w.World ItemClass bStrictLimit bAutoGrow).1
    (PoolTier.ConfigurePool .WorldPool w.Objects w.World ItemClass bStrictLimit bAutoGrow).2 w.Engine

/-- The end of `UItemPoolSubsystem::GetItemFromPool`: the pool of class `c` is
written back. -/
def served (s : UItemPoolSubsystem) (Engine : Option UEngineItemPoolSubsystem) (c : Nat)
    (b : ObjectTable × FItemPool × ItemPtr) : PoolWorld × ItemPtr :=
  (PoolWorld.mk b.1 (s.setPool c b.2.1) Engine, b.2.2)

/-- Lines 48-98 of `UItemPoolSubsystem::GetItemFromPool`, with `Pool` the pool
found for the class `c`: an empty available list sends the request to the engine
subsystem, if there is one, before the miss is looked at. -/
def getFound (objs : ObjectTable) (s : UItemPoolSubsystem)
    (Engine : Option UEngineItemPoolSubsystem) (c : Nat) (Pool : FItemPool)
    (Outer : Option Nat) : PoolWorld × ItemPtr :=
  if Pool.AvailableItems.length > 0 then
    served s Engine c (PoolTier.missOrActivate (PoolTier.popAvailable objs Pool Outer) c Outer)
  else
    match Engine with
    | some e =>
      served s (some (UEngineItemPoolSubsystem.GetItemFromPool objs e (some c) Outer).2.1) c
        (PoolTier.missOrActivate
          ((UEngineItemPoolSubsystem.GetItemFromPool objs e (some c) Outer).1, Pool,
            (UEngineItemPoolSubsystem.GetItemFromPool objs e (some c) Outer).2.2) c Outer)
    | none => served s none c (PoolTier.missOrActivate (objs, Pool, none) c Outer)

/-- Embeds `UItemPoolSubsystem::GetItemFromPool(ItemClass, Outer)`: the state
afterwards and the returned pointer. -/
def GetItemFromPool (w : PoolWorld) (ItemClass : Option Nat) (Outer : Option Nat) :
    PoolWorld × ItemPtr :=
  match ItemClass with
  | none => (w, none)
  | some c =>
    if ¬ w.World.bEnablePooling = true then
      (PoolWorld.mk (PoolTier.unpooled w.Objects c Outer).1 w.World w.Engine,
        (PoolTier.unpooled w.Objects c Outer).2)
    else
      match (PoolTier.findOrCreate CreatePool w.Objects w.World c).2.pool c with
      | none =>
        (PoolWorld.mk (PoolTier.findOrCreate CreatePool w.Objects w.World c).1
          (PoolTier.findOrCreate CreatePool w.Objects w.World c).2 w.Engine, none)
      | some Pool =>
        getFound (PoolTier.findOrCreate CreatePool w.Objects w.World c).1
          (PoolTier.findOrCreate CreatePool w.Objects w.World c).2 w.Engine c Pool Outer

/-- What the world subsystem does with an item its pool does not take (lines
148-155 and 290-297): it goes to `ReturnItemToPool` of the engine subsystem, or is
marked as garbage when there is no engine subsystem. -/
def handOver (st : ObjectTable × Option UEngineItemPoolSubsystem) (Item : ItemPtr) :
    ObjectTable × Option UEngineItemPoolSubsystem :=
  match st.2 with
  | some e =>
    ((UEngineItemPoolSubsystem.ReturnItemToPool st.1 e Item).1,
      some (UEngineItemPoolSubsystem.ReturnItemToPool st.1 e Item).2)
  | none => (MarkAsGarbage st.1 Item, none)

/-- Lines 122-157 of `UItemPoolSubsystem::ReturnItemToPool`, with `Pool` the pool
found for the class `c` of the item. -/
def returnFound (objs : ObjectTable) (s : UItemPoolSubsystem)
    (Engine : Option UEngineItemPoolSubsystem) (c : Nat) (Pool : FItemPool) (Item : ItemPtr) :
    PoolWorld :=
  if (PoolTier.acceptReturn .WorldPool objs Pool Item).2.2 = true then
    PoolWorld.mk (PoolTier.acceptReturn .WorldPool objs Pool Item).1
      (s.setPool c (PoolTier.acceptReturn .WorldPool objs Pool Item).2.1) Engine
  else
    PoolWorld.mk (handOver ((PoolTier.acceptReturn .WorldPool objs Pool Item).1, Engine) Item).1
      (s.setPool c (PoolTier.acceptReturn .WorldPool objs Pool Item).2.1)
      (handOver ((PoolTier.acceptReturn .WorldPool objs Pool Item).1, Engine) Item).2

/-- Embeds `UItemPoolSubsystem::ReturnItemToPool(Item)`.  A non-null pointer that
refers to no object of the table changes nothing. -/
def ReturnItemToPool (w : PoolWorld) (Item : ItemPtr) : PoolWorld :=
  if Item = none ∨ ¬ w.World.bEnablePooling = true then w
  else
    match GetClass w.Objects Item with
    | none => w
    | some c =>
      match (PoolTier.findOrCreate CreatePool w.Objects w.World c).2.pool c with
      | none =>
        PoolWorld.mk (PoolTier.findOrCreate CreatePool w.Objects w.World c).1
          (PoolTier.findOrCreate CreatePool w.Objects w.World c).2 w.Engine
      | some Pool =>
        returnFound (PoolTier.findOrCreate CreatePool w.Objects w.World c).1
          (PoolTier.findOrCreate CreatePool w.Objects w.World c).2 w.Engine c Pool Item

/-- Lines 282-300 of `UItemPoolSubsystem::SetMaxPoolSize`, with `Pool` the pool
found for the class `c`: the popped items are handed over. -/
def resizeFound (objs : ObjectTable) (s : UItemPoolSubsystem)
    (Engine : Option UEngineItemPoolSubsystem) (c : Nat) (Pool : FItemPool) (MaxSize : Int) :
    PoolWorld :=
  PoolWorld.mk
    (PoolTier.trimLoop handOver MaxSize Pool.AvailableItems.length (objs, Engine)
      Pool.AvailableItems).1.1
    (s.setPool c
      { Pool with MaxPoolSize := MaxSize,
                  AvailableItems := (PoolTier.trimLoop handOver MaxSize
                    Pool.AvailableItems.length (objs, Engine) Pool.AvailableItems).2 })
    (PoolTier.trimLoop handOver MaxSize Pool.AvailableItems.length (objs, Engine)
      Pool.AvailableItems).1.2

/-- Embeds `UItemPoolSubsystem::SetMaxPoolSize(ItemClass, MaxSize)`. -/
def SetMaxPoolSize (w : PoolWorld) (ItemClass : Option Nat) (MaxSize : Int) : PoolWorld :=
  match ItemClass with
  | none => w
  | some c =>
    if MaxSize < 0 then w
    else
      match (PoolTier.findOrCreate CreatePool w.Objects w.World c).2.pool c with
      | none =>
        PoolWorld.mk (PoolTier.findOrCreate CreatePool w.Objects w.World c).1
          (PoolTier.findOrCreate CreatePool w.Objects w.World c).2 w.Engine
      | some Pool =>
        resizeFound (PoolTier.findOrCreate CreatePool w.Objects w.World c).1
          (PoolTier.findOrCreate CreatePool w.Objects w.World c).2 w.Engine c Pool MaxSize

end UItemPoolSubsystem

/-- Two subsystem states with the same settings: the pooling switch and the
defaults given to new pools. -/
def SameSettings (s s1 : UItemPoolSubsystem) : Prop :=
  s1.bEnablePooling = s.bEnablePooling ∧ s1.DefaultMaxPoolSize = s.DefaultMaxPoolSize ∧
    s1.DefaultPrewarmCount = s.DefaultPrewarmCount ∧
    s1.bDefaultStrictLimit = s.bDefaultStrictLimit ∧ s1.bDefaultAutoGrow = s.bDefaultAutoGrow

/-- The pointers to the `n` objects created after the first `k`. -/
def freshPtrs (k n : Nat) : List ItemPtr := (List.range' k n).map some

/-- `n` consecutive `GetItemFromPool(ItemClass, Outer)` calls on the world's
subsystem. -/
def repeatGet (ItemClass : Option Nat) (Outer : Option Nat) : Nat → PoolWorld → PoolWorld
  | 0, w => w
  | n + 1, w => repeatGet ItemClass Outer n (UItemPoolSubsystem.GetItemFromPool w ItemClass Outer).1

/-- What a miss on the pool `P` of class `c` is claimed to do: `Q` is the pool,
`objs1` the objects and `Item` the returned pointer afterwards.  The miss is
counted; under the strict limit nothing is returned and nothing else changes;
otherwise, for a non-null owner, the returned pointer refers to an object of class
`c` that did not exist before and is the new last entry of the active list. -/
def MissOutcome (objs : ObjectTable) (P : FItemPool) (c : Nat) (Outer : Option Nat)
    (objs1 : ObjectTable) (Q : FItemPool) (Item : ItemPtr) : Prop :=
  Q.MissCount = P.MissCount + 1 ∧ Q.HitCount = P.HitCount ∧
    Q.AvailableItems = P.AvailableItems ∧
    (P.bStrictLimit = true → Item = none ∧ Q.ActiveItems = P.ActiveItems ∧ objs1 = objs) ∧
    (P.bStrictLimit = false → ∀ o, Outer = some o →
      Item = some objs.length ∧ objs1.length = objs.length + 1 ∧
        GetClass objs1 Item = some c ∧ Q.ActiveItems = P.ActiveItems ++ [Item]) ∧
    (P.bStrictLimit = false → Outer = none →
      Item = none ∧ Q.ActiveItems = P.ActiveItems ∧ objs1 = objs)

/-- A pool with nothing in it and the given strict-limit flag. -/
def emptyPool (bStrictLimit : Bool) : FItemPool := ⟨[], [], 100, 10, bStrictLimit, false, 0, 0, 0, 0⟩

/-- A world whose subsystem and engine subsystem both have an empty, non-strict
pool for class 7. -/
def twoTierEmpty : PoolWorld :=
  ⟨[], ⟨[(7, emptyPool false)], true, 100, 10, false, true⟩,
    some ⟨[(7, emptyPool false)], true, 100, 10, false, true⟩⟩

/-- What returning `Item` to the pool `P` at capacity is claimed to do to the pool,
`Q` being the pool afterwards: the item leaves the active list; with auto-grow the
capacity grows by one and the item is appended to the available list; without it
the overflow is counted and the available list and the capacity stay. -/
def ReturnedAtCapacity (P Q : FItemPool) (Item : ItemPtr) : Prop :=
  Q.ActiveItems = P.ActiveItems.filter (fun x => x ≠ Item) ∧ Item ∉ Q.ActiveItems ∧
    (P.bAutoGrow = true →
      Q.MaxPoolSize = P.MaxPoolSize + 1 ∧ Q.AvailableItems = P.AvailableItems ++ [Item] ∧
        Q.OverflowCount = P.OverflowCount) ∧
    (P.bAutoGrow = false →
      Q.OverflowCount = P.OverflowCount + 1 ∧ Q.AvailableItems = P.AvailableItems ∧
        Q.MaxPoolSize = P.MaxPoolSize)

/-- A pool of capacity 1 that is full: object 0 is available, object 1 is checked
out. -/
def fullPool (bAutoGrow : Bool) : FItemPool :=
  ⟨[some 0], [some 1], 1, 0, false, bAutoGrow, 0, 0, 0, 0⟩

/-- Two item objects of class 7. -/
def twoObjects : ObjectTable :=
  [⟨7, .WorldPool, UItemBase.ctor⟩, ⟨7, .Caller 0, UItemBase.ctor⟩]

/-- One call on a pool subsystem. -/
inductive PoolOp where
  | GetItemFromPool (ItemClass : Option Nat) (Outer : Option Nat)
  | ReturnItemToPool (Item : ItemPtr)
  | PrewarmPool (ItemClass : Option Nat) (Count : Int)
  | SetMaxPoolSize (ItemClass : Option Nat) (MaxSize : Int)
  | ConfigurePool (ItemClass : Option Nat) (bStrictLimit bAutoGrow : Bool)
deriving DecidableEq

/-- The state after the call is made on the world's subsystem. -/
def PoolOp.run (w : PoolWorld) : PoolOp → PoolWorld
  | .GetItemFromPool ItemClass Outer => (UItemPoolSubsystem.GetItemFromPool w ItemClass Outer).1
  | .ReturnItemToPool Item => UItemPoolSubsystem.ReturnItemToPool w Item
  | .PrewarmPool ItemClass Count => UItemPoolSubsystem.PrewarmPool w ItemClass Count
  | .SetMaxPoolSize ItemClass MaxSize => UItemPoolSubsystem.SetMaxPoolSize w ItemClass MaxSize
  | .ConfigurePool ItemClass bStrictLimit bAutoGrow =>
    UItemPoolSubsystem.ConfigurePool w ItemClass bStrictLimit bAutoGrow

/-- The objects and the engine subsystem after the call is made on the engine
subsystem. -/
def PoolOp.runEngine (st : ObjectTable × UEngineItemPoolSubsystem) :
    PoolOp → ObjectTable × UEngineItemPoolSubsystem
  | .GetItemFromPool ItemClass Outer =>
    ((UEngineItemPoolSubsystem.GetItemFromPool st.1 st.2 ItemClass Outer).1,
      (UEngineItemPoolSubsystem.GetItemFromPool st.1 st.2 ItemClass Outer).2.1)
  | .ReturnItemToPool Item => UEngineItemPoolSubsystem.ReturnItemToPool st.1 st.2 Item
  | .PrewarmPool ItemClass Count => UEngineItemPoolSubsystem.PrewarmPool st.1 st.2 ItemClass Count
  | .SetMaxPoolSize ItemClass MaxSize =>
    UEngineItemPoolSubsystem.SetMaxPoolSize st.1 st.2 ItemClass MaxSize
  | .ConfigurePool ItemClass bStrictLimit bAutoGrow =>
    UEngineItemPoolSubsystem.ConfigurePool st.1 st.2 ItemClass bStrictLimit bAutoGrow

/-- A call on one of the two subsystems. -/
inductive TierOp where
  | World (op : PoolOp)
  | Engine (op : PoolOp)
deriving DecidableEq

/-- The state after a call on one of the two subsystems; a call on an engine
subsystem that does not exist is no call. -/
def TierOp.run (w : PoolWorld) : TierOp → PoolWorld
  | .World op => op.run w
  | .Engine op =>
    match w.Engine with
    | some e => PoolWorld.mk (op.runEngine (w.Objects, e)).1 w.World (some (op.runEngine (w.Objects, e)).2)
    | none => w

/-- The call is not a `PrewarmPool`. -/
def TierOp.NoPrewarm : TierOp → Prop
  | .World (.PrewarmPool _ _) => False
  | .Engine (.PrewarmPool _ _) => False
  | _ => True

/-- Every pool of the subsystem holds at most `MaxPoolSize` available items, and
so will a pool made by `CreatePool`: the default prewarm count does not exceed the
default capacity, which is not negative. -/
def UItemPoolSubsystem.Bounded (s : UItemPoolSubsystem) : Prop :=
  0 ≤ s.DefaultMaxPoolSize ∧ s.DefaultPrewarmCount ≤ s.DefaultMaxPoolSize ∧
    ∀ c P, s.pool c = some P → (P.AvailableItems.length : Int) ≤ P.MaxPoolSize

/-- Both subsystems are `Bounded`. -/
def PoolWorld.Bounded (w : PoolWorld) : Prop :=
  w.World.Bounded ∧ ∀ e, w.Engine = some e → UItemPoolSubsystem.Bounded e

/-- The two lists of a pool of class `c` share no pointer and repeat none, and
every entry points to an object of class `c`. -/
def ListsOK (objs : ObjectTable) (c : Nat) (avail active : List ItemPtr) : Prop :=
  (avail ++ active).Nodup ∧ ∀ x ∈ avail ++ active, GetClass objs x = some c

/-- Every pool of the subsystem satisfies `ListsOK` for its class. -/
def Exclusive (objs : ObjectTable) (s : UItemPoolSubsystem) : Prop :=
  ∀ c P, s.pool c = some P → ListsOK objs c P.AvailableItems P.ActiveItems

/-- The objects of `objs` are still there in `objs1`, with their classes. -/
def ClassStable (objs objs1 : ObjectTable) : Prop :=
  ∀ x c, GetClass objs x = some c → GetClass objs1 x = some c

/-- The call does not return an item that is at that moment in the available list
of the pool of its class. -/
def PoolOp.NotReturnedTwice (st : ObjectTable × UEngineItemPoolSubsystem) : PoolOp → Prop
  | .ReturnItemToPool Item =>
    ∀ c P, GetClass st.1 Item = some c → UItemPoolSubsystem.pool st.2 c = some P →
      Item ∉ P.AvailableItems
  | _ => True

/-- No call of the sequence, made on the engine subsystem one after the other from
the state `st`, returns an item that is in the available list at that moment. -/
def NoDoubleReturn : ObjectTable × UEngineItemPoolSubsystem → List PoolOp → Prop
  | _, [] => True
  | st, op :: ops => op.NotReturnedTwice st ∧ NoDoubleReturn (op.runEngine st) ops

/-- No call of the sequence, made on the world's subsystem one after the other from
the state `w`, returns an item that is in the available list at that moment. -/
def NoDoubleReturnWorld : PoolWorld → List PoolOp → Prop
  | _, [] => True
  | w, op :: ops => op.NotReturnedTwice (w.Objects, w.World) ∧ NoDoubleReturnWorld (op.run w) ops

/-- A world whose subsystem has pooling switched off; its pool for class 7 has room
and lists object 1 as checked out. -/
def poolingOff : PoolWorld :=
  ⟨twoObjects, ⟨[(7, ⟨[], [some 1], 100, 10, false, true, 0, 0, 0, 0⟩)], false, 100, 10, false, true⟩,
    none⟩

/-- The pool `GetItemFromPool` of the world's subsystem works on for class `c`
(ItemPoolSubsystem.cpp lines 34-39): the pool found, or the one `CreatePool` adds. -/
def requestedPool (w : PoolWorld) (c : Nat) : Option FItemPool :=
  (PoolTier.findOrCreate UItemPoolSubsystem.CreatePool w.Objects w.World c).2.pool c

/-- What the `else if` branch of `UItemPoolSubsystem::GetItemFromPool` (lines
67-70) assigns to `Item` when it is reached: the answer of the engine subsystem,
null when there is no engine subsystem. -/
def engineAnswer (w : PoolWorld) (c : Nat) (Outer : Option Nat) : ItemPtr :=
  match w.Engine with
  | some e =>
    (UEngineItemPoolSubsystem.GetItemFromPool
      (PoolTier.findOrCreate UItemPoolSubsystem.CreatePool w.Objects w.World c).1 e (some c)
      Outer).2.2
  | none => none

/-- A world whose own pool for class 7 is empty while the engine's pool for the
class holds object 0 in its available list. -/
def engineStocked : PoolWorld :=
  ⟨[⟨7, .EnginePool, UItemBase.ctor⟩], ⟨[(7, emptyPool false)], true, 100, 10, false, true⟩,
    some ⟨[(7, ⟨[some 0], [], 100, 10, false, false, 0, 0, 0, 0⟩)], true, 100, 10, false, true⟩⟩

/-- The free space the statement about `TransferTo` speaks of: the maximum stack
of the source's item when the target holds nothing, and the target's free space
otherwise. -/
def targetFreeSpace (h : Heap) (s t : FInventorySlot) : Int :=
  if t.Item = none then (h.deref s.Item).MaxStackSize else t.MaxStackSize - t.CurrentStackSize

/-- Two valid stackable items of ID "A" and maximum stack 5. -/
def transferHeap : Heap := [mkItem "A" true 5 4, mkItem "A" true 5 3]

/-- A slot holding 4 units of the first item of `transferHeap`. -/
def transferSource : FInventorySlot := ⟨some 0, 4, 5⟩

/-- A slot holding 3 units of the second item of `transferHeap`. -/
def transferTarget : FInventorySlot := ⟨some 1, 3, 5⟩

namespace FInventorySlots

/-- The stacking loop of `AddStackAmount` (lines 441-452) over the slots in index
order; unlike the loop of `AddItem` it does not test `IsFull`. -/
def amountLoop (h : Heap) (NewItem : ItemPtr) :
    List FInventorySlot → Int → StackPass
  | [], Remaining => ⟨[], Remaining, false⟩
  | Slot :: rest, Remaining =>
    if ¬ Slot.IsEmpty ∧ GetItemID h Slot.Item = GetItemID h NewItem then
      let r := Slot.AddToStack Remaining
      if r.2 ≤ 0 then ⟨r.1 :: rest, r.2, true⟩
      else
        let k := amountLoop h NewItem rest r.2
        ⟨r.1 :: k.slots, k.remaining, k.returned⟩
    else
      let k := amountLoop h NewItem rest Remaining
      ⟨Slot :: k.slots, k.remaining, k.returned⟩

/-- Lines 437-453 of `AddStackAmount`: `Remaining` starts as `Amount` and the
stacking loop runs only for a stackable item. -/
def amountPhase (h : Heap) (g : FInventorySlots) (NewItem : ItemPtr) (Amount : Int) : StackPass :=
  if (h.deref NewItem).bIsStackable = true then amountLoop h NewItem g.Slots Amount
  else ⟨g.Slots, Amount, false⟩

/-- Embeds `AddStackAmount(NewItem, Amount)`: the returned amount and the group
afterwards.  Its empty-slot loop (lines 455-465) is the loop of `AddItem`:
`SetItem(NewItem, Remaining)` on the first empty slot, here followed by
`return 0`. -/
def AddStackAmount (h : Heap) (g : FInventorySlots) (NewItem : ItemPtr) (Amount : Int) :
    Int × FInventorySlots :=
  if ¬ IsValid h NewItem ∨ ¬ g.IsTypeSupported h NewItem ∨ Amount ≤ 0 then (Amount, g)
  else if (amountPhase h g NewItem Amount).returned = true then
    (0, { g with Slots := (amountPhase h g NewItem Amount).slots })
  else if (amountPhase h g NewItem Amount).remaining > 0 then
    match placeLoop h NewItem (amountPhase h g NewItem Amount).remaining
        (amountPhase h g NewItem Amount).slots with
    | some l => (0, { g with Slots := l })
    | none =>
      ((amountPhase h g NewItem Amount).remaining,
        { g with Slots := (amountPhase h g NewItem Amount).slots })
  else
    ((amountPhase h g NewItem Amount).remaining,
      { g with Slots := (amountPhase h g NewItem Amount).slots })

/-- Embeds `RemoveStackAmountFromSlot(SlotIndex, Amount)`. -/
def RemoveStackAmountFromSlot (g : FInventorySlots) (SlotIndex Amount : Int) :
    FInventoryOperationResult × FInventorySlots :=
  if ¬ IsValidIndex g.Slots SlotIndex then
    (.Fail ("Invalid slot index " ++ toString SlotIndex), g)
  else if (slotAt g.Slots SlotIndex).IsEmpty then (.Fail "Slot is empty", g)
  else if Amount ≤ 0 then (.Fail "Amount must be greater than zero", g)
  else if ((slotAt g.Slots SlotIndex).RemoveFromStack Amount).2 > 0 then
    (.Ok,
      FInventorySlots.mk g.MaxSlotSize g.TypeIDMap
        (g.Slots.set SlotIndex.toNat ((slotAt g.Slots SlotIndex).RemoveFromStack Amount).1))
  else
    (.Fail "Failed to remove stack amount",
      FInventorySlots.mk g.MaxSlotSize g.TypeIDMap
        (g.Slots.set SlotIndex.toNat ((slotAt g.Slots SlotIndex).RemoveFromStack Amount).1))

/-- Embeds `DestroyItemAtSlot(SlotIndex)`. -/
def DestroyItemAtSlot (g : FInventorySlots) (SlotIndex : Int) :
    FInventoryOperationResult × FInventorySlots :=
  if ¬ IsValidIndex g.Slots SlotIndex then
    (.Fail ("Invalid slot index " ++ toString SlotIndex), g)
  else if (slotAt g.Slots SlotIndex).IsEmpty then (.Fail "Slot is already empty", g)
  else (.Ok, { g with Slots := g.Slots.set SlotIndex.toNat (slotAt g.Slots SlotIndex).ClearSlot })

/-- Embeds `ClearAllSlots()`. -/
def ClearAllSlots (g : FInventorySlots) : FInventorySlots :=
  { g with Slots := g.Slots.map (fun Slot => Slot.ClearSlot) }

/-- The loop of `GetOccupiedSlotCount` (lines 360-366), entered with `Count`. -/
def occupiedLoop : List FInventorySlot → Int → Int
  | [], Count => Count
  | Slot :: rest, Count => occupiedLoop rest (if ¬ Slot.IsEmpty then Count + 1 else Count)

/-- Embeds `GetOccupiedSlotCount()`. -/
def GetOccupiedSlotCount (g : FInventorySlots) : Int := occupiedLoop g.Slots 0

/-- Embeds `GetFreeSlotCount()`. -/
def GetFreeSlotCount (g : FInventorySlots) : Int := g.MaxSlotSize - g.GetOccupiedSlotCount

end FInventorySlots

/-- One call of a mutating operation of a slot group. -/
inductive GroupOp where
  | AddItem (NewItem : ItemPtr)
  | AddItemToSlot (NewItem : ItemPtr) (TargetIndex : Int)
  | AddStackAmount (NewItem : ItemPtr) (Amount : Int)
  | RemoveItem (Index : Int)
  | RemoveStackAmountFromSlot (SlotIndex Amount : Int)
  | DestroyItemAtSlot (SlotIndex : Int)
  | SwapSlots (IndexA IndexB : Int)
  | SplitStack (SourceIndex TargetIndex Amount : Int)
  | ConsolidateAndSort
  | ClearAllSlots
deriving DecidableEq

/-- The group and the item objects after the call; the returned value is dropped. -/
def GroupOp.run (st : FInventorySlots × Heap) : GroupOp → FInventorySlots × Heap
  | .AddItem NewItem => (st.1.AddItem st.2 NewItem).2
  | .AddItemToSlot NewItem TargetIndex => (st.1.AddItemToSlot st.2 NewItem TargetIndex).2
  | .AddStackAmount NewItem Amount => ((st.1.AddStackAmount st.2 NewItem Amount).2, st.2)
  | .RemoveItem Index => ((st.1.RemoveItem Index).1, st.2)
  | .RemoveStackAmountFromSlot SlotIndex Amount =>
    ((st.1.RemoveStackAmountFromSlot SlotIndex Amount).2, st.2)
  | .DestroyItemAtSlot SlotIndex => ((st.1.DestroyItemAtSlot SlotIndex).2, st.2)
  | .SwapSlots IndexA IndexB => ((st.1.SwapSlots IndexA IndexB).2, st.2)
  | .SplitStack SourceIndex TargetIndex Amount =>
    (st.1.SplitStack st.2 SourceIndex TargetIndex Amount).2
  | .ConsolidateAndSort => (st.1.ConsolidateAndSort st.2, st.2)
  | .ClearAllSlots => (st.1.ClearAllSlots, st.2)

/-- The second group has as many slots as the first and the same `MaxSlotSize`. -/
def SizeKept (g g1 : FInventorySlots) : Prop :=
  g1.Slots.length = g.Slots.length ∧ g1.MaxSlotSize = g.MaxSlotSize

/-- Two valid stackable "A" items of maximum stack 5, holding 3 and 2 units. -/
def mergeHeap : Heap := [mkItem "A" true 5 3, mkItem "A" true 5 2]

/-- A group initialised with two slots receives the two items of `mergeHeap` by
`AddItem`, one after the other: the group and the item objects afterwards. -/
def mergedGroup : FInventorySlots × Heap :=
  [GroupOp.AddItem (some 0), GroupOp.AddItem (some 1)].foldl GroupOp.run (bag 2, mergeHeap)

/-- A collection with one initialised group of two slots (type ID 0) receives the
two items of `mergeHeap` by `AddItem` of the collection, one after the other. -/
def mergedCollection : FInventoryOperationResult × FInventorySlotsGroup × Heap :=
  (((FInventorySlotsGroup.ctor.AddInventoryGroup (bag 2)).AddItem mergeHeap (some 0) (-1)).2.1).AddItem
    ((FInventorySlotsGroup.ctor.AddInventoryGroup (bag 2)).AddItem mergeHeap (some 0) (-1)).2.2
    (some 1) (-1)

/-! ## Lemmas -/

open FInventorySlot FInventorySlots

theorem Clamp_of_mem {x hi : Int} (h0 : 0 ≤ x) (h1 : x ≤ hi) : Clamp x 0 hi = x := by
  unfold Clamp; rw [min_eq_left h1, max_eq_left h0]

theorem sumStacks_cons (s : FInventorySlot) (l : List FInventorySlot) :
    sumStacks (s :: l) = s.CurrentStackSize + sumStacks l := by
  simp [sumStacks]

theorem sumStacks_nil : sumStacks [] = 0 := by simp [sumStacks]

theorem deref_set_self (h : Heap) (r : Nat) (x : UItemBase) (hr : r < h.length) :
    Heap.deref (h.set r x) (some r) = x := by
  simp [Heap.deref, List.getD_eq_getElem?_getD, hr]

theorem set_getD_self {α : Type} (l : List α) (i : Nat) (d : α) : l.set i (l.getD i d) = l := by
  induction l generalizing i with
  | nil => rfl
  | cons a l ih =>
    cases i with
    | zero => rfl
    | succ i =>
      have := ih i
      simp only [List.getD_eq_getElem?_getD, List.getElem?_cons_succ, List.set_cons_succ] at this ⊢
      rw [this]

theorem getD_set {α : Type} (l : List α) (i j : Nat) (a d : α) :
    (l.set i a).getD j d = if i = j ∧ i < l.length then a else l.getD j d := by
  simp only [List.getD_eq_getElem?_getD, List.getElem?_set]
  by_cases hij : i = j
  · subst hij
    by_cases hi : i < l.length
    · simp [hi]
    · have : l[i]? = none := List.getElem?_eq_none (by omega)
      simp [hi, this]
  · simp [hij]

theorem item_SetCurrentStackSize_same (it : UItemBase)
    (hq : (it.bIsStackable = true ∧ 0 ≤ it.CurrentStackSize ∧
        it.CurrentStackSize ≤ it.MaxStackSize) ∨
      (it.bIsStackable = false ∧ it.CurrentStackSize = 1)) :
    it.SetCurrentStackSize it.CurrentStackSize = it := by
  unfold UItemBase.SetCurrentStackSize
  rcases hq with ⟨hst, h0, h1⟩ | ⟨hns, h1⟩
  · rw [if_pos hst, Clamp_of_mem h0 h1]
  · rw [if_neg (by rw [hns]; simp)]
    cases it
    simp only at h1
    simp [h1]

theorem deref_SetCurrentStackSize (h : Heap) (p : ItemPtr) (n : Int) (hv : IsValid h p) :
    (SetCurrentStackSize h p n).deref p = (h.deref p).SetCurrentStackSize n := by
  cases p with
  | none => exact absurd hv (by simp [IsValid])
  | some r =>
    unfold SetCurrentStackSize
    exact deref_set_self h r _ hv.1

theorem SetCurrentStackSize_same (h : Heap) (p : ItemPtr) (hv : IsValid h p)
    (hq : ((h.deref p).bIsStackable = true ∧ 0 ≤ (h.deref p).CurrentStackSize ∧
        (h.deref p).CurrentStackSize ≤ (h.deref p).MaxStackSize) ∨
      ((h.deref p).bIsStackable = false ∧ (h.deref p).CurrentStackSize = 1)) :
    SetCurrentStackSize h p (h.deref p).CurrentStackSize = h := by
  cases p with
  | none => rfl
  | some r =>
    unfold SetCurrentStackSize
    rw [item_SetCurrentStackSize_same _ hq]
    exact set_getD_self h r _



namespace FInventorySlot

theorem AddToStack_sum (s : FInventorySlot) (a : Int) :
    (s.AddToStack a).1.CurrentStackSize + (s.AddToStack a).2 = s.CurrentStackSize + a := by
  unfold AddToStack; split <;> simp

theorem AddToStack_Item (s : FInventorySlot) (a : Int) : (s.AddToStack a).1.Item = s.Item := by
  unfold AddToStack; split <;> rfl

theorem AddToStack_Max (s : FInventorySlot) (a : Int) :
    (s.AddToStack a).1.MaxStackSize = s.MaxStackSize := by
  unfold AddToStack; split <;> rfl

theorem AddToStack_bounds (s : FInventorySlot) (a : Int) (hf : ¬ s.IsFull) (ha : 0 ≤ a) :
    0 ≤ (s.AddToStack a).2 ∧ (s.AddToStack a).2 ≤ a ∧
      s.CurrentStackSize ≤ (s.AddToStack a).1.CurrentStackSize ∧
      (s.AddToStack a).1.CurrentStackSize ≤ s.MaxStackSize := by
  unfold IsFull at hf
  unfold AddToStack GetAvailableSpace; split <;> simp <;> omega

theorem AddToStack_not_empty (s : FInventorySlot) (a : Int) (hf : ¬ s.IsFull)
    (he : ¬ s.IsEmpty) : ¬ (s.AddToStack a).1.IsEmpty := by
  have hb := s.AddToStack_bounds a hf
  unfold IsEmpty at he ⊢
  rw [AddToStack_Item]
  push_neg at he ⊢
  refine ⟨he.1, ?_⟩
  by_cases ha : 0 ≤ a
  · have := hb ha; omega
  · unfold AddToStack; rw [if_pos (Or.inl (by omega))]; exact he.2

/-! ### The slot invariant under the slot operations -/

theorem ClearSlot_invariant (s : FInventorySlot) : SlotInvariant s.ClearSlot := by
  unfold SlotInvariant ClearSlot; simp

theorem AddToStack_invariant (s : FInventorySlot) (a : Int) (hs : SlotInvariant s) :
    SlotInvariant (s.AddToStack a).1 := by
  by_cases hc : a ≤ 0 ∨ s.IsEmpty
  · rw [AddToStack, if_pos hc]; exact hs
  · rw [AddToStack, if_neg hc]
    unfold SlotInvariant at hs ⊢
    unfold IsEmpty at hc
    unfold GetAvailableSpace
    obtain ⟨h1, h2, h3⟩ := hs
    push_neg at hc
    simp only
    have hm0 : 0 ≤ min a (s.MaxStackSize - s.CurrentStackSize) := le_min (by omega) (by omega)
    have hm1 : min a (s.MaxStackSize - s.CurrentStackSize) ≤ s.MaxStackSize - s.CurrentStackSize :=
      min_le_right _ _
    exact ⟨⟨fun hx => absurd hx hc.2.1, fun hx => by omega⟩, by omega, by omega⟩

theorem RemoveFromStack_invariant (s : FInventorySlot) (a : Int) (hs : SlotInvariant s) :
    SlotInvariant (s.RemoveFromStack a).1 := by
  by_cases ha : a ≤ 0
  · rw [RemoveFromStack, if_pos ha]; exact hs
  · rw [RemoveFromStack, if_neg ha]
    simp only
    by_cases hc : s.CurrentStackSize - min a s.CurrentStackSize ≤ 0
    · rw [if_pos hc]; unfold SlotInvariant ClearSlot; simp
    · rw [if_neg hc]
      unfold SlotInvariant at hs ⊢
      obtain ⟨h1, h2, h3⟩ := hs
      simp only
      have hm0 : 0 ≤ min a s.CurrentStackSize := le_min (by omega) h2
      refine ⟨⟨fun hx => ?_, fun hx => ?_⟩, by omega, by omega⟩
      · have := h1.mp hx; omega
      · omega

theorem SetItem_invariant (h : Heap) (s : FInventorySlot) (p : ItemPtr) (q : Int)
    (hq : 1 ≤ q) (hm : 1 ≤ (h.deref p).MaxStackSize) : SlotInvariant (s.SetItem h p q) := by
  by_cases hv : IsValid h p
  · rw [SetItem, if_neg (not_not_intro hv)]
    unfold SlotInvariant
    simp only
    have hp : p ≠ none := by
      intro hx; subst hx; simp [IsValid] at hv
    have h1 : 1 ≤ Clamp q 0 (h.deref p).MaxStackSize := by
      unfold Clamp
      exact le_max_of_le_left (le_min hq hm)
    have h2 : Clamp q 0 (h.deref p).MaxStackSize ≤ (h.deref p).MaxStackSize := by
      unfold Clamp
      exact max_le (min_le_right _ _) (by omega)
    exact ⟨⟨fun hx => absurd hx hp, fun hx => by omega⟩, by omega, h2⟩
  · rw [SetItem, if_pos hv]; exact ClearSlot_invariant _

theorem TransferTo_invariant (h : Heap) (s t : FInventorySlot) (a : Int)
    (hs : SlotInvariant s) (ht : SlotInvariant t) (hm : 1 ≤ (h.deref s.Item).MaxStackSize) :
    SlotInvariant (s.TransferTo h t a).1 ∧ SlotInvariant (s.TransferTo h t a).2.1 := by
  by_cases h1 : a ≤ 0 ∨ s.IsEmpty
  · rw [TransferTo, if_pos h1]; exact ⟨hs, ht⟩
  · rw [TransferTo, if_neg h1]
    by_cases h2 : ¬ t.IsEmpty ∧ ¬ CanStackItem h t s.Item
    · rw [if_pos h2]; exact ⟨hs, ht⟩
    · rw [if_neg h2]
      simp only
      by_cases h3 : min (min a s.CurrentStackSize)
          (if t.IsEmpty then s.MaxStackSize else t.GetAvailableSpace) ≤ 0
      · rw [if_pos h3]; exact ⟨hs, ht⟩
      · rw [if_neg h3]
        refine ⟨RemoveFromStack_invariant _ _ hs, ?_⟩
        simp only
        by_cases h4 : t.IsEmpty
        · rw [if_pos h4]
          exact SetItem_invariant h t s.Item _ (by omega) hm
        · rw [if_neg h4]
          exact AddToStack_invariant _ _ ht

end FInventorySlot

namespace FInventorySlots

theorem stackLoop_nil (h : Heap) (p : ItemPtr) (r : Int) :
    stackLoop h p [] r = ⟨[], r, false⟩ := rfl

theorem stackLoop_skip (h : Heap) (p : ItemPtr) (s : FInventorySlot)
    (rest : List FInventorySlot) (r : Int) (hc : ¬ Merges h p s) :
    stackLoop h p (s :: rest) r =
      ⟨s :: (stackLoop h p rest r).slots, (stackLoop h p rest r).remaining,
        (stackLoop h p rest r).returned⟩ := by
  unfold Merges at hc
  by_cases h1 : ¬ s.IsEmpty ∧ GetItemID h s.Item = GetItemID h p
  · have hf : ¬ ¬ s.IsFull := fun hf => hc ⟨h1, hf⟩
    rw [stackLoop, if_pos h1, if_neg hf]
  · rw [stackLoop, if_neg h1]

theorem stackLoop_done (h : Heap) (p : ItemPtr) (s : FInventorySlot)
    (rest : List FInventorySlot) (r : Int) (hc : Merges h p s) (hr : (s.AddToStack r).2 ≤ 0) :
    stackLoop h p (s :: rest) r = ⟨(s.AddToStack r).1 :: rest, (s.AddToStack r).2, true⟩ := by
  rw [stackLoop, if_pos hc.1, if_pos hc.2]
  simp only [if_pos hr]

theorem stackLoop_more (h : Heap) (p : ItemPtr) (s : FInventorySlot)
    (rest : List FInventorySlot) (r : Int) (hc : Merges h p s) (hr : ¬ (s.AddToStack r).2 ≤ 0) :
    stackLoop h p (s :: rest) r =
      ⟨(s.AddToStack r).1 :: (stackLoop h p rest (s.AddToStack r).2).slots,
        (stackLoop h p rest (s.AddToStack r).2).remaining,
        (stackLoop h p rest (s.AddToStack r).2).returned⟩ := by
  rw [stackLoop, if_pos hc.1, if_pos hc.2]
  simp only [if_neg hr]

theorem stackLoop_sum (h : Heap) (p : ItemPtr) (l : List FInventorySlot) (r : Int) :
    sumStacks (stackLoop h p l r).slots + (stackLoop h p l r).remaining = sumStacks l + r := by
  induction l generalizing r with
  | nil => simp [stackLoop_nil]
  | cons s rest ih =>
    have h1 := s.AddToStack_sum r
    by_cases hc : Merges h p s
    · by_cases hr : (s.AddToStack r).2 ≤ 0
      · rw [stackLoop_done h p s rest r hc hr]; simp only [sumStacks_cons]; omega
      · rw [stackLoop_more h p s rest r hc hr]
        have h2 := ih (s.AddToStack r).2
        simp only [sumStacks_cons]; omega
    · rw [stackLoop_skip h p s rest r hc]
      have h3 := ih r
      simp only [sumStacks_cons]; omega

theorem stackLoop_bounds (h : Heap) (p : ItemPtr) (l : List FInventorySlot) (r : Int)
    (hr0 : 0 ≤ r) :
    0 ≤ (stackLoop h p l r).remaining ∧ (stackLoop h p l r).remaining ≤ r := by
  induction l generalizing r with
  | nil => simp [stackLoop_nil, hr0]
  | cons s rest ih =>
    by_cases hc : Merges h p s
    · have hb := s.AddToStack_bounds r hc.2 hr0
      by_cases hr : (s.AddToStack r).2 ≤ 0
      · rw [stackLoop_done h p s rest r hc hr]; simp only; omega
      · rw [stackLoop_more h p s rest r hc hr]
        have := ih (s.AddToStack r).2 hb.1
        simp only; omega
    · rw [stackLoop_skip h p s rest r hc]; exact ih r hr0

theorem stackLoop_returned (h : Heap) (p : ItemPtr) (l : List FInventorySlot) (r : Int) :
    (stackLoop h p l r).returned = true → (stackLoop h p l r).remaining ≤ 0 := by
  induction l generalizing r with
  | nil => simp [stackLoop_nil]
  | cons s rest ih =>
    by_cases hc : Merges h p s
    · by_cases hr : (s.AddToStack r).2 ≤ 0
      · rw [stackLoop_done h p s rest r hc hr]; intro _; exact hr
      · rw [stackLoop_more h p s rest r hc hr]; exact ih _
    · rw [stackLoop_skip h p s rest r hc]; exact ih r

theorem MergedFrom.refl (t : FInventorySlot) : MergedFrom t t :=
  ⟨fun _ => rfl, fun ht => ⟨ht, rfl, rfl⟩⟩

theorem MergedFrom.zero {l l1 : List FInventorySlot} (hp : List.Forall₂ MergedFrom l l1)
    (hz : EmptySlotsAreZero l) : EmptySlotsAreZero l1 := by
  induction hp with
  | nil => exact hz
  | @cons s t l l1 hst _ ih =>
    intro u hu he
    rcases List.mem_cons.mp hu with rfl | hu
    · by_cases hs : s.IsEmpty
      · rw [hst.1 hs]; exact hz s (List.mem_cons_self _ _) hs
      · exact absurd he (hst.2 hs).1
    · exact ih (fun v hv => hz v (List.mem_cons_of_mem _ hv)) u hu he

/-- The stacking loop touches no empty slot, and a slot it touches keeps its
item and does not become empty. -/
theorem stackLoop_pointwise (h : Heap) (p : ItemPtr) (l : List FInventorySlot) (r : Int) :
    List.Forall₂ MergedFrom l (stackLoop h p l r).slots := by
  induction l generalizing r with
  | nil => simp [stackLoop_nil]
  | cons s rest ih =>
    by_cases hc : Merges h p s
    · have hhead : MergedFrom s (s.AddToStack r).1 :=
        ⟨fun he => absurd he hc.1.1,
          fun he => ⟨s.AddToStack_not_empty r hc.2 he, s.AddToStack_Item r, s.AddToStack_Max r⟩⟩
      by_cases hr : (s.AddToStack r).2 ≤ 0
      · rw [stackLoop_done h p s rest r hc hr]
        exact List.Forall₂.cons hhead (List.forall₂_same.mpr (fun t _ => MergedFrom.refl t))
      · rw [stackLoop_more h p s rest r hc hr]
        exact List.Forall₂.cons hhead (ih _)
    · rw [stackLoop_skip h p s rest r hc]
      exact List.Forall₂.cons (MergedFrom.refl s) (ih r)

theorem stackLoop_length (h : Heap) (p : ItemPtr) (l : List FInventorySlot) (r : Int) :
    (stackLoop h p l r).slots.length = l.length :=
  (stackLoop_pointwise h p l r).length_eq.symm

/-- When no slot is merged into, the stacking loop changes nothing. -/
theorem stackLoop_no_merge (h : Heap) (p : ItemPtr) (l : List FInventorySlot) (r : Int)
    (hl : ∀ s ∈ l, ¬ Merges h p s) : stackLoop h p l r = ⟨l, r, false⟩ := by
  induction l with
  | nil => rfl
  | cons s rest ih =>
    rw [stackLoop_skip h p s rest r (hl s (List.mem_cons_self _ _)),
      ih (fun t ht => hl t (List.mem_cons_of_mem _ ht))]

theorem SetItem_valid (h : Heap) (s : FInventorySlot) (p : ItemPtr) (q : Int)
    (hv : IsValid h p) : s.SetItem h p q = specSetItem h p q := by
  unfold FInventorySlot.SetItem specSetItem
  rw [if_neg (not_not_intro hv)]

theorem placeLoop_eq (h : Heap) (p : ItemPtr) (q : Int) (l : List FInventorySlot)
    (hv : IsValid h p) : placeLoop h p q l = placeLowestEmpty (specSetItem h p q) l := by
  induction l with
  | nil => rfl
  | cons s rest ih =>
    simp only [placeLoop, placeLowestEmpty, ih, SetItem_valid h s p q hv]

theorem placeLowestEmpty_none (t : FInventorySlot) (l : List FInventorySlot)
    (hl : ∀ s ∈ l, ¬ s.IsEmpty) : placeLowestEmpty t l = none := by
  induction l with
  | nil => rfl
  | cons s rest ih =>
    rw [placeLowestEmpty, if_neg (hl s (List.mem_cons_self _ _)),
      ih (fun u hu => hl u (List.mem_cons_of_mem _ hu))]
    rfl

theorem placeLowestEmpty_sum (t : FInventorySlot) (l l1 : List FInventorySlot)
    (hz : EmptySlotsAreZero l) (hp : placeLowestEmpty t l = some l1) :
    sumStacks l1 = sumStacks l + t.CurrentStackSize := by
  induction l generalizing l1 with
  | nil => simp [placeLowestEmpty] at hp
  | cons s rest ih =>
    rw [placeLowestEmpty] at hp
    by_cases he : s.IsEmpty
    · rw [if_pos he] at hp
      have h0 := hz s (List.mem_cons_self _ _) he
      cases hp
      simp only [sumStacks_cons]; omega
    · rw [if_neg he] at hp
      cases hr : placeLowestEmpty t rest with
      | none => rw [hr] at hp; simp at hp
      | some l2 =>
        rw [hr] at hp
        simp only [Option.map_some', Option.some.injEq] at hp
        subst hp
        have := ih l2 (fun u hu => hz u (List.mem_cons_of_mem _ hu)) hr
        simp only [sumStacks_cons]; omega

theorem AddItem_returned (h : Heap) (g : FInventorySlots) (p : ItemPtr)
    (hv : IsValid h p) (hs : g.IsTypeSupported h p)
    (hr : (stackPhase h g p).returned = true) :
    AddItem h g p = (.Ok, { g with Slots := (stackPhase h g p).slots }, h) := by
  rw [AddItem, if_neg (not_not_intro hv), if_neg (not_not_intro hs)]
  simp only [if_pos hr]

theorem AddItem_placed (h : Heap) (g : FInventorySlots) (p : ItemPtr)
    (hv : IsValid h p) (hs : g.IsTypeSupported h p)
    (hr : ¬ (stackPhase h g p).returned = true) (l : List FInventorySlot)
    (hp : placePhase h p (stackPhase h g p) = some l) :
    AddItem h g p = (.Ok, { g with Slots := l }, h) := by
  rw [AddItem, if_neg (not_not_intro hv), if_neg (not_not_intro hs)]
  simp only [if_neg hr, hp]

theorem AddItem_failed (h : Heap) (g : FInventorySlots) (p : ItemPtr)
    (hv : IsValid h p) (hs : g.IsTypeSupported h p)
    (hr : ¬ (stackPhase h g p).returned = true)
    (hp : placePhase h p (stackPhase h g p) = none) :
    AddItem h g p =
      (.Fail "Inventory is full. Remaining items were left in the source object",
        { g with Slots := (stackPhase h g p).slots },
        SetCurrentStackSize h p (stackPhase h g p).remaining) := by
  rw [AddItem, if_neg (not_not_intro hv), if_neg (not_not_intro hs)]
  simp only [if_neg hr, hp]

theorem stackPhase_sum (h : Heap) (g : FInventorySlots) (p : ItemPtr) :
    sumStacks (stackPhase h g p).slots + (stackPhase h g p).remaining =
      sumStacks g.Slots + (h.deref p).CurrentStackSize := by
  unfold stackPhase
  split
  · exact stackLoop_sum _ _ _ _
  · rfl

theorem stackPhase_bounds (h : Heap) (g : FInventorySlots) (p : ItemPtr)
    (h0 : 0 ≤ (h.deref p).CurrentStackSize) :
    0 ≤ (stackPhase h g p).remaining ∧
      (stackPhase h g p).remaining ≤ (h.deref p).CurrentStackSize := by
  unfold stackPhase
  split
  · exact stackLoop_bounds _ _ _ _ h0
  · exact ⟨h0, le_refl _⟩

theorem stackPhase_returned (h : Heap) (g : FInventorySlots) (p : ItemPtr)
    (hr : (stackPhase h g p).returned = true) : (stackPhase h g p).remaining ≤ 0 := by
  unfold stackPhase at hr ⊢
  split
  · rename_i hst; rw [if_pos hst] at hr; exact stackLoop_returned _ _ _ _ hr
  · rename_i hst; rw [if_neg hst] at hr; cases hr

theorem stackPhase_pointwise (h : Heap) (g : FInventorySlots) (p : ItemPtr) :
    List.Forall₂ MergedFrom g.Slots (stackPhase h g p).slots := by
  unfold stackPhase
  split
  · exact stackLoop_pointwise _ _ _ _
  · exact List.forall₂_same.mpr (fun t _ => MergedFrom.refl t)

theorem stackPhase_zero (h : Heap) (g : FInventorySlots) (p : ItemPtr)
    (hz : EmptySlotsAreZero g.Slots) : EmptySlotsAreZero (stackPhase h g p).slots :=
  MergedFrom.zero (stackPhase_pointwise h g p) hz

theorem firstFitMerge_zero (h : Heap) (p : ItemPtr) (l : List FInventorySlot) :
    firstFitMerge h p l 0 = (l, 0) := by
  induction l with
  | nil => rfl
  | cons s rest ih =>
    unfold firstFitMerge
    split
    · rename_i hc
      have hf := hc.2.1
      unfold FInventorySlot.IsFull at hf
      have hm : min 0 (s.MaxStackSize - s.CurrentStackSize) = 0 := min_eq_left (by omega)
      simp only [hm, sub_zero, add_zero, ih]
    · simp only [ih]

theorem stackLoop_eq_firstFit (h : Heap) (p : ItemPtr) (l : List FInventorySlot) (r : Int)
    (hr0 : 0 ≤ r) :
    (stackLoop h p l r).slots = (firstFitMerge h p l r).1 ∧
      (stackLoop h p l r).remaining = (firstFitMerge h p l r).2 := by
  induction l generalizing r with
  | nil => exact ⟨rfl, rfl⟩
  | cons s rest ih =>
    by_cases hc : Merges h p s
    · have hc1 : ¬ s.IsEmpty ∧ ¬ s.IsFull ∧ GetItemID h s.Item = GetItemID h p :=
        ⟨hc.1.1, hc.2, hc.1.2⟩
      have hb := s.AddToStack_bounds r hc.2 hr0
      have hadd : s.AddToStack r =
          ({ s with CurrentStackSize :=
              s.CurrentStackSize + min r (s.MaxStackSize - s.CurrentStackSize) },
            r - min r (s.MaxStackSize - s.CurrentStackSize)) := by
        have hf := hc.2
        unfold FInventorySlot.IsFull at hf
        unfold FInventorySlot.AddToStack FInventorySlot.GetAvailableSpace
        split
        · rename_i h0
          have hr : r = 0 := by
            rcases h0 with h0 | h0
            · omega
            · exact absurd h0 hc.1.1
          subst hr
          have hm : min 0 (s.MaxStackSize - s.CurrentStackSize) = 0 := min_eq_left (by omega)
          simp [hm]
        · rfl
      rw [firstFitMerge, if_pos hc1]
      by_cases hr : (s.AddToStack r).2 ≤ 0
      · rw [stackLoop_done h p s rest r hc hr]
        have hz : (s.AddToStack r).2 = 0 := by omega
        rw [hadd] at hz ⊢
        simp only at hz
        simp only [hz, firstFitMerge_zero]
        exact ⟨trivial, trivial⟩
      · rw [stackLoop_more h p s rest r hc hr]
        have := ih (s.AddToStack r).2 hb.1
        rw [hadd] at this ⊢
        simp only at this ⊢
        rw [this.1, this.2]
        exact ⟨rfl, rfl⟩
    · have hc1 : ¬ (¬ s.IsEmpty ∧ ¬ s.IsFull ∧ GetItemID h s.Item = GetItemID h p) :=
        fun hx => hc ⟨⟨hx.1, hx.2.2⟩, hx.2.1⟩
      rw [stackLoop_skip h p s rest r hc, firstFitMerge, if_neg hc1]
      have := ih r hr0
      simp only [this.1, this.2]
      exact ⟨trivial, trivial⟩

theorem stackLoop_pending (h : Heap) (p : ItemPtr) (l : List FInventorySlot) (r : Int)
    (hr1 : 1 ≤ r) (hn : ¬ (stackLoop h p l r).returned = true) :
    1 ≤ (stackLoop h p l r).remaining := by
  induction l generalizing r with
  | nil => exact hr1
  | cons s rest ih =>
    by_cases hc : Merges h p s
    · by_cases hr : (s.AddToStack r).2 ≤ 0
      · rw [stackLoop_done h p s rest r hc hr] at hn; exact absurd rfl hn
      · rw [stackLoop_more h p s rest r hc hr] at hn ⊢
        exact ih _ (by omega) hn
    · rw [stackLoop_skip h p s rest r hc] at hn ⊢
      exact ih r hr1 hn

end FInventorySlots

theorem SameObjects_refl (h : Heap) : SameObjects h h := ⟨rfl, fun _ => ⟨rfl, rfl⟩⟩

theorem SameObjects_trans {h h1 h2 : Heap} (a : SameObjects h h1) (b : SameObjects h1 h2) :
    SameObjects h h2 :=
  ⟨b.1.trans a.1, fun r => ⟨(b.2 r).1.trans (a.2 r).1, (b.2 r).2.trans (a.2 r).2⟩⟩

theorem SameObjects_SetCurrentStackSize (h : Heap) (p : ItemPtr) (n : Int) :
    SameObjects h (SetCurrentStackSize h p n) := by
  cases p with
  | none => exact SameObjects_refl h
  | some r =>
    unfold SetCurrentStackSize
    refine ⟨by simp, fun k => ?_⟩
    rw [getD_set]
    by_cases hk : r = k ∧ r < h.length
    · rw [if_pos hk]
      obtain ⟨rfl, _⟩ := hk
      unfold UItemBase.SetCurrentStackSize Heap.deref
      split <;> exact ⟨rfl, rfl⟩
    · rw [if_neg hk]; exact ⟨rfl, rfl⟩

theorem SameObjects_IsValid {h h1 : Heap} (a : SameObjects h h1) (p : ItemPtr) :
    IsValid h1 p ↔ IsValid h p := by
  cases p with
  | none => exact Iff.rfl
  | some r => simp only [IsValid, a.1, (a.2 r).1]

theorem SameObjects_types {h h1 : Heap} (a : SameObjects h h1) (p : ItemPtr) :
    (h1.deref p).ItemDefinition = (h.deref p).ItemDefinition := by
  cases p with
  | none => rfl
  | some r => exact (a.2 r).2

theorem SameObjects_IsTypeSupported {h h1 : Heap} (a : SameObjects h h1)
    (g g1 : FInventorySlots) (hg : g1.TypeIDMap = g.TypeIDMap) (p : ItemPtr) :
    g1.IsTypeSupported h1 p ↔ g.IsTypeSupported h p := by
  unfold IsTypeSupported ContainsTypeID
  rw [hg, SameObjects_types a p]
  by_cases hv : IsValid h p
  · rw [if_neg (not_not_intro hv), if_neg (not_not_intro ((SameObjects_IsValid a p).mpr hv))]
  · rw [if_pos hv, if_pos (fun hx => hv ((SameObjects_IsValid a p).mp hx))]

theorem MergedFrom_refl (t : FInventorySlot) : MergedFrom t t :=
  ⟨fun _ => rfl, fun ht => ⟨ht, rfl, rfl⟩⟩

theorem MergedFrom_trans {s t u : FInventorySlot} (a : MergedFrom s t) (b : MergedFrom t u) :
    MergedFrom s u := by
  refine ⟨fun hs => ?_, fun hs => ?_⟩
  · have := a.1 hs; subst this; exact b.1 hs
  · obtain ⟨h1, h2, h3⟩ := a.2 hs
    obtain ⟨h4, h5, h6⟩ := b.2 h1
    exact ⟨h4, h5.trans h2, h6.trans h3⟩

theorem MergedFrom_list_refl (l : List FInventorySlot) : List.Forall₂ MergedFrom l l :=
  List.forall₂_same.mpr (fun t _ => MergedFrom_refl t)

theorem MergedFrom_list_trans {l l1 l2 : List FInventorySlot}
    (a : List.Forall₂ MergedFrom l l1) (b : List.Forall₂ MergedFrom l1 l2) :
    List.Forall₂ MergedFrom l l2 := by
  induction a generalizing l2 with
  | nil => cases b; exact List.Forall₂.nil
  | cons hst _ ih =>
    cases b with
    | cons htu b1 => exact List.Forall₂.cons (MergedFrom_trans hst htu) (ih b1)

theorem MergedFrom_set (l : List FInventorySlot) (i : Nat) (x : FInventorySlot)
    (hx : MergedFrom (l.getD i FInventorySlot.ctor) x) :
    List.Forall₂ MergedFrom l (l.set i x) := by
  induction l generalizing i with
  | nil => exact List.Forall₂.nil
  | cons s rest ih =>
    cases i with
    | zero => exact List.Forall₂.cons hx (MergedFrom_list_refl rest)
    | succ i =>
      exact List.Forall₂.cons (MergedFrom_refl s) (ih i (by simpa using hx))

theorem MergedFrom_getD {l l1 : List FInventorySlot} (a : List.Forall₂ MergedFrom l l1)
    (i : Nat) : MergedFrom (l.getD i FInventorySlot.ctor) (l1.getD i FInventorySlot.ctor) := by
  induction a generalizing i with
  | nil => exact MergedFrom_refl _
  | cons hst _ ih =>
    cases i with
    | zero => exact hst
    | succ i => simpa using ih i

namespace FInventorySlots

theorem AddItem_TypeIDMap (h : Heap) (g : FInventorySlots) (p : ItemPtr) :
    (AddItem h g p).2.1.TypeIDMap = g.TypeIDMap := by
  unfold AddItem
  split
  · rfl
  · split
    · rfl
    · simp only
      split
      · rfl
      · split <;> rfl

theorem AddItem_SameObjects (h : Heap) (g : FInventorySlots) (p : ItemPtr) :
    SameObjects h (AddItem h g p).2.2 := by
  unfold AddItem
  split
  · exact SameObjects_refl h
  · split
    · exact SameObjects_refl h
    · simp only
      split
      · exact SameObjects_refl h
      · split
        · exact SameObjects_refl h
        · exact SameObjects_SetCurrentStackSize h p _

theorem AddItem_fail_pointwise (h : Heap) (g : FInventorySlots) (p : ItemPtr)
    (hf : (AddItem h g p).1.bSuccess = false) :
    List.Forall₂ MergedFrom g.Slots (AddItem h g p).2.1.Slots := by
  by_cases hv : IsValid h p
  · by_cases hs : g.IsTypeSupported h p
    · by_cases hr : (stackPhase h g p).returned = true
      · rw [AddItem_returned h g p hv hs hr] at hf; cases hf
      · cases hp : placePhase h p (stackPhase h g p) with
        | some l => rw [AddItem_placed h g p hv hs hr l hp] at hf; cases hf
        | none =>
          rw [AddItem_failed h g p hv hs hr hp]
          exact stackPhase_pointwise h g p
    · rw [AddItem, if_neg (not_not_intro hv), if_pos hs]
      exact MergedFrom_list_refl _
  · rw [AddItem, if_pos hv]
    exact MergedFrom_list_refl _

theorem AddToStack_MergedFrom (s : FInventorySlot) (a : Int) (he : ¬ s.IsEmpty)
    (hf : ¬ s.IsFull) : MergedFrom s (s.AddToStack a).1 :=
  ⟨fun hx => absurd hx he,
    fun _ => ⟨s.AddToStack_not_empty a hf he, s.AddToStack_Item a, s.AddToStack_Max a⟩⟩

theorem AddItemToSlot_TypeIDMap (h : Heap) (g : FInventorySlots) (p : ItemPtr) (i : Int) :
    (AddItemToSlot h g p i).2.1.TypeIDMap = g.TypeIDMap := by
  unfold AddItemToSlot
  split
  · rfl
  · split
    · rfl
    · split
      · rfl
      · simp only
        split
        · rfl
        · split
          · split
            · rfl
            · exact AddItem_TypeIDMap _ _ _
          · exact AddItem_TypeIDMap _ _ _

theorem AddItemToSlot_SameObjects (h : Heap) (g : FInventorySlots) (p : ItemPtr) (i : Int) :
    SameObjects h (AddItemToSlot h g p i).2.2 := by
  unfold AddItemToSlot
  split
  · exact SameObjects_refl h
  · split
    · exact SameObjects_refl h
    · split
      · exact SameObjects_refl h
      · simp only
        split
        · exact SameObjects_refl h
        · split
          · split
            · exact SameObjects_refl h
            · exact SameObjects_trans (SameObjects_SetCurrentStackSize h p _)
                (AddItem_SameObjects _ _ _)
          · exact AddItem_SameObjects _ _ _

theorem AddItemToSlot_fail_pointwise (h : Heap) (g : FInventorySlots) (p : ItemPtr) (i : Int)
    (hf : (AddItemToSlot h g p i).1.bSuccess = false) :
    List.Forall₂ MergedFrom g.Slots (AddItemToSlot h g p i).2.1.Slots := by
  unfold AddItemToSlot at hf ⊢
  by_cases hv : IsValid h p
  · rw [if_neg (not_not_intro hv)] at hf ⊢
    by_cases hi : IsValidIndex g.Slots i
    · rw [if_neg (not_not_intro hi)] at hf ⊢
      by_cases hs : g.IsTypeSupported h p
      · rw [if_neg (not_not_intro hs)] at hf ⊢
        simp only at hf ⊢
        by_cases he : (slotAt g.Slots i).IsEmpty
        · rw [if_pos he] at hf; cases hf
        · rw [if_neg he] at hf ⊢
          by_cases hm : (h.deref p).bIsStackable = true ∧
              GetItemID h (slotAt g.Slots i).Item = GetItemID h p ∧ ¬ (slotAt g.Slots i).IsFull
          · rw [if_pos hm] at hf ⊢
            by_cases hr : ((slotAt g.Slots i).AddToStack (h.deref p).CurrentStackSize).2 ≤ 0
            · rw [if_pos hr] at hf; cases hf
            · rw [if_neg hr] at hf ⊢
              exact MergedFrom_list_trans
                (MergedFrom_set g.Slots i.toNat _ (AddToStack_MergedFrom _ _ he hm.2.2))
                (AddItem_fail_pointwise _ _ _ hf)
          · rw [if_neg hm] at hf ⊢
            exact AddItem_fail_pointwise _ _ _ hf
      · rw [if_pos hs]; exact MergedFrom_list_refl _
    · rw [if_pos hi]; exact MergedFrom_list_refl _
  · rw [if_pos hv]; exact MergedFrom_list_refl _

theorem AddItemToSlot_empty (h : Heap) (g : FInventorySlots) (p : ItemPtr) (i : Int)
    (hv : IsValid h p) (hi : IsValidIndex g.Slots i) (hs : g.IsTypeSupported h p)
    (he : (slotAt g.Slots i).IsEmpty) :
    AddItemToSlot h g p i =
      (.Ok, FInventorySlots.mk g.MaxSlotSize g.TypeIDMap
        (g.Slots.set i.toNat (specSetItem h p (h.deref p).CurrentStackSize)), h) := by
  unfold AddItemToSlot
  rw [if_neg (not_not_intro hv), if_neg (not_not_intro hi), if_neg (not_not_intro hs)]
  simp only [if_pos he, SetItem_valid h _ p _ hv]

end FInventorySlots

/-! ### Consolidation -/


theorem totalLoop_cons (h : Heap) (x : String) (s : FInventorySlot) (l : List FInventorySlot) :
    totalLoop h x (s :: l) = slotShare h x s + totalLoop h x l := rfl

theorem slotShare_empty (h : Heap) (x : String) (s : FInventorySlot) (he : s.IsEmpty) :
    slotShare h x s = 0 := by
  unfold slotShare; rw [if_neg (fun hx => hx.1 he)]

theorem slotShare_hit (h : Heap) (x : String) (s : FInventorySlot) (he : ¬ s.IsEmpty)
    (hx : GetItemID h s.Item = x) : slotShare h x s = s.CurrentStackSize := by
  unfold slotShare; rw [if_pos ⟨he, hx⟩]

theorem slotShare_miss (h : Heap) (x : String) (s : FInventorySlot)
    (hx : GetItemID h s.Item ≠ x) : slotShare h x s = 0 := by
  unfold slotShare; rw [if_neg (fun hy => hx hy.2)]

theorem Shrunk_refl (t : FInventorySlot) : Shrunk t t := by
  by_cases ht : t.IsEmpty
  · exact Or.inl ht
  · exact Or.inr ⟨ht, rfl⟩

theorem Shrunk_trans {t t1 t2 : FInventorySlot} (a : Shrunk t t1) (b : Shrunk t1 t2) :
    Shrunk t t2 := by
  rcases b with b | ⟨b1, b2⟩
  · exact Or.inl b
  · rcases a with a | ⟨a1, a2⟩
    · exact absurd a b1
    · exact Or.inr ⟨a1, b2.trans a2⟩

theorem Shrunk_list_refl (l : List FInventorySlot) : List.Forall₂ Shrunk l l :=
  List.forall₂_same.mpr (fun t _ => Shrunk_refl t)

theorem NoMatch_of_Shrunk (h : Heap) (s s1 : FInventorySlot) {l l1 : List FInventorySlot}
    (hs : s1.Item = s.Item) (a : List.Forall₂ Shrunk l l1) (hn : NoMatch h s l) :
    NoMatch h s1 l1 := by
  induction a with
  | nil => intro t ht; cases ht
  | @cons t t1 l l1 htt _ ih =>
    intro u hu
    rcases List.mem_cons.mp hu with rfl | hu
    · rcases htt with he | ⟨hne, hi⟩
      · exact Or.inl he
      · rcases hn t (List.mem_cons_self _ _) with h1 | h1
        · exact absurd h1 hne
        · right; rw [hi, hs]; exact h1
    · exact ih (fun v hv => hn v (List.mem_cons_of_mem _ hv)) u hu

namespace FInventorySlot

/-- The transfer step of `ConsolidateStacks` on the receiving slot. -/
theorem absorb_receiver (si : FInventorySlot) (T : Int) (hne : ¬ si.IsEmpty) (h1 : 1 ≤ T)
    (h2 : T ≤ si.GetAvailableSpace) :
    (si.AddToStack T).1 = { si with CurrentStackSize := si.CurrentStackSize + T } := by
  unfold AddToStack
  rw [if_neg (by rintro (hx | hx); omega; exact hne hx)]
  simp only [min_eq_left h2]

/-- The transfer step of `ConsolidateStacks` on the giving slot. -/
theorem absorb_giver (sj : FInventorySlot) (T : Int) (h1 : 1 ≤ T)
    (h2 : T ≤ sj.CurrentStackSize) :
    (sj.RemoveFromStack T).1 =
      if sj.CurrentStackSize - T ≤ 0 then FInventorySlot.ctor
      else { sj with CurrentStackSize := sj.CurrentStackSize - T } := by
  unfold RemoveFromStack
  rw [if_neg (by omega)]
  simp only [min_eq_left h2]
  split <;> rfl

end FInventorySlot

namespace FInventorySlots

theorem absorbLoop_nil (h : Heap) (si : FInventorySlot) : absorbLoop h si [] = (si, []) := rfl

theorem absorbLoop_skip (h : Heap) (si sj : FInventorySlot) (rest : List FInventorySlot)
    (hc : sj.IsEmpty ∨ GetItemID h sj.Item ≠ GetItemID h si.Item) :
    absorbLoop h si (sj :: rest) = ((absorbLoop h si rest).1, sj :: (absorbLoop h si rest).2) := by
  rw [absorbLoop, if_pos hc]

theorem absorbLoop_full (h : Heap) (si sj : FInventorySlot) (rest : List FInventorySlot)
    (hc : ¬ (sj.IsEmpty ∨ GetItemID h sj.Item ≠ GetItemID h si.Item))
    (hf : (si.AddToStack (min si.GetAvailableSpace sj.CurrentStackSize)).1.IsFull) :
    absorbLoop h si (sj :: rest) =
      ((si.AddToStack (min si.GetAvailableSpace sj.CurrentStackSize)).1,
        (sj.RemoveFromStack (min si.GetAvailableSpace sj.CurrentStackSize)).1 :: rest) := by
  rw [absorbLoop, if_neg hc]
  simp only [if_pos hf]

theorem absorbLoop_more (h : Heap) (si sj : FInventorySlot) (rest : List FInventorySlot)
    (hc : ¬ (sj.IsEmpty ∨ GetItemID h sj.Item ≠ GetItemID h si.Item))
    (hf : ¬ (si.AddToStack (min si.GetAvailableSpace sj.CurrentStackSize)).1.IsFull) :
    absorbLoop h si (sj :: rest) =
      ((absorbLoop h (si.AddToStack (min si.GetAvailableSpace sj.CurrentStackSize)).1 rest).1,
        (sj.RemoveFromStack (min si.GetAvailableSpace sj.CurrentStackSize)).1 ::
          (absorbLoop h (si.AddToStack (min si.GetAvailableSpace sj.CurrentStackSize)).1 rest).2) := by
  rw [absorbLoop, if_neg hc]
  simp only [if_neg hf]

/-- One transfer of the inner loop, for a non-empty, non-full receiver `si` and a
non-empty giver `sj`. -/
theorem absorb_step (si sj : FInventorySlot) (hne : ¬ si.IsEmpty) (hnf : ¬ si.IsFull)
    (hj : ¬ sj.IsEmpty) :
    let T := min si.GetAvailableSpace sj.CurrentStackSize
    (si.AddToStack T).1.Item = si.Item ∧ ¬ (si.AddToStack T).1.IsEmpty ∧
      (si.AddToStack T).1.CurrentStackSize = si.CurrentStackSize + T ∧
      (si.AddToStack T).1.MaxStackSize = si.MaxStackSize ∧
      1 ≤ T ∧ T ≤ sj.CurrentStackSize ∧
      ((sj.RemoveFromStack T).1 = FInventorySlot.ctor ∧ sj.CurrentStackSize = T ∨
        (sj.RemoveFromStack T).1 = { sj with CurrentStackSize := sj.CurrentStackSize - T } ∧
          T < sj.CurrentStackSize ∧ (si.AddToStack T).1.IsFull) := by
  intro T
  have hi : si.Item ≠ none ∧ 0 < si.CurrentStackSize := by
    unfold FInventorySlot.IsEmpty at hne; push_neg at hne; exact hne
  have hjj : sj.Item ≠ none ∧ 0 < sj.CurrentStackSize := by
    unfold FInventorySlot.IsEmpty at hj; push_neg at hj; exact hj
  have hroom : 0 < si.GetAvailableSpace := by
    unfold FInventorySlot.IsFull at hnf; unfold FInventorySlot.GetAvailableSpace; omega
  have hT1 : 1 ≤ T := by
    show 1 ≤ min si.GetAvailableSpace sj.CurrentStackSize
    exact le_min (by omega) (by omega)
  have hT2 : T ≤ si.GetAvailableSpace := min_le_left _ _
  have hT3 : T ≤ sj.CurrentStackSize := min_le_right _ _
  have hr := si.absorb_receiver T hne hT1 hT2
  have hg := sj.absorb_giver T hT1 hT3
  rw [hr, hg]
  refine ⟨rfl, ?_, rfl, rfl, hT1, hT3, ?_⟩
  · unfold FInventorySlot.IsEmpty; push_neg; exact ⟨hi.1, by simp only; omega⟩
  · by_cases hz : sj.CurrentStackSize - T ≤ 0
    · left; rw [if_pos hz]; exact ⟨rfl, by omega⟩
    · right; rw [if_neg hz]
      refine ⟨rfl, by omega, ?_⟩
      unfold FInventorySlot.IsFull
      simp only
      have : T = si.GetAvailableSpace := by
        rcases min_choice si.GetAvailableSpace sj.CurrentStackSize with hm | hm
        · exact hm
        · have : T = sj.CurrentStackSize := hm
          omega
      unfold FInventorySlot.GetAvailableSpace at this
      omega

/-- One transfer leaves the two slots' contribution to every total unchanged. -/
theorem absorb_step_total (h : Heap) (x : String) (si sj : FInventorySlot)
    (hne : ¬ si.IsEmpty) (hnf : ¬ si.IsFull)
    (hc : ¬ (sj.IsEmpty ∨ GetItemID h sj.Item ≠ GetItemID h si.Item)) :
    totalLoop h x [(si.AddToStack (min si.GetAvailableSpace sj.CurrentStackSize)).1,
        (sj.RemoveFromStack (min si.GetAvailableSpace sj.CurrentStackSize)).1] =
      totalLoop h x [si, sj] := by
  push_neg at hc
  obtain ⟨hj, hid⟩ := hc
  obtain ⟨h1, h2, h3, -, hT1, hT3, h4⟩ := absorb_step si sj hne hnf hj
  have hid1 : GetItemID h (si.AddToStack (min si.GetAvailableSpace sj.CurrentStackSize)).1.Item
      = GetItemID h si.Item := by rw [h1]
  simp only [totalLoop_cons, totalLoop, add_zero]
  by_cases hx : GetItemID h si.Item = x
  · rw [slotShare_hit h x _ h2 (hid1.trans hx), slotShare_hit h x si hne hx,
      slotShare_hit h x sj hj (hid.trans hx), h3]
    rcases h4 with ⟨hz, hzz⟩ | ⟨hz, hlt, -⟩
    · rw [hz, slotShare_empty h x _ (Or.inl rfl)]; omega
    · rw [hz]
      have hne2 : ¬ ({ sj with CurrentStackSize :=
          sj.CurrentStackSize - min si.GetAvailableSpace sj.CurrentStackSize } :
            FInventorySlot).IsEmpty := by
        unfold FInventorySlot.IsEmpty at hj ⊢
        push_neg at hj ⊢
        exact ⟨hj.1, by simp only; omega⟩
      rw [slotShare_hit h x _ hne2 (hid.trans hx)]
      simp only; omega
  · rw [slotShare_miss h x _ (fun hy => hx (hid1.symm.trans hy)), slotShare_miss h x si hx,
      slotShare_miss h x sj (fun hy => hx (hid.symm.trans hy))]
    rcases h4 with ⟨hz, -⟩ | ⟨hz, -, -⟩
    · rw [hz, slotShare_empty h x _ (Or.inl rfl)]
    · rw [hz, slotShare_miss h x (FInventorySlot.mk sj.Item
        (sj.CurrentStackSize - min si.GetAvailableSpace sj.CurrentStackSize) sj.MaxStackSize)
        (fun hy => hx (hid.symm.trans hy))]

/-- The inner loop of `ConsolidateStacks` for a non-empty, non-full `Slots[i]`:
the slot keeps its item, later slots only shrink, the loop ends with `Slots[i]`
full or with no later non-empty slot of the same item ID, and every total is
unchanged. -/
theorem absorbLoop_spec (h : Heap) (rest : List FInventorySlot) (si : FInventorySlot)
    (hne : ¬ si.IsEmpty) (hnf : ¬ si.IsFull) :
    (absorbLoop h si rest).1.Item = si.Item ∧ ¬ (absorbLoop h si rest).1.IsEmpty ∧
      List.Forall₂ Shrunk rest (absorbLoop h si rest).2 ∧
      ((absorbLoop h si rest).1.IsFull ∨
        NoMatch h (absorbLoop h si rest).1 (absorbLoop h si rest).2) ∧
      ∀ x, totalLoop h x ((absorbLoop h si rest).1 :: (absorbLoop h si rest).2) =
        totalLoop h x (si :: rest) := by
  induction rest generalizing si with
  | nil =>
    rw [absorbLoop_nil]
    exact ⟨rfl, hne, List.Forall₂.nil, Or.inr (fun t ht => by cases ht), fun _ => rfl⟩
  | cons sj rest ih =>
    by_cases hc : sj.IsEmpty ∨ GetItemID h sj.Item ≠ GetItemID h si.Item
    · rw [absorbLoop_skip h si sj rest hc]
      obtain ⟨i1, i2, i3, i4, i5⟩ := ih si hne hnf
      refine ⟨i1, i2, List.Forall₂.cons (Shrunk_refl sj) i3, ?_, ?_⟩
      · rcases i4 with i4 | i4
        · exact Or.inl i4
        · right
          intro t ht
          rcases List.mem_cons.mp ht with rfl | ht
          · simp only; rw [i1]; exact hc
          · exact i4 t ht
      · intro x
        have := i5 x
        simp only [totalLoop_cons] at this ⊢
        omega
    · have hj : ¬ sj.IsEmpty := fun hx => hc (Or.inl hx)
      obtain ⟨h1, h2, h3, h3m, hT1, hT3, h4⟩ := absorb_step si sj hne hnf hj
      have htot := fun x => absorb_step_total h x si sj hne hnf hc
      have hshr : Shrunk sj (sj.RemoveFromStack (min si.GetAvailableSpace sj.CurrentStackSize)).1 := by
        rcases h4 with ⟨hz, -⟩ | ⟨hz, -, -⟩
        · rw [hz]; exact Or.inl (Or.inl rfl)
        · rw [hz]; exact Or.inr ⟨hj, rfl⟩
      by_cases hf : (si.AddToStack (min si.GetAvailableSpace sj.CurrentStackSize)).1.IsFull
      · rw [absorbLoop_full h si sj rest hc hf]
        refine ⟨h1, h2, List.Forall₂.cons hshr (Shrunk_list_refl rest), Or.inl hf, ?_⟩
        intro x
        have := htot x
        simp only [totalLoop_cons, totalLoop, add_zero] at this ⊢
        omega
      · rw [absorbLoop_more h si sj rest hc hf]
        obtain ⟨i1, i2, i3, i4, i5⟩ := ih _ h2 hf
        have hgone : (sj.RemoveFromStack (min si.GetAvailableSpace sj.CurrentStackSize)).1.IsEmpty := by
          rcases h4 with ⟨hz, -⟩ | ⟨-, -, hz⟩
          · rw [hz]; exact Or.inl rfl
          · exact absurd hz hf
        refine ⟨i1.trans h1, i2, List.Forall₂.cons hshr i3, ?_, ?_⟩
        · rcases i4 with i4 | i4
          · exact Or.inl i4
          · right
            intro t ht
            rcases List.mem_cons.mp ht with rfl | ht
            · exact Or.inl hgone
            · exact i4 t ht
        · intro x
          have a := htot x
          have b := i5 x
          simp only [totalLoop_cons, totalLoop, add_zero] at a b ⊢
          omega

/-- With no later non-empty slot of the same item ID the inner loop changes nothing. -/
theorem absorbLoop_NoMatch (h : Heap) (si : FInventorySlot) (rest : List FInventorySlot)
    (hn : NoMatch h si rest) : absorbLoop h si rest = (si, rest) := by
  induction rest with
  | nil => rfl
  | cons sj rest ih =>
    rw [absorbLoop_skip h si sj rest (hn sj (List.mem_cons_self _ _)),
      ih (fun t ht => hn t (List.mem_cons_of_mem _ ht))]

theorem Shrunk_list_trans {l l1 l2 : List FInventorySlot}
    (a : List.Forall₂ Shrunk l l1) (b : List.Forall₂ Shrunk l1 l2) :
    List.Forall₂ Shrunk l l2 := by
  induction a generalizing l2 with
  | nil => cases b; exact List.Forall₂.nil
  | cons hst _ ih =>
    cases b with
    | cons htu b1 => exact List.Forall₂.cons (Shrunk_trans hst htu) (ih b1)

theorem consolidateFrom_skip (h : Heap) (n : Nat) (si : FInventorySlot)
    (rest : List FInventorySlot)
    (hc : si.IsEmpty ∨ ¬ (h.deref si.Item).bIsStackable = true ∨ si.IsFull) :
    consolidateFrom h (n + 1) (si :: rest) = si :: consolidateFrom h n rest := by
  rw [consolidateFrom, if_pos hc]

theorem consolidateFrom_take (h : Heap) (n : Nat) (si : FInventorySlot)
    (rest : List FInventorySlot)
    (hc : ¬ (si.IsEmpty ∨ ¬ (h.deref si.Item).bIsStackable = true ∨ si.IsFull)) :
    consolidateFrom h (n + 1) (si :: rest) =
      (absorbLoop h si rest).1 :: consolidateFrom h n (absorbLoop h si rest).2 := by
  rw [consolidateFrom, if_neg hc]

theorem consolidateFrom_Shrunk (h : Heap) (n : Nat) (l : List FInventorySlot) :
    List.Forall₂ Shrunk l (consolidateFrom h n l) := by
  induction n generalizing l with
  | zero => exact Shrunk_list_refl l
  | succ n ih =>
    cases l with
    | nil => exact List.Forall₂.nil
    | cons si rest =>
      by_cases hc : si.IsEmpty ∨ ¬ (h.deref si.Item).bIsStackable = true ∨ si.IsFull
      · rw [consolidateFrom_skip h n si rest hc]
        exact List.Forall₂.cons (Shrunk_refl si) (ih rest)
      · rw [consolidateFrom_take h n si rest hc]
        push_neg at hc
        obtain ⟨i1, i2, i3, -, -⟩ := absorbLoop_spec h rest si hc.1 hc.2.2
        exact List.Forall₂.cons (Or.inr ⟨hc.1, i1⟩) (Shrunk_list_trans i3 (ih _))

theorem consolidateFrom_length (h : Heap) (n : Nat) (l : List FInventorySlot) :
    (consolidateFrom h n l).length = l.length :=
  (consolidateFrom_Shrunk h n l).length_eq.symm

theorem consolidateFrom_total (h : Heap) (x : String) (n : Nat) (l : List FInventorySlot) :
    totalLoop h x (consolidateFrom h n l) = totalLoop h x l := by
  induction n generalizing l with
  | zero => rfl
  | succ n ih =>
    cases l with
    | nil => rfl
    | cons si rest =>
      by_cases hc : si.IsEmpty ∨ ¬ (h.deref si.Item).bIsStackable = true ∨ si.IsFull
      · rw [consolidateFrom_skip h n si rest hc, totalLoop_cons, totalLoop_cons, ih]
      · rw [consolidateFrom_take h n si rest hc]
        push_neg at hc
        obtain ⟨-, -, -, -, i5⟩ := absorbLoop_spec h rest si hc.1 hc.2.2
        have := i5 x
        rw [totalLoop_cons, ih]
        rw [totalLoop_cons] at this
        exact this

theorem consolidateFrom_Packed (h : Heap) (n : Nat) (l : List FInventorySlot)
    (hn : l.length ≤ n) : Packed h (consolidateFrom h n l) := by
  induction n generalizing l with
  | zero =>
    have : l = [] := List.length_eq_zero.mp (by omega)
    subst this
    exact trivial
  | succ n ih =>
    cases l with
    | nil => exact trivial
    | cons si rest =>
      have hr : rest.length ≤ n := by simpa using hn
      by_cases hc : si.IsEmpty ∨ ¬ (h.deref si.Item).bIsStackable = true ∨ si.IsFull
      · rw [consolidateFrom_skip h n si rest hc]
        refine ⟨fun hx => ?_, ih rest hr⟩
        rcases hc with hc | hc | hc
        · exact absurd hc hx.1
        · exact absurd hx.2.1 hc
        · exact absurd hc hx.2.2
      · rw [consolidateFrom_take h n si rest hc]
        push_neg at hc
        obtain ⟨-, -, i3, i4, -⟩ := absorbLoop_spec h rest si hc.1 hc.2.2
        refine ⟨fun hx => ?_, ih _ (by rw [← i3.length_eq]; exact hr)⟩
        rcases i4 with i4 | i4
        · exact absurd i4 hx.2.2
        · exact NoMatch_of_Shrunk h _ _ rfl (consolidateFrom_Shrunk h n _) i4

theorem consolidateFrom_fix (h : Heap) (n : Nat) (l : List FInventorySlot)
    (hp : Packed h l) : consolidateFrom h n l = l := by
  induction n generalizing l with
  | zero => rfl
  | succ n ih =>
    cases l with
    | nil => rfl
    | cons si rest =>
      by_cases hc : si.IsEmpty ∨ ¬ (h.deref si.Item).bIsStackable = true ∨ si.IsFull
      · rw [consolidateFrom_skip h n si rest hc, ih rest hp.2]
      · rw [consolidateFrom_take h n si rest hc]
        push_neg at hc
        rw [absorbLoop_NoMatch h si rest (hp.1 ⟨hc.1, hc.2.1, hc.2.2⟩), ih rest hp.2]

end FInventorySlots

/-! ### Compaction -/


theorem getD_append_len {α : Type} (A : List α) (s : α) (rest : List α) (d : α) :
    (A ++ s :: rest).getD A.length d = s := by
  induction A with
  | nil => rfl
  | cons a A ih => simpa using ih

theorem set_append_len {α : Type} (A : List α) (s x : α) (rest : List α) :
    (A ++ s :: rest).set A.length x = A ++ x :: rest := by
  induction A with
  | nil => rfl
  | cons a A ih => simp [ih]

theorem getD_mem_or_default {α : Type} (P : α → Prop) (E : List α) (d : α) (j : Nat)
    (hE : ∀ e ∈ E, P e) (hd : P d) : P (E.getD j d) := by
  induction E generalizing j with
  | nil => simpa using hd
  | cons e E ih =>
    cases j with
    | zero => simpa using hE e (List.mem_cons_self _ _)
    | succ j => simpa using ih j (fun u hu => hE u (List.mem_cons_of_mem _ hu))

theorem getD_append_ge {α : Type} (A E : List α) (d : α) (i : Nat) (hi : A.length ≤ i) :
    (A ++ E).getD i d = E.getD (i - A.length) d := by
  induction A generalizing i with
  | nil => rfl
  | cons a A ih =>
    cases i with
    | zero => simp at hi
    | succ i =>
      have := ih i (by simpa using hi)
      simpa using this

namespace FInventorySlots

theorem Swap_cons (a : FInventorySlot) (l : List FInventorySlot) (i j : Nat) :
    Swap (a :: l) (i + 1) (j + 1) = a :: Swap l i j := by
  simp [Swap]

theorem Swap_window (A E : List FInventorySlot) (e s : FInventorySlot)
    (rest : List FInventorySlot) :
    Swap (A ++ e :: (E ++ s :: rest)) A.length (A.length + (E.length + 1)) =
      A ++ s :: (E ++ e :: rest) := by
  induction A with
  | nil =>
    have h1 : (e :: (E ++ s :: rest)).getD (E.length + 1) FInventorySlot.ctor = s := by
      simpa using getD_append_len E s rest FInventorySlot.ctor
    have h2 : (E ++ s :: rest).set E.length e = E ++ e :: rest := set_append_len E s e rest
    simp only [Swap, List.nil_append, List.length_nil, zero_add]
    rw [h1]
    simp [h2]
  | cons a A ih =>
    have : (a :: A).length + (E.length + 1) = (A.length + (E.length + 1)) + 1 := by
      simp; omega
    rw [List.cons_append, this, List.length_cons, Swap_cons, ih]
    rfl

theorem compactLoop_zero (w r : Nat) (l : List FInventorySlot) : compactLoop 0 w r l = l := rfl

theorem compactLoop_keep (n w r : Nat) (l : List FInventorySlot)
    (hc : ¬ (l.getD r FInventorySlot.ctor).IsEmpty) :
    compactLoop (n + 1) w r l =
      compactLoop n (w + 1) (r + 1) (if w ≠ r then Swap l w r else l) := by
  rw [compactLoop, if_pos hc]

theorem compactLoop_pass (n w r : Nat) (l : List FInventorySlot)
    (hc : (l.getD r FInventorySlot.ctor).IsEmpty) :
    compactLoop (n + 1) w r l = compactLoop n w (r + 1) l := by
  rw [compactLoop, if_neg (not_not_intro hc)]

/-- Once only empty slots are left to read, the compaction loop changes nothing. -/
theorem compactLoop_idle (n w r : Nat) (l : List FInventorySlot)
    (he : ∀ i, r ≤ i → (l.getD i FInventorySlot.ctor).IsEmpty) : compactLoop n w r l = l := by
  induction n generalizing r with
  | zero => rfl
  | succ n ih =>
    rw [compactLoop_pass n w r l (he r (le_refl _))]
    exact ih (r + 1) (fun i hi => he i (by omega))

theorem ctor_IsEmpty : FInventorySlot.ctor.IsEmpty := Or.inl rfl

/-- The compaction loop with `A` already written, the window `E` of empty slots
between `WriteIndex` and `ReadIndex`, and `rest` still to read: the non-empty
slots of `rest` follow `A` in their order, and only empty slots come after. -/
theorem compactLoop_spec (rest : List FInventorySlot) (n : Nat) (A E : List FInventorySlot)
    (hn : rest.length ≤ n) (hE : ∀ e ∈ E, e.IsEmpty) :
    ∃ E2 : List FInventorySlot, (∀ e ∈ E2, e.IsEmpty) ∧
      compactLoop n A.length (A.length + E.length) (A ++ E ++ rest) =
        A ++ rest.filter (fun s => ¬ s.IsEmpty) ++ E2 := by
  induction rest generalizing n A E with
  | nil =>
    refine ⟨E, hE, ?_⟩
    rw [compactLoop_idle]
    · simp
    · intro i hi
      rw [List.append_nil, getD_append_ge A E _ i (by omega)]
      exact getD_mem_or_default _ E _ _ hE ctor_IsEmpty
  | cons s rest ih =>
    cases n with
    | zero => simp at hn
    | succ n =>
      have hn1 : rest.length ≤ n := by simpa using hn
      have hget : (A ++ E ++ s :: rest).getD (A.length + E.length) FInventorySlot.ctor = s := by
        have := getD_append_len (A ++ E) s rest FInventorySlot.ctor
        simpa using this
      by_cases hs : s.IsEmpty
      · rw [compactLoop_pass n _ _ _ (by rw [hget]; exact hs)]
        have hE1 : ∀ e ∈ E ++ [s], e.IsEmpty := by
          intro e he
          rcases List.mem_append.mp he with he | he
          · exact hE e he
          · rw [List.mem_singleton.mp he]; exact hs
        obtain ⟨E2, h1, h2⟩ := ih n A (E ++ [s]) hn1 hE1
        refine ⟨E2, h1, ?_⟩
        have e1 : A ++ (E ++ [s]) ++ rest = A ++ E ++ s :: rest := by simp
        have e2 : A.length + (E ++ [s]).length = A.length + E.length + 1 := by simp; omega
        rw [e1, e2] at h2
        rw [h2, List.filter_cons_of_neg (by simpa using hs)]
      · rw [compactLoop_keep n _ _ _ (by rw [hget]; exact hs)]
        cases E with
        | nil =>
          obtain ⟨E2, h1, h2⟩ := ih n (A ++ [s]) [] hn1 (fun e he => by cases he)
          refine ⟨E2, h1, ?_⟩
          have e1 : A ++ [s] ++ [] ++ rest = A ++ [] ++ s :: rest := by simp
          have e2 : (A ++ [s]).length = A.length + 1 := by simp
          rw [e1, e2] at h2
          simp only [List.length_nil, add_zero, ne_eq, not_true_eq_false, if_false] at h2 ⊢
          rw [h2, List.filter_cons_of_pos (by simpa using hs)]
          simp
        | cons e E =>
          have hne : A.length ≠ A.length + (e :: E).length := by simp
          rw [if_pos hne]
          have hsw : Swap (A ++ (e :: E) ++ s :: rest) A.length (A.length + (e :: E).length)
              = A ++ [s] ++ (E ++ [e]) ++ rest := by
            have := Swap_window A E e s rest
            simpa using this
          rw [hsw]
          have hE1 : ∀ u ∈ E ++ [e], u.IsEmpty := by
            intro u hu
            rcases List.mem_append.mp hu with hu | hu
            · exact hE u (List.mem_cons_of_mem _ hu)
            · rw [List.mem_singleton.mp hu]; exact hE e (List.mem_cons_self _ _)
          obtain ⟨E2, h1, h2⟩ := ih n (A ++ [s]) (E ++ [e]) hn1 hE1
          refine ⟨E2, h1, ?_⟩
          have e2 : (A ++ [s]).length + (E ++ [e]).length
              = A.length + (e :: E).length + 1 := by simp; omega
          have e3 : (A ++ [s]).length = A.length + 1 := by simp
          rw [e2, e3] at h2
          rw [h2, List.filter_cons_of_pos (by simpa using hs)]
          simp

/-- On slots that are already compact (non-empty slots first, then empty ones)
the compaction loop changes nothing. -/
theorem compactLoop_sorted (N : List FInventorySlot) (n : Nat) (A E : List FInventorySlot)
    (hN : ∀ s ∈ N, ¬ s.IsEmpty) (hE : ∀ e ∈ E, e.IsEmpty) :
    compactLoop n A.length A.length (A ++ N ++ E) = A ++ N ++ E := by
  induction N generalizing n A with
  | nil =>
    apply compactLoop_idle
    intro i hi
    rw [List.append_nil, getD_append_ge A E _ i hi]
    exact getD_mem_or_default _ E _ _ hE ctor_IsEmpty
  | cons s N ih =>
    cases n with
    | zero => rfl
    | succ n =>
      have hget : (A ++ s :: N ++ E).getD A.length FInventorySlot.ctor = s := by
        have := getD_append_len A s (N ++ E) FInventorySlot.ctor
        simpa using this
      rw [compactLoop_keep n _ _ _ (by rw [hget]; exact hN s (List.mem_cons_self _ _))]
      simp only [ne_eq, not_true_eq_false, if_false]
      have := ih n (A ++ [s]) (fun u hu => hN u (List.mem_cons_of_mem _ hu))
      have e1 : A ++ [s] ++ N ++ E = A ++ s :: N ++ E := by simp
      have e3 : (A ++ [s]).length = A.length + 1 := by simp
      rw [e1, e3] at this
      exact this

end FInventorySlots

namespace FInventorySlots

theorem getD_beyond (l : List FInventorySlot) (j : Nat) (hj : l.length ≤ j) :
    l.getD j FInventorySlot.ctor = FInventorySlot.ctor := by
  simp [List.getD_eq_getElem?_getD, List.getElem?_eq_none hj]

theorem innerLoop_beyond (h : Heap) (i n j : Nat) (l : List FInventorySlot)
    (hj : l.length ≤ j) : innerLoop h i n j l = l := by
  induction n generalizing j with
  | zero => rfl
  | succ n ih =>
    rw [innerLoop, if_pos (Or.inl (by rw [getD_beyond l j hj]; exact ctor_IsEmpty))]
    exact ih (j + 1) (by omega)

theorem getD_mid (A D : List FInventorySlot) (x sj : FInventorySlot)
    (rest : List FInventorySlot) (k : Nat) (hk : k = A.length + 1 + D.length) :
    (A ++ x :: (D ++ sj :: rest)).getD k FInventorySlot.ctor = sj := by
  have h1 : A ++ x :: (D ++ sj :: rest) = (A ++ x :: D) ++ sj :: rest := by simp
  have h2 : k = (A ++ x :: D).length := by simp; omega
  rw [h1, h2]
  exact getD_append_len _ _ _ _

theorem set_mid (A D : List FInventorySlot) (x sj y : FInventorySlot)
    (rest : List FInventorySlot) (k : Nat) (hk : k = A.length + 1 + D.length) :
    (A ++ x :: (D ++ sj :: rest)).set k y = A ++ x :: (D ++ y :: rest) := by
  have h1 : A ++ x :: (D ++ sj :: rest) = (A ++ x :: D) ++ sj :: rest := by simp
  have h2 : k = (A ++ x :: D).length := by simp; omega
  rw [h1, h2, set_append_len]
  simp

/-- The index form of the inner loop agrees with its list form: `A` are the
slots before `i`, `D` the slots between `i` and `j` already visited. -/
theorem innerLoop_eq (h : Heap) (rest : List FInventorySlot) (n : Nat)
    (A D : List FInventorySlot) (si : FInventorySlot) (hn : rest.length ≤ n) :
    innerLoop h A.length n (A.length + 1 + D.length) (A ++ si :: (D ++ rest)) =
      A ++ (absorbLoop h si rest).1 :: (D ++ (absorbLoop h si rest).2) := by
  induction rest generalizing n D si with
  | nil =>
    rw [absorbLoop_nil]
    apply innerLoop_beyond
    simp; omega
  | cons sj rest ih =>
    cases n with
    | zero => simp at hn
    | succ n =>
      have hn1 : rest.length ≤ n := by simpa using hn
      have hgi : ∀ (x : FInventorySlot) (r : List FInventorySlot),
          (A ++ x :: r).getD A.length FInventorySlot.ctor = x :=
        fun x r => getD_append_len A x r _
      have hgj : ∀ x : FInventorySlot,
          (A ++ x :: (D ++ sj :: rest)).getD (A.length + 1 + D.length) FInventorySlot.ctor = sj :=
        fun x => getD_mid A D x sj rest _ rfl
      have hidx : A.length + 1 + D.length + 1 = A.length + 1 + (D.length + 1) := by omega
      have key : ∀ x y : FInventorySlot,
          innerLoop h A.length n (A.length + 1 + D.length + 1) (A ++ x :: (D ++ y :: rest)) =
            A ++ (absorbLoop h x rest).1 :: (D ++ y :: (absorbLoop h x rest).2) := by
        intro x y
        have := ih n (D ++ [y]) x hn1
        simp only [List.append_assoc, List.singleton_append, List.length_append,
          List.length_singleton] at this
        rw [hidx]; exact this
      by_cases hc : sj.IsEmpty ∨ GetItemID h sj.Item ≠ GetItemID h si.Item
      · rw [innerLoop, hgi, hgj, if_pos hc, absorbLoop_skip h si sj rest hc, key]
      · rw [innerLoop, hgi, hgj, if_neg hc]
        simp only
        rw [set_append_len A si _ _, hgj, set_mid A D _ sj _ rest _ rfl, hgi]
        by_cases hf : (si.AddToStack (min si.GetAvailableSpace sj.CurrentStackSize)).1.IsFull
        · rw [if_pos hf, absorbLoop_full h si sj rest hc hf]
        · rw [if_neg hf, absorbLoop_more h si sj rest hc hf, key]

theorem outerLoop_beyond (h : Heap) (n i : Nat) (l : List FInventorySlot)
    (hi : l.length ≤ i) : outerLoop h n i l = l := by
  induction n generalizing i with
  | zero => rfl
  | succ n ih =>
    rw [outerLoop, if_pos (Or.inl (by rw [getD_beyond l i hi]; exact ctor_IsEmpty))]
    exact ih (i + 1) (by omega)

/-- The index form of the outer loop agrees with its list form: `A` are the
slots before `i`, which later iterations do not touch. -/
theorem outerLoop_eq (h : Heap) (n : Nat) (A l : List FInventorySlot) :
    outerLoop h n A.length (A ++ l) = A ++ consolidateFrom h n l := by
  induction n generalizing A l with
  | zero => rfl
  | succ n ih =>
    cases l with
    | nil =>
      rw [consolidateFrom]
      exact outerLoop_beyond h _ _ _ (by simp)
    | cons si rest =>
      have hgi : (A ++ si :: rest).getD A.length FInventorySlot.ctor = si :=
        getD_append_len A si _ _
      have hshape : ∀ (x : FInventorySlot) (r : List FInventorySlot),
          A ++ x :: r = (A ++ [x]) ++ r := by intro x r; simp
      have hlen : ∀ x : FInventorySlot, A.length + 1 = (A ++ [x]).length := by intro x; simp
      by_cases hc : si.IsEmpty ∨ ¬ (h.deref si.Item).bIsStackable = true ∨ si.IsFull
      · rw [outerLoop, hgi, if_pos hc, consolidateFrom_skip h n si rest hc, hshape si rest,
          hlen si, ih (A ++ [si]) rest]
        simp
      · rw [outerLoop, hgi, if_neg hc, consolidateFrom_take h n si rest hc]
        have hin := innerLoop_eq h rest ((A ++ si :: rest).length - (A.length + 1)) A [] si
          (by simp only [List.length_append, List.length_cons]; omega)
        simp only [List.length_nil, add_zero, List.nil_append] at hin
        rw [hin, hshape _ (absorbLoop h si rest).2, hlen (absorbLoop h si rest).1,
          ih (A ++ [(absorbLoop h si rest).1]) (absorbLoop h si rest).2]
        simp

theorem ConsolidateStacks_eq (h : Heap) (l : List FInventorySlot) :
    ConsolidateStacks h l = consolidateFrom h l.length l := by
  have := outerLoop_eq h l.length [] l
  simpa using this

theorem ConsolidateStacks_Shrunk (h : Heap) (l : List FInventorySlot) :
    List.Forall₂ Shrunk l (ConsolidateStacks h l) := by
  rw [ConsolidateStacks_eq]; exact consolidateFrom_Shrunk h _ l

theorem ConsolidateStacks_length (h : Heap) (l : List FInventorySlot) :
    (ConsolidateStacks h l).length = l.length :=
  (ConsolidateStacks_Shrunk h l).length_eq.symm

theorem ConsolidateStacks_total (h : Heap) (x : String) (l : List FInventorySlot) :
    totalLoop h x (ConsolidateStacks h l) = totalLoop h x l := by
  rw [ConsolidateStacks_eq]; exact consolidateFrom_total h x _ l

theorem Swap_length (l : List FInventorySlot) (a b : Nat) : (Swap l a b).length = l.length := by
  simp [Swap]

theorem compactLoop_length (n w r : Nat) (l : List FInventorySlot) :
    (compactLoop n w r l).length = l.length := by
  induction n generalizing w r l with
  | zero => rfl
  | succ n ih =>
    by_cases hc : (l.getD r FInventorySlot.ctor).IsEmpty
    · rw [compactLoop_pass n w r l hc, ih]
    · rw [compactLoop_keep n w r l hc, ih]
      split
      · exact Swap_length _ _ _
      · rfl

/-- The closed form of the compaction phase. -/
theorem compact_form (M : List FInventorySlot) :
    ∃ E2 : List FInventorySlot, (∀ e ∈ E2, e.IsEmpty) ∧
      compactLoop M.length 0 0 M = M.filter (fun s => ¬ s.IsEmpty) ++ E2 := by
  obtain ⟨E2, h1, h2⟩ := compactLoop_spec M M.length [] [] (le_refl _) (fun e he => by cases he)
  exact ⟨E2, h1, by simpa using h2⟩

theorem Packed_empties (h : Heap) (E : List FInventorySlot) (hE : ∀ e ∈ E, e.IsEmpty) :
    Packed h E := by
  induction E with
  | nil => exact trivial
  | cons e E ih =>
    exact ⟨fun hx => absurd (hE e (List.mem_cons_self _ _)) hx.1,
      ih (fun u hu => hE u (List.mem_cons_of_mem _ hu))⟩

theorem Packed_filter (h : Heap) (M E : List FInventorySlot) (hp : Packed h M)
    (hE : ∀ e ∈ E, e.IsEmpty) : Packed h (M.filter (fun s => ¬ s.IsEmpty) ++ E) := by
  induction M with
  | nil => simpa using Packed_empties h E hE
  | cons s M ih =>
    by_cases hs : s.IsEmpty
    · rw [List.filter_cons_of_neg (by simpa using hs)]
      exact ih hp.2
    · rw [List.filter_cons_of_pos (by simpa using hs)]
      refine ⟨fun hx => ?_, ih hp.2⟩
      intro t ht
      rcases List.mem_append.mp ht with ht | ht
      · exact hp.1 hx t (List.mem_filter.mp ht).1
      · exact Or.inl (hE t ht)

theorem filter_empties (E : List FInventorySlot) (hE : ∀ e ∈ E, e.IsEmpty) :
    E.filter (fun s => ¬ s.IsEmpty) = [] := by
  rw [List.filter_eq_nil_iff]
  intro e he
  simpa using hE e he

theorem ConsolidateStacks_Packed (h : Heap) (l : List FInventorySlot) :
    Packed h (ConsolidateStacks h l) := by
  rw [ConsolidateStacks_eq]; exact consolidateFrom_Packed h l.length l (le_refl _)

theorem ConsolidateStacks_fix (h : Heap) (l : List FInventorySlot) (hp : Packed h l) :
    ConsolidateStacks h l = l := by
  rw [ConsolidateStacks_eq]; exact consolidateFrom_fix h l.length l hp

theorem ConsolidateAndSort_twice (h : Heap) (g : FInventorySlots) :
    (g.ConsolidateAndSort h).ConsolidateAndSort h = g.ConsolidateAndSort h := by
  obtain ⟨E2, h1, h2⟩ := compact_form (ConsolidateStacks h g.Slots)
  have hp : Packed h (compactLoop (ConsolidateStacks h g.Slots).length 0 0
      (ConsolidateStacks h g.Slots)) := by
    rw [h2]; exact Packed_filter h _ _ (ConsolidateStacks_Packed h g.Slots) h1
  unfold ConsolidateAndSort
  simp only
  rw [ConsolidateStacks_fix h _ hp]
  congr 1
  rw [h2]
  have := compactLoop_sorted ((ConsolidateStacks h g.Slots).filter (fun s => ¬ s.IsEmpty))
    ((ConsolidateStacks h g.Slots).filter (fun s => ¬ s.IsEmpty) ++ E2).length [] E2
    (fun s hs => by simpa using (List.mem_filter.mp hs).2) h1
  simpa using this

end FInventorySlots



namespace FInventorySlots

theorem getD_append_lt {α : Type} (A E : List α) (d : α) (i : Nat) (hi : i < A.length) :
    (A ++ E).getD i d = A.getD i d := by
  induction A generalizing i with
  | nil => simp at hi
  | cons a A ih =>
    cases i with
    | zero => rfl
    | succ i => simpa using ih i (by simpa using hi)

theorem getD_mem {α : Type} (A : List α) (d : α) (i : Nat) (hi : i < A.length) :
    A.getD i d ∈ A := by
  induction A generalizing i with
  | nil => simp at hi
  | cons a A ih =>
    cases i with
    | zero => simp
    | succ i =>
      have := ih i (by simpa using hi)
      simp only [List.getD_eq_getElem?_getD, List.getElem?_cons_succ] at this ⊢
      exact List.mem_cons_of_mem _ this

theorem ConsolidateAndSort_Slots (h : Heap) (g : FInventorySlots) :
    (g.ConsolidateAndSort h).Slots =
      compactLoop (ConsolidateStacks h g.Slots).length 0 0 (ConsolidateStacks h g.Slots) := rfl

end FInventorySlots


namespace FInventorySlots

theorem totalLoop_append (h : Heap) (x : String) (A B : List FInventorySlot) :
    totalLoop h x (A ++ B) = totalLoop h x A + totalLoop h x B := by
  induction A with
  | nil => simp [totalLoop]
  | cons a A ih => simp only [List.cons_append, totalLoop_cons, ih]; omega

theorem totalLoop_empties (h : Heap) (x : String) (E : List FInventorySlot)
    (hE : ∀ e ∈ E, e.IsEmpty) : totalLoop h x E = 0 := by
  induction E with
  | nil => rfl
  | cons e E ih =>
    rw [totalLoop_cons, slotShare_empty h x e (hE e (List.mem_cons_self _ _)),
      ih (fun u hu => hE u (List.mem_cons_of_mem _ hu))]
    rfl

theorem totalLoop_filter (h : Heap) (x : String) (l : List FInventorySlot) :
    totalLoop h x (l.filter (fun s => ¬ s.IsEmpty)) = totalLoop h x l := by
  induction l with
  | nil => rfl
  | cons s l ih =>
    by_cases hs : s.IsEmpty
    · rw [List.filter_cons_of_neg (by simpa using hs), totalLoop_cons,
        slotShare_empty h x s hs, ih]; omega
    · rw [List.filter_cons_of_pos (by simpa using hs), totalLoop_cons, totalLoop_cons, ih]

theorem Shrunk_mem_right {l l1 : List FInventorySlot} (a : List.Forall₂ Shrunk l l1)
    (t : FInventorySlot) (ht : t ∈ l1) : ∃ s ∈ l, Shrunk s t := by
  induction a with
  | nil => cases ht
  | @cons s0 t0 l l1 hst _ ih =>
    rcases List.mem_cons.mp ht with rfl | ht
    · exact ⟨s0, List.mem_cons_self _ _, hst⟩
    · obtain ⟨s, hs, hh⟩ := ih ht
      exact ⟨s, List.mem_cons_of_mem _ hs, hh⟩

/-- In packed slots, a non-empty, stackable, non-full slot is followed by no
non-empty slot with the same item ID. -/
theorem Packed_index (h : Heap) (l : List FInventorySlot) (hp : Packed h l) (i j : Nat)
    (hij : i < j) (hj : j < l.length)
    (hi : ¬ (l.getD i FInventorySlot.ctor).IsEmpty ∧
      (h.deref (l.getD i FInventorySlot.ctor).Item).bIsStackable = true ∧
      ¬ (l.getD i FInventorySlot.ctor).IsFull) :
    (l.getD j FInventorySlot.ctor).IsEmpty ∨
      GetItemID h (l.getD j FInventorySlot.ctor).Item ≠
        GetItemID h (l.getD i FInventorySlot.ctor).Item := by
  induction l generalizing i j with
  | nil => simp at hj
  | cons s l ih =>
    cases j with
    | zero => omega
    | succ j =>
      have hj1 : j < l.length := by simpa using hj
      cases i with
      | zero =>
        have hm := getD_mem l FInventorySlot.ctor j hj1
        have := hp.1 (by simpa using hi) _ hm
        simpa using this
      | succ i =>
        have := ih hp.2 i j (by omega) hj1 (by simpa using hi)
        simpa using this

end FInventorySlots

namespace FInventorySlotsGroup

theorem refreshed_groups (c : FInventorySlotsGroup) :
    c.refreshed.InventoryGroups = c.InventoryGroups := by
  unfold refreshed; split <;> rfl

theorem refreshed_twice (c : FInventorySlotsGroup) : c.refreshed.refreshed = c.refreshed := by
  unfold refreshed
  by_cases hb : c.bCacheNeedsRebuild = true
  · simp [hb, RebuildCache]
  · simp [hb]

theorem GetGroupByID_groups (c : FInventorySlotsGroup) (t : Int) :
    (c.GetGroupByID t).1.InventoryGroups = c.InventoryGroups := refreshed_groups c

theorem GetGroupByID_twice (c : FInventorySlotsGroup) (a b : Int) :
    (c.GetGroupByID a).1.GetGroupByID b = ((c.GetGroupByID a).1, (c.GetGroupByID b).2) := by
  unfold GetGroupByID
  simp only [refreshed_twice]

theorem GetGroupByID_lt (c : FInventorySlotsGroup) (t : Int) (i : Nat)
    (hi : (c.GetGroupByID t).2 = some i) : i < c.InventoryGroups.length := by
  unfold GetGroupByID at hi
  simp only at hi
  rw [refreshed_groups] at hi
  split at hi
  · split at hi
    · rename_i hlt; cases hi; exact hlt
    · cases hi
  · cases hi

theorem TransferItem_found (h : Heap) (c : FInventorySlotsGroup) (a fi b ti : Int)
    (si di : Nat) (hs : (c.GetGroupByID a).2 = some si) (hd : (c.GetGroupByID b).2 = some di) :
    TransferItem h c a fi b ti = transferBetween h (c.GetGroupByID a).1 si di fi ti := by
  unfold TransferItem
  simp only [GetGroupByID_twice, hs, hd]

end FInventorySlotsGroup

theorem groupAt_set_self (l : List FInventorySlots) (i : Nat) (x : FInventorySlots)
    (hi : i < l.length) : FInventorySlotsGroup.groupAt (l.set i x) i = x := by
  unfold FInventorySlotsGroup.groupAt
  rw [getD_set, if_pos ⟨rfl, hi⟩]

theorem groupAt_set_ne (l : List FInventorySlots) (i j : Nat) (x : FInventorySlots)
    (hij : i ≠ j) : FInventorySlotsGroup.groupAt (l.set i x) j = FInventorySlotsGroup.groupAt l j := by
  unfold FInventorySlotsGroup.groupAt
  rw [getD_set, if_neg (fun hx => hij hx.1)]

theorem slotAt_set_self (l : List FInventorySlot) (i : Int) (x : FInventorySlot)
    (hi : IsValidIndex l i) : slotAt (l.set i.toNat x) i = x := by
  unfold slotAt
  rw [getD_set, if_pos ⟨rfl, by unfold IsValidIndex at hi; omega⟩]

theorem IsValidIndex_length {l l1 : List FInventorySlot} (hl : l1.length = l.length) (i : Int) :
    IsValidIndex l1 i ↔ IsValidIndex l i := by
  unfold IsValidIndex; rw [hl]

theorem GetSlotAtIndex_some (g : FInventorySlots) (i : Int) (s : FInventorySlot)
    (hs : g.GetSlotAtIndex i = some s) : IsValidIndex g.Slots i ∧ s = slotAt g.Slots i := by
  unfold GetSlotAtIndex at hs
  by_cases hi : IsValidIndex g.Slots i
  · rw [if_pos hi] at hs; cases hs; exact ⟨hi, rfl⟩
  · rw [if_neg hi] at hs; cases hs

namespace FInventorySlots

theorem Swap_getD (l : List FInventorySlot) (a b i : Nat) (ha : a < l.length) (hb : b < l.length) :
    (Swap l a b).getD i FInventorySlot.ctor =
      if i = b then l.getD a FInventorySlot.ctor
      else if i = a then l.getD b FInventorySlot.ctor else l.getD i FInventorySlot.ctor := by
  unfold Swap
  rw [getD_set, getD_set]
  by_cases h1 : i = b
  · subst h1; simp [hb]
  · by_cases h2 : i = a
    · subst h2
      rw [if_neg (fun h => h1 h.1.symm), if_pos ⟨rfl, ha⟩, if_neg h1, if_pos rfl]
    · rw [if_neg (fun h => h1 h.1.symm), if_neg (fun h => h2 h.1.symm), if_neg h1, if_neg h2]

theorem ext_getD (l l1 : List FInventorySlot) (hl : l.length = l1.length)
    (h : ∀ i, i < l.length → l.getD i FInventorySlot.ctor = l1.getD i FInventorySlot.ctor) :
    l = l1 := by
  apply List.ext_getElem hl
  intro i h1 h2
  have := h i h1
  simpa [List.getD_eq_getElem?_getD, List.getElem?_eq_getElem h1, List.getElem?_eq_getElem h2]
    using this

theorem Swap_Swap (l : List FInventorySlot) (a b : Nat) (ha : a < l.length) (hb : b < l.length) :
    Swap (Swap l a b) a b = l := by
  apply ext_getD _ _ (by simp [Swap_length])
  intro i _
  rw [Swap_getD _ _ _ _ (by simpa [Swap_length] using ha) (by simpa [Swap_length] using hb),
    Swap_getD l a b a ha hb, Swap_getD l a b b ha hb]
  by_cases h1 : i = b
  · subst h1
    by_cases h2 : a = i
    · subst h2; simp
    · simp [h2]
  · by_cases h2 : i = a
    · subst h2; simp [h1]
    · rw [if_neg h1, if_neg h2, Swap_getD l a b i ha hb, if_neg h1, if_neg h2]

theorem SwapSlots_valid (g : FInventorySlots) (a b : Int) (ha : IsValidIndex g.Slots a)
    (hb : IsValidIndex g.Slots b) :
    g.SwapSlots a b =
      (.Ok, FInventorySlots.mk g.MaxSlotSize g.TypeIDMap (Swap g.Slots a.toNat b.toNat)) := by
  rw [SwapSlots, if_neg (by tauto)]

theorem SwapSlots_invalid (g : FInventorySlots) (a b : Int)
    (hab : ¬ (IsValidIndex g.Slots a ∧ IsValidIndex g.Slots b)) :
    g.SwapSlots a b =
      (.Fail ("Invalid slot index: A=" ++ toString a ++ ", B=" ++ toString b), g) := by
  rw [SwapSlots, if_pos (by tauto)]

end FInventorySlots

/-! ### The type-ID cache -/

theorem TMapFind_nil (t : Int) : TMapFind [] t = none := rfl

theorem TMapFind_cons (kv : Int × Nat) (m : List (Int × Nat)) (t : Int) :
    TMapFind (kv :: m) t = if kv.1 = t then some kv.2 else TMapFind m t := by
  unfold TMapFind
  by_cases h : kv.1 = t
  · simp [List.find?_cons, h]
  · simp [List.find?_cons, h]

theorem TMapFind_none (m : List (Int × Nat)) (t : Int) (h : ¬ ∃ kv ∈ m, kv.1 = t) :
    TMapFind m t = none := by
  induction m with
  | nil => rfl
  | cons kv m ih =>
    rw [TMapFind_cons, if_neg (fun hk => h ⟨kv, List.mem_cons_self _ _, hk⟩)]
    exact ih (fun ⟨x, hx, hxt⟩ => h ⟨x, List.mem_cons_of_mem _ hx, hxt⟩)

theorem TMapFind_replace (m : List (Int × Nat)) (k : Int) (v : Nat) (t : Int) :
    TMapFind (m.map (fun kv => if kv.1 = k then (k, v) else kv)) t =
      if t = k then (TMapFind m k).map (fun _ => v) else TMapFind m t := by
  induction m with
  | nil => by_cases h : t = k <;> simp [TMapFind_nil, h]
  | cons kv m ih =>
    rw [List.map_cons, TMapFind_cons, ih, TMapFind_cons, TMapFind_cons]
    by_cases h1 : kv.1 = k
    · by_cases h2 : t = k
      · subst h2; simp [h1]
      · have h3 : ¬ kv.1 = t := fun h => h2 (h ▸ h1)
        have h4 : ¬ k = t := fun h => h2 h.symm
        simp [h1, h2, h3, h4]
    · by_cases h2 : t = k
      · subst h2; simp [h1]
      · simp [h1, h2]

theorem TMapFind_append (m : List (Int × Nat)) (k : Int) (v : Nat) (t : Int) :
    TMapFind (m ++ [(k, v)]) t =
      match TMapFind m t with
      | some x => some x
      | none => if k = t then some v else none := by
  induction m with
  | nil => simp [TMapFind_cons, TMapFind_nil]
  | cons kv m ih =>
    rw [List.cons_append, TMapFind_cons, TMapFind_cons, ih]
    by_cases h : kv.1 = t
    · simp [h]
    · simp [h]

theorem TMapFind_TMapAdd (m : List (Int × Nat)) (k : Int) (v : Nat) (t : Int) :
    TMapFind (TMapAdd m k v) t = if t = k then some v else TMapFind m t := by
  unfold TMapAdd
  by_cases hk : ∃ kv ∈ m, kv.1 = k
  · rw [if_pos hk, TMapFind_replace]
    by_cases h : t = k
    · rw [if_pos h, if_pos h]
      have : ∃ x, TMapFind m k = some x := by
        obtain ⟨kv, hmem, hkv⟩ := hk
        clear h
        induction m with
        | nil => cases hmem
        | cons a m ih =>
          rw [TMapFind_cons]
          by_cases ha : a.1 = k
          · exact ⟨a.2, by rw [if_pos ha]⟩
          · rw [if_neg ha]
            rcases List.mem_cons.1 hmem with h1 | h1
            · exact absurd (h1 ▸ hkv) ha
            · exact ih h1
      obtain ⟨x, hx⟩ := this
      rw [hx]; rfl
    · rw [if_neg h, if_neg h]
  · rw [if_neg hk, TMapFind_append]
    by_cases h : t = k
    · subst h
      rw [TMapFind_none m t hk, if_pos rfl]
    · rw [if_neg h]
      have h1 : ¬ k = t := fun e => h e.symm
      cases hf : TMapFind m t with
      | none => simp [h1]
      | some x => simp

theorem TMapFind_foldl (keys : List Int) (i : Nat) (m : List (Int × Nat)) (t : Int) :
    TMapFind (keys.foldl (fun m k => TMapAdd m k i) m) t =
      if t ∈ keys then some i else TMapFind m t := by
  induction keys generalizing m with
  | nil => simp
  | cons k keys ih =>
    rw [List.foldl_cons, ih, TMapFind_TMapAdd]
    by_cases h1 : t ∈ keys
    · simp [h1]
    · by_cases h2 : t = k
      · simp [h2]
      · simp [h1, h2]

theorem ContainsTypeID_iff_keys (g : FInventorySlots) (t : Int) :
    g.ContainsTypeID t ↔ t ∈ g.TypeIDMap.map (fun kv => kv.1) := by
  unfold ContainsTypeID
  simp only [List.mem_map]

namespace FInventorySlotsGroup

theorem rebuildLoop_find (gs : List FInventorySlots) (i : Nat) (m : List (Int × Nat)) (t : Int) :
    TMapFind (rebuildLoop gs i m) t =
      match lastGroupWith t gs with
      | some j => some (i + j)
      | none => TMapFind m t := by
  induction gs generalizing i m with
  | nil => rfl
  | cons g rest ih =>
    rw [rebuildLoop, ih, lastGroupWith]
    cases hl : lastGroupWith t rest with
    | some j => simp only []; congr 1; omega
    | none =>
      simp only []
      rw [TMapFind_foldl]
      by_cases hc : g.ContainsTypeID t
      · rw [if_pos hc, if_pos ((ContainsTypeID_iff_keys g t).1 hc)]; rfl
      · rw [if_neg hc, if_neg (fun h => hc ((ContainsTypeID_iff_keys g t).2 h))]

end FInventorySlotsGroup

theorem lastGroupWith_none (t : Int) (gs : List FInventorySlots)
    (h : lastGroupWith t gs = none) : ∀ g ∈ gs, ¬ g.ContainsTypeID t := by
  induction gs with
  | nil => intro g hg; cases hg
  | cons g rest ih =>
    rw [lastGroupWith] at h
    cases hl : lastGroupWith t rest with
    | some j => rw [hl] at h; cases h
    | none =>
      rw [hl] at h
      simp only [] at h
      intro x hx
      rcases List.mem_cons.1 hx with h1 | h1
      · subst h1
        intro hc
        rw [if_pos hc] at h; cases h
      · exact ih hl x h1

theorem groupAt_mem (gs : List FInventorySlots) (i : Nat) (h : i < gs.length) :
    FInventorySlotsGroup.groupAt gs i ∈ gs := by
  unfold FInventorySlotsGroup.groupAt
  rw [List.getD_eq_getElem?_getD, List.getElem?_eq_getElem h]
  exact List.getElem_mem h

theorem lastGroupWith_some (t : Int) (gs : List FInventorySlots) (i : Nat)
    (h : lastGroupWith t gs = some i) :
    i < gs.length ∧ (FInventorySlotsGroup.groupAt gs i).ContainsTypeID t ∧
      ∀ j, i < j → j < gs.length → ¬ (FInventorySlotsGroup.groupAt gs j).ContainsTypeID t := by
  induction gs generalizing i with
  | nil => cases h
  | cons g rest ih =>
    rw [lastGroupWith] at h
    cases hl : lastGroupWith t rest with
    | some j =>
      rw [hl] at h
      simp only [Option.some.injEq] at h
      subst h
      obtain ⟨h1, h2, h3⟩ := ih j hl
      refine ⟨by simp; omega, by simpa [FInventorySlotsGroup.groupAt] using h2, ?_⟩
      intro k hk hk2
      cases k with
      | zero => omega
      | succ k =>
        have := h3 k (by omega) (by simpa using hk2)
        simpa [FInventorySlotsGroup.groupAt] using this
    | none =>
      rw [hl] at h
      simp only [] at h
      by_cases hc : g.ContainsTypeID t
      · rw [if_pos hc] at h
        simp only [Option.some.injEq] at h
        subst h
        refine ⟨by simp, by simpa [FInventorySlotsGroup.groupAt] using hc, ?_⟩
        intro k hk hk2
        cases k with
        | zero => omega
        | succ k =>
          have hm := groupAt_mem rest k (by simpa using hk2)
          have := lastGroupWith_none t rest hl _ hm
          simpa [FInventorySlotsGroup.groupAt] using this
      · rw [if_neg hc] at h; cases h

namespace FInventorySlotsGroup

theorem GetGroupByID_of_coherent (c : FInventorySlotsGroup) (hc : CacheCoherent c) (t : Int) :
    (c.GetGroupByID t).2 = lastGroupWith t c.InventoryGroups := by
  have hcache : c.refreshed.TypeIDToIndexCache = rebuildLoop c.InventoryGroups 0 [] := by
    unfold refreshed
    by_cases hb : c.bCacheNeedsRebuild = true
    · rw [if_pos hb]; rfl
    · rw [if_neg hb]
      rcases hc with h | h
      · exact absurd h hb
      · exact h
  unfold GetGroupByID
  simp only
  rw [hcache, rebuildLoop_find, refreshed_groups]
  cases hl : lastGroupWith t c.InventoryGroups with
  | none => simp [TMapFind_nil]
  | some j =>
    have := (lastGroupWith_some t _ j hl).1
    simp [this]

theorem CoherentLookup_of_coherent (c : FInventorySlotsGroup) (hc : CacheCoherent c) (t : Int) :
    CoherentLookup c t := by
  unfold CoherentLookup
  rw [GetGroupByID_of_coherent c hc t]
  cases hl : lastGroupWith t c.InventoryGroups with
  | none => exact lastGroupWith_none t _ hl
  | some j => exact ⟨(lastGroupWith_some t _ j hl).1, (lastGroupWith_some t _ j hl).2.1⟩

theorem built_groups (gs : List FInventorySlots) (c : FInventorySlotsGroup) :
    (gs.foldl AddInventoryGroup c).InventoryGroups = c.InventoryGroups ++ gs := by
  induction gs generalizing c with
  | nil => simp
  | cons g gs ih => rw [List.foldl_cons, ih]; simp [AddInventoryGroup]

theorem built_flag (gs : List FInventorySlots) (c : FInventorySlotsGroup)
    (hc : c.bCacheNeedsRebuild = true) : (gs.foldl AddInventoryGroup c).bCacheNeedsRebuild = true := by
  induction gs generalizing c with
  | nil => exact hc
  | cons g gs ih => rw [List.foldl_cons]; exact ih _ rfl

theorem rebuildLoop_congr (gs gs1 : List FInventorySlots) (i : Nat) (m : List (Int × Nat))
    (h : gs1.map (fun g => g.TypeIDMap) = gs.map (fun g => g.TypeIDMap)) :
    rebuildLoop gs1 i m = rebuildLoop gs i m := by
  induction gs generalizing gs1 i m with
  | nil =>
    cases gs1 with
    | nil => rfl
    | cons a l => simp at h
  | cons g rest ih =>
    cases gs1 with
    | nil => simp at h
    | cons a l =>
      simp only [List.map_cons, List.cons.injEq] at h
      rw [rebuildLoop, rebuildLoop, h.1, ih l _ _ h.2]

theorem CacheCoherent_congr (c c1 : FInventorySlotsGroup)
    (hm : c1.InventoryGroups.map (fun g => g.TypeIDMap) =
      c.InventoryGroups.map (fun g => g.TypeIDMap))
    (hcache : c1.TypeIDToIndexCache = c.TypeIDToIndexCache)
    (hflag : c1.bCacheNeedsRebuild = c.bCacheNeedsRebuild) (hc : CacheCoherent c) :
    CacheCoherent c1 := by
  rcases hc with h | h
  · exact Or.inl (hflag.trans h)
  · exact Or.inr (by rw [hcache, h, rebuildLoop_congr _ _ _ _ hm])

theorem typeMaps_set (l : List FInventorySlots) (i : Nat) (x : FInventorySlots)
    (hx : x.TypeIDMap = (groupAt l i).TypeIDMap) :
    (l.set i x).map (fun g => g.TypeIDMap) = l.map (fun g => g.TypeIDMap) := by
  induction l generalizing i with
  | nil => rfl
  | cons a l ih =>
    cases i with
    | zero =>
      simp only [List.set_cons_zero, List.map_cons]
      rw [hx]; rfl
    | succ i =>
      simp only [List.set_cons_succ, List.map_cons]
      rw [ih i (by simpa [groupAt] using hx)]

theorem refreshed_coherent (c : FInventorySlotsGroup) (hc : CacheCoherent c) :
    CacheCoherent c.refreshed := by
  unfold refreshed
  by_cases hb : c.bCacheNeedsRebuild = true
  · rw [if_pos hb]; exact Or.inr rfl
  · rw [if_neg hb]; exact hc

theorem addLoop_typeMaps (h : Heap) (p : ItemPtr) (gs : List FInventorySlots) :
    (addLoop h p gs).2.1.map (fun g => g.TypeIDMap) = gs.map (fun g => g.TypeIDMap) := by
  induction gs generalizing h with
  | nil => rfl
  | cons g rest ih =>
    rw [addLoop]
    by_cases h1 : g.IsTypeSupported h p
    · rw [if_pos h1]
      by_cases h2 : (g.AddItem h p).1.bSuccess = true
      · rw [if_pos h2]
        simp only [List.map_cons, AddItem_TypeIDMap]
      · rw [if_neg h2]
        simp only [List.map_cons, AddItem_TypeIDMap, ih]
    · rw [if_neg h1]
      simp only [List.map_cons, ih]

theorem AddItem_coherent (h : Heap) (c : FInventorySlotsGroup) (p : ItemPtr) (t : Int)
    (hc : CacheCoherent c) : CacheCoherent (AddItem h c p t).2.1 := by
  unfold AddItem
  by_cases hv : IsValid h p
  · rw [if_neg (not_not.2 hv)]
    by_cases ht : t ≠ -1
    · rw [if_pos ht]
      unfold addTargeted
      cases hg : (c.GetGroupByID t).2 with
      | none => exact refreshed_coherent c hc
      | some i =>
        simp only
        split
        · exact refreshed_coherent c hc
        · exact CacheCoherent_congr (c.GetGroupByID t).1 _
            (typeMaps_set _ _ _ (FInventorySlots.AddItem_TypeIDMap _ _ _)) rfl rfl
            (refreshed_coherent c hc)
    · rw [if_neg ht]
      exact CacheCoherent_congr c _ (addLoop_typeMaps _ _ _) rfl rfl hc
  · rw [if_pos hv]; exact hc

theorem RemoveItem_TypeIDMap (g : FInventorySlots) (i : Int) :
    (g.RemoveItem i).1.TypeIDMap = g.TypeIDMap := by
  unfold FInventorySlots.RemoveItem
  split <;> rfl

theorem transferBetween_typeMaps (h : Heap) (c : FInventorySlotsGroup) (si di : Nat)
    (fi ti : Int) :
    (transferBetween h c si di fi ti).2.1.InventoryGroups.map (fun g => g.TypeIDMap) =
        c.InventoryGroups.map (fun g => g.TypeIDMap) ∧
      (transferBetween h c si di fi ti).2.1.TypeIDToIndexCache = c.TypeIDToIndexCache ∧
      (transferBetween h c si di fi ti).2.1.bCacheNeedsRebuild = c.bCacheNeedsRebuild := by
  unfold transferBetween
  split
  · exact ⟨rfl, rfl, rfl⟩
  · split
    · exact ⟨rfl, rfl, rfl⟩
    · simp only
      split
      · exact ⟨rfl, rfl, rfl⟩
      · have e1 := typeMaps_set c.InventoryGroups si
          ((groupAt c.InventoryGroups si).RemoveItem fi).1 (RemoveItem_TypeIDMap _ _)
        split
        · exact ⟨e1, rfl, rfl⟩
        · have e2 := fun (x : FInventorySlots) hx => (typeMaps_set
            (c.InventoryGroups.set si ((groupAt c.InventoryGroups si).RemoveItem fi).1) di x hx).trans e1
          split
          · refine ⟨?_, rfl, rfl⟩
            simp only
            rw [typeMaps_set _ si _ (FInventorySlots.AddItemToSlot_TypeIDMap _ _ _ _)]
            exact e2 _ (FInventorySlots.AddItemToSlot_TypeIDMap _ _ _ _)
          · exact ⟨e2 _ (FInventorySlots.AddItemToSlot_TypeIDMap _ _ _ _), rfl, rfl⟩

theorem TransferItem_coherent (h : Heap) (c : FInventorySlotsGroup) (a fi b ti : Int)
    (hc : CacheCoherent c) : CacheCoherent (TransferItem h c a fi b ti).2.1 := by
  have h1 : CacheCoherent ((c.GetGroupByID a).1.GetGroupByID b).1 :=
    refreshed_coherent _ (refreshed_coherent c hc)
  unfold TransferItem
  simp only
  split
  · rename_i si di _ _
    obtain ⟨e1, e2, e3⟩ := transferBetween_typeMaps h ((c.GetGroupByID a).1.GetGroupByID b).1
      si di fi ti
    exact CacheCoherent_congr _ _ e1 e2 e3 h1
  · exact h1

theorem OrganizeAll_coherent (h : Heap) (c : FInventorySlotsGroup) (hc : CacheCoherent c) :
    CacheCoherent (c.OrganizeAll h) := by
  refine CacheCoherent_congr c _ ?_ rfl rfl hc
  unfold OrganizeAll
  simp only [List.map_map]
  apply List.map_congr_left
  intro g _
  rfl

theorem writeThrough_coherent (c : FInventorySlotsGroup) (i : Option Nat)
    (f : FInventorySlots → FInventorySlots) (hf : ∀ g, (f g).TypeIDMap = g.TypeIDMap)
    (hc : CacheCoherent c) : CacheCoherent (c.writeThrough i f) := by
  cases i with
  | none => exact hc
  | some i => exact CacheCoherent_congr c _ (typeMaps_set _ _ _ (hf _)) rfl rfl hc

end FInventorySlotsGroup

theorem writeThrough_flag (c : FInventorySlotsGroup) (i : Option Nat)
    (f : FInventorySlots → FInventorySlots) :
    (c.writeThrough i f).bCacheNeedsRebuild = c.bCacheNeedsRebuild := by
  cases i <;> rfl

theorem run_coherent (s : FInventorySlotsGroup × Heap) (op : CollectionOp)
    (hop : op.FlagSafe s.1) (hc : CacheCoherent s.1) : CacheCoherent (op.run s).1 := by
  cases op with
  | AddInventoryGroup g => exact Or.inl rfl
  | GetGroupByID t => exact FInventorySlotsGroup.refreshed_coherent _ hc
  | AddItem p t => exact FInventorySlotsGroup.AddItem_coherent _ _ _ _ hc
  | TransferItem a fi b ti => exact FInventorySlotsGroup.TransferItem_coherent _ _ _ _ _ _ hc
  | OrganizeAll => exact FInventorySlotsGroup.OrganizeAll_coherent _ _ hc
  | InvalidateCache => exact Or.inl rfl
  | GetInventoryGroups => exact Or.inl rfl
  | GetGroupByIndex i => exact hc
  | writeArray f =>
    rcases hop with hf | hm
    · exact Or.inl hf
    · exact FInventorySlotsGroup.CacheCoherent_congr s.1 _ hm rfl rfl hc
  | writeGroup p f =>
    rcases hop with hf | hm
    · exact Or.inl ((writeThrough_flag s.1 p f).trans hf)
    · exact FInventorySlotsGroup.writeThrough_coherent _ _ f hm hc

theorem runs_coherent (ops : List CollectionOp) (s : FInventorySlotsGroup × Heap)
    (hops : Disciplined s ops) (hc : CacheCoherent s.1) :
    CacheCoherent (ops.foldl CollectionOp.run s).1 := by
  induction ops generalizing s with
  | nil => exact hc
  | cons op ops ih =>
    rw [List.foldl_cons]
    exact ih _ hops.2 (run_coherent s op hops.1 hc)

namespace FInventorySlotsGroup

theorem AddItem_targeted (h : Heap) (c : FInventorySlotsGroup) (p : ItemPtr) (t : Int)
    (hv : IsValid h p) (ht : t ≠ -1) : AddItem h c p t = addTargeted h c p t := by
  rw [AddItem, if_neg (not_not.2 hv), if_pos ht]

theorem AddItem_untargeted (h : Heap) (c : FInventorySlotsGroup) (p : ItemPtr)
    (hv : IsValid h p) :
    AddItem h c p (-1) =
      (((addLoop h p c.InventoryGroups).1).getD
          (.Fail "No suitable group found or all compatible groups are full."),
        FInventorySlotsGroup.mk (addLoop h p c.InventoryGroups).2.1 c.TypeIDToIndexCache
          c.bCacheNeedsRebuild,
        (addLoop h p c.InventoryGroups).2.2) := by
  rw [AddItem, if_neg (not_not.2 hv), if_neg (by decide)]

theorem addTargeted_none (h : Heap) (c : FInventorySlotsGroup) (p : ItemPtr) (t : Int)
    (hg : (c.GetGroupByID t).2 = none) :
    addTargeted h c p t =
      (.Fail "Target inventory group not found.", (c.GetGroupByID t).1, h) := by
  unfold addTargeted; rw [hg]

theorem addTargeted_unsupported (h : Heap) (c : FInventorySlotsGroup) (p : ItemPtr) (t : Int)
    (i : Nat) (hg : (c.GetGroupByID t).2 = some i)
    (hs : ¬ (groupAt c.InventoryGroups i).IsTypeSupported h p) :
    addTargeted h c p t =
      (.Fail "The item type is not compatible with the target group.",
        (c.GetGroupByID t).1, h) := by
  unfold addTargeted; rw [hg]
  simp only
  rw [GetGroupByID_groups, if_pos hs]

theorem addTargeted_supported (h : Heap) (c : FInventorySlotsGroup) (p : ItemPtr) (t : Int)
    (i : Nat) (hg : (c.GetGroupByID t).2 = some i)
    (hs : (groupAt c.InventoryGroups i).IsTypeSupported h p) :
    addTargeted h c p t =
      (((groupAt c.InventoryGroups i).AddItem h p).1,
        FInventorySlotsGroup.mk
          (c.InventoryGroups.set i ((groupAt c.InventoryGroups i).AddItem h p).2.1)
          (c.GetGroupByID t).1.TypeIDToIndexCache (c.GetGroupByID t).1.bCacheNeedsRebuild,
        ((groupAt c.InventoryGroups i).AddItem h p).2.2) := by
  unfold addTargeted; rw [hg]
  simp only
  rw [GetGroupByID_groups, if_neg (not_not.2 hs)]

theorem addLoop_nil (h : Heap) (p : ItemPtr) : addLoop h p [] = (none, [], h) := rfl

theorem addLoop_skip (h : Heap) (p : ItemPtr) (g : FInventorySlots) (rest : List FInventorySlots)
    (hs : ¬ g.IsTypeSupported h p) :
    addLoop h p (g :: rest) =
      ((addLoop h p rest).1, g :: (addLoop h p rest).2.1, (addLoop h p rest).2.2) := by
  rw [addLoop, if_neg hs]

theorem addLoop_done (h : Heap) (p : ItemPtr) (g : FInventorySlots) (rest : List FInventorySlots)
    (hs : g.IsTypeSupported h p) (hr : (g.AddItem h p).1.bSuccess = true) :
    addLoop h p (g :: rest) =
      (some (g.AddItem h p).1, (g.AddItem h p).2.1 :: rest, (g.AddItem h p).2.2) := by
  rw [addLoop, if_pos hs, if_pos hr]

theorem addLoop_next (h : Heap) (p : ItemPtr) (g : FInventorySlots) (rest : List FInventorySlots)
    (hs : g.IsTypeSupported h p) (hr : ¬ (g.AddItem h p).1.bSuccess = true) :
    addLoop h p (g :: rest) =
      ((addLoop (g.AddItem h p).2.2 p rest).1,
        (g.AddItem h p).2.1 :: (addLoop (g.AddItem h p).2.2 p rest).2.1,
        (addLoop (g.AddItem h p).2.2 p rest).2.2) := by
  rw [addLoop, if_pos hs, if_neg hr]

theorem addLoop_length (h : Heap) (p : ItemPtr) (gs : List FInventorySlots) :
    (addLoop h p gs).2.1.length = gs.length := by
  have := congrArg List.length (addLoop_typeMaps h p gs)
  simpa using this

theorem supported_transport (h : Heap) (g x : FInventorySlots) (p : ItemPtr) :
    x.IsTypeSupported (g.AddItem h p).2.2 p ↔ x.IsTypeSupported h p :=
  SameObjects_IsTypeSupported (FInventorySlots.AddItem_SameObjects h g p) x x rfl p

theorem groupAt_zero (g : FInventorySlots) (l : List FInventorySlots) : groupAt (g :: l) 0 = g :=
  rfl

theorem groupAt_succ (g : FInventorySlots) (l : List FInventorySlots) (j : Nat) :
    groupAt (g :: l) (j + 1) = groupAt l j := rfl

theorem addLoop_unsupported (h : Heap) (p : ItemPtr) (gs : List FInventorySlots) (j : Nat)
    (hj : ¬ (groupAt gs j).IsTypeSupported h p) :
    groupAt (addLoop h p gs).2.1 j = groupAt gs j := by
  induction gs generalizing h j with
  | nil => rfl
  | cons g rest ih =>
    by_cases hs : g.IsTypeSupported h p
    · by_cases hr : (g.AddItem h p).1.bSuccess = true
      · rw [addLoop_done h p g rest hs hr]
        cases j with
        | zero => exact absurd hs hj
        | succ j => rfl
      · rw [addLoop_next h p g rest hs hr]
        cases j with
        | zero => exact absurd hs hj
        | succ j =>
          rw [groupAt_succ] at hj
          exact ih _ j (fun hx => hj ((supported_transport h g _ p).1 hx))
    · rw [addLoop_skip h p g rest hs]
      cases j with
      | zero => rfl
      | succ j => exact ih h j hj

end FInventorySlotsGroup

theorem heapAt_zero (p : ItemPtr) (h : Heap) (gs : List FInventorySlots) : heapAt p h gs 0 = h := by
  cases gs <;> rfl

theorem heapAt_SameObjects (p : ItemPtr) (h : Heap) (gs : List FInventorySlots) (j : Nat) :
    SameObjects h (heapAt p h gs j) := by
  induction gs generalizing h j with
  | nil => exact SameObjects_refl h
  | cons g rest ih =>
    cases j with
    | zero => exact SameObjects_refl h
    | succ j =>
      rw [heapAt]
      split
      · exact SameObjects_trans (FInventorySlots.AddItem_SameObjects h g p) (ih _ j)
      · exact ih h j

namespace FInventorySlotsGroup

/-- What the loop of the untargeted `AddItem` does when it runs to its end. -/
theorem addLoop_none (h : Heap) (p : ItemPtr) (gs : List FInventorySlots)
    (hn : (addLoop h p gs).1 = none) (j : Nat) (hj : j < gs.length)
    (hs : (groupAt gs j).IsTypeSupported h p) :
    ((groupAt gs j).AddItem (heapAt p h gs j) p).1.bSuccess = false ∧
      groupAt (addLoop h p gs).2.1 j = ((groupAt gs j).AddItem (heapAt p h gs j) p).2.1 := by
  induction gs generalizing h j with
  | nil => simp at hj
  | cons g rest ih =>
    by_cases hg : g.IsTypeSupported h p
    · by_cases hr : (g.AddItem h p).1.bSuccess = true
      · rw [addLoop_done h p g rest hg hr] at hn; cases hn
      · rw [addLoop_next h p g rest hg hr] at hn ⊢
        cases j with
        | zero => exact ⟨by simpa using hr, rfl⟩
        | succ j =>
          rw [groupAt_succ] at hs ⊢
          rw [heapAt, if_pos hg, groupAt_succ]
          exact ih _ hn j (by simpa using hj) ((supported_transport h g _ p).2 hs)
    · rw [addLoop_skip h p g rest hg] at hn ⊢
      cases j with
      | zero => exact absurd hs hg
      | succ j =>
        rw [groupAt_succ] at hs ⊢
        rw [heapAt, if_neg hg, groupAt_succ]
        exact ih h hn j (by simpa using hj) hs

/-- What the loop of the untargeted `AddItem` does when it returns from inside. -/
theorem addLoop_some (h : Heap) (p : ItemPtr) (gs : List FInventorySlots)
    (r : FInventoryOperationResult) (hr : (addLoop h p gs).1 = some r) :
    ∃ i, i < gs.length ∧ (groupAt gs i).IsTypeSupported h p ∧ r.bSuccess = true ∧
      (groupAt gs i).AddItem (heapAt p h gs i) p =
        (r, groupAt (addLoop h p gs).2.1 i, (addLoop h p gs).2.2) ∧
      (∀ j, i < j → groupAt (addLoop h p gs).2.1 j = groupAt gs j) ∧
      ∀ j, j < i → (groupAt gs j).IsTypeSupported h p →
        ((groupAt gs j).AddItem (heapAt p h gs j) p).1.bSuccess = false ∧
          groupAt (addLoop h p gs).2.1 j = ((groupAt gs j).AddItem (heapAt p h gs j) p).2.1 := by
  induction gs generalizing h with
  | nil => rw [addLoop_nil] at hr; cases hr
  | cons g rest ih =>
    by_cases hg : g.IsTypeSupported h p
    · by_cases hb : (g.AddItem h p).1.bSuccess = true
      · rw [addLoop_done h p g rest hg hb] at hr ⊢
        simp only [Option.some.injEq] at hr
        subst hr
        refine ⟨0, by simp, hg, hb, rfl, ?_, ?_⟩
        · intro j hj
          cases j with
          | zero => omega
          | succ j => rfl
        · intro j hj; omega
      · rw [addLoop_next h p g rest hg hb] at hr ⊢
        obtain ⟨i, h1, h2, h3, h4, h5, h6⟩ := ih _ hr
        refine ⟨i + 1, by simpa using h1, (supported_transport h g _ p).1 h2, h3, ?_, ?_, ?_⟩
        · rw [groupAt_succ, heapAt, if_pos hg, groupAt_succ]; exact h4
        · intro j hj
          cases j with
          | zero => omega
          | succ j => rw [groupAt_succ, groupAt_succ]; exact h5 j (by omega)
        · intro j hj hs
          cases j with
          | zero => exact ⟨by simpa using hb, rfl⟩
          | succ j =>
            rw [groupAt_succ] at hs ⊢
            rw [heapAt, if_pos hg, groupAt_succ]
            exact h6 j (by omega) ((supported_transport h g _ p).2 hs)
    · rw [addLoop_skip h p g rest hg] at hr ⊢
      obtain ⟨i, h1, h2, h3, h4, h5, h6⟩ := ih _ hr
      refine ⟨i + 1, by simpa using h1, h2, h3, ?_, ?_, ?_⟩
      · rw [groupAt_succ, heapAt, if_neg hg, groupAt_succ]; exact h4
      · intro j hj
        cases j with
        | zero => omega
        | succ j => rw [groupAt_succ, groupAt_succ]; exact h5 j (by omega)
      · intro j hj hs
        cases j with
        | zero => exact absurd hs hg
        | succ j =>
          rw [groupAt_succ] at hs ⊢
          rw [heapAt, if_neg hg, groupAt_succ]
          exact h6 j (by omega) hs

end FInventorySlotsGroup

/-! ### Item pools: the pool map and the object table -/

theorem PoolsFind_nil (c : Nat) : PoolsFind [] c = none := rfl

theorem PoolsFind_cons (kv : Nat × FItemPool) (m : List (Nat × FItemPool)) (c : Nat) :
    PoolsFind (kv :: m) c = if kv.1 = c then some kv.2 else PoolsFind m c := by
  unfold PoolsFind
  by_cases h : kv.1 = c
  · simp [List.find?_cons, h]
  · simp [List.find?_cons, h]

theorem PoolsFind_none (m : List (Nat × FItemPool)) (c : Nat) (h : ¬ ∃ kv ∈ m, kv.1 = c) :
    PoolsFind m c = none := by
  induction m with
  | nil => rfl
  | cons kv m ih =>
    rw [PoolsFind_cons, if_neg (fun hk => h ⟨kv, List.mem_cons_self _ _, hk⟩)]
    exact ih (fun ⟨x, hx, hxt⟩ => h ⟨x, List.mem_cons_of_mem _ hx, hxt⟩)

theorem PoolsFind_some_of_mem (m : List (Nat × FItemPool)) (c : Nat) (h : ∃ kv ∈ m, kv.1 = c) :
    ∃ P, PoolsFind m c = some P := by
  induction m with
  | nil => obtain ⟨kv, hkv, _⟩ := h; cases hkv
  | cons a m ih =>
    rw [PoolsFind_cons]
    by_cases ha : a.1 = c
    · exact ⟨a.2, by rw [if_pos ha]⟩
    · rw [if_neg ha]
      obtain ⟨kv, hmem, hkv⟩ := h
      rcases List.mem_cons.1 hmem with h1 | h1
      · exact absurd (h1 ▸ hkv) ha
      · exact ih ⟨kv, h1, hkv⟩

theorem PoolsFind_replace (m : List (Nat × FItemPool)) (c : Nat) (v : FItemPool) (t : Nat) :
    PoolsFind (m.map (fun kv => if kv.1 = c then (c, v) else kv)) t =
      if t = c then (PoolsFind m c).map (fun _ => v) else PoolsFind m t := by
  induction m with
  | nil => by_cases h : t = c <;> simp [PoolsFind_nil, h]
  | cons kv m ih =>
    rw [List.map_cons, PoolsFind_cons, ih, PoolsFind_cons, PoolsFind_cons]
    by_cases h1 : kv.1 = c
    · by_cases h2 : t = c
      · subst h2; simp [h1]
      · have h3 : ¬ kv.1 = t := fun h => h2 (h ▸ h1)
        have h4 : ¬ c = t := fun h => h2 h.symm
        simp [h1, h2, h3, h4]
    · by_cases h2 : t = c
      · subst h2; simp [h1]
      · simp [h1, h2]

theorem PoolsFind_append (m : List (Nat × FItemPool)) (c : Nat) (v : FItemPool) (t : Nat) :
    PoolsFind (m ++ [(c, v)]) t =
      match PoolsFind m t with
      | some x => some x
      | none => if c = t then some v else none := by
  induction m with
  | nil => simp [PoolsFind_cons, PoolsFind_nil]
  | cons kv m ih =>
    rw [List.cons_append, PoolsFind_cons, PoolsFind_cons, ih]
    by_cases h : kv.1 = t
    · simp [h]
    · simp [h]

theorem PoolsFind_PoolsAdd (m : List (Nat × FItemPool)) (c : Nat) (v : FItemPool) (t : Nat) :
    PoolsFind (PoolsAdd m c v) t = if t = c then some v else PoolsFind m t := by
  unfold PoolsAdd
  by_cases hk : ∃ kv ∈ m, kv.1 = c
  · rw [if_pos hk, PoolsFind_replace]
    by_cases h : t = c
    · rw [if_pos h, if_pos h]
      obtain ⟨x, hx⟩ := PoolsFind_some_of_mem m c hk
      rw [hx]; rfl
    · rw [if_neg h, if_neg h]
  · rw [if_neg hk, PoolsFind_append]
    by_cases h : t = c
    · subst h
      rw [PoolsFind_none m t hk, if_pos rfl]
    · rw [if_neg h]
      have h1 : ¬ c = t := fun e => h e.symm
      cases hf : PoolsFind m t with
      | none => simp [h1]
      | some x => simp

namespace UItemPoolSubsystem

theorem pool_setPool (s : UItemPoolSubsystem) (c : Nat) (v : FItemPool) (t : Nat) :
    (s.setPool c v).pool t = if t = c then some v else s.pool t :=
  PoolsFind_PoolsAdd _ _ _ _

theorem pool_setPool_self (s : UItemPoolSubsystem) (c : Nat) (v : FItemPool) :
    (s.setPool c v).pool c = some v := by
  rw [pool_setPool, if_pos rfl]

theorem pool_setPool_ne (s : UItemPoolSubsystem) (c : Nat) (v : FItemPool) (t : Nat)
    (h : t ≠ c) : (s.setPool c v).pool t = s.pool t := by
  rw [pool_setPool, if_neg h]

end UItemPoolSubsystem

theorem updateObject_length (objs : ObjectTable) (p : ItemPtr) (f : UPooledItem → UPooledItem) :
    (updateObject objs p f).length = objs.length := by
  unfold updateObject
  cases p with
  | none => rfl
  | some r =>
    simp only
    cases objs.get? r with
    | none => rfl
    | some o => simp

theorem GetClass_updateObject (objs : ObjectTable) (p q : ItemPtr) (f : UPooledItem → UPooledItem)
    (hf : ∀ o, (f o).Class = o.Class) : GetClass (updateObject objs p f) q = GetClass objs q := by
  unfold updateObject
  cases p with
  | none => rfl
  | some r =>
    simp only
    cases ho : objs.get? r with
    | none => rfl
    | some o =>
      simp only
      cases q with
      | none => rfl
      | some t =>
        unfold GetClass
        simp only [List.get?_eq_getElem?, List.getElem?_set] at ho ⊢
        by_cases hrt : r = t
        · subst hrt
          have hr : r < objs.length := by
            by_contra hc
            rw [List.getElem?_eq_none (by omega)] at ho; cases ho
          simp [hr, ho, hf]
        · simp [hrt]

theorem Rename_length (objs : ObjectTable) (p : ItemPtr) (o : UOuter) :
    (Rename objs p o).length = objs.length := updateObject_length _ _ _

theorem ResetItem_length (objs : ObjectTable) (p : ItemPtr) :
    (ResetItem objs p).length = objs.length := updateObject_length _ _ _

theorem InitializeItem_length (objs : ObjectTable) (p : ItemPtr) :
    (InitializeItem objs p).length = objs.length := updateObject_length _ _ _

theorem MarkAsGarbage_length (objs : ObjectTable) (p : ItemPtr) :
    (MarkAsGarbage objs p).length = objs.length := updateObject_length _ _ _

theorem GetClass_Rename (objs : ObjectTable) (p q : ItemPtr) (o : UOuter) :
    GetClass (Rename objs p o) q = GetClass objs q := GetClass_updateObject _ _ _ _ (fun _ => rfl)

theorem GetClass_ResetItem (objs : ObjectTable) (p q : ItemPtr) :
    GetClass (ResetItem objs p) q = GetClass objs q := GetClass_updateObject _ _ _ _ (fun _ => rfl)

theorem GetClass_InitializeItem (objs : ObjectTable) (p q : ItemPtr) :
    GetClass (InitializeItem objs p) q = GetClass objs q :=
  GetClass_updateObject _ _ _ _ (fun _ => rfl)

theorem GetClass_MarkAsGarbage (objs : ObjectTable) (p q : ItemPtr) :
    GetClass (MarkAsGarbage objs p) q = GetClass objs q :=
  GetClass_updateObject _ _ _ _ (fun _ => rfl)

theorem NewObject_length (objs : ObjectTable) (o : UOuter) (c : Nat) :
    (NewObject objs o c).1.length = objs.length + 1 := by
  simp [NewObject]

theorem NewObject_ptr (objs : ObjectTable) (o : UOuter) (c : Nat) :
    (NewObject objs o c).2 = some objs.length := rfl

theorem GetClass_NewObject (objs : ObjectTable) (o : UOuter) (c : Nat) (r : Nat) :
    GetClass (NewObject objs o c).1 (some r) =
      if r = objs.length then some c else GetClass objs (some r) := by
  unfold GetClass NewObject
  simp only [List.get?_eq_getElem?]
  by_cases h : r = objs.length
  · subst h; simp
  · rw [if_neg h]
    by_cases h2 : r < objs.length
    · rw [List.getElem?_append_left h2]
    · rw [List.getElem?_eq_none (by simp; omega), List.getElem?_eq_none (by omega)]

theorem GetClass_lt (objs : ObjectTable) (r c : Nat) (h : GetClass objs (some r) = some c) :
    r < objs.length := by
  unfold GetClass at h
  simp only [List.get?_eq_getElem?] at h
  by_contra hc
  rw [List.getElem?_eq_none (by omega)] at h
  cases h

/-! ### Item pools: creating and prewarming -/

theorem SameSettings_refl (s : UItemPoolSubsystem) : SameSettings s s := ⟨rfl, rfl, rfl, rfl, rfl⟩

theorem SameSettings_trans {s s1 s2 : UItemPoolSubsystem} (a : SameSettings s s1)
    (b : SameSettings s1 s2) : SameSettings s s2 :=
  ⟨b.1.trans a.1, b.2.1.trans a.2.1, b.2.2.1.trans a.2.2.1, b.2.2.2.1.trans a.2.2.2.1,
    b.2.2.2.2.trans a.2.2.2.2⟩

theorem SameSettings_setPool (s : UItemPoolSubsystem) (c : Nat) (v : FItemPool) :
    SameSettings s (s.setPool c v) := ⟨rfl, rfl, rfl, rfl, rfl⟩

theorem freshPtrs_zero (k : Nat) : freshPtrs k 0 = [] := rfl

theorem freshPtrs_succ (k n : Nat) : freshPtrs k (n + 1) = some k :: freshPtrs (k + 1) n := by
  simp [freshPtrs, List.range'_succ]

theorem freshPtrs_length (k n : Nat) : (freshPtrs k n).length = n := by simp [freshPtrs]

theorem mem_freshPtrs (k n : Nat) (x : ItemPtr) :
    x ∈ freshPtrs k n ↔ ∃ r, x = some r ∧ k ≤ r ∧ r < k + n := by
  unfold freshPtrs
  simp only [List.mem_map, List.mem_range'_1]
  constructor
  · rintro ⟨r, hr, rfl⟩; exact ⟨r, rfl, hr⟩
  · rintro ⟨r, rfl, hr⟩; exact ⟨r, hr, rfl⟩

namespace PoolTier

theorem prewarmLoop_pool (this : UOuter) (c n : Nat) (objs : ObjectTable) (Pool : FItemPool) :
    (prewarmLoop this c n objs Pool).2 =
      { Pool with AvailableItems := Pool.AvailableItems ++ freshPtrs objs.length n } := by
  induction n generalizing objs Pool with
  | zero => simp [prewarmLoop, freshPtrs_zero]
  | succ n ih =>
    rw [prewarmLoop, ih, freshPtrs_succ]
    simp [ResetItem_length, InitializeItem_length, NewObject_length, NewObject_ptr]

theorem prewarmLoop_length (this : UOuter) (c n : Nat) (objs : ObjectTable) (Pool : FItemPool) :
    (prewarmLoop this c n objs Pool).1.length = objs.length + n := by
  induction n generalizing objs Pool with
  | zero => rfl
  | succ n ih =>
    rw [prewarmLoop, ih]
    simp only [ResetItem_length, InitializeItem_length, NewObject_length]
    omega

theorem prewarmLoop_class (this : UOuter) (c n : Nat) (objs : ObjectTable) (Pool : FItemPool)
    (r : Nat) :
    GetClass (prewarmLoop this c n objs Pool).1 (some r) =
      if objs.length ≤ r ∧ r < objs.length + n then some c else GetClass objs (some r) := by
  induction n generalizing objs Pool with
  | zero =>
    rw [prewarmLoop, if_neg (by omega)]
  | succ n ih =>
    rw [prewarmLoop, ih]
    simp only [ResetItem_length, InitializeItem_length, NewObject_length, GetClass_ResetItem,
      GetClass_InitializeItem, GetClass_NewObject]
    by_cases h1 : r = objs.length
    · subst h1
      simp
    · by_cases h2 : objs.length + 1 ≤ r ∧ r < objs.length + 1 + n
      · rw [if_pos h2, if_pos (by omega)]
      · rw [if_neg h2, if_neg h1, if_neg (by omega)]

theorem findOrCreate_found (F : ObjectTable → UItemPoolSubsystem → Option Nat →
      ObjectTable × UItemPoolSubsystem)
    (objs : ObjectTable) (s : UItemPoolSubsystem) (c : Nat) (P : FItemPool)
    (h : s.pool c = some P) : findOrCreate F objs s c = (objs, s) := by
  rw [findOrCreate, if_pos (by rw [h]; rfl)]

theorem findOrCreate_absent (F : ObjectTable → UItemPoolSubsystem → Option Nat →
      ObjectTable × UItemPoolSubsystem)
    (objs : ObjectTable) (s : UItemPoolSubsystem) (c : Nat)
    (h : s.pool c = none) : findOrCreate F objs s c = F objs s (some c) := by
  rw [findOrCreate, if_neg (by rw [h]; simp)]

/-- The pool that `CreatePool` adds for a class, once prewarmed. -/
theorem CreatePool_spec (this : UOuter) (objs : ObjectTable) (s : UItemPoolSubsystem) (c : Nat) :
    SameSettings s (CreatePool this objs s (some c)).2 ∧
    (∀ t, t ≠ c → (CreatePool this objs s (some c)).2.pool t = s.pool t) ∧
    (CreatePool this objs s (some c)).2.pool c =
      some ⟨freshPtrs objs.length s.DefaultPrewarmCount.toNat, [], s.DefaultMaxPoolSize,
        s.DefaultPrewarmCount, s.bDefaultStrictLimit, s.bDefaultAutoGrow, 0, 0, 0, 0⟩ ∧
    (CreatePool this objs s (some c)).1.length = objs.length + s.DefaultPrewarmCount.toNat ∧
    ∀ r, GetClass (CreatePool this objs s (some c)).1 (some r) =
      if objs.length ≤ r ∧ r < objs.length + s.DefaultPrewarmCount.toNat then some c
      else GetClass objs (some r) := by
  have hfound := findOrCreate_found (fun o x _ => (o, x)) objs (s.setPool c (NewPool s)) c _
    (UItemPoolSubsystem.pool_setPool_self _ _ _)
  have hcount : (NewPool s).PrewarmCount = s.DefaultPrewarmCount := rfl
  unfold CreatePool
  simp only
  unfold prewarmWith
  simp only
  rw [hcount]
  by_cases hP : s.DefaultPrewarmCount ≤ 0
  · rw [if_pos hP]
    have hk : s.DefaultPrewarmCount.toNat = 0 := by omega
    rw [hk]
    refine ⟨SameSettings_setPool _ _ _, fun t ht => UItemPoolSubsystem.pool_setPool_ne _ _ _ _ ht,
      ?_, rfl, ?_⟩
    · rw [UItemPoolSubsystem.pool_setPool_self]; rfl
    · intro r; rw [if_neg (by omega)]
  · rw [if_neg hP, hfound]
    simp only [UItemPoolSubsystem.pool_setPool_self]
    refine ⟨SameSettings_trans (SameSettings_setPool _ _ _) (SameSettings_setPool _ _ _),
      fun t ht => ?_, ?_, prewarmLoop_length _ _ _ _ _, fun r => prewarmLoop_class _ _ _ _ _ r⟩
    · rw [UItemPoolSubsystem.pool_setPool_ne _ _ _ _ ht,
        UItemPoolSubsystem.pool_setPool_ne _ _ _ _ ht]
    · rw [prewarmLoop_pool]
      simp [FItemPool.ctor, NewPool]

theorem freshPtrs_append (k a b : Nat) :
    freshPtrs k a ++ freshPtrs (k + a) b = freshPtrs k (a + b) := by
  induction a generalizing k with
  | zero => simp [freshPtrs_zero]
  | succ a ih =>
    rw [freshPtrs_succ, List.cons_append, show k + (a + 1) = (k + 1) + a by omega, ih,
      show a + 1 + b = (a + b) + 1 by omega, freshPtrs_succ]

/-- What `PrewarmPool(c, Count)` leaves for a class that had no pool: the pool
`CreatePool` makes, prewarmed with the default count, plus `Count` more items. -/
theorem PrewarmPool_absent (this : UOuter) (objs : ObjectTable) (s : UItemPoolSubsystem) (c : Nat)
    (Count : Int) (hc : 0 < Count) (hs : s.pool c = none) :
    SameSettings s (PrewarmPool this objs s (some c) Count).2 ∧
    (PrewarmPool this objs s (some c) Count).2.pool c =
      some ⟨freshPtrs objs.length (s.DefaultPrewarmCount.toNat + Count.toNat), [],
        s.DefaultMaxPoolSize, s.DefaultPrewarmCount, s.bDefaultStrictLimit, s.bDefaultAutoGrow,
        0, 0, 0, 0⟩ ∧
    (PrewarmPool this objs s (some c) Count).1.length =
      objs.length + (s.DefaultPrewarmCount.toNat + Count.toNat) := by
  obtain ⟨h1, _, h3, h4, _⟩ := CreatePool_spec this objs s c
  unfold PrewarmPool prewarmWith
  simp only
  rw [if_neg (by omega), findOrCreate_absent _ objs s c hs, h3]
  simp only
  refine ⟨SameSettings_trans h1 (SameSettings_setPool _ _ _), ?_, ?_⟩
  · rw [UItemPoolSubsystem.pool_setPool_self, prewarmLoop_pool, h4]
    simp only
    rw [freshPtrs_append]
  · rw [prewarmLoop_length, h4]; omega

theorem popAvailable_hit (objs : ObjectTable) (Pool : FItemPool) (Outer : Option Nat)
    (l : List ItemPtr) (p : Nat) (hl : Pool.AvailableItems = l ++ [some p]) :
    (popAvailable objs Pool Outer).2 =
        ({ Pool with AvailableItems := l, HitCount := Pool.HitCount + 1 }, some p) ∧
      (popAvailable objs Pool Outer).1.length = objs.length := by
  have h1 : Pool.AvailableItems.getLast?.join = some p := by rw [hl]; simp
  have h2 : Pool.AvailableItems.dropLast = l := by rw [hl]; simp
  unfold popAvailable
  rw [h1, h2, if_pos (by simp)]
  refine ⟨rfl, ?_⟩
  simp only [InitializeItem_length, ResetItem_length]
  cases Outer with
  | none => rfl
  | some o => exact Rename_length _ _ _

theorem missOrActivate_some (objs : ObjectTable) (Pool : FItemPool) (p : Nat) (c : Nat)
    (Outer : Option Nat) :
    missOrActivate (objs, Pool, some p) c Outer =
      (objs, { Pool with ActiveItems := Pool.ActiveItems ++ [some p] }, some p) := by
  unfold missOrActivate
  rw [if_neg (by simp)]

theorem missOrActivate_strict (objs : ObjectTable) (Pool : FItemPool) (c : Nat)
    (Outer : Option Nat) (hs : Pool.bStrictLimit = true) :
    missOrActivate (objs, Pool, none) c Outer =
      (objs, { Pool with MissCount := Pool.MissCount + 1 }, none) := by
  unfold missOrActivate
  rw [if_pos rfl, if_pos hs]

theorem missOrActivate_fresh (objs : ObjectTable) (Pool : FItemPool) (c : Nat) (o : Nat)
    (hs : ¬ Pool.bStrictLimit = true) :
    missOrActivate (objs, Pool, none) c (some o) =
      (InitializeItem (NewObject objs (.Caller o) c).1 (some objs.length),
        { Pool with MissCount := Pool.MissCount + 1,
                    ActiveItems := Pool.ActiveItems ++ [some objs.length] },
        some objs.length) := by
  unfold missOrActivate
  rw [if_pos rfl, if_neg hs]
  rfl

theorem missOrActivate_ownerless (objs : ObjectTable) (Pool : FItemPool) (c : Nat)
    (hs : ¬ Pool.bStrictLimit = true) :
    missOrActivate (objs, Pool, none) c none =
      (objs, { Pool with MissCount := Pool.MissCount + 1 }, none) := by
  unfold missOrActivate
  rw [if_pos rfl, if_neg hs]

end PoolTier

namespace UItemPoolSubsystem

theorem GetItemFromPool_found (w : PoolWorld) (c : Nat) (Outer : Option Nat) (P : FItemPool)
    (he : w.World.bEnablePooling = true) (hp : w.World.pool c = some P) :
    GetItemFromPool w (some c) Outer = getFound w.Objects w.World w.Engine c P Outer := by
  unfold GetItemFromPool
  simp only
  rw [if_neg (not_not.2 he), PoolTier.findOrCreate_found _ _ _ _ P hp]
  simp only [hp]

theorem getFound_pop (objs : ObjectTable) (s : UItemPoolSubsystem)
    (Engine : Option UEngineItemPoolSubsystem) (c : Nat) (P : FItemPool) (Outer : Option Nat)
    (h : P.AvailableItems.length > 0) :
    getFound objs s Engine c P Outer =
      served s Engine c (PoolTier.missOrActivate (PoolTier.popAvailable objs P Outer) c Outer) := by
  unfold getFound
  rw [if_pos h]

theorem getFound_alone (objs : ObjectTable) (s : UItemPoolSubsystem) (c : Nat) (P : FItemPool)
    (Outer : Option Nat) (h : P.AvailableItems = []) :
    getFound objs s none c P Outer =
      served s none c (PoolTier.missOrActivate (objs, P, none) c Outer) := by
  unfold getFound
  rw [if_neg (by rw [h]; simp)]

theorem getFound_engine (objs : ObjectTable) (s : UItemPoolSubsystem)
    (e : UEngineItemPoolSubsystem) (c : Nat) (P : FItemPool)
    (Outer : Option Nat) (h : P.AvailableItems = []) :
    getFound objs s (some e) c P Outer =
      served s (some (UEngineItemPoolSubsystem.GetItemFromPool objs e (some c) Outer).2.1) c
        (PoolTier.missOrActivate
          ((UEngineItemPoolSubsystem.GetItemFromPool objs e (some c) Outer).1, P,
            (UEngineItemPoolSubsystem.GetItemFromPool objs e (some c) Outer).2.2) c Outer) := by
  unfold getFound
  rw [if_neg (by rw [h]; simp)]

/-- A request served from a non-empty available list whose top is an object. -/
theorem GetItemFromPool_hit (w : PoolWorld) (c : Nat) (Outer : Option Nat) (P : FItemPool)
    (l : List ItemPtr) (p : Nat)
    (he : w.World.bEnablePooling = true) (hp : w.World.pool c = some P)
    (hl : P.AvailableItems = l ++ [some p]) :
    (GetItemFromPool w (some c) Outer).2 = some p ∧
    (GetItemFromPool w (some c) Outer).1.World =
      w.World.setPool c { P with AvailableItems := l, HitCount := P.HitCount + 1,
                                 ActiveItems := P.ActiveItems ++ [some p] } ∧
    (GetItemFromPool w (some c) Outer).1.Engine = w.Engine ∧
    (GetItemFromPool w (some c) Outer).1.Objects.length = w.Objects.length := by
  obtain ⟨h1, h2⟩ := PoolTier.popAvailable_hit w.Objects P Outer l p hl
  rw [GetItemFromPool_found w c Outer P he hp, getFound_pop _ _ _ _ _ _ (by rw [hl]; simp)]
  have e : PoolTier.popAvailable w.Objects P Outer =
      ((PoolTier.popAvailable w.Objects P Outer).1,
        { P with AvailableItems := l, HitCount := P.HitCount + 1 }, some p) := by
    rw [← h1]
  rw [e, PoolTier.missOrActivate_some]
  exact ⟨rfl, rfl, rfl, h2⟩

theorem freshPtrs_snoc (k m : Nat) : freshPtrs k (m + 1) = freshPtrs k m ++ [some (k + m)] := by
  rw [← PoolTier.freshPtrs_append k m 1, freshPtrs_succ, freshPtrs_zero]

/-- As long as the available list lasts, every request is a hit. -/
theorem repeatGet_hits (c : Nat) (Outer : Option Nat) (n : Nat) (w : PoolWorld) (P : FItemPool)
    (k m : Nat) (he : w.World.bEnablePooling = true) (hp : w.World.pool c = some P)
    (hl : P.AvailableItems = freshPtrs k m) (hn : n ≤ m) :
    ∃ P1, (repeatGet (some c) Outer n w).World.pool c = some P1 ∧
      P1.AvailableItems = freshPtrs k (m - n) ∧ P1.HitCount = P.HitCount + n ∧
      P1.MissCount = P.MissCount ∧ P1.bStrictLimit = P.bStrictLimit ∧
      P1.ActiveItems.length = P.ActiveItems.length + n ∧
      (repeatGet (some c) Outer n w).World.bEnablePooling = true ∧
      (repeatGet (some c) Outer n w).Engine = w.Engine ∧
      (repeatGet (some c) Outer n w).Objects.length = w.Objects.length := by
  induction n generalizing w P m with
  | zero => exact ⟨P, hp, by simpa using hl, by simp, rfl, rfl, rfl, he, rfl, rfl⟩
  | succ n ih =>
    obtain ⟨m1, rfl⟩ : ∃ m1, m = m1 + 1 := ⟨m - 1, by omega⟩
    rw [freshPtrs_snoc] at hl
    obtain ⟨_, h2, h3, h4⟩ := GetItemFromPool_hit w c Outer P _ _ he hp hl
    have hp1 := congrArg (fun x => x.pool c) h2
    simp only [pool_setPool_self] at hp1
    have he1 : (GetItemFromPool w (some c) Outer).1.World.bEnablePooling = true := by
      rw [h2]; exact he
    obtain ⟨P1, a1, a2, a3, a4, a5, a6, a7, a8, a9⟩ :=
      ih (GetItemFromPool w (some c) Outer).1 _ m1 he1 hp1 rfl (by omega)
    refine ⟨P1, a1, ?_, ?_, a4, a5, ?_, a7, a8.trans h3, a9.trans h4⟩
    · rw [a2, show m1 + 1 - (n + 1) = m1 - n by omega]
    · rw [a3]; simp only; push_cast; ring
    · rw [a6]; simp; omega

theorem GetItemFromPool_alone (w : PoolWorld) (c : Nat) (Outer : Option Nat) (P : FItemPool)
    (he : w.World.bEnablePooling = true) (hp : w.World.pool c = some P)
    (hl : P.AvailableItems = []) (hn : w.Engine = none) :
    GetItemFromPool w (some c) Outer =
      served w.World none c (PoolTier.missOrActivate (w.Objects, P, none) c Outer) := by
  rw [GetItemFromPool_found w c Outer P he hp, hn, getFound_alone _ _ _ _ _ hl]

theorem PrewarmPool_world_absent (w : PoolWorld) (c : Nat) (Count : Int) (hc : 0 < Count)
    (hs : w.World.pool c = none) :
    (PrewarmPool w (some c) Count).World.bEnablePooling = w.World.bEnablePooling ∧
    (PrewarmPool w (some c) Count).World.pool c =
      some ⟨freshPtrs w.Objects.length (w.World.DefaultPrewarmCount.toNat + Count.toNat), [],
        w.World.DefaultMaxPoolSize, w.World.DefaultPrewarmCount, w.World.bDefaultStrictLimit,
        w.World.bDefaultAutoGrow, 0, 0, 0, 0⟩ ∧
    (PrewarmPool w (some c) Count).Engine = w.Engine := by
  obtain ⟨h1, h2, _⟩ := PoolTier.PrewarmPool_absent .WorldPool w.Objects w.World c Count hc hs
  exact ⟨h1.1, h2, rfl⟩

end UItemPoolSubsystem

/-! ### Item pools: a miss -/

namespace PoolTier

theorem missOrActivate_outcome (objs : ObjectTable) (P : FItemPool) (c : Nat)
    (Outer : Option Nat) :
    MissOutcome objs P c Outer (missOrActivate (objs, P, none) c Outer).1
      (missOrActivate (objs, P, none) c Outer).2.1 (missOrActivate (objs, P, none) c Outer).2.2 := by
  unfold MissOutcome
  by_cases hs : P.bStrictLimit = true
  · rw [missOrActivate_strict _ _ _ _ hs]
    refine ⟨rfl, rfl, rfl, fun _ => ⟨rfl, rfl, rfl⟩, ?_, ?_⟩
    · intro hf; rw [hf] at hs; cases hs
    · intro hf; rw [hf] at hs; cases hs
  · cases Outer with
    | none =>
      rw [missOrActivate_ownerless _ _ _ hs]
      refine ⟨rfl, rfl, rfl, fun h => absurd h hs, ?_, fun _ _ => ⟨rfl, rfl, rfl⟩⟩
      intro _ o ho
      cases ho
    | some o =>
      rw [missOrActivate_fresh _ _ _ _ hs]
      refine ⟨rfl, rfl, rfl, fun h => absurd h hs, ?_, ?_⟩
      swap
      · intro _ ho; cases ho
      intro _ o1 _
      refine ⟨rfl, ?_, ?_, rfl⟩
      · rw [InitializeItem_length, NewObject_length]
      · rw [GetClass_InitializeItem, GetClass_NewObject, if_pos rfl]

end PoolTier

namespace UEngineItemPoolSubsystem

theorem GetItemFromPool_engine_found (objs : ObjectTable) (e : UEngineItemPoolSubsystem) (c : Nat)
    (Outer : Option Nat) (P : FItemPool)
    (he : e.bEnablePooling = true) (hp : UItemPoolSubsystem.pool e c = some P) :
    GetItemFromPool objs e (some c) Outer = getFound objs e c P Outer := by
  unfold GetItemFromPool
  simp only
  rw [if_neg (not_not.2 he), PoolTier.findOrCreate_found _ _ _ _ P hp]
  simp only [hp]

theorem getFound_empty (objs : ObjectTable) (e : UEngineItemPoolSubsystem) (c : Nat)
    (P : FItemPool) (Outer : Option Nat) (hl : P.AvailableItems = []) :
    getFound objs e c P Outer =
      ((PoolTier.missOrActivate (objs, P, none) c Outer).1,
        UItemPoolSubsystem.setPool e c (PoolTier.missOrActivate (objs, P, none) c Outer).2.1,
        (PoolTier.missOrActivate (objs, P, none) c Outer).2.2) := by
  unfold getFound
  rw [if_neg (by rw [hl]; simp)]

end UEngineItemPoolSubsystem

/-! ### Item pools: a return -/

namespace PoolTier

theorem acceptReturn_room (this : UOuter) (objs : ObjectTable) (P : FItemPool) (Item : ItemPtr)
    (h : (P.AvailableItems.length : Int) < P.MaxPoolSize) :
    acceptReturn this objs P Item =
      (Rename (ResetItem objs Item) Item this,
        { P with ActiveItems := P.ActiveItems.filter (fun x => x ≠ Item),
                 ReturnCount := P.ReturnCount + 1,
                 AvailableItems := P.AvailableItems ++ [Item] },
        true) := by
  rw [acceptReturn, if_pos h]

theorem acceptReturn_grow (this : UOuter) (objs : ObjectTable) (P : FItemPool) (Item : ItemPtr)
    (h : ¬ (P.AvailableItems.length : Int) < P.MaxPoolSize) (hg : P.bAutoGrow = true) :
    acceptReturn this objs P Item =
      (Rename (ResetItem objs Item) Item this,
        { P with ActiveItems := P.ActiveItems.filter (fun x => x ≠ Item),
                 ReturnCount := P.ReturnCount + 1,
                 MaxPoolSize := P.MaxPoolSize + 1,
                 AvailableItems := P.AvailableItems ++ [Item] },
        true) := by
  rw [acceptReturn, if_neg h, if_pos hg]

theorem acceptReturn_overflow (this : UOuter) (objs : ObjectTable) (P : FItemPool)
    (Item : ItemPtr) (h : ¬ (P.AvailableItems.length : Int) < P.MaxPoolSize)
    (hg : ¬ P.bAutoGrow = true) :
    acceptReturn this objs P Item =
      (objs,
        { P with ActiveItems := P.ActiveItems.filter (fun x => x ≠ Item),
                 OverflowCount := P.OverflowCount + 1 },
        false) := by
  rw [acceptReturn, if_neg h, if_neg hg]

theorem not_mem_filter_ne (l : List ItemPtr) (Item : ItemPtr) :
    Item ∉ l.filter (fun x => x ≠ Item) := by
  simp [List.mem_filter]

theorem acceptReturn_atCapacity (this : UOuter) (objs : ObjectTable) (P : FItemPool)
    (Item : ItemPtr) (h : P.MaxPoolSize ≤ (P.AvailableItems.length : Int)) :
    ReturnedAtCapacity P (acceptReturn this objs P Item).2.1 Item ∧
      ((acceptReturn this objs P Item).2.2 = true ↔ P.bAutoGrow = true) ∧
      (P.bAutoGrow = false → (acceptReturn this objs P Item).1 = objs) := by
  have h1 : ¬ (P.AvailableItems.length : Int) < P.MaxPoolSize := by omega
  unfold ReturnedAtCapacity
  by_cases hg : P.bAutoGrow = true
  · rw [acceptReturn_grow this objs P Item h1 hg]
    refine ⟨⟨rfl, not_mem_filter_ne _ _, fun _ => ⟨rfl, rfl, rfl⟩, ?_⟩, ?_, ?_⟩
    · intro hf; rw [hf] at hg; cases hg
    · simp [hg]
    · intro hf; rw [hf] at hg; cases hg
  · rw [acceptReturn_overflow this objs P Item h1 hg]
    refine ⟨⟨rfl, not_mem_filter_ne _ _, fun ht => absurd ht hg, fun _ => ⟨rfl, rfl, rfl⟩⟩, ?_,
      fun _ => rfl⟩
    simp [hg]

end PoolTier

namespace UEngineItemPoolSubsystem

theorem ReturnItemToPool_engine_found (objs : ObjectTable) (e : UEngineItemPoolSubsystem) (p c : Nat)
    (P : FItemPool) (he : e.bEnablePooling = true) (hc : GetClass objs (some p) = some c)
    (hp : UItemPoolSubsystem.pool e c = some P) :
    ReturnItemToPool objs e (some p) = returnFound objs e c P (some p) := by
  unfold ReturnItemToPool
  rw [if_neg (by simp [he]), hc]
  simp only
  rw [PoolTier.findOrCreate_found _ _ _ _ P hp]
  simp only [hp]

end UEngineItemPoolSubsystem

namespace UItemPoolSubsystem

theorem ReturnItemToPool_found (w : PoolWorld) (p c : Nat)
    (P : FItemPool) (he : w.World.bEnablePooling = true)
    (hc : GetClass w.Objects (some p) = some c) (hp : w.World.pool c = some P) :
    ReturnItemToPool w (some p) = returnFound w.Objects w.World w.Engine c P (some p) := by
  unfold ReturnItemToPool
  rw [if_neg (by simp [he]), hc]
  simp only
  rw [PoolTier.findOrCreate_found _ _ _ _ P hp]
  simp only [hp]

end UItemPoolSubsystem

/-! ### Item pools: the available list and the capacity -/

theorem engine_CreatePool_eq :
    UEngineItemPoolSubsystem.CreatePool = PoolTier.CreatePool .EnginePool := rfl

theorem world_CreatePool_eq :
    UItemPoolSubsystem.CreatePool = PoolTier.CreatePool .WorldPool := rfl

namespace UItemPoolSubsystem

theorem Bounded_setPool (s : UItemPoolSubsystem) (c : Nat) (Q : FItemPool) (hs : s.Bounded)
    (hq : (Q.AvailableItems.length : Int) ≤ Q.MaxPoolSize) : (s.setPool c Q).Bounded := by
  refine ⟨hs.1, hs.2.1, ?_⟩
  intro t P hP
  rw [pool_setPool] at hP
  by_cases ht : t = c
  · rw [if_pos ht] at hP
    cases hP
    exact hq
  · rw [if_neg ht] at hP
    exact hs.2.2 t P hP

theorem Bounded_of_same (s s1 : UItemPoolSubsystem) (hs : s.Bounded) (h : SameSettings s s1)
    (hp : ∀ c P, s1.pool c = some P → (P.AvailableItems.length : Int) ≤ P.MaxPoolSize) :
    s1.Bounded :=
  ⟨by rw [h.2.1]; exact hs.1, by rw [h.2.1, h.2.2.1]; exact hs.2.1, hp⟩

end UItemPoolSubsystem

namespace PoolTier

theorem CreatePool_Bounded (this : UOuter) (objs : ObjectTable) (s : UItemPoolSubsystem) (c : Nat)
    (hs : s.Bounded) : (CreatePool this objs s (some c)).2.Bounded := by
  obtain ⟨h1, h2, h3, _, _⟩ := CreatePool_spec this objs s c
  refine UItemPoolSubsystem.Bounded_of_same s _ hs h1 ?_
  intro t P hP
  by_cases ht : t = c
  · subst ht
    rw [h3] at hP
    cases hP
    simp only [freshPtrs_length]
    have := hs.1
    have := hs.2.1
    omega
  · rw [h2 t ht] at hP
    exact hs.2.2 t P hP

theorem findOrCreate_Bounded (this : UOuter) (objs : ObjectTable) (s : UItemPoolSubsystem)
    (c : Nat) (hs : s.Bounded) : (findOrCreate (CreatePool this) objs s c).2.Bounded := by
  unfold findOrCreate
  split
  · exact hs
  · exact CreatePool_Bounded this objs s c hs

theorem popAvailable_frame (objs : ObjectTable) (P : FItemPool) (Outer : Option Nat) :
    (popAvailable objs P Outer).2.1.AvailableItems = P.AvailableItems.dropLast ∧
      (popAvailable objs P Outer).2.1.MaxPoolSize = P.MaxPoolSize := by
  unfold popAvailable
  split <;> exact ⟨rfl, rfl⟩

theorem missOrActivate_frame (a : ObjectTable × FItemPool × ItemPtr) (c : Nat)
    (Outer : Option Nat) :
    (missOrActivate a c Outer).2.1.AvailableItems = a.2.1.AvailableItems ∧
      (missOrActivate a c Outer).2.1.MaxPoolSize = a.2.1.MaxPoolSize := by
  unfold missOrActivate
  split
  · split
    · exact ⟨rfl, rfl⟩
    · split <;> exact ⟨rfl, rfl⟩
  · exact ⟨rfl, rfl⟩

theorem acceptReturn_Bounded (this : UOuter) (objs : ObjectTable) (P : FItemPool)
    (Item : ItemPtr) (h : (P.AvailableItems.length : Int) ≤ P.MaxPoolSize) :
    ((acceptReturn this objs P Item).2.1.AvailableItems.length : Int) ≤
      (acceptReturn this objs P Item).2.1.MaxPoolSize := by
  by_cases h1 : (P.AvailableItems.length : Int) < P.MaxPoolSize
  · rw [acceptReturn_room this objs P Item h1]
    simp only [List.length_append, List.length_singleton]
    push_cast
    omega
  · by_cases hg : P.bAutoGrow = true
    · rw [acceptReturn_grow this objs P Item h1 hg]
      simp only [List.length_append, List.length_singleton]
      push_cast
      omega
    · rw [acceptReturn_overflow this objs P Item h1 hg]
      exact h

theorem ConfigurePool_Bounded (this : UOuter) (objs : ObjectTable) (s : UItemPoolSubsystem)
    (ItemClass : Option Nat) (a b : Bool) (hs : s.Bounded) :
    (ConfigurePool this objs s ItemClass a b).2.Bounded := by
  unfold ConfigurePool
  cases ItemClass with
  | none => exact hs
  | some c =>
    simp only
    have hfc := findOrCreate_Bounded this objs s c hs
    split
    · exact hfc
    · rename_i P hP
      exact UItemPoolSubsystem.Bounded_setPool _ _ _ hfc (hfc.2.2 c P hP)

theorem trimLoop_length {σ : Type} (dispose : σ → ItemPtr → σ) (MaxSize : Int) (n : Nat) (st : σ)
    (avail : List ItemPtr) (hn : avail.length ≤ n) (hm : 0 ≤ MaxSize) :
    ((trimLoop dispose MaxSize n st avail).2.length : Int) ≤ MaxSize := by
  induction n generalizing st avail with
  | zero =>
    rw [trimLoop]
    have : avail.length = 0 := by omega
    rw [this]; exact hm
  | succ n ih =>
    rw [trimLoop]
    split
    · exact ih _ _ (by simp; omega)
    · show (avail.length : Int) ≤ MaxSize
      omega

theorem trimLoop_inv {σ : Type} (dispose : σ → ItemPtr → σ) (Inv : σ → Prop)
    (hd : ∀ st Item, Inv st → Inv (dispose st Item)) (MaxSize : Int) (n : Nat) (st : σ)
    (avail : List ItemPtr) (h : Inv st) : Inv (trimLoop dispose MaxSize n st avail).1 := by
  induction n generalizing st avail with
  | zero => exact h
  | succ n ih =>
    rw [trimLoop]
    split
    · apply ih
      split
      · exact hd _ _ h
      · exact h
    · exact h

end PoolTier

namespace UEngineItemPoolSubsystem

theorem getFound_Bounded (objs : ObjectTable) (e : UEngineItemPoolSubsystem) (c : Nat)
    (P : FItemPool) (Outer : Option Nat) (he : UItemPoolSubsystem.Bounded e)
    (hP : (P.AvailableItems.length : Int) ≤ P.MaxPoolSize) :
    UItemPoolSubsystem.Bounded (getFound objs e c P Outer).2.1 := by
  unfold getFound
  apply UItemPoolSubsystem.Bounded_setPool _ _ _ he
  rw [(PoolTier.missOrActivate_frame _ _ _).1, (PoolTier.missOrActivate_frame _ _ _).2]
  split
  · rw [(PoolTier.popAvailable_frame _ _ _).1, (PoolTier.popAvailable_frame _ _ _).2]
    simp only [List.length_dropLast]
    omega
  · exact hP

theorem GetItemFromPool_Bounded (objs : ObjectTable) (e : UEngineItemPoolSubsystem)
    (ItemClass : Option Nat) (Outer : Option Nat) (he : UItemPoolSubsystem.Bounded e) :
    UItemPoolSubsystem.Bounded (GetItemFromPool objs e ItemClass Outer).2.1 := by
  unfold GetItemFromPool
  cases ItemClass with
  | none => exact he
  | some c =>
    simp only
    split
    · exact he
    · rw [engine_CreatePool_eq]
      have hfc := PoolTier.findOrCreate_Bounded .EnginePool objs e c he
      split
      · exact hfc
      · rename_i P hP
        exact getFound_Bounded _ _ _ _ _ hfc (hfc.2.2 c P hP)

theorem ReturnItemToPool_Bounded (objs : ObjectTable) (e : UEngineItemPoolSubsystem)
    (Item : ItemPtr) (he : UItemPoolSubsystem.Bounded e) :
    UItemPoolSubsystem.Bounded (ReturnItemToPool objs e Item).2 := by
  unfold ReturnItemToPool
  split
  · exact he
  · split
    · exact he
    · rename_i c _
      rw [engine_CreatePool_eq]
      have hfc := PoolTier.findOrCreate_Bounded .EnginePool objs e c he
      split
      · exact hfc
      · rename_i P hP
        exact UItemPoolSubsystem.Bounded_setPool _ _ _ hfc
          (PoolTier.acceptReturn_Bounded _ _ _ _ (hfc.2.2 c P hP))

theorem SetMaxPoolSize_Bounded (objs : ObjectTable) (e : UEngineItemPoolSubsystem)
    (ItemClass : Option Nat) (MaxSize : Int) (he : UItemPoolSubsystem.Bounded e) :
    UItemPoolSubsystem.Bounded (SetMaxPoolSize objs e ItemClass MaxSize).2 := by
  unfold SetMaxPoolSize
  cases ItemClass with
  | none => exact he
  | some c =>
    simp only
    split
    · exact he
    · rw [engine_CreatePool_eq]
      have hfc := PoolTier.findOrCreate_Bounded .EnginePool objs e c he
      split
      · exact hfc
      · exact UItemPoolSubsystem.Bounded_setPool _ _ _ hfc
          (PoolTier.trimLoop_length _ _ _ _ _ (le_refl _) (by omega))

end UEngineItemPoolSubsystem

theorem runEngine_Bounded (op : PoolOp) (st : ObjectTable × UEngineItemPoolSubsystem)
    (h : UItemPoolSubsystem.Bounded st.2) (hop : ∀ c n, op ≠ .PrewarmPool c n) :
    UItemPoolSubsystem.Bounded (op.runEngine st).2 := by
  cases op with
  | GetItemFromPool c o => exact UEngineItemPoolSubsystem.GetItemFromPool_Bounded _ _ _ _ h
  | ReturnItemToPool i => exact UEngineItemPoolSubsystem.ReturnItemToPool_Bounded _ _ _ h
  | PrewarmPool c n => exact absurd rfl (hop c n)
  | SetMaxPoolSize c n => exact UEngineItemPoolSubsystem.SetMaxPoolSize_Bounded _ _ _ _ h
  | ConfigurePool c a b => exact PoolTier.ConfigurePool_Bounded _ _ _ _ _ _ h

namespace UItemPoolSubsystem

theorem handOver_Bounded (st : ObjectTable × Option UEngineItemPoolSubsystem) (Item : ItemPtr)
    (h : ∀ e, st.2 = some e → Bounded e) : ∀ e, (handOver st Item).2 = some e → Bounded e := by
  unfold handOver
  cases hE : st.2 with
  | none => intro e he; cases he
  | some x =>
    intro e he
    simp only [Option.some.injEq] at he
    subst he
    exact UEngineItemPoolSubsystem.ReturnItemToPool_Bounded _ _ _ (h x hE)

theorem served_Bounded (s : UItemPoolSubsystem) (E : Option UEngineItemPoolSubsystem) (c : Nat)
    (b : ObjectTable × FItemPool × ItemPtr) (hs : s.Bounded)
    (hE : ∀ e, E = some e → Bounded e)
    (hb : (b.2.1.AvailableItems.length : Int) ≤ b.2.1.MaxPoolSize) :
    (served s E c b).1.Bounded :=
  ⟨Bounded_setPool _ _ _ hs hb, hE⟩

theorem getFound_world_Bounded (objs : ObjectTable) (s : UItemPoolSubsystem)
    (E : Option UEngineItemPoolSubsystem) (c : Nat) (P : FItemPool) (Outer : Option Nat)
    (hs : s.Bounded) (hE : ∀ e, E = some e → Bounded e)
    (hP : (P.AvailableItems.length : Int) ≤ P.MaxPoolSize) :
    (getFound objs s E c P Outer).1.Bounded := by
  unfold getFound
  split
  · apply served_Bounded _ _ _ _ hs hE
    rw [(PoolTier.missOrActivate_frame _ _ _).1, (PoolTier.missOrActivate_frame _ _ _).2,
      (PoolTier.popAvailable_frame _ _ _).1, (PoolTier.popAvailable_frame _ _ _).2]
    simp only [List.length_dropLast]
    omega
  · cases E with
    | none =>
      simp only
      apply served_Bounded _ _ _ _ hs hE
      rw [(PoolTier.missOrActivate_frame _ _ _).1, (PoolTier.missOrActivate_frame _ _ _).2]
      exact hP
    | some e =>
      simp only
      apply served_Bounded _ _ _ _ hs
      · intro x hx
        simp only [Option.some.injEq] at hx
        subst hx
        exact UEngineItemPoolSubsystem.GetItemFromPool_Bounded _ _ _ _ (hE e rfl)
      · rw [(PoolTier.missOrActivate_frame _ _ _).1, (PoolTier.missOrActivate_frame _ _ _).2]
        exact hP

theorem GetItemFromPool_world_Bounded (w : PoolWorld) (ItemClass : Option Nat)
    (Outer : Option Nat) (hw : w.Bounded) : (GetItemFromPool w ItemClass Outer).1.Bounded := by
  unfold GetItemFromPool
  cases ItemClass with
  | none => exact hw
  | some c =>
    simp only
    split
    · exact hw
    · rw [world_CreatePool_eq]
      have hfc := PoolTier.findOrCreate_Bounded .WorldPool w.Objects w.World c hw.1
      split
      · exact ⟨hfc, hw.2⟩
      · rename_i P hP
        exact getFound_world_Bounded _ _ _ _ _ _ hfc hw.2 (hfc.2.2 c P hP)

theorem ReturnItemToPool_world_Bounded (w : PoolWorld) (Item : ItemPtr) (hw : w.Bounded) :
    (ReturnItemToPool w Item).Bounded := by
  unfold ReturnItemToPool
  split
  · exact hw
  · split
    · exact hw
    · rename_i c _
      rw [world_CreatePool_eq]
      have hfc := PoolTier.findOrCreate_Bounded .WorldPool w.Objects w.World c hw.1
      split
      · exact ⟨hfc, hw.2⟩
      · rename_i P hP
        have hq := PoolTier.acceptReturn_Bounded .WorldPool
          (PoolTier.findOrCreate (PoolTier.CreatePool .WorldPool) w.Objects w.World c).1 P Item
          (hfc.2.2 c P hP)
        unfold returnFound
        split
        · exact ⟨Bounded_setPool _ _ _ hfc hq, hw.2⟩
        · exact ⟨Bounded_setPool _ _ _ hfc hq, handOver_Bounded _ _ hw.2⟩

theorem SetMaxPoolSize_world_Bounded (w : PoolWorld) (ItemClass : Option Nat) (MaxSize : Int)
    (hw : w.Bounded) : (SetMaxPoolSize w ItemClass MaxSize).Bounded := by
  unfold SetMaxPoolSize
  cases ItemClass with
  | none => exact hw
  | some c =>
    simp only
    split
    · exact hw
    · rw [world_CreatePool_eq]
      have hfc := PoolTier.findOrCreate_Bounded .WorldPool w.Objects w.World c hw.1
      split
      · exact ⟨hfc, hw.2⟩
      · unfold resizeFound
        refine ⟨Bounded_setPool _ _ _ hfc
          (PoolTier.trimLoop_length _ _ _ _ _ (le_refl _) (by omega)), ?_⟩
        exact PoolTier.trimLoop_inv handOver (fun st => ∀ e, st.2 = some e → Bounded e)
          (fun st Item h => handOver_Bounded st Item h) _ _ _ _ hw.2

end UItemPoolSubsystem

theorem fresh_world_Bounded : (PoolWorld.mk [] UItemPoolSubsystem.ctor none).Bounded := by
  refine ⟨⟨by decide, by decide, ?_⟩, ?_⟩
  · intro c P h
    cases h
  · intro e he
    cases he

theorem TierOp_run_Bounded (op : TierOp) (w : PoolWorld) (hop : op.NoPrewarm) (hw : w.Bounded) :
    (op.run w).Bounded := by
  cases op with
  | World o =>
    cases o with
    | GetItemFromPool c x => exact UItemPoolSubsystem.GetItemFromPool_world_Bounded _ _ _ hw
    | ReturnItemToPool i => exact UItemPoolSubsystem.ReturnItemToPool_world_Bounded _ _ hw
    | PrewarmPool c n => exact absurd hop (by simp [TierOp.NoPrewarm])
    | SetMaxPoolSize c n => exact UItemPoolSubsystem.SetMaxPoolSize_world_Bounded _ _ _ hw
    | ConfigurePool c a b => exact ⟨PoolTier.ConfigurePool_Bounded _ _ _ _ _ _ hw.1, hw.2⟩
  | Engine o =>
    unfold TierOp.run
    cases hE : w.Engine with
    | none => exact hw
    | some e =>
      refine ⟨hw.1, ?_⟩
      intro x hx
      simp only [Option.some.injEq] at hx
      subst hx
      apply runEngine_Bounded o _ (hw.2 e hE)
      intro c n ho
      subst ho
      exact absurd hop (by simp [TierOp.NoPrewarm])

theorem TierOp_runs_Bounded (ops : List TierOp) (w : PoolWorld)
    (hops : ∀ op ∈ ops, op.NoPrewarm) (hw : w.Bounded) : (ops.foldl TierOp.run w).Bounded := by
  induction ops generalizing w with
  | nil => exact hw
  | cons op ops ih =>
    rw [List.foldl_cons]
    exact ih _ (fun o ho => hops o (List.mem_cons_of_mem _ ho))
      (TierOp_run_Bounded op w (hops op (List.mem_cons_self _ _)) hw)

/-! ### Item pools: membership -/

theorem ClassStable_refl (objs : ObjectTable) : ClassStable objs objs := fun _ _ h => h

theorem ClassStable_trans {a b c : ObjectTable} (h1 : ClassStable a b) (h2 : ClassStable b c) :
    ClassStable a c := fun x k h => h2 x k (h1 x k h)

theorem ClassStable_of_eq (objs objs1 : ObjectTable) (h : ∀ q, GetClass objs1 q = GetClass objs q) :
    ClassStable objs objs1 := fun x c hx => by rw [h x]; exact hx

theorem ClassStable_NewObject (objs : ObjectTable) (o : UOuter) (c : Nat) :
    ClassStable objs (NewObject objs o c).1 := by
  intro x k hx
  cases x with
  | none => cases hx
  | some r =>
    have hr := GetClass_lt objs r k hx
    rw [GetClass_NewObject, if_neg (by omega)]
    exact hx

theorem GetClass_some (objs : ObjectTable) (x : ItemPtr) (c : Nat) (h : GetClass objs x = some c) :
    ∃ r, x = some r ∧ r < objs.length := by
  cases x with
  | none => cases h
  | some r => exact ⟨r, rfl, GetClass_lt objs r c h⟩

theorem ListsOK_stable {objs objs1 : ObjectTable} {c : Nat} {avail active : List ItemPtr}
    (h : ListsOK objs c avail active) (hs : ClassStable objs objs1) :
    ListsOK objs1 c avail active :=
  ⟨h.1, fun x hx => hs x c (h.2 x hx)⟩

theorem Exclusive_stable {objs objs1 : ObjectTable} {s : UItemPoolSubsystem}
    (h : Exclusive objs s) (hs : ClassStable objs objs1) : Exclusive objs1 s :=
  fun c P hP => ListsOK_stable (h c P hP) hs

theorem Exclusive_setPool {objs : ObjectTable} {s : UItemPoolSubsystem} (c : Nat) (Q : FItemPool)
    (h : Exclusive objs s) (hQ : ListsOK objs c Q.AvailableItems Q.ActiveItems) :
    Exclusive objs (s.setPool c Q) := by
  intro t P hP
  rw [UItemPoolSubsystem.pool_setPool] at hP
  by_cases ht : t = c
  · rw [if_pos ht] at hP
    cases hP
    subst ht
    exact hQ
  · rw [if_neg ht] at hP
    exact h t P hP

theorem ListsOK_pop {objs : ObjectTable} {c : Nat} {l active : List ItemPtr} {x : ItemPtr}
    (h : ListsOK objs c (l ++ [x]) active) : ListsOK objs c l (active ++ [x]) := by
  refine ⟨?_, ?_⟩
  · have := h.1
    rw [List.append_assoc] at this
    refine (List.Perm.nodup_iff ?_).1 this
    exact List.Perm.append_left l (List.perm_append_comm)
  · intro y hy
    apply h.2
    simp only [List.mem_append, List.mem_singleton] at hy ⊢
    tauto

theorem ListsOK_dropLast {objs : ObjectTable} {c : Nat} {avail active : List ItemPtr}
    (h : ListsOK objs c avail active) : ListsOK objs c avail.dropLast active := by
  refine ⟨?_, ?_⟩
  · exact List.Sublist.nodup (List.Sublist.append_right (List.dropLast_sublist avail) active) h.1
  · intro y hy
    apply h.2
    simp only [List.mem_append] at hy ⊢
    rcases hy with hy | hy
    · exact Or.inl ((List.dropLast_sublist avail).subset hy)
    · exact Or.inr hy

theorem ListsOK_activate {objs objs1 : ObjectTable} {c : Nat} {avail active : List ItemPtr}
    (h : ListsOK objs c avail active) (hs : ClassStable objs objs1)
    (hn : GetClass objs1 (some objs.length) = some c) :
    ListsOK objs1 c avail (active ++ [some objs.length]) := by
  have hnew : some objs.length ∉ avail ++ active := by
    intro hx
    obtain ⟨r, h1, h2⟩ := GetClass_some objs _ c (h.2 _ hx)
    simp only [Option.some.injEq] at h1
    omega
  refine ⟨?_, ?_⟩
  · rw [← List.append_assoc]
    exact List.Nodup.append h.1 (List.nodup_singleton _)
      (by simpa [List.disjoint_left] using hnew)
  · intro y hy
    rw [← List.append_assoc, List.mem_append, List.mem_singleton] at hy
    rcases hy with hy | hy
    · exact hs y c (h.2 y hy)
    · rw [hy]; exact hn

theorem ListsOK_return {objs : ObjectTable} {c : Nat} {avail active : List ItemPtr}
    {Item : ItemPtr} (h : ListsOK objs c avail active) (hi : Item ∉ avail)
    (hc : GetClass objs Item = some c) :
    ListsOK objs c (avail ++ [Item]) (active.filter (fun x => x ≠ Item)) := by
  have hnd := List.nodup_append.1 h.1
  refine ⟨?_, ?_⟩
  · rw [List.append_assoc]
    refine List.Nodup.append hnd.1 ?_ ?_
    · rw [List.singleton_append]
      exact List.Nodup.cons (PoolTier.not_mem_filter_ne _ _) (List.Nodup.filter _ hnd.2.1)
    · rw [List.disjoint_left]
      intro y hy hy2
      rw [List.singleton_append, List.mem_cons] at hy2
      rcases hy2 with hy2 | hy2
      · exact hi (hy2 ▸ hy)
      · exact (List.disjoint_left.1 hnd.2.2) hy (List.mem_of_mem_filter hy2)
  · intro y hy
    simp only [List.mem_append, List.mem_singleton] at hy
    rcases hy with (hy | hy) | hy
    · exact h.2 y (List.mem_append_left _ hy)
    · rw [hy]; exact hc
    · exact h.2 y (List.mem_append_right _ (List.mem_of_mem_filter hy))

theorem ListsOK_remove {objs : ObjectTable} {c : Nat} {avail active : List ItemPtr}
    (Item : ItemPtr) (h : ListsOK objs c avail active) :
    ListsOK objs c avail (active.filter (fun x => x ≠ Item)) := by
  refine ⟨?_, ?_⟩
  · exact List.Sublist.nodup (List.Sublist.append_left (List.filter_sublist active) avail) h.1
  · intro y hy
    apply h.2
    simp only [List.mem_append] at hy ⊢
    rcases hy with hy | hy
    · exact Or.inl hy
    · exact Or.inr (List.mem_of_mem_filter hy)

theorem freshPtrs_nodup (k n : Nat) : (freshPtrs k n).Nodup := by
  unfold freshPtrs
  exact List.Nodup.map (fun a b h => by simpa using h) (List.nodup_range' k n)

theorem ListsOK_prewarm {objs objs1 : ObjectTable} {c : Nat} {avail active : List ItemPtr}
    (k n : Nat) (h : ListsOK objs c avail active) (hs : ClassStable objs objs1)
    (hk : objs.length ≤ k)
    (hn : ∀ r, k ≤ r → r < k + n → GetClass objs1 (some r) = some c) :
    ListsOK objs1 c (avail ++ freshPtrs k n) active := by
  have hold : ∀ x ∈ avail ++ active, x ∉ freshPtrs k n := by
    intro x hx hx2
    obtain ⟨r, h1, h2⟩ := GetClass_some objs _ c (h.2 _ hx)
    obtain ⟨r1, h3, h4, _⟩ := (mem_freshPtrs k n x).1 hx2
    rw [h1] at h3
    simp only [Option.some.injEq] at h3
    omega
  have hnd := List.nodup_append.1 h.1
  refine ⟨?_, ?_⟩
  · rw [List.append_assoc]
    refine List.Nodup.append hnd.1 ?_ ?_
    · refine List.Nodup.append (freshPtrs_nodup k n) hnd.2.1 ?_
      rw [List.disjoint_left]
      intro y hy hy2
      exact hold y (List.mem_append_right _ hy2) hy
    · rw [List.disjoint_left]
      intro y hy hy2
      rcases List.mem_append.1 hy2 with hy2 | hy2
      · exact hold y (List.mem_append_left _ hy) hy2
      · exact (List.disjoint_left.1 hnd.2.2) hy hy2
  · intro y hy
    simp only [List.mem_append] at hy
    rcases hy with (hy | hy) | hy
    · exact hs y c (h.2 y (List.mem_append_left _ hy))
    · obtain ⟨r, h1, h2, h3⟩ := (mem_freshPtrs k n y).1 hy
      rw [h1]; exact hn r h2 h3
    · exact hs y c (h.2 y (List.mem_append_right _ hy))

namespace PoolTier

theorem ListsOK_nil (objs : ObjectTable) (c : Nat) : ListsOK objs c [] [] :=
  ⟨List.nodup_nil, fun x hx => by cases hx⟩

theorem CreatePool_Exclusive (this : UOuter) (objs : ObjectTable) (s : UItemPoolSubsystem)
    (c : Nat) (h : Exclusive objs s) :
    Exclusive (CreatePool this objs s (some c)).1 (CreatePool this objs s (some c)).2 ∧
      ClassStable objs (CreatePool this objs s (some c)).1 := by
  obtain ⟨_, h2, h3, _, h5⟩ := CreatePool_spec this objs s c
  have hst : ClassStable objs (CreatePool this objs s (some c)).1 := by
    intro x k hx
    obtain ⟨r, rfl, hr⟩ := GetClass_some objs x k hx
    rw [h5 r, if_neg (by omega)]
    exact hx
  refine ⟨?_, hst⟩
  intro t P hP
  by_cases ht : t = c
  · subst ht
    rw [h3] at hP
    cases hP
    have := @ListsOK_prewarm objs (CreatePool this objs s (some t)).1 t [] [] objs.length
      s.DefaultPrewarmCount.toNat (ListsOK_nil objs t) hst (le_refl _)
      (fun r hr1 hr2 => by rw [h5 r, if_pos ⟨hr1, hr2⟩])
    simpa using this
  · rw [h2 t ht] at hP
    exact ListsOK_stable (h t P hP) hst

theorem findOrCreate_Exclusive (this : UOuter) (objs : ObjectTable) (s : UItemPoolSubsystem)
    (c : Nat) (h : Exclusive objs s) :
    Exclusive (findOrCreate (CreatePool this) objs s c).1
        (findOrCreate (CreatePool this) objs s c).2 ∧
      ClassStable objs (findOrCreate (CreatePool this) objs s c).1 := by
  unfold findOrCreate
  split
  · exact ⟨h, ClassStable_refl objs⟩
  · exact CreatePool_Exclusive this objs s c h

/-- An object that is not in the available list of its class is not in it after
the pool lookup either: a pool created by the lookup holds new objects only. -/
theorem findOrCreate_guard (this : UOuter) (objs : ObjectTable) (s : UItemPoolSubsystem)
    (c p : Nat) (hp : p < objs.length)
    (hg : ∀ P, s.pool c = some P → some p ∉ P.AvailableItems) :
    ∀ P, (findOrCreate (CreatePool this) objs s c).2.pool c = some P →
      some p ∉ P.AvailableItems := by
  unfold findOrCreate
  split
  · exact hg
  · intro P hP hx
    rw [(CreatePool_spec this objs s c).2.2.1] at hP
    cases hP
    obtain ⟨r, h1, h2, _⟩ := (mem_freshPtrs _ _ _).1 hx
    simp only [Option.some.injEq] at h1
    omega

theorem popAvailable_stable (objs : ObjectTable) (P : FItemPool) (Outer : Option Nat) :
    ClassStable objs (popAvailable objs P Outer).1 := by
  unfold popAvailable
  split
  · apply ClassStable_of_eq
    intro q
    rw [GetClass_InitializeItem, GetClass_ResetItem]
    cases Outer with
    | none => rfl
    | some o => exact GetClass_Rename _ _ _ _
  · exact ClassStable_refl objs

theorem popAvailable_OK (objs : ObjectTable) (c : Nat) (P : FItemPool) (Outer : Option Nat)
    (h : ListsOK objs c P.AvailableItems P.ActiveItems) :
    ((popAvailable objs P Outer).2.2 = none →
        ListsOK objs c (popAvailable objs P Outer).2.1.AvailableItems
          (popAvailable objs P Outer).2.1.ActiveItems) ∧
      ∀ p, (popAvailable objs P Outer).2.2 = some p →
        ListsOK objs c (popAvailable objs P Outer).2.1.AvailableItems
          ((popAvailable objs P Outer).2.1.ActiveItems ++ [some p]) := by
  unfold popAvailable
  split
  · rename_i hne
    refine ⟨fun hx => absurd hx hne, ?_⟩
    intro p hp
    simp only at hp ⊢
    apply ListsOK_pop
    have hlast : P.AvailableItems.getLast? = some (some p) := by
      cases hg : P.AvailableItems.getLast? with
      | none => rw [hg] at hp; cases hp
      | some y =>
        rw [hg] at hp
        simp only [Option.join] at hp
        rw [show y = some p from hp]
    rw [List.dropLast_append_getLast? _ hlast]
    exact h
  · refine ⟨fun _ => ListsOK_dropLast h, fun p hp => by cases hp⟩

theorem missOrActivate_OK (objs : ObjectTable) (c : Nat) (P : FItemPool) (Item : ItemPtr)
    (Outer : Option Nat)
    (h0 : Item = none → ListsOK objs c P.AvailableItems P.ActiveItems)
    (h1 : ∀ p, Item = some p → ListsOK objs c P.AvailableItems (P.ActiveItems ++ [some p])) :
    ListsOK (missOrActivate (objs, P, Item) c Outer).1 c
        (missOrActivate (objs, P, Item) c Outer).2.1.AvailableItems
        (missOrActivate (objs, P, Item) c Outer).2.1.ActiveItems ∧
      ClassStable objs (missOrActivate (objs, P, Item) c Outer).1 := by
  cases Item with
  | some p =>
    rw [missOrActivate_some]
    exact ⟨h1 p rfl, ClassStable_refl objs⟩
  | none =>
    by_cases hs : P.bStrictLimit = true
    · rw [missOrActivate_strict _ _ _ _ hs]
      exact ⟨h0 rfl, ClassStable_refl objs⟩
    · cases Outer with
      | none =>
        rw [missOrActivate_ownerless _ _ _ hs]
        exact ⟨h0 rfl, ClassStable_refl objs⟩
      | some o =>
        rw [missOrActivate_fresh _ _ _ _ hs]
        have hst : ClassStable objs (InitializeItem (NewObject objs (.Caller o) c).1
            (some objs.length)) :=
          ClassStable_trans (ClassStable_NewObject objs _ c)
            (ClassStable_of_eq _ _ (fun q => GetClass_InitializeItem _ _ q))
        refine ⟨ListsOK_activate (h0 rfl) hst ?_, hst⟩
        rw [GetClass_InitializeItem, GetClass_NewObject, if_pos rfl]

theorem acceptReturn_OK (this : UOuter) (objs : ObjectTable) (c : Nat) (P : FItemPool)
    (Item : ItemPtr) (h : ListsOK objs c P.AvailableItems P.ActiveItems)
    (hi : Item ∉ P.AvailableItems) (hc : GetClass objs Item = some c) :
    ListsOK (acceptReturn this objs P Item).1 c (acceptReturn this objs P Item).2.1.AvailableItems
        (acceptReturn this objs P Item).2.1.ActiveItems ∧
      ClassStable objs (acceptReturn this objs P Item).1 := by
  have hren : ClassStable objs (Rename (ResetItem objs Item) Item this) :=
    ClassStable_of_eq _ _ (fun q => by rw [GetClass_Rename, GetClass_ResetItem])
  by_cases h1 : (P.AvailableItems.length : Int) < P.MaxPoolSize
  · rw [acceptReturn_room this objs P Item h1]
    exact ⟨ListsOK_stable (ListsOK_return h hi hc) hren, hren⟩
  · by_cases hg : P.bAutoGrow = true
    · rw [acceptReturn_grow this objs P Item h1 hg]
      exact ⟨ListsOK_stable (ListsOK_return h hi hc) hren, hren⟩
    · rw [acceptReturn_overflow this objs P Item h1 hg]
      exact ⟨ListsOK_remove Item h, ClassStable_refl objs⟩

theorem unpooled_stable (objs : ObjectTable) (c : Nat) (Outer : Option Nat) :
    ClassStable objs (unpooled objs c Outer).1 := by
  cases Outer with
  | none => exact ClassStable_refl objs
  | some o =>
    show ClassStable objs (InitializeItem (NewObject objs (.Caller o) c).1
      (NewObject objs (.Caller o) c).2)
    exact ClassStable_trans (ClassStable_NewObject objs _ c)
      (ClassStable_of_eq _ _ (fun q => GetClass_InitializeItem _ _ q))

end PoolTier

namespace UEngineItemPoolSubsystem

theorem getFound_Exclusive (objs : ObjectTable) (e : UEngineItemPoolSubsystem) (c : Nat)
    (P : FItemPool) (Outer : Option Nat) (he : Exclusive objs e)
    (hP : ListsOK objs c P.AvailableItems P.ActiveItems) :
    Exclusive (getFound objs e c P Outer).1 (getFound objs e c P Outer).2.1 := by
  unfold getFound
  by_cases hl : P.AvailableItems.length > 0
  · simp only [if_pos hl]
    have hst := PoolTier.popAvailable_stable objs P Outer
    obtain ⟨a0, a1⟩ := PoolTier.popAvailable_OK objs c P Outer hP
    obtain ⟨b1, b2⟩ := PoolTier.missOrActivate_OK (PoolTier.popAvailable objs P Outer).1 c
      (PoolTier.popAvailable objs P Outer).2.1 (PoolTier.popAvailable objs P Outer).2.2 Outer
      (fun hx => ListsOK_stable (a0 hx) hst) (fun p hx => ListsOK_stable (a1 p hx) hst)
    exact Exclusive_setPool c _ (Exclusive_stable he (ClassStable_trans hst b2)) b1
  · simp only [if_neg hl]
    obtain ⟨b1, b2⟩ := PoolTier.missOrActivate_OK objs c P none Outer (fun _ => hP)
      (fun p hx => by cases hx)
    exact Exclusive_setPool c _ (Exclusive_stable he b2) b1

theorem GetItemFromPool_Exclusive (objs : ObjectTable) (e : UEngineItemPoolSubsystem)
    (ItemClass : Option Nat) (Outer : Option Nat) (he : Exclusive objs e) :
    Exclusive (GetItemFromPool objs e ItemClass Outer).1
      (GetItemFromPool objs e ItemClass Outer).2.1 := by
  unfold GetItemFromPool
  cases ItemClass with
  | none => exact he
  | some c =>
    simp only
    split
    · exact Exclusive_stable he (PoolTier.unpooled_stable objs c Outer)
    · rw [engine_CreatePool_eq]
      obtain ⟨hfc, _⟩ := PoolTier.findOrCreate_Exclusive .EnginePool objs e c he
      split
      · exact hfc
      · rename_i P hP
        exact getFound_Exclusive _ _ _ _ _ hfc (hfc c P hP)

theorem ReturnItemToPool_Exclusive (objs : ObjectTable) (e : UEngineItemPoolSubsystem)
    (Item : ItemPtr) (he : Exclusive objs e)
    (hg : ∀ c P, GetClass objs Item = some c → UItemPoolSubsystem.pool e c = some P →
      Item ∉ P.AvailableItems) :
    Exclusive (ReturnItemToPool objs e Item).1 (ReturnItemToPool objs e Item).2 := by
  unfold ReturnItemToPool
  split
  · exact he
  · split
    · exact he
    · rename_i c hc
      rw [engine_CreatePool_eq]
      obtain ⟨hfc, hst⟩ := PoolTier.findOrCreate_Exclusive .EnginePool objs e c he
      split
      · exact hfc
      · rename_i P hP
        obtain ⟨p, rfl, hp⟩ := GetClass_some objs Item c hc
        have hguard := PoolTier.findOrCreate_guard .EnginePool objs e c p hp
          (fun Q hQ => hg c Q hc hQ) P hP
        obtain ⟨a1, a2⟩ := PoolTier.acceptReturn_OK .EnginePool _ c P (some p) (hfc c P hP)
          hguard (hst _ _ hc)
        unfold returnFound
        simp only
        split
        · exact Exclusive_setPool c _ (Exclusive_stable hfc a2) a1
        · have hst2 : ClassStable (PoolTier.findOrCreate (PoolTier.CreatePool .EnginePool)
              objs e c).1 (MarkAsGarbage (PoolTier.acceptReturn .EnginePool
                (PoolTier.findOrCreate (PoolTier.CreatePool .EnginePool) objs e c).1 P
                (some p)).1 (some p)) :=
            ClassStable_trans a2 (ClassStable_of_eq _ _ (fun q => GetClass_MarkAsGarbage _ _ q))
          exact Exclusive_setPool c _ (Exclusive_stable hfc hst2) (ListsOK_stable a1
            (ClassStable_of_eq _ _ (fun q => GetClass_MarkAsGarbage _ _ q)))

end UEngineItemPoolSubsystem

namespace PoolTier

theorem prewarmLoop_stable (this : UOuter) (c n : Nat) (objs : ObjectTable) (P : FItemPool) :
    ClassStable objs (prewarmLoop this c n objs P).1 := by
  intro x k hx
  obtain ⟨r, rfl, hr⟩ := GetClass_some objs x k hx
  rw [prewarmLoop_class, if_neg (by omega)]
  exact hx

theorem PrewarmPool_Exclusive (this : UOuter) (objs : ObjectTable) (s : UItemPoolSubsystem)
    (ItemClass : Option Nat) (Count : Int) (h : Exclusive objs s) :
    Exclusive (PrewarmPool this objs s ItemClass Count).1
      (PrewarmPool this objs s ItemClass Count).2 := by
  unfold PrewarmPool prewarmWith
  cases ItemClass with
  | none => exact h
  | some c =>
    simp only
    split
    · exact h
    · obtain ⟨hfc, _⟩ := findOrCreate_Exclusive this objs s c h
      split
      · exact hfc
      · rename_i P hP
        have hst := prewarmLoop_stable this c Count.toNat
          (findOrCreate (CreatePool this) objs s c).1 P
        refine Exclusive_setPool c _ (Exclusive_stable hfc hst) ?_
        rw [prewarmLoop_pool]
        exact ListsOK_prewarm _ _ (hfc c P hP) hst (le_refl _)
          (fun r hr1 hr2 => by rw [prewarmLoop_class, if_pos ⟨hr1, hr2⟩])

theorem ConfigurePool_Exclusive (this : UOuter) (objs : ObjectTable) (s : UItemPoolSubsystem)
    (ItemClass : Option Nat) (a b : Bool) (h : Exclusive objs s) :
    Exclusive (ConfigurePool this objs s ItemClass a b).1
      (ConfigurePool this objs s ItemClass a b).2 := by
  unfold ConfigurePool
  cases ItemClass with
  | none => exact h
  | some c =>
    simp only
    obtain ⟨hfc, _⟩ := findOrCreate_Exclusive this objs s c h
    split
    · exact hfc
    · rename_i P hP
      exact Exclusive_setPool c _ hfc (hfc c P hP)

theorem trimLoop_sublist {σ : Type} (dispose : σ → ItemPtr → σ) (MaxSize : Int) (n : Nat) (st : σ)
    (avail : List ItemPtr) : (trimLoop dispose MaxSize n st avail).2.Sublist avail := by
  induction n generalizing st avail with
  | zero => exact List.Sublist.refl _
  | succ n ih =>
    rw [trimLoop]
    split
    · exact (ih _ _).trans (List.dropLast_sublist avail)
    · exact List.Sublist.refl _

theorem ListsOK_sublist {objs : ObjectTable} {c : Nat} {avail avail1 active : List ItemPtr}
    (h : ListsOK objs c avail active) (hs : avail1.Sublist avail) :
    ListsOK objs c avail1 active := by
  refine ⟨List.Sublist.nodup (List.Sublist.append_right hs active) h.1, ?_⟩
  intro y hy
  apply h.2
  simp only [List.mem_append] at hy ⊢
  rcases hy with hy | hy
  · exact Or.inl (hs.subset hy)
  · exact Or.inr hy

end PoolTier

namespace UEngineItemPoolSubsystem

theorem SetMaxPoolSize_Exclusive (objs : ObjectTable) (e : UEngineItemPoolSubsystem)
    (ItemClass : Option Nat) (MaxSize : Int) (he : Exclusive objs e) :
    Exclusive (SetMaxPoolSize objs e ItemClass MaxSize).1
      (SetMaxPoolSize objs e ItemClass MaxSize).2 := by
  unfold SetMaxPoolSize
  cases ItemClass with
  | none => exact he
  | some c =>
    simp only
    split
    · exact he
    · rw [engine_CreatePool_eq]
      obtain ⟨hfc, _⟩ := PoolTier.findOrCreate_Exclusive .EnginePool objs e c he
      split
      · exact hfc
      · rename_i P hP
        unfold resizeFound
        have hst : ClassStable (PoolTier.findOrCreate (PoolTier.CreatePool .EnginePool) objs e c).1
            (PoolTier.trimLoop MarkAsGarbage MaxSize P.AvailableItems.length
              (PoolTier.findOrCreate (PoolTier.CreatePool .EnginePool) objs e c).1
              P.AvailableItems).1 :=
          PoolTier.trimLoop_inv MarkAsGarbage
            (fun o => ClassStable (PoolTier.findOrCreate (PoolTier.CreatePool .EnginePool)
              objs e c).1 o)
            (fun o Item ho => ClassStable_trans ho
              (ClassStable_of_eq _ _ (fun q => GetClass_MarkAsGarbage _ _ q)))
            _ _ _ _ (ClassStable_refl _)
        exact Exclusive_setPool c _ (Exclusive_stable hfc hst)
          (ListsOK_stable (PoolTier.ListsOK_sublist (hfc c P hP)
            (PoolTier.trimLoop_sublist _ _ _ _ _)) hst)

end UEngineItemPoolSubsystem

theorem runEngine_Exclusive (op : PoolOp) (st : ObjectTable × UEngineItemPoolSubsystem)
    (h : Exclusive st.1 st.2) (hop : op.NotReturnedTwice st) :
    Exclusive (op.runEngine st).1 (op.runEngine st).2 := by
  cases op with
  | GetItemFromPool c o => exact UEngineItemPoolSubsystem.GetItemFromPool_Exclusive _ _ _ _ h
  | ReturnItemToPool i => exact UEngineItemPoolSubsystem.ReturnItemToPool_Exclusive _ _ _ h hop
  | PrewarmPool c n => exact PoolTier.PrewarmPool_Exclusive _ _ _ _ _ h
  | SetMaxPoolSize c n => exact UEngineItemPoolSubsystem.SetMaxPoolSize_Exclusive _ _ _ _ h
  | ConfigurePool c a b => exact PoolTier.ConfigurePool_Exclusive _ _ _ _ _ _ h

theorem runsEngine_Exclusive (ops : List PoolOp) (st : ObjectTable × UEngineItemPoolSubsystem)
    (h : Exclusive st.1 st.2) (hops : NoDoubleReturn st ops) :
    Exclusive (ops.foldl PoolOp.runEngine st).1 (ops.foldl PoolOp.runEngine st).2 := by
  induction ops generalizing st with
  | nil => exact h
  | cons op ops ih =>
    rw [List.foldl_cons]
    exact ih _ (runEngine_Exclusive op st h hops.1) hops.2

theorem fresh_NoDoubleReturn :
    NoDoubleReturn ([], ⟨[], true, 100, 1, false, false⟩)
      [PoolOp.GetItemFromPool (some 7) (some 0), .ReturnItemToPool (some 0),
        .GetItemFromPool (some 7) (some 0), .ReturnItemToPool (some 0)] := by
  refine ⟨trivial, ?_, trivial, ?_, trivial⟩
  · intro c P hc hP
    have hc7 : c = 7 := by
      have : GetClass (PoolOp.runEngine ([], ⟨[], true, 100, 1, false, false⟩)
          (.GetItemFromPool (some 7) (some 0))).1 (some 0) = some 7 := by decide
      rw [this] at hc
      simpa using hc.symm
    subst hc7
    have hP7 : UItemPoolSubsystem.pool (PoolOp.runEngine ([], ⟨[], true, 100, 1, false, false⟩)
        (.GetItemFromPool (some 7) (some 0))).2 7 = some ⟨[], [some 0], 100, 1, false, false, 1, 0, 0, 0⟩ := by
      decide
    rw [hP7] at hP
    cases hP
    simp
  · intro c P hc hP
    have hc7 : c = 7 := by
      have : GetClass (PoolOp.runEngine (PoolOp.runEngine (PoolOp.runEngine
          ([], ⟨[], true, 100, 1, false, false⟩) (.GetItemFromPool (some 7) (some 0)))
          (.ReturnItemToPool (some 0))) (.GetItemFromPool (some 7) (some 0))).1 (some 0)
          = some 7 := by decide
      rw [this] at hc
      simpa using hc.symm
    subst hc7
    have hP7 : UItemPoolSubsystem.pool (PoolOp.runEngine (PoolOp.runEngine (PoolOp.runEngine
          ([], ⟨[], true, 100, 1, false, false⟩) (.GetItemFromPool (some 7) (some 0)))
          (.ReturnItemToPool (some 0))) (.GetItemFromPool (some 7) (some 0))).2 7 =
        some ⟨[], [some 0], 100, 1, false, false, 2, 0, 1, 0⟩ := by
      decide
    rw [hP7] at hP
    cases hP
    simp

theorem Exclusive_empty (objs : ObjectTable) (a : Bool) (b c : Int) (d f : Bool) :
    Exclusive objs ⟨[], a, b, c, d, f⟩ := by
  intro k P hP
  cases hP

/-! ### Item pools: the call of `PrewarmPool` inside `CreatePool` -/

namespace PoolTier

/-- When the class has a pool, `PrewarmPool` does not reach its `CreatePool` call. -/
theorem prewarmWith_found (this : UOuter)
    (F G : ObjectTable → UItemPoolSubsystem → Option Nat → ObjectTable × UItemPoolSubsystem)
    (objs : ObjectTable) (s : UItemPoolSubsystem) (c : Nat) (Count : Int) (P : FItemPool)
    (h : s.pool c = some P) :
    prewarmWith this F objs s (some c) Count = prewarmWith this G objs s (some c) Count := by
  unfold prewarmWith
  simp only [findOrCreate_found F objs s c P h, findOrCreate_found G objs s c P h]

/-- The last line of `CreatePool` is the call `PrewarmPool(ItemClass, NewPool.PrewarmCount)`
on the subsystem that holds the new pool. -/
theorem CreatePool_calls_PrewarmPool (this : UOuter) (objs : ObjectTable)
    (s : UItemPoolSubsystem) (c : Nat) :
    CreatePool this objs s (some c) =
      PrewarmPool this objs (s.setPool c (NewPool s)) (some c) (NewPool s).PrewarmCount := by
  unfold PrewarmPool
  exact prewarmWith_found this _ _ objs _ c _ (NewPool s)
    (UItemPoolSubsystem.pool_setPool_self _ _ _)

end PoolTier

/-! ### Item pools: membership in the world's subsystem without an engine subsystem -/

namespace UItemPoolSubsystem

theorem getFound_world_Exclusive (objs : ObjectTable) (s : UItemPoolSubsystem) (c : Nat)
    (P : FItemPool) (Outer : Option Nat) (he : Exclusive objs s)
    (hP : ListsOK objs c P.AvailableItems P.ActiveItems) :
    Exclusive (getFound objs s none c P Outer).1.Objects (getFound objs s none c P Outer).1.World ∧
      (getFound objs s none c P Outer).1.Engine = none := by
  unfold getFound
  by_cases hl : P.AvailableItems.length > 0
  · simp only [if_pos hl]
    have hst := PoolTier.popAvailable_stable objs P Outer
    obtain ⟨a0, a1⟩ := PoolTier.popAvailable_OK objs c P Outer hP
    obtain ⟨b1, b2⟩ := PoolTier.missOrActivate_OK (PoolTier.popAvailable objs P Outer).1 c
      (PoolTier.popAvailable objs P Outer).2.1 (PoolTier.popAvailable objs P Outer).2.2 Outer
      (fun hx => ListsOK_stable (a0 hx) hst) (fun p hx => ListsOK_stable (a1 p hx) hst)
    exact ⟨Exclusive_setPool c _ (Exclusive_stable he (ClassStable_trans hst b2)) b1, rfl⟩
  · simp only [if_neg hl]
    obtain ⟨b1, b2⟩ := PoolTier.missOrActivate_OK objs c P none Outer (fun _ => hP)
      (fun p hx => by cases hx)
    exact ⟨Exclusive_setPool c _ (Exclusive_stable he b2) b1, rfl⟩

theorem GetItemFromPool_world_Exclusive (w : PoolWorld) (ItemClass : Option Nat)
    (Outer : Option Nat) (he : Exclusive w.Objects w.World) (hn : w.Engine = none) :
    Exclusive (GetItemFromPool w ItemClass Outer).1.Objects
        (GetItemFromPool w ItemClass Outer).1.World ∧
      (GetItemFromPool w ItemClass Outer).1.Engine = none := by
  unfold GetItemFromPool
  cases ItemClass with
  | none => exact ⟨he, hn⟩
  | some c =>
    simp only
    split
    · exact ⟨Exclusive_stable he (PoolTier.unpooled_stable w.Objects c Outer), hn⟩
    · rw [world_CreatePool_eq]
      obtain ⟨hfc, _⟩ := PoolTier.findOrCreate_Exclusive .WorldPool w.Objects w.World c he
      split
      · exact ⟨hfc, hn⟩
      · rename_i P hP
        rw [hn]
        exact getFound_world_Exclusive _ _ _ _ _ hfc (hfc c P hP)

theorem ReturnItemToPool_world_Exclusive (w : PoolWorld) (Item : ItemPtr)
    (he : Exclusive w.Objects w.World) (hn : w.Engine = none)
    (hg : ∀ c P, GetClass w.Objects Item = some c → w.World.pool c = some P →
      Item ∉ P.AvailableItems) :
    Exclusive (ReturnItemToPool w Item).Objects (ReturnItemToPool w Item).World ∧
      (ReturnItemToPool w Item).Engine = none := by
  unfold ReturnItemToPool
  split
  · exact ⟨he, hn⟩
  · split
    · exact ⟨he, hn⟩
    · rename_i c hc
      rw [world_CreatePool_eq]
      obtain ⟨hfc, hst⟩ := PoolTier.findOrCreate_Exclusive .WorldPool w.Objects w.World c he
      split
      · exact ⟨hfc, hn⟩
      · rename_i P hP
        obtain ⟨p, rfl, hp⟩ := GetClass_some w.Objects Item c hc
        have hguard := PoolTier.findOrCreate_guard .WorldPool w.Objects w.World c p hp
          (fun Q hQ => hg c Q hc hQ) P hP
        obtain ⟨a1, a2⟩ := PoolTier.acceptReturn_OK .WorldPool _ c P (some p) (hfc c P hP)
          hguard (hst _ _ hc)
        rw [hn]
        unfold returnFound
        split
        · exact ⟨Exclusive_setPool c _ (Exclusive_stable hfc a2) a1, rfl⟩
        · have hm : ∀ o : ObjectTable, ClassStable o (MarkAsGarbage o (some p)) :=
            fun o => ClassStable_of_eq _ _ (fun q => GetClass_MarkAsGarbage _ _ q)
          exact ⟨Exclusive_setPool c _
            (Exclusive_stable hfc (ClassStable_trans a2 (hm _)))
            (ListsOK_stable a1 (hm _)), rfl⟩

theorem SetMaxPoolSize_world_Exclusive (w : PoolWorld) (ItemClass : Option Nat) (MaxSize : Int)
    (he : Exclusive w.Objects w.World) (hn : w.Engine = none) :
    Exclusive (SetMaxPoolSize w ItemClass MaxSize).Objects
        (SetMaxPoolSize w ItemClass MaxSize).World ∧
      (SetMaxPoolSize w ItemClass MaxSize).Engine = none := by
  unfold SetMaxPoolSize
  cases ItemClass with
  | none => exact ⟨he, hn⟩
  | some c =>
    simp only
    split
    · exact ⟨he, hn⟩
    · rw [world_CreatePool_eq]
      obtain ⟨hfc, _⟩ := PoolTier.findOrCreate_Exclusive .WorldPool w.Objects w.World c he
      split
      · exact ⟨hfc, hn⟩
      · rename_i P hP
        rw [hn]
        unfold resizeFound
        have hinv := PoolTier.trimLoop_inv handOver
          (fun st : ObjectTable × Option UEngineItemPoolSubsystem =>
            st.2 = none ∧ ClassStable (PoolTier.findOrCreate (PoolTier.CreatePool .WorldPool)
              w.Objects w.World c).1 st.1)
          (fun st Item ho => by
            obtain ⟨h1, h2⟩ := ho
            unfold handOver
            rw [h1]
            exact ⟨rfl, ClassStable_trans h2
              (ClassStable_of_eq _ _ (fun q => GetClass_MarkAsGarbage _ _ q))⟩)
          MaxSize P.AvailableItems.length
          ((PoolTier.findOrCreate (PoolTier.CreatePool .WorldPool) w.Objects w.World c).1, none)
          P.AvailableItems ⟨rfl, ClassStable_refl _⟩
        exact ⟨Exclusive_setPool c _ (Exclusive_stable hfc hinv.2)
          (ListsOK_stable (PoolTier.ListsOK_sublist (hfc c P hP)
            (PoolTier.trimLoop_sublist _ _ _ _ _)) hinv.2), hinv.1⟩

end UItemPoolSubsystem

theorem run_world_Exclusive (op : PoolOp) (w : PoolWorld)
    (h : Exclusive w.Objects w.World) (hn : w.Engine = none)
    (hop : op.NotReturnedTwice (w.Objects, w.World)) :
    Exclusive (op.run w).Objects (op.run w).World ∧ (op.run w).Engine = none := by
  cases op with
  | GetItemFromPool c o => exact UItemPoolSubsystem.GetItemFromPool_world_Exclusive _ _ _ h hn
  | ReturnItemToPool i => exact UItemPoolSubsystem.ReturnItemToPool_world_Exclusive _ _ h hn hop
  | PrewarmPool c n => exact ⟨PoolTier.PrewarmPool_Exclusive _ _ _ _ _ h, hn⟩
  | SetMaxPoolSize c n => exact UItemPoolSubsystem.SetMaxPoolSize_world_Exclusive _ _ _ h hn
  | ConfigurePool c a b => exact ⟨PoolTier.ConfigurePool_Exclusive _ _ _ _ _ _ h, hn⟩

theorem runs_world_Exclusive (ops : List PoolOp) (w : PoolWorld)
    (h : Exclusive w.Objects w.World) (hn : w.Engine = none)
    (hops : NoDoubleReturnWorld w ops) :
    Exclusive (ops.foldl PoolOp.run w).Objects (ops.foldl PoolOp.run w).World := by
  induction ops generalizing w with
  | nil => exact h
  | cons op ops ih =>
    rw [List.foldl_cons]
    obtain ⟨h1, h2⟩ := run_world_Exclusive op w h hn hops.1
    exact ih _ h1 h2 hops.2

theorem Exclusive_apart {objs : ObjectTable} {s : UItemPoolSubsystem} (h : Exclusive objs s)
    (c c1 : Nat) (P P1 : FItemPool) (x : ItemPtr) (hne : c ≠ c1) (hP : s.pool c = some P)
    (hP1 : s.pool c1 = some P1) (hx : x ∈ P.AvailableItems ++ P.ActiveItems) :
    x ∉ P1.AvailableItems ++ P1.ActiveItems := by
  intro hx1
  have h1 := (h c P hP).2 x hx
  have h2 := (h c1 P1 hP1).2 x hx1
  rw [h1] at h2
  simp only [Option.some.injEq] at h2
  exact hne h2

/-! ### Item pools: the request counters -/

namespace PoolTier

theorem missOrActivate_counts (a : ObjectTable × FItemPool × ItemPtr) (c : Nat)
    (Outer : Option Nat) :
    (missOrActivate a c Outer).2.1.HitCount = a.2.1.HitCount ∧
      (missOrActivate a c Outer).2.1.MissCount =
        a.2.1.MissCount + (if a.2.2 = none then 1 else 0) := by
  unfold missOrActivate
  by_cases h : a.2.2 = none
  · rw [if_pos h, if_pos h]
    by_cases hs : a.2.1.bStrictLimit = true
    · rw [if_pos hs]; exact ⟨rfl, rfl⟩
    · rw [if_neg hs]
      cases Outer <;> exact ⟨rfl, rfl⟩
  · rw [if_neg h, if_neg h]
    exact ⟨rfl, by simp⟩

theorem popAvailable_counts (objs : ObjectTable) (P : FItemPool) (Outer : Option Nat) :
    (popAvailable objs P Outer).2.2 = P.AvailableItems.getLast?.join ∧
      (popAvailable objs P Outer).2.1.MissCount = P.MissCount ∧
      (popAvailable objs P Outer).2.1.HitCount =
        P.HitCount + (if P.AvailableItems.getLast?.join = none then 0 else 1) := by
  unfold popAvailable
  by_cases h : P.AvailableItems.getLast?.join = none
  · rw [if_neg (not_not.mpr h), if_pos h]
    exact ⟨h.symm, rfl, by simp⟩
  · rw [if_pos h, if_neg h]
    exact ⟨rfl, rfl, rfl⟩

end PoolTier

namespace UItemPoolSubsystem

theorem requestedPool_found (w : PoolWorld) (c : Nat) (P : FItemPool)
    (hp : w.World.pool c = some P) : requestedPool w c = some P := by
  unfold requestedPool
  rw [PoolTier.findOrCreate_found _ _ _ _ P hp]; exact hp

theorem requestedPool_created (w : PoolWorld) (c : Nat) (hp : w.World.pool c = none) :
    ∃ P, requestedPool w c = some P ∧ P.HitCount = 0 ∧ P.MissCount = 0 := by
  unfold requestedPool
  rw [PoolTier.findOrCreate_absent _ _ _ _ hp, world_CreatePool_eq]
  exact ⟨_, (PoolTier.CreatePool_spec .WorldPool w.Objects w.World c).2.2.1, rfl, rfl⟩

theorem GetItemFromPool_requested (w : PoolWorld) (c : Nat) (Outer : Option Nat) (P : FItemPool)
    (he : w.World.bEnablePooling = true) (hp : requestedPool w c = some P) :
    GetItemFromPool w (some c) Outer =
      getFound (PoolTier.findOrCreate CreatePool w.Objects w.World c).1
        (PoolTier.findOrCreate CreatePool w.Objects w.World c).2 w.Engine c P Outer := by
  unfold requestedPool at hp
  unfold GetItemFromPool
  simp only [he, not_true_eq_false, if_false, hp]

/-- The counters of the pool after the body of `GetItemFromPool`, by the way the
request was served. -/
theorem getFound_counts (objs : ObjectTable) (s : UItemPoolSubsystem)
    (Engine : Option UEngineItemPoolSubsystem) (c : Nat) (P : FItemPool) (Outer : Option Nat)
    (ans : ItemPtr)
    (ha : ans = match Engine with
      | some e => (UEngineItemPoolSubsystem.GetItemFromPool objs e (some c) Outer).2.2
      | none => none) :
    ∃ Q, (getFound objs s Engine c P Outer).1.World.pool c = some Q ∧
      (P.AvailableItems ≠ [] →
        (P.AvailableItems.getLast?.join ≠ none →
          (getFound objs s Engine c P Outer).2 = P.AvailableItems.getLast?.join) ∧
        Q.HitCount = P.HitCount + (if P.AvailableItems.getLast?.join = none then 0 else 1) ∧
        Q.MissCount = P.MissCount + (if P.AvailableItems.getLast?.join = none then 1 else 0)) ∧
      (P.AvailableItems = [] →
        Q.HitCount = P.HitCount ∧ Q.MissCount = P.MissCount + (if ans = none then 1 else 0) ∧
        (ans ≠ none → (getFound objs s Engine c P Outer).2 = ans)) := by
  by_cases hl : P.AvailableItems = []
  · cases Engine with
    | none =>
      subst ha
      rw [getFound_alone objs s c P Outer hl]
      refine ⟨_, pool_setPool_self _ _ _, fun h => absurd hl h, fun _ => ?_⟩
      have hc := PoolTier.missOrActivate_counts (objs, P, none) c Outer
      exact ⟨hc.1, by simpa using hc.2, fun h => absurd rfl h⟩
    | some e =>
      rw [getFound_engine objs s e c P Outer hl]
      refine ⟨_, pool_setPool_self _ _ _, fun h => absurd hl h, fun _ => ?_⟩
      have hc := PoolTier.missOrActivate_counts
        ((UEngineItemPoolSubsystem.GetItemFromPool objs e (some c) Outer).1, P,
          (UEngineItemPoolSubsystem.GetItemFromPool objs e (some c) Outer).2.2) c Outer
      subst ha
      refine ⟨hc.1, hc.2, fun hn => ?_⟩
      obtain ⟨p, hp⟩ := Option.ne_none_iff_exists'.mp hn
      simp only at hp
      show (PoolTier.missOrActivate _ c Outer).2.2 = _
      simp only [hp, PoolTier.missOrActivate_some]
  · have hpos : P.AvailableItems.length > 0 := List.length_pos.mpr hl
    rw [getFound_pop objs s Engine c P Outer hpos]
    refine ⟨_, pool_setPool_self _ _ _, fun _ => ?_, fun h => absurd h hl⟩
    have hc := PoolTier.missOrActivate_counts (PoolTier.popAvailable objs P Outer) c Outer
    have hq := PoolTier.popAvailable_counts objs P Outer
    rw [hq.1, hq.2.1, hq.2.2] at hc
    refine ⟨fun hj => ?_, hc.1, hc.2⟩
    show (PoolTier.missOrActivate (PoolTier.popAvailable objs P Outer) c Outer).2.2 = _
    have hn : ¬ (PoolTier.popAvailable objs P Outer).2.2 = none := by rw [hq.1]; exact hj
    unfold PoolTier.missOrActivate
    rw [if_neg hn]; exact hq.1

end UItemPoolSubsystem

/-! ### A single slot: adding, removing and transferring -/

namespace FInventorySlot

theorem IsEmpty_iff_of_invariant (s : FInventorySlot) (hs : SlotInvariant s) :
    s.IsEmpty ↔ s.Item = none := by
  unfold SlotInvariant at hs
  unfold IsEmpty
  obtain ⟨h1, h2, _⟩ := hs
  constructor
  · rintro (h | h)
    · exact h
    · exact h1.mpr (by omega)
  · exact fun h => Or.inl h

theorem AddToStack_noop (s : FInventorySlot) (a : Int) (h : a ≤ 0 ∨ s.IsEmpty) :
    s.AddToStack a = (s, a) := by
  rw [AddToStack, if_pos h]

theorem AddToStack_adds (s : FInventorySlot) (a : Int) (h : ¬ (a ≤ 0 ∨ s.IsEmpty)) :
    s.AddToStack a =
      ({ s with CurrentStackSize := s.CurrentStackSize + min a (s.MaxStackSize - s.CurrentStackSize) },
        a - min a (s.MaxStackSize - s.CurrentStackSize)) := by
  rw [AddToStack, if_neg h]; rfl

theorem RemoveFromStack_noop (s : FInventorySlot) (a : Int) (h : a ≤ 0) :
    s.RemoveFromStack a = (s, 0) := by
  rw [RemoveFromStack, if_pos h]

theorem RemoveFromStack_part (s : FInventorySlot) (a : Int) (h0 : 0 < a)
    (h1 : a < s.CurrentStackSize) :
    s.RemoveFromStack a = ({ s with CurrentStackSize := s.CurrentStackSize - a }, a) := by
  have hm : min a s.CurrentStackSize = a := min_eq_left (by omega)
  rw [RemoveFromStack, if_neg (by omega)]
  simp only [hm]
  rw [if_neg (by omega)]

theorem RemoveFromStack_all (s : FInventorySlot) (a : Int) (h0 : 0 < a)
    (h1 : a = s.CurrentStackSize) : s.RemoveFromStack a = (s.ClearSlot, a) := by
  have hm : min a s.CurrentStackSize = a := min_eq_left (by omega)
  rw [RemoveFromStack, if_neg (by omega)]
  simp only [hm]
  rw [if_pos (by omega)]
  rfl

/-- The value of `TransferTo` once its guards are passed and a positive amount
can move. -/
theorem TransferTo_moves (h : Heap) (s t : FInventorySlot) (a : Int)
    (h1 : ¬ (a ≤ 0 ∨ s.IsEmpty)) (h2 : ¬ (¬ t.IsEmpty ∧ ¬ CanStackItem h t s.Item))
    (h3 : ¬ min (min a s.CurrentStackSize)
      (if t.IsEmpty then s.MaxStackSize else t.GetAvailableSpace) ≤ 0) :
    s.TransferTo h t a =
      ((s.RemoveFromStack (min (min a s.CurrentStackSize)
          (if t.IsEmpty then s.MaxStackSize else t.GetAvailableSpace))).1,
        (if t.IsEmpty then t.SetItem h s.Item (min (min a s.CurrentStackSize)
            (if t.IsEmpty then s.MaxStackSize else t.GetAvailableSpace))
          else (t.AddToStack (min (min a s.CurrentStackSize)
            (if t.IsEmpty then s.MaxStackSize else t.GetAvailableSpace))).1),
        min (min a s.CurrentStackSize)
          (if t.IsEmpty then s.MaxStackSize else t.GetAvailableSpace)) := by
  rw [TransferTo, if_neg h1, if_neg h2]
  simp only
  rw [if_neg h3]

theorem TransferTo_blocked (h : Heap) (s t : FInventorySlot) (a : Int)
    (hb : (a ≤ 0 ∨ s.IsEmpty) ∨ (¬ t.IsEmpty ∧ ¬ CanStackItem h t s.Item) ∨
      min (min a s.CurrentStackSize)
        (if t.IsEmpty then s.MaxStackSize else t.GetAvailableSpace) ≤ 0) :
    s.TransferTo h t a = (s, t, 0) := by
  unfold TransferTo
  by_cases h1 : a ≤ 0 ∨ s.IsEmpty
  · rw [if_pos h1]
  · rw [if_neg h1]
    by_cases h2 : ¬ t.IsEmpty ∧ ¬ CanStackItem h t s.Item
    · rw [if_pos h2]
    · rw [if_neg h2]
      simp only
      rcases hb with hb | hb | hb
      · exact absurd hb h1
      · exact absurd hb h2
      · rw [if_pos hb]

end FInventorySlot

/-! ### The size of a group -/

theorem SizeKept_refl (g : FInventorySlots) : SizeKept g g := ⟨rfl, rfl⟩

theorem SizeKept_trans {g g1 g2 : FInventorySlots} (h1 : SizeKept g g1) (h2 : SizeKept g1 g2) :
    SizeKept g g2 := ⟨h2.1.trans h1.1, h2.2.trans h1.2⟩

theorem SizeKept_slots (g : FInventorySlots) (l : List FInventorySlot)
    (hl : l.length = g.Slots.length) : SizeKept g { g with Slots := l } := ⟨hl, rfl⟩

namespace FInventorySlots

theorem placeLoop_length (h : Heap) (p : ItemPtr) (q : Int) (l l1 : List FInventorySlot)
    (hp : placeLoop h p q l = some l1) : l1.length = l.length := by
  induction l generalizing l1 with
  | nil => simp [placeLoop] at hp
  | cons s rest ih =>
    unfold placeLoop at hp
    by_cases he : s.IsEmpty
    · rw [if_pos he] at hp
      cases hp; rfl
    · rw [if_neg he] at hp
      cases hr : placeLoop h p q rest with
      | none => rw [hr] at hp; cases hp
      | some l2 =>
        rw [hr] at hp
        cases hp
        simp [ih l2 hr]

theorem amountLoop_length (h : Heap) (p : ItemPtr) (l : List FInventorySlot) (r : Int) :
    (amountLoop h p l r).slots.length = l.length := by
  induction l generalizing r with
  | nil => rfl
  | cons s rest ih =>
    unfold amountLoop
    split
    · simp only
      split
      · rfl
      · simp [ih]
    · simp [ih]

theorem amountPhase_length (h : Heap) (g : FInventorySlots) (p : ItemPtr) (a : Int) :
    (amountPhase h g p a).slots.length = g.Slots.length := by
  unfold amountPhase
  split
  · exact amountLoop_length h p g.Slots a
  · rfl

theorem stackPhase_length (h : Heap) (g : FInventorySlots) (p : ItemPtr) :
    (stackPhase h g p).slots.length = g.Slots.length := by
  unfold stackPhase
  split
  · exact stackLoop_length h p g.Slots _
  · rfl

theorem AddItem_SizeKept (h : Heap) (g : FInventorySlots) (p : ItemPtr) :
    SizeKept g (AddItem h g p).2.1 := by
  unfold AddItem
  split
  · exact SizeKept_refl g
  · split
    · exact SizeKept_refl g
    · simp only
      split
      · exact SizeKept_slots g _ (stackPhase_length h g p)
      · split
        · rename_i l hl
          refine SizeKept_slots g _ ?_
          unfold placePhase at hl
          split at hl
          · exact (placeLoop_length h p _ _ l hl).trans (stackPhase_length h g p)
          · cases hl
        · exact SizeKept_slots g _ (stackPhase_length h g p)

theorem AddItemToSlot_SizeKept (h : Heap) (g : FInventorySlots) (p : ItemPtr) (i : Int) :
    SizeKept g (AddItemToSlot h g p i).2.1 := by
  unfold AddItemToSlot
  split
  · exact SizeKept_refl g
  · split
    · exact SizeKept_refl g
    · split
      · exact SizeKept_refl g
      · simp only
        split
        · exact SizeKept_slots g _ (List.length_set _ _ _)
        · split
          · split
            · exact SizeKept_slots g _ (List.length_set _ _ _)
            · exact SizeKept_trans (SizeKept_slots g _ (List.length_set _ _ _))
                (AddItem_SizeKept _ _ _)
          · exact AddItem_SizeKept _ _ _

theorem AddStackAmount_SizeKept (h : Heap) (g : FInventorySlots) (p : ItemPtr) (a : Int) :
    SizeKept g (AddStackAmount h g p a).2 := by
  unfold AddStackAmount
  split
  · exact SizeKept_refl g
  · split
    · exact SizeKept_slots g _ (amountPhase_length h g p a)
    · split
      · split
        · rename_i l hl
          exact SizeKept_slots g _
            ((placeLoop_length h p _ _ l hl).trans (amountPhase_length h g p a))
        · exact SizeKept_slots g _ (amountPhase_length h g p a)
      · exact SizeKept_slots g _ (amountPhase_length h g p a)

theorem RemoveItem_SizeKept (g : FInventorySlots) (i : Int) : SizeKept g (RemoveItem g i).1 := by
  unfold RemoveItem
  split
  · exact SizeKept_slots g _ (List.length_set _ _ _)
  · exact SizeKept_refl g

theorem RemoveStackAmountFromSlot_SizeKept (g : FInventorySlots) (i a : Int) :
    SizeKept g (RemoveStackAmountFromSlot g i a).2 := by
  unfold RemoveStackAmountFromSlot
  split
  · exact SizeKept_refl g
  · split
    · exact SizeKept_refl g
    · split
      · exact SizeKept_refl g
      · split <;> exact SizeKept_slots g _ (List.length_set _ _ _)

theorem DestroyItemAtSlot_SizeKept (g : FInventorySlots) (i : Int) :
    SizeKept g (DestroyItemAtSlot g i).2 := by
  unfold DestroyItemAtSlot
  split
  · exact SizeKept_refl g
  · split
    · exact SizeKept_refl g
    · exact SizeKept_slots g _ (List.length_set _ _ _)

theorem SwapSlots_SizeKept (g : FInventorySlots) (a b : Int) :
    SizeKept g (SwapSlots g a b).2 := by
  unfold SwapSlots
  split
  · exact SizeKept_refl g
  · exact ⟨Swap_length _ _ _, rfl⟩

theorem SplitStack_SizeKept (h : Heap) (g : FInventorySlots) (s t a : Int) :
    SizeKept g (SplitStack h g s t a).2.1 := by
  unfold SplitStack
  split
  · exact SizeKept_refl g
  · split
    · exact SizeKept_refl g
    · split
      · exact SizeKept_refl g
      · split
        · exact SizeKept_refl g
        · split
          · exact SizeKept_refl g
          · simp only
            split
            · exact SizeKept_refl g
            · split
              · exact SizeKept_refl g
              · exact SizeKept_slots g _ (by simp)

theorem ConsolidateAndSort_SizeKept (h : Heap) (g : FInventorySlots) :
    SizeKept g (g.ConsolidateAndSort h) := by
  refine ⟨?_, rfl⟩
  rw [ConsolidateAndSort_Slots, compactLoop_length, ConsolidateStacks_length]

theorem ClearAllSlots_SizeKept (g : FInventorySlots) : SizeKept g g.ClearAllSlots :=
  ⟨by simp [ClearAllSlots], rfl⟩

theorem occupiedLoop_bounds (l : List FInventorySlot) (c : Int) :
    c ≤ occupiedLoop l c ∧ occupiedLoop l c ≤ c + l.length := by
  induction l generalizing c with
  | nil => simp [occupiedLoop]
  | cons s rest ih =>
    unfold occupiedLoop
    by_cases he : s.IsEmpty
    · rw [if_neg (not_not_intro he)]
      have := ih c
      simp only [List.length_cons, Nat.cast_add, Nat.cast_one]
      omega
    · rw [if_pos he]
      have := ih (c + 1)
      simp only [List.length_cons, Nat.cast_add, Nat.cast_one]
      omega

end FInventorySlots

theorem GroupOp_run_SizeKept (st : FInventorySlots × Heap) (op : GroupOp) :
    SizeKept st.1 (op.run st).1 := by
  cases op with
  | AddItem p => exact AddItem_SizeKept _ _ _
  | AddItemToSlot p i => exact AddItemToSlot_SizeKept _ _ _ _
  | AddStackAmount p a => exact AddStackAmount_SizeKept _ _ _ _
  | RemoveItem i => exact RemoveItem_SizeKept _ _
  | RemoveStackAmountFromSlot i a => exact RemoveStackAmountFromSlot_SizeKept _ _ _
  | DestroyItemAtSlot i => exact DestroyItemAtSlot_SizeKept _ _
  | SwapSlots a b => exact SwapSlots_SizeKept _ _ _
  | SplitStack s t a => exact SplitStack_SizeKept _ _ _ _ _
  | ConsolidateAndSort => exact ConsolidateAndSort_SizeKept _ _
  | ClearAllSlots => exact ClearAllSlots_SizeKept _

theorem GroupOp_runs_SizeKept (ops : List GroupOp) (st : FInventorySlots × Heap) :
    SizeKept st.1 (ops.foldl GroupOp.run st).1 := by
  induction ops generalizing st with
  | nil => exact SizeKept_refl _
  | cons op rest ih =>
    rw [List.foldl_cons]
    exact SizeKept_trans (GroupOp_run_SizeKept st op) (ih _)

/-! ### Insertion at a slot index -/

namespace FInventorySlots

theorem AddItemToSlot_out_of_range (h : Heap) (g : FInventorySlots) (p : ItemPtr) (i : Int)
    (hv : IsValid h p) (hi : ¬ IsValidIndex g.Slots i) :
    AddItemToSlot h g p i = (.Fail "Target slot index is out of bounds", g, h) := by
  unfold AddItemToSlot
  rw [if_neg (not_not_intro hv), if_pos hi]

theorem AddItemToSlot_fallback (h : Heap) (g : FInventorySlots) (p : ItemPtr) (i : Int)
    (hv : IsValid h p) (hi : IsValidIndex g.Slots i) (hs : g.IsTypeSupported h p)
    (he : ¬ (slotAt g.Slots i).IsEmpty)
    (hd : GetItemID h (slotAt g.Slots i).Item ≠ GetItemID h p ∨ (h.deref p).bIsStackable = false) :
    AddItemToSlot h g p i = AddItem h g p := by
  unfold AddItemToSlot
  rw [if_neg (not_not_intro hv), if_neg (not_not_intro hi), if_neg (not_not_intro hs)]
  simp only [if_neg he]
  rw [if_neg]
  rintro ⟨h1, h2, _⟩
  rcases hd with hd | hd
  · exact hd h2
  · rw [hd] at h1; cases h1

end FInventorySlots

/-! ## The claims -/

/-- Claim C1, evaluated where the code departs from it: `SetItem` with a valid
item and quantity 0 on an empty slot (which satisfies the slot invariant) keeps
the item and stores a zero stack, so the result violates the slot invariant and
is rejected by the code's own `ValidateSlot`; `AddItemToSlot` reaches this call
with an item whose stack size is 0. -/
theorem C1_SetItem_zero_quantity_breaks_slot_invariant :
    IsValid [mkItem "A" true 5 0] (some 0) ∧ SlotInvariant FInventorySlot.ctor ∧
      FInventorySlot.ctor.SetItem [mkItem "A" true 5 0] (some 0) 0 = ⟨some 0, 0, 5⟩ ∧
      ¬ SlotInvariant (FInventorySlot.ctor.SetItem [mkItem "A" true 5 0] (some 0) 0) ∧
      (FInventorySlot.ctor.SetItem [mkItem "A" true 5 0] (some 0) 0).ValidateSlot = false ∧
      ((bag 1).AddItemToSlot [mkItem "A" true 5 0] (some 0) 0).2.1.Slots = [⟨some 0, 0, 5⟩] := by
  decide

/-- Claim C2 as stated fails: a valid, type-supported, non-stackable item with
stack 0 (within `0 ≤ stack ≤ maxStack = 1`) is added to a group whose only slot
is occupied; `AddItem` fails, the group is unchanged, and the item's stack size
is forced to 1, so slots plus item hold one unit more than before. -/
theorem C2_counterexample_nonstackable_zero_stack :
    IsValid [mkItem "Sword" false 1 0, mkItem "Shield" false 1 1] (some 0) ∧
      (FInventorySlots.mk 1 [(0, "Bag")] [⟨some 1, 1, 1⟩]).IsTypeSupported
        [mkItem "Sword" false 1 0, mkItem "Shield" false 1 1] (some 0) ∧
      ((bag 1).AddItem [mkItem "Sword" false 1 0, mkItem "Shield" false 1 1] (some 1)).2.1
        = FInventorySlots.mk 1 [(0, "Bag")] [⟨some 1, 1, 1⟩] ∧
      ((FInventorySlots.mk 1 [(0, "Bag")] [⟨some 1, 1, 1⟩]).AddItem
        [mkItem "Sword" false 1 0, mkItem "Shield" false 1 1] (some 0)).1.bSuccess = false ∧
      sumStacks ((FInventorySlots.mk 1 [(0, "Bag")] [⟨some 1, 1, 1⟩]).AddItem
        [mkItem "Sword" false 1 0, mkItem "Shield" false 1 1] (some 0)).2.1.Slots = 1 ∧
      (((FInventorySlots.mk 1 [(0, "Bag")] [⟨some 1, 1, 1⟩]).AddItem
        [mkItem "Sword" false 1 0, mkItem "Shield" false 1 1] (some 0)).2.2.deref
          (some 0)).CurrentStackSize = 1 ∧
      ¬ (sumStacks ((FInventorySlots.mk 1 [(0, "Bag")] [⟨some 1, 1, 1⟩]).AddItem
          [mkItem "Sword" false 1 0, mkItem "Shield" false 1 1] (some 0)).2.1.Slots +
        (((FInventorySlots.mk 1 [(0, "Bag")] [⟨some 1, 1, 1⟩]).AddItem
          [mkItem "Sword" false 1 0, mkItem "Shield" false 1 1] (some 0)).2.2.deref
            (some 0)).CurrentStackSize =
        sumStacks [⟨some 1, 1, 1⟩] +
          (Heap.deref [mkItem "Sword" false 1 0, mkItem "Shield" false 1 1]
            (some 0)).CurrentStackSize) := by
  decide

/-- Claim C2, amended: for a valid, type-supported item that is stackable with
`0 ≤ stack ≤ maxStack`, or non-stackable with stack exactly 1, a failing
`AddItem` leaves (sum of the slots' stacks) + (the item's stack size) unchanged;
and when every slot is non-empty and every slot holding the same item ID is
full, `AddItem` fails and leaves the group and the item unchanged. -/
theorem C2_AddItem_failure_conserves_quantity (h : Heap) (g : FInventorySlots) (p : ItemPtr)
    (hv : IsValid h p) (hs : g.IsTypeSupported h p)
    (hq : ((h.deref p).bIsStackable = true ∧ 0 ≤ (h.deref p).CurrentStackSize ∧
        (h.deref p).CurrentStackSize ≤ (h.deref p).MaxStackSize) ∨
      ((h.deref p).bIsStackable = false ∧ (h.deref p).CurrentStackSize = 1)) :
    ((AddItem h g p).1.bSuccess = false →
      sumStacks (AddItem h g p).2.1.Slots + ((AddItem h g p).2.2.deref p).CurrentStackSize =
        sumStacks g.Slots + (h.deref p).CurrentStackSize) ∧
    ((∀ s ∈ g.Slots, ¬ s.IsEmpty) →
      (∀ s ∈ g.Slots, GetItemID h s.Item = GetItemID h p → s.IsFull) →
      (AddItem h g p).1.bSuccess = false ∧ (AddItem h g p).2.1 = g ∧ (AddItem h g p).2.2 = h) := by
  constructor
  · intro hfail
    by_cases hr : (stackPhase h g p).returned = true
    · rw [AddItem_returned h g p hv hs hr] at hfail; cases hfail
    · cases hp : placePhase h p (stackPhase h g p) with
      | some l => rw [AddItem_placed h g p hv hs hr l hp] at hfail; cases hfail
      | none =>
        rw [AddItem_failed h g p hv hs hr hp]
        simp only
        rw [deref_SetCurrentStackSize h p _ hv]
        have hsum := stackPhase_sum h g p
        rcases hq with ⟨hst, h0, h1⟩ | ⟨hns, h1⟩
        · have hb := stackPhase_bounds h g p h0
          unfold UItemBase.SetCurrentStackSize
          rw [if_pos hst]
          simp only
          rw [Clamp_of_mem hb.1 (le_trans hb.2 h1)]
          exact hsum
        · have hk : stackPhase h g p = ⟨g.Slots, (h.deref p).CurrentStackSize, false⟩ := by
            unfold stackPhase; rw [hns]; simp
          unfold UItemBase.SetCurrentStackSize
          rw [hns]
          simp only [Bool.false_eq_true, if_false]
          rw [hk]; simp only; omega
  · intro hne hfull
    have hk : stackPhase h g p = ⟨g.Slots, (h.deref p).CurrentStackSize, false⟩ := by
      unfold stackPhase
      split
      · exact stackLoop_no_merge h p g.Slots _
          (fun s hs hm => hm.2 (hfull s hs hm.1.2))
      · rfl
    have hr : ¬ (stackPhase h g p).returned = true := by rw [hk]; simp
    have hp : placePhase h p (stackPhase h g p) = none := by
      unfold placePhase
      split
      · rw [hk, placeLoop_eq h p _ _ hv]
        exact placeLowestEmpty_none _ _ hne
      · rfl
    rw [AddItem_failed h g p hv hs hr hp, hk]
    refine ⟨rfl, rfl, ?_⟩
    exact SetCurrentStackSize_same h p hv hq

/-- Claim C2, the amended statement at a concrete input: a group whose only slot
holds 4 of 5 units of "A" receives an "A" item of 3 units; one unit is merged,
the call fails and the item keeps the remaining 2. -/
theorem C2_AddItem_failure_conserves_quantity_witness :
    IsValid [mkItem "A" true 5 4, mkItem "A" true 5 3] (some 1) ∧
      ((FInventorySlots.mk 1 [(0, "Bag")] [⟨some 0, 4, 5⟩]).AddItem
        [mkItem "A" true 5 4, mkItem "A" true 5 3] (some 1)).1.bSuccess = false ∧
      (((FInventorySlots.mk 1 [(0, "Bag")] [⟨some 0, 4, 5⟩]).AddItem
          [mkItem "A" true 5 4, mkItem "A" true 5 3] (some 1)).1.bSuccess = false →
        sumStacks ((FInventorySlots.mk 1 [(0, "Bag")] [⟨some 0, 4, 5⟩]).AddItem
            [mkItem "A" true 5 4, mkItem "A" true 5 3] (some 1)).2.1.Slots +
          (((FInventorySlots.mk 1 [(0, "Bag")] [⟨some 0, 4, 5⟩]).AddItem
            [mkItem "A" true 5 4, mkItem "A" true 5 3] (some 1)).2.2.deref
              (some 1)).CurrentStackSize =
          sumStacks [⟨some 0, 4, 5⟩] + 3) :=
  ⟨by decide, by decide,
    (C2_AddItem_failure_conserves_quantity [mkItem "A" true 5 4, mkItem "A" true 5 3]
      (FInventorySlots.mk 1 [(0, "Bag")] [⟨some 0, 4, 5⟩]) (some 1)
      (by decide) (by decide) (by decide)).1⟩

/-- Claim C3: for a valid, type-supported item with `1 ≤ stack ≤ maxStack` and a
group whose empty slots carry no stack, a successful `AddItem` raises the sum of
the slots' stacks by exactly the item's stack size at the time of the call. -/
theorem C3_AddItem_success_stores_whole_stack (h : Heap) (g : FInventorySlots) (p : ItemPtr)
    (hv : IsValid h p) (hs : g.IsTypeSupported h p)
    (hq : 1 ≤ (h.deref p).CurrentStackSize ∧
      (h.deref p).CurrentStackSize ≤ (h.deref p).MaxStackSize)
    (hz : EmptySlotsAreZero g.Slots)
    (hok : (AddItem h g p).1.bSuccess = true) :
    sumStacks (AddItem h g p).2.1.Slots = sumStacks g.Slots + (h.deref p).CurrentStackSize := by
  have hsum := stackPhase_sum h g p
  have hb := stackPhase_bounds h g p (by omega)
  by_cases hr : (stackPhase h g p).returned = true
  · rw [AddItem_returned h g p hv hs hr]
    have := stackPhase_returned h g p hr
    simp only; omega
  · cases hp : placePhase h p (stackPhase h g p) with
    | none => rw [AddItem_failed h g p hv hs hr hp] at hok; cases hok
    | some l =>
      rw [AddItem_placed h g p hv hs hr l hp]
      unfold placePhase at hp
      by_cases hpos : (stackPhase h g p).remaining > 0
      · rw [if_pos hpos, placeLoop_eq h p _ _ hv] at hp
        have := placeLowestEmpty_sum _ _ _ (stackPhase_zero h g p hz) hp
        have hc : (specSetItem h p (stackPhase h g p).remaining).CurrentStackSize
            = (stackPhase h g p).remaining := by
          unfold specSetItem
          exact Clamp_of_mem hb.1 (le_trans hb.2 hq.2)
        simp only; omega
      · rw [if_neg hpos] at hp; cases hp


/-- Claim C3 at a concrete input: two slots, the first holding 4 of 5 units of
"A"; adding an "A" item of 3 units succeeds and the slots then hold 7 units. -/
theorem C3_AddItem_success_stores_whole_stack_witness :
    ((FInventorySlots.mk 2 [(0, "Bag")] [⟨some 0, 4, 5⟩, FInventorySlot.ctor]).AddItem
        [mkItem "A" true 5 4, mkItem "A" true 5 3] (some 1)).1.bSuccess = true ∧
      sumStacks ((FInventorySlots.mk 2 [(0, "Bag")] [⟨some 0, 4, 5⟩, FInventorySlot.ctor]).AddItem
        [mkItem "A" true 5 4, mkItem "A" true 5 3] (some 1)).2.1.Slots =
      sumStacks [⟨some 0, 4, 5⟩, FInventorySlot.ctor] + 3 :=
  ⟨by decide,
    C3_AddItem_success_stores_whole_stack [mkItem "A" true 5 4, mkItem "A" true 5 3]
      (FInventorySlots.mk 2 [(0, "Bag")] [⟨some 0, 4, 5⟩, FInventorySlot.ctor]) (some 1)
      (by decide) (by decide) (by decide) (by decide) (by decide)⟩


/-- Claim C4: for a valid, type-supported stackable item of quantity `q ≥ 0` the
slots left by `AddItem` are those of the first-fit reference (slots visited in
index order, each non-empty, non-full slot with the same item ID receives
`min(remaining, free space)`, a remainder goes to the lowest-index empty slot, no
empty slot is used when the merges absorb everything), and for `q ≥ 1` the two
agree on success.  In the scenario (two slots, type 0, "A" with maxStack 5)
adding 1, 3 and 5 units succeeds three times and leaves 5 and 4; once both slots
hold 5, adding 1 more fails. -/
theorem C4_AddItem_is_first_fit (h : Heap) (g : FInventorySlots) (p : ItemPtr)
    (hv : IsValid h p) (hs : g.IsTypeSupported h p)
    (hst : (h.deref p).bIsStackable = true) (hq : 0 ≤ (h.deref p).CurrentStackSize) :
    (AddItem h g p).2.1.Slots = (AddItemFirstFit h g p).2 ∧
      (1 ≤ (h.deref p).CurrentStackSize →
        (AddItem h g p).1.bSuccess = (AddItemFirstFit h g p).1) ∧
      ((scenarioAdd [0]).1.bSuccess = true ∧ (scenarioAdd [1, 0]).1.bSuccess = true ∧
        (scenarioAdd [2, 1, 0]).1.bSuccess = true ∧
        (scenarioAdd [1, 0]).2.1.Slots = [⟨some 0, 4, 5⟩, FInventorySlot.ctor] ∧
        (scenarioAdd [2, 1, 0]).2.1.Slots = [⟨some 0, 5, 5⟩, ⟨some 2, 4, 5⟩] ∧
        (scenarioAdd [3, 2, 1, 0]).2.1.Slots = [⟨some 0, 5, 5⟩, ⟨some 2, 5, 5⟩] ∧
        (scenarioAdd [4, 3, 2, 1, 0]).1.bSuccess = false) := by
  have hk : stackPhase h g p = stackLoop h p g.Slots (h.deref p).CurrentStackSize := by
    unfold stackPhase; rw [if_pos hst]
  have hm := stackLoop_eq_firstFit h p g.Slots _ hq
  rw [← hk] at hm
  refine ⟨?_, ?_, by decide⟩
  · unfold AddItemFirstFit
    by_cases hr : (stackPhase h g p).returned = true
    · have h0 := stackPhase_returned h g p hr
      rw [AddItem_returned h g p hv hs hr]
      simp only
      rw [if_pos (by rw [← hm.2]; exact h0), hm.1]
    · cases hp : placePhase h p (stackPhase h g p) with
      | some l =>
        rw [AddItem_placed h g p hv hs hr l hp]
        unfold placePhase at hp
        by_cases hpos : (stackPhase h g p).remaining > 0
        · rw [if_pos hpos, placeLoop_eq h p _ _ hv, hm.1, hm.2] at hp
          simp only
          rw [if_neg (by rw [← hm.2]; omega), hp]
        · rw [if_neg hpos] at hp; cases hp
      | none =>
        rw [AddItem_failed h g p hv hs hr hp]
        unfold placePhase at hp
        simp only
        by_cases hpos : (stackPhase h g p).remaining > 0
        · rw [if_pos hpos, placeLoop_eq h p _ _ hv, hm.1, hm.2] at hp
          rw [if_neg (by rw [← hm.2]; omega), hp, hm.1]
        · rw [if_pos (by rw [← hm.2]; omega), hm.1]
  · intro h1
    unfold AddItemFirstFit
    by_cases hr : (stackPhase h g p).returned = true
    · have h0 := stackPhase_returned h g p hr
      rw [AddItem_returned h g p hv hs hr]
      simp only
      rw [if_pos (by rw [← hm.2]; exact h0)]
      rfl
    · have hpend : 1 ≤ (stackPhase h g p).remaining := by
        rw [hk] at hr ⊢
        exact stackLoop_pending h p g.Slots _ h1 hr
      cases hp : placePhase h p (stackPhase h g p) with
      | some l =>
        rw [AddItem_placed h g p hv hs hr l hp]
        unfold placePhase at hp
        rw [if_pos (by omega), placeLoop_eq h p _ _ hv, hm.1, hm.2] at hp
        simp only
        rw [if_neg (by rw [← hm.2]; omega), hp]
        rfl
      | none =>
        rw [AddItem_failed h g p hv hs hr hp]
        unfold placePhase at hp
        rw [if_pos (by omega), placeLoop_eq h p _ _ hv, hm.1, hm.2] at hp
        simp only
        rw [if_neg (by rw [← hm.2]; omega), hp]
        rfl

/-- Claim C4 at the third step of the scenario: adding 5 units to the slots
`[4/5, empty]` gives what the first-fit reference gives, `[5/5, 4/5]`. -/
theorem C4_AddItem_is_first_fit_witness :
    ((scenarioAdd [1, 0]).2.1.AddItem (scenarioAdd [1, 0]).2.2 (some 2)).2.1.Slots =
        (AddItemFirstFit (scenarioAdd [1, 0]).2.2 (scenarioAdd [1, 0]).2.1 (some 2)).2 ∧
      (AddItemFirstFit (scenarioAdd [1, 0]).2.2 (scenarioAdd [1, 0]).2.1 (some 2)) =
        (true, [⟨some 0, 5, 5⟩, ⟨some 2, 4, 5⟩]) :=
  ⟨(C4_AddItem_is_first_fit (scenarioAdd [1, 0]).2.2 (scenarioAdd [1, 0]).2.1 (some 2)
      (by decide) (by decide) (by decide) (by decide)).1, by decide⟩


/-- Claim C5: when both groups are found, the source slot is non-empty and the
destination group does not support the source item's type, `TransferItem`
returns failure and leaves every group (hence every slot, the source slot
included) and every item exactly as before. -/
theorem C5_TransferItem_incompatible_destination_changes_nothing (h : Heap)
    (c : FInventorySlotsGroup) (FromTypeID FromIndex ToTypeID ToIndex : Int) (si di : Nat)
    (SourceSlot : FInventorySlot)
    (hsrc : (c.GetGroupByID FromTypeID).2 = some si)
    (hdst : (c.GetGroupByID ToTypeID).2 = some di)
    (hslot : (FInventorySlotsGroup.groupAt c.InventoryGroups si).GetSlotAtIndex FromIndex = some SourceSlot)
    (hne : ¬ SourceSlot.IsEmpty)
    (hinc : ¬ (FInventorySlotsGroup.groupAt c.InventoryGroups di).IsTypeSupported h SourceSlot.Item) :
    (FInventorySlotsGroup.TransferItem h c FromTypeID FromIndex ToTypeID ToIndex).1.bSuccess = false ∧
      (FInventorySlotsGroup.TransferItem h c FromTypeID FromIndex ToTypeID ToIndex).2.1.InventoryGroups =
        c.InventoryGroups ∧
      (FInventorySlotsGroup.TransferItem h c FromTypeID FromIndex ToTypeID ToIndex).2.2 = h := by
  rw [FInventorySlotsGroup.TransferItem_found h c _ _ _ _ si di hsrc hdst]
  unfold FInventorySlotsGroup.transferBetween
  rw [FInventorySlotsGroup.GetGroupByID_groups, hslot]
  simp only [if_neg hne, if_pos hinc]
  exact ⟨rfl, FInventorySlotsGroup.GetGroupByID_groups c FromTypeID, trivial⟩



/-- Claim C5 at a concrete input: the item in the first group declares only the
type ID 0, the second group allows only the type ID 1; the transfer fails and
nothing changes. -/
theorem C5_TransferItem_incompatible_destination_changes_nothing_witness :
    (FInventorySlotsGroup.TransferItem [mkTypedItem "X" [0], mkTypedItem "Y" [1]]
        twoGroups 0 0 1 0).1.bSuccess = false ∧
      (FInventorySlotsGroup.TransferItem [mkTypedItem "X" [0], mkTypedItem "Y" [1]]
        twoGroups 0 0 1 0).2.1.InventoryGroups = twoGroups.InventoryGroups ∧
      (FInventorySlotsGroup.TransferItem [mkTypedItem "X" [0], mkTypedItem "Y" [1]]
        twoGroups 0 0 1 0).2.2 = [mkTypedItem "X" [0], mkTypedItem "Y" [1]] :=
  C5_TransferItem_incompatible_destination_changes_nothing
    [mkTypedItem "X" [0], mkTypedItem "Y" [1]] twoGroups 0 0 1 0 0 1 ⟨some 0, 1, 1⟩
    (by decide) (by decide) (by decide) (by decide) (by decide)

/-- Claim C6 as stated fails: the first group holds an item whose slot type IDs
are now `[1]`, which that group does not allow, and the second group (type 1)
is full.  `TransferItem` removes the item from the source slot, the destination
cannot place it, the call returns failure, and the rollback `AddItemToSlot` is
refused by the source group's own type check: the source slot stays empty. -/
theorem C6_counterexample_rollback_refused_by_type_check :
    (twoGroups.GetGroupByID 0).2 = some 0 ∧ (twoGroups.GetGroupByID 1).2 = some 1 ∧
      (FInventorySlotsGroup.groupAt twoGroups.InventoryGroups 0).GetSlotAtIndex 0
        = some ⟨some 0, 1, 1⟩ ∧
      (FInventorySlotsGroup.groupAt twoGroups.InventoryGroups 1).IsTypeSupported
        [mkTypedItem "X" [1], mkTypedItem "Y" [1]] (some 0) ∧
      ((FInventorySlotsGroup.groupAt twoGroups.InventoryGroups 0).RemoveItem 0).2 = some 0 ∧
      ((FInventorySlotsGroup.groupAt twoGroups.InventoryGroups 1).AddItemToSlot
        [mkTypedItem "X" [1], mkTypedItem "Y" [1]] (some 0) 0).1.bSuccess = false ∧
      (FInventorySlotsGroup.TransferItem [mkTypedItem "X" [1], mkTypedItem "Y" [1]]
        twoGroups 0 0 1 0).1.bSuccess = false ∧
      (slotAt (FInventorySlotsGroup.groupAt
        (FInventorySlotsGroup.TransferItem [mkTypedItem "X" [1], mkTypedItem "Y" [1]]
          twoGroups 0 0 1 0).2.1.InventoryGroups 0).Slots 0).Item = none := by
  decide

/-- Claim C6, amended: when both groups are found, the source slot is non-empty,
both the destination group and the source group support the item's type, and
the destination `AddItemToSlot` made after the removal fails, `TransferItem`
returns failure and the source slot at `FromIndex` again holds the item instance
that was removed from it. -/
theorem C6_TransferItem_rollback_restores_source_item (h : Heap)
    (c : FInventorySlotsGroup) (FromTypeID FromIndex ToTypeID ToIndex : Int) (si di : Nat)
    (SourceSlot : FInventorySlot)
    (hsrc : (c.GetGroupByID FromTypeID).2 = some si)
    (hdst : (c.GetGroupByID ToTypeID).2 = some di)
    (hslot : (FInventorySlotsGroup.groupAt c.InventoryGroups si).GetSlotAtIndex FromIndex
      = some SourceSlot)
    (hne : ¬ SourceSlot.IsEmpty)
    (hdsup : (FInventorySlotsGroup.groupAt c.InventoryGroups di).IsTypeSupported h SourceSlot.Item)
    (hssup : (FInventorySlotsGroup.groupAt c.InventoryGroups si).IsTypeSupported h SourceSlot.Item)
    (hfail : ((FInventorySlotsGroup.groupAt
        (c.InventoryGroups.set si
          ((FInventorySlotsGroup.groupAt c.InventoryGroups si).RemoveItem FromIndex).1) di).AddItemToSlot
        h SourceSlot.Item ToIndex).1.bSuccess = false) :
    (FInventorySlotsGroup.TransferItem h c FromTypeID FromIndex ToTypeID ToIndex).1.bSuccess
        = false ∧
      (slotAt (FInventorySlotsGroup.groupAt
          (FInventorySlotsGroup.TransferItem h c FromTypeID FromIndex ToTypeID
            ToIndex).2.1.InventoryGroups si).Slots FromIndex).Item = SourceSlot.Item ∧
      SourceSlot.Item ≠ none := by
  have hsi := FInventorySlotsGroup.GetGroupByID_lt c _ _ hsrc
  have hdi := FInventorySlotsGroup.GetGroupByID_lt c _ _ hdst
  obtain ⟨hidx, hS⟩ := GetSlotAtIndex_some _ _ _ hslot
  have hitem : SourceSlot.Item ≠ none := fun hx => hne (Or.inl hx)
  -- the removal
  have hrm : (FInventorySlotsGroup.groupAt c.InventoryGroups si).RemoveItem FromIndex =
      (FInventorySlots.mk (FInventorySlotsGroup.groupAt c.InventoryGroups si).MaxSlotSize
        (FInventorySlotsGroup.groupAt c.InventoryGroups si).TypeIDMap
        ((FInventorySlotsGroup.groupAt c.InventoryGroups si).Slots.set FromIndex.toNat
          (slotAt (FInventorySlotsGroup.groupAt c.InventoryGroups si).Slots FromIndex).ClearSlot),
        SourceSlot.Item) := by
    unfold RemoveItem
    rw [if_pos ⟨hidx, by rw [← hS]; exact hne⟩, ← hS]
  rw [FInventorySlotsGroup.TransferItem_found h c _ _ _ _ si di hsrc hdst]
  unfold FInventorySlotsGroup.transferBetween
  rw [FInventorySlotsGroup.GetGroupByID_groups, hslot]
  simp only [if_neg hne, if_neg (not_not_intro hdsup)]
  rw [hrm] at hfail ⊢
  simp only at hfail ⊢
  rw [if_neg hitem, if_pos (by rw [hfail]; simp)]
  simp only
  -- names for the intermediate states
  generalize hG : FInventorySlotsGroup.groupAt c.InventoryGroups si = G at *
  generalize hR : FInventorySlots.mk G.MaxSlotSize G.TypeIDMap
      (G.Slots.set FromIndex.toNat (slotAt G.Slots FromIndex).ClearSlot) = R at *
  generalize hA : (FInventorySlotsGroup.groupAt (c.InventoryGroups.set si R) di).AddItemToSlot
      h SourceSlot.Item ToIndex = A at *
  have hlen1 : si < (c.InventoryGroups.set si R).length := by simpa using hsi
  have hlen2 : si < ((c.InventoryGroups.set si R).set di A.2.1).length := by simpa using hsi
  have hRmap : R.TypeIDMap = G.TypeIDMap := by rw [← hR]
  have hRslots : R.Slots = G.Slots.set FromIndex.toNat (slotAt G.Slots FromIndex).ClearSlot := by
    rw [← hR]
  have hobj : SameObjects h A.2.2 := by rw [← hA]; exact AddItemToSlot_SameObjects _ _ _ _
  -- the source group as the rollback finds it
  have hG2 : (FInventorySlotsGroup.groupAt ((c.InventoryGroups.set si R).set di A.2.1) si).TypeIDMap
        = G.TypeIDMap ∧
      List.Forall₂ MergedFrom R.Slots
        (FInventorySlotsGroup.groupAt ((c.InventoryGroups.set si R).set di A.2.1) si).Slots := by
    by_cases hsd : di = si
    · subst hsd
      rw [groupAt_set_self _ _ _ hlen1]
      rw [groupAt_set_self _ _ _ hsi] at hA
      rw [← hA]
      refine ⟨(AddItemToSlot_TypeIDMap _ _ _ _).trans hRmap, ?_⟩
      apply AddItemToSlot_fail_pointwise
      rw [hA]; exact hfail
    · rw [groupAt_set_ne _ _ _ _ hsd, groupAt_set_self _ _ _ hsi]
      exact ⟨hRmap, MergedFrom_list_refl _⟩
  generalize FInventorySlotsGroup.groupAt ((c.InventoryGroups.set si R).set di A.2.1) si = G2 at *
  obtain ⟨hG2map, hG2slots⟩ := hG2
  have hlenG2 : G2.Slots.length = G.Slots.length := by
    rw [← hG2slots.length_eq, hRslots]; simp
  have hidx2 : IsValidIndex G2.Slots FromIndex := (IsValidIndex_length hlenG2 _).mpr hidx
  have hempty : (slotAt G2.Slots FromIndex).IsEmpty := by
    have hm := MergedFrom_getD hG2slots FromIndex.toNat
    have hc : R.Slots.getD FromIndex.toNat FInventorySlot.ctor
        = (slotAt G.Slots FromIndex).ClearSlot := by
      have := slotAt_set_self G.Slots FromIndex (slotAt G.Slots FromIndex).ClearSlot hidx
      rw [hRslots]; exact this
    rw [hc] at hm
    have he : ((slotAt G.Slots FromIndex).ClearSlot).IsEmpty := Or.inl rfl
    have := hm.1 he
    unfold slotAt
    rw [this]; exact he
  have hv2 : IsValid A.2.2 SourceSlot.Item := by
    have hv : IsValid h SourceSlot.Item := by
      unfold IsTypeSupported at hssup
      by_contra hx
      rw [if_pos hx] at hssup
      exact hssup
    exact (SameObjects_IsValid hobj _).mpr hv
  have hs2 : G2.IsTypeSupported A.2.2 SourceSlot.Item :=
    (SameObjects_IsTypeSupported hobj G G2 hG2map _).mpr hssup
  rw [AddItemToSlot_empty A.2.2 G2 SourceSlot.Item FromIndex hv2 hidx2 hs2 hempty]
  simp only
  rw [groupAt_set_self _ _ _ hlen2]
  simp only
  rw [slotAt_set_self _ _ _ hidx2]
  exact ⟨rfl, rfl, hitem⟩


/-- Claim C6, the amended statement at a concrete input: the item in the first
group declares the type IDs 0 and 1, the second group is full; the transfer
fails and the source slot holds the item again. -/
theorem C6_TransferItem_rollback_restores_source_item_witness :
    (FInventorySlotsGroup.TransferItem [mkTypedItem "X" [0, 1], mkTypedItem "Y" [1]]
        twoGroups 0 0 1 0).1.bSuccess = false ∧
      (slotAt (FInventorySlotsGroup.groupAt
        (FInventorySlotsGroup.TransferItem [mkTypedItem "X" [0, 1], mkTypedItem "Y" [1]]
          twoGroups 0 0 1 0).2.1.InventoryGroups 0).Slots 0).Item = some 0 :=
  ⟨(C6_TransferItem_rollback_restores_source_item [mkTypedItem "X" [0, 1], mkTypedItem "Y" [1]]
      twoGroups 0 0 1 0 0 1 ⟨some 0, 1, 1⟩ (by decide) (by decide) (by decide) (by decide)
      (by decide) (by decide) (by decide)).1,
    (C6_TransferItem_rollback_restores_source_item [mkTypedItem "X" [0, 1], mkTypedItem "Y" [1]]
      twoGroups 0 0 1 0 0 1 ⟨some 0, 1, 1⟩ (by decide) (by decide) (by decide) (by decide)
      (by decide) (by decide) (by decide)).2.1⟩


/-- Claim C7: calling `OrganizeAll` twice in a row leaves the collection (item,
quantity and maximum at every index of every group) exactly as calling it once;
this holds for every collection, in particular for those whose slots satisfy the
slot invariant. -/
theorem C7_OrganizeAll_idempotent (h : Heap) (c : FInventorySlotsGroup) :
    (c.OrganizeAll h).OrganizeAll h = c.OrganizeAll h := by
  unfold FInventorySlotsGroup.OrganizeAll
  simp only [List.map_map]
  congr 1
  apply List.map_congr_left
  intro g _
  exact ConsolidateAndSort_twice h g

/-- Claim C8: after `ConsolidateAndSort` there is an index `k` such that every
slot below `k` is non-empty and every slot from `k` on is empty; the slots below
`k`, and hence the non-empty slots read in increasing index order, are exactly
the non-empty slots left by the stack-merging phase `ConsolidateStacks`, in the
same order; the number of slots is unchanged. -/
theorem C8_ConsolidateAndSort_compacts_stably (h : Heap) (g : FInventorySlots) :
    ∃ k : Nat, k ≤ (g.ConsolidateAndSort h).Slots.length ∧
      (∀ i, i < k → ¬ ((g.ConsolidateAndSort h).Slots.getD i FInventorySlot.ctor).IsEmpty) ∧
      (∀ i, k ≤ i → i < (g.ConsolidateAndSort h).Slots.length →
        ((g.ConsolidateAndSort h).Slots.getD i FInventorySlot.ctor).IsEmpty) ∧
      (g.ConsolidateAndSort h).Slots.take k =
        (ConsolidateStacks h g.Slots).filter (fun s => ¬ s.IsEmpty) ∧
      (g.ConsolidateAndSort h).Slots.filter (fun s => ¬ s.IsEmpty) =
        (ConsolidateStacks h g.Slots).filter (fun s => ¬ s.IsEmpty) ∧
      (g.ConsolidateAndSort h).Slots.length = g.Slots.length := by
  obtain ⟨E2, h1, h2⟩ := compact_form (ConsolidateStacks h g.Slots)
  rw [ConsolidateAndSort_Slots, h2]
  generalize hN : (ConsolidateStacks h g.Slots).filter (fun s => ¬ s.IsEmpty) = N
  have hNne : ∀ s ∈ N, ¬ s.IsEmpty := by
    intro s hs; rw [← hN] at hs; simpa using (List.mem_filter.mp hs).2
  refine ⟨N.length, by simp, ?_, ?_, by simp, ?_, ?_⟩
  · intro i hi
    rw [getD_append_lt N E2 _ i hi]
    exact hNne _ (getD_mem N _ i hi)
  · intro i hi _
    rw [getD_append_ge N E2 _ i hi]
    exact getD_mem_or_default _ E2 _ _ h1 ctor_IsEmpty
  · rw [List.filter_append, filter_empties E2 h1, List.append_nil]
    rw [List.filter_eq_self]
    intro s hs; simpa using hNne s hs
  · have := compactLoop_length (ConsolidateStacks h g.Slots).length 0 0 (ConsolidateStacks h g.Slots)
    rw [h2, hN] at this
    rw [this]
    exact ConsolidateStacks_length h _

/-- Claim C9: when every non-empty slot of the group holds a stackable item,
`ConsolidateAndSort` leaves the total quantity of every item ID unchanged, and of
two different non-empty slots holding the same item ID the one with the lower
index is full, so at most one slot per item ID is not full. -/
theorem C9_ConsolidateAndSort_packs_stacks (h : Heap) (g : FInventorySlots)
    (hst : ∀ s ∈ g.Slots, ¬ s.IsEmpty → (h.deref s.Item).bIsStackable = true) :
    (∀ x : String, (g.ConsolidateAndSort h).GetTotalItemCount h x = g.GetTotalItemCount h x) ∧
      ∀ i j : Nat, i < j → j < (g.ConsolidateAndSort h).Slots.length →
        ¬ ((g.ConsolidateAndSort h).Slots.getD i FInventorySlot.ctor).IsEmpty →
        ¬ ((g.ConsolidateAndSort h).Slots.getD j FInventorySlot.ctor).IsEmpty →
        GetItemID h ((g.ConsolidateAndSort h).Slots.getD i FInventorySlot.ctor).Item =
          GetItemID h ((g.ConsolidateAndSort h).Slots.getD j FInventorySlot.ctor).Item →
        ((g.ConsolidateAndSort h).Slots.getD i FInventorySlot.ctor).IsFull := by
  obtain ⟨E2, h1, h2⟩ := compact_form (ConsolidateStacks h g.Slots)
  have hp : Packed h (g.ConsolidateAndSort h).Slots := by
    rw [ConsolidateAndSort_Slots, h2]
    exact Packed_filter h _ _ (ConsolidateStacks_Packed h g.Slots) h1
  constructor
  · intro x
    unfold GetTotalItemCount
    rw [ConsolidateAndSort_Slots, h2, totalLoop_append, totalLoop_empties h x E2 h1,
      totalLoop_filter, add_zero]
    exact ConsolidateStacks_total h x _
  · intro i j hij hj hi hjj hid
    by_contra hnf
    have hmem : (g.ConsolidateAndSort h).Slots.getD i FInventorySlot.ctor ∈
        ConsolidateStacks h g.Slots := by
      have hm := getD_mem (g.ConsolidateAndSort h).Slots FInventorySlot.ctor i (by omega)
      rw [ConsolidateAndSort_Slots, h2] at hm ⊢
      rcases List.mem_append.mp hm with hm | hm
      · exact (List.mem_filter.mp hm).1
      · rw [ConsolidateAndSort_Slots, h2] at hi
        exact absurd (h1 _ hm) hi
    obtain ⟨s, hs, hsh⟩ := Shrunk_mem_right (ConsolidateStacks_Shrunk h g.Slots) _ hmem
    rcases hsh with hsh | ⟨hsne, hitem⟩
    · exact hi hsh
    · have hstack := hst s hs hsne
      rw [← hitem] at hstack
      rcases Packed_index h _ hp i j hij hj ⟨hi, hstack, hnf⟩ with hx | hx
      · exact hjj hx
      · exact hx hid.symm


/-- Claim C9 at a concrete input: the group holds 3, nothing, 4 and 2 units of
"A" (maxStack 5); afterwards it holds 5 and 4 units followed by two empty slots,
9 units in total as before. -/
theorem C9_ConsolidateAndSort_packs_stacks_witness :
    ((FInventorySlots.mk 4 [(0, "Bag")]
        [⟨some 0, 3, 5⟩, FInventorySlot.ctor, ⟨some 1, 4, 5⟩, ⟨some 2, 2, 5⟩]).ConsolidateAndSort
        [mkItem "A" true 5 3, mkItem "A" true 5 4, mkItem "A" true 5 2]).Slots =
        [⟨some 0, 5, 5⟩, ⟨some 1, 4, 5⟩, FInventorySlot.ctor, FInventorySlot.ctor] ∧
      ((FInventorySlots.mk 4 [(0, "Bag")]
        [⟨some 0, 3, 5⟩, FInventorySlot.ctor, ⟨some 1, 4, 5⟩, ⟨some 2, 2, 5⟩]).ConsolidateAndSort
        [mkItem "A" true 5 3, mkItem "A" true 5 4, mkItem "A" true 5 2]).GetTotalItemCount
          [mkItem "A" true 5 3, mkItem "A" true 5 4, mkItem "A" true 5 2] "A" =
        (FInventorySlots.mk 4 [(0, "Bag")]
          [⟨some 0, 3, 5⟩, FInventorySlot.ctor, ⟨some 1, 4, 5⟩, ⟨some 2, 2, 5⟩]).GetTotalItemCount
          [mkItem "A" true 5 3, mkItem "A" true 5 4, mkItem "A" true 5 2] "A" :=
  ⟨by decide,
    (C9_ConsolidateAndSort_packs_stacks
      [mkItem "A" true 5 3, mkItem "A" true 5 4, mkItem "A" true 5 2]
      (FInventorySlots.mk 4 [(0, "Bag")]
        [⟨some 0, 3, 5⟩, FInventorySlot.ctor, ⟨some 1, 4, 5⟩, ⟨some 2, 2, 5⟩])
      (by decide)).1 "A"⟩

/-- Claim C10, evaluated where the code departs from it: after `AddItem` of 4 and
then 5 units of "A", slot 1 holds 4 units of the second item while that item
object still records 5.  `SplitStack(1, 2, 2)` succeeds, but the source slot
then holds 3 units (the item's 5 - 2), not 4 - 2 = 2, and the group's total
rises from 9 to 10. -/
theorem C10_SplitStack_after_merge_changes_total :
    splitScenario.1.bSuccess = true ∧
      splitScenario.2.1.Slots = [⟨some 0, 5, 5⟩, ⟨some 1, 4, 5⟩, FInventorySlot.ctor] ∧
      (splitScenario.2.2.deref (some 1)).CurrentStackSize = 5 ∧
      (splitScenario.2.1.SplitStack splitScenario.2.2 1 2 2).1.bSuccess = true ∧
      (splitScenario.2.1.SplitStack splitScenario.2.2 1 2 2).2.1.Slots =
        [⟨some 0, 5, 5⟩, ⟨some 1, 3, 5⟩, ⟨some 2, 2, 5⟩] ∧
      sumStacks splitScenario.2.1.Slots = 9 ∧
      sumStacks (splitScenario.2.1.SplitStack splitScenario.2.2 1 2 2).2.1.Slots = 10 := by
  decide

/-- C11: for valid indices `a`, `b`, `SwapSlots(a, b)` succeeds, slot `a` afterwards
holds what slot `b` held and conversely, every other slot, the capacity and the
type map are unchanged, and a second `SwapSlots(a, b)` succeeds and gives back the
original group; if one of the indices is invalid the call fails and the group is
unchanged. -/
theorem C11_SwapSlots_is_an_involution (g : FInventorySlots) (a b : Int) :
    (IsValidIndex g.Slots a ∧ IsValidIndex g.Slots b →
      (g.SwapSlots a b).1.bSuccess = true ∧
      slotAt (g.SwapSlots a b).2.Slots a = slotAt g.Slots b ∧
      slotAt (g.SwapSlots a b).2.Slots b = slotAt g.Slots a ∧
      (∀ i : Int, IsValidIndex g.Slots i → i ≠ a → i ≠ b →
        slotAt (g.SwapSlots a b).2.Slots i = slotAt g.Slots i) ∧
      (g.SwapSlots a b).2.Slots.length = g.Slots.length ∧
      (g.SwapSlots a b).2.MaxSlotSize = g.MaxSlotSize ∧
      (g.SwapSlots a b).2.TypeIDMap = g.TypeIDMap ∧
      ((g.SwapSlots a b).2.SwapSlots a b).1.bSuccess = true ∧
      ((g.SwapSlots a b).2.SwapSlots a b).2 = g) ∧
    (¬ (IsValidIndex g.Slots a ∧ IsValidIndex g.Slots b) →
      (g.SwapSlots a b).1.bSuccess = false ∧ (g.SwapSlots a b).2 = g) := by
  constructor
  · rintro ⟨ha, hb⟩
    have ha1 : a.toNat < g.Slots.length := by unfold IsValidIndex at ha; omega
    have hb1 : b.toNat < g.Slots.length := by unfold IsValidIndex at hb; omega
    have hlen : (Swap g.Slots a.toNat b.toNat).length = g.Slots.length := Swap_length _ _ _
    rw [SwapSlots_valid g a b ha hb]
    rw [SwapSlots_valid _ a b ((IsValidIndex_length hlen a).2 ha)
      ((IsValidIndex_length hlen b).2 hb)]
    refine ⟨rfl, ?_, ?_, ?_, hlen, rfl, rfl, rfl, ?_⟩
    · show (Swap g.Slots a.toNat b.toNat).getD a.toNat FInventorySlot.ctor = _
      rw [Swap_getD _ _ _ _ ha1 hb1]
      by_cases h : a.toNat = b.toNat
      · rw [if_pos h]; unfold slotAt; rw [h]
      · rw [if_neg h, if_pos rfl]; rfl
    · show (Swap g.Slots a.toNat b.toNat).getD b.toNat FInventorySlot.ctor = _
      rw [Swap_getD _ _ _ _ ha1 hb1, if_pos rfl]; rfl
    · intro i hi hia hib
      show (Swap g.Slots a.toNat b.toNat).getD i.toNat FInventorySlot.ctor = _
      have h1 : i.toNat ≠ b.toNat := by
        unfold IsValidIndex at hi hb; omega
      have h2 : i.toNat ≠ a.toNat := by
        unfold IsValidIndex at hi ha; omega
      rw [Swap_getD _ _ _ _ ha1 hb1, if_neg h1, if_neg h2]; rfl
    · show FInventorySlots.mk _ _ (Swap (Swap g.Slots a.toNat b.toNat) a.toNat b.toNat) = g
      rw [Swap_Swap _ _ _ ha1 hb1]
  · intro h
    rw [SwapSlots_invalid g a b h]
    exact ⟨rfl, rfl⟩

/-- C11 on the stated example: slot 0 holds `ItemA` with 2 units and slot 1 is
empty; one swap exchanges them and a second swap restores the group. -/
theorem C11_SwapSlots_is_an_involution_witness :
    (IsValidIndex (FInventorySlots.mk 2 [(0, "Bag")] [⟨some 0, 2, 5⟩, ⟨none, 0, 1⟩]).Slots 0 ∧
      IsValidIndex (FInventorySlots.mk 2 [(0, "Bag")] [⟨some 0, 2, 5⟩, ⟨none, 0, 1⟩]).Slots 1) ∧
    ((FInventorySlots.mk 2 [(0, "Bag")] [⟨some 0, 2, 5⟩, ⟨none, 0, 1⟩]).SwapSlots 0 1).2.Slots =
      [⟨none, 0, 1⟩, ⟨some 0, 2, 5⟩] ∧
    (((FInventorySlots.mk 2 [(0, "Bag")] [⟨some 0, 2, 5⟩, ⟨none, 0, 1⟩]).SwapSlots 0 1).2.SwapSlots
        0 1).2 = FInventorySlots.mk 2 [(0, "Bag")] [⟨some 0, 2, 5⟩, ⟨none, 0, 1⟩] ∧
    ((FInventorySlots.mk 2 [(0, "Bag")] [⟨some 0, 2, 5⟩, ⟨none, 0, 1⟩]).SwapSlots 0 5).1.bSuccess
      = false :=
  ⟨by decide, by decide,
    ((C11_SwapSlots_is_an_involution
      (FInventorySlots.mk 2 [(0, "Bag")] [⟨some 0, 2, 5⟩, ⟨none, 0, 1⟩]) 0 1).1
        (by decide)).2.2.2.2.2.2.2.2,
    ((C11_SwapSlots_is_an_involution
      (FInventorySlots.mk 2 [(0, "Bag")] [⟨some 0, 2, 5⟩, ⟨none, 0, 1⟩]) 0 5).2
        (by decide)).1⟩

/-- C13: in a collection built from the empty one by `AddInventoryGroup` calls, for
a type ID `t` that is a key (any key) of the allowed-type map of at least one
group, `GetGroupByID(t)` returns a group: it has `t` in its map and no group at a
greater position has. -/
theorem C13_GetGroupByID_returns_last_group_with_the_key (gs : List FInventorySlots) (t : Int)
    (ht : ∃ g ∈ gs, g.ContainsTypeID t) :
    ∃ i, ((gs.foldl FInventorySlotsGroup.AddInventoryGroup FInventorySlotsGroup.ctor).GetGroupByID
        t).2 = some i ∧
      i < gs.length ∧ (FInventorySlotsGroup.groupAt gs i).ContainsTypeID t ∧
      (∀ j, i < j → j < gs.length → ¬ (FInventorySlotsGroup.groupAt gs j).ContainsTypeID t) ∧
      ((gs.foldl FInventorySlotsGroup.AddInventoryGroup FInventorySlotsGroup.ctor).GetGroupByID
        t).1.InventoryGroups = gs := by
  have hg : (gs.foldl FInventorySlotsGroup.AddInventoryGroup
      FInventorySlotsGroup.ctor).InventoryGroups = gs := by
    rw [FInventorySlotsGroup.built_groups]; rfl
  have hf := FInventorySlotsGroup.built_flag gs FInventorySlotsGroup.ctor rfl
  have hl := FInventorySlotsGroup.GetGroupByID_of_coherent _ (Or.inl hf) t
  rw [hg] at hl
  cases hx : lastGroupWith t gs with
  | none =>
    obtain ⟨g, hg1, hg2⟩ := ht
    exact absurd hg2 (lastGroupWith_none t gs hx g hg1)
  | some i =>
    obtain ⟨h1, h2, h3⟩ := lastGroupWith_some t gs i hx
    refine ⟨i, by rw [hl, hx], h1, h2, h3, ?_⟩
    rw [FInventorySlotsGroup.GetGroupByID_groups, hg]

/-- C13 on three groups: type ID 7 is the second key of group 0 and the first key
of group 1, group 2 does not have it; the lookup answers group 1. -/
theorem C13_GetGroupByID_returns_last_group_with_the_key_witness :
    (([FInventorySlots.mk 1 [(1, "A"), (7, "B")] [], FInventorySlots.mk 1 [(7, "C"), (2, "D")] [],
        FInventorySlots.mk 1 [(3, "E")] []].foldl
      FInventorySlotsGroup.AddInventoryGroup FInventorySlotsGroup.ctor).GetGroupByID 7).2 = some 1 := by
  obtain ⟨i, h1, h2, h3, h4, _⟩ := C13_GetGroupByID_returns_last_group_with_the_key
    [FInventorySlots.mk 1 [(1, "A"), (7, "B")] [], FInventorySlots.mk 1 [(7, "C"), (2, "D")] [],
      FInventorySlots.mk 1 [(3, "E")] []] 7
    ⟨FInventorySlots.mk 1 [(1, "A"), (7, "B")] [], by simp, by decide⟩
  rw [h1]
  have hi : i = 0 ∨ i = 1 ∨ i = 2 := by simp at h2; omega
  rcases hi with h | h | h
  · subst h; exact absurd (by decide) (h4 1 (by decide) (by decide))
  · rw [h]
  · subst h; exact absurd h3 (by decide)

/-- C12, counterexample.  First, one group allowing type ID 1 is looked up (the
cache is built), then re-initialised with the type map `2 -> "Belt"` through the
pointer returned by the non-const `GetGroupByIndex(0)`.  `GetGroupByID(1)` still
returns that group although its map no longer has 1, and `GetGroupByID(2)` returns
no group although the group's map has 2.  Second, the same happens through the
non-const `GetInventoryGroups()` when the caller keeps the reference across a
lookup: the call raises the flag, `GetGroupByID(1)` rebuilds the cache and clears
it, and the re-initialisation made through the kept reference afterwards leaves
`GetGroupByID(1)` answering group 0 and `GetGroupByID(2)` answering no group. -/
theorem C12_counterexample_stale_cache_after_write_through_GetGroupByIndex :
    ((staleScenario.writeThrough (staleScenario.GetGroupByIndex 0)
        (fun g => g.InitializeInventory 1 [(2, "Belt")])).GetGroupByID 1).2 = some 0 ∧
    ¬ (FInventorySlotsGroup.groupAt
        (staleScenario.writeThrough (staleScenario.GetGroupByIndex 0)
          (fun g => g.InitializeInventory 1 [(2, "Belt")])).InventoryGroups 0).ContainsTypeID 1 ∧
    ((staleScenario.writeThrough (staleScenario.GetGroupByIndex 0)
        (fun g => g.InitializeInventory 1 [(2, "Belt")])).GetGroupByID 2).2 = none ∧
    (FInventorySlotsGroup.groupAt
        (staleScenario.writeThrough (staleScenario.GetGroupByIndex 0)
          (fun g => g.InitializeInventory 1 [(2, "Belt")])).InventoryGroups 0).ContainsTypeID 2 ∧
    ¬ CoherentLookup (staleScenario.writeThrough (staleScenario.GetGroupByIndex 0)
        (fun g => g.InitializeInventory 1 [(2, "Belt")])) 1 ∧
    keptReferenceScenario.bCacheNeedsRebuild = false ∧
    ((keptReferenceScenario.writeArray
        (fun gs => gs.map (fun g => g.InitializeInventory 1 [(2, "Belt")]))).GetGroupByID 1).2
      = some 0 ∧
    ¬ (FInventorySlotsGroup.groupAt
        (keptReferenceScenario.writeArray
          (fun gs => gs.map (fun g => g.InitializeInventory 1 [(2, "Belt")]))).InventoryGroups
        0).ContainsTypeID 1 ∧
    ((keptReferenceScenario.writeArray
        (fun gs => gs.map (fun g => g.InitializeInventory 1 [(2, "Belt")]))).GetGroupByID 2).2
      = none ∧
    (FInventorySlotsGroup.groupAt
        (keptReferenceScenario.writeArray
          (fun gs => gs.map (fun g => g.InitializeInventory 1 [(2, "Belt")]))).InventoryGroups
        0).ContainsTypeID 2 := by
  refine ⟨by decide, by decide, by decide, by decide, ?_, by decide, by decide, by decide,
    by decide, by decide⟩
  intro h
  unfold CoherentLookup at h
  have e : ((staleScenario.writeThrough (staleScenario.GetGroupByIndex 0)
      (fun g => g.InitializeInventory 1 [(2, "Belt")])).GetGroupByID 1).2 = some 0 := by decide
  rw [e] at h
  exact absurd h.2 (by decide)

/-- C12, amended: starting from the empty collection, take any sequence of
`AddInventoryGroup`, `GetGroupByID`, `AddItem`, `TransferItem`, `OrganizeAll`,
`InvalidateCache`, calls of the non-const `GetInventoryGroups()` and
`GetGroupByIndex`, and writes made at any later point through the reference or a
group pointer such a call returned, in which every such write either is made
while the rebuild flag is raised or leaves the allowed-type maps of the groups as
they were.  Afterwards `GetGroupByID(t)` returns a group whose map has `t` whenever
some group's map has it and no group otherwise.  After a write that changes a type
map while the flag is down the answer may be stale; in any state whatsoever the
lookups are true again once `InvalidateCache()` is called. -/
theorem C12_lookup_is_coherent_when_type_maps_change_behind_the_flag
    (ops : List CollectionOp) (h : Heap)
    (hops : Disciplined (FInventorySlotsGroup.ctor, h) ops) (t : Int) :
    CoherentLookup (ops.foldl CollectionOp.run (FInventorySlotsGroup.ctor, h)).1 t ∧
    ∀ c : FInventorySlotsGroup, CoherentLookup c.InvalidateCache t :=
  ⟨FInventorySlotsGroup.CoherentLookup_of_coherent _
      (runs_coherent ops _ hops (Or.inl rfl)) t,
    fun _ => FInventorySlotsGroup.CoherentLookup_of_coherent _ (Or.inl rfl) t⟩

/-- C12, amended, on an example: a group allowing type ID 1 is added and looked up,
the non-const `GetInventoryGroups()` is called, the group is re-initialised with
the type map `2 -> "Belt"` through the returned reference before any further
lookup, and type ID 2 is looked up: the group is found. -/
theorem C12_lookup_is_coherent_when_type_maps_change_behind_the_flag_witness :
    Disciplined (FInventorySlotsGroup.ctor, [])
      [CollectionOp.AddInventoryGroup (FInventorySlots.ctor.InitializeInventory 1 [(1, "Bag")]),
        CollectionOp.GetGroupByID 1, CollectionOp.GetInventoryGroups,
        CollectionOp.writeArray
          (fun gs => gs.map (fun g => g.InitializeInventory 1 [(2, "Belt")]))] ∧
    ((([CollectionOp.AddInventoryGroup (FInventorySlots.ctor.InitializeInventory 1 [(1, "Bag")]),
        CollectionOp.GetGroupByID 1, CollectionOp.GetInventoryGroups,
        CollectionOp.writeArray
          (fun gs => gs.map (fun g => g.InitializeInventory 1 [(2, "Belt")]))].foldl
      CollectionOp.run (FInventorySlotsGroup.ctor, [])).1.GetGroupByID 2).2 = some 0) ∧
    CoherentLookup ([CollectionOp.AddInventoryGroup
          (FInventorySlots.ctor.InitializeInventory 1 [(1, "Bag")]),
        CollectionOp.GetGroupByID 1, CollectionOp.GetInventoryGroups,
        CollectionOp.writeArray
          (fun gs => gs.map (fun g => g.InitializeInventory 1 [(2, "Belt")]))].foldl
      CollectionOp.run (FInventorySlotsGroup.ctor, [])).1 2 :=
  ⟨⟨trivial, trivial, trivial, Or.inl (by decide), trivial⟩, by decide,
    (C12_lookup_is_coherent_when_type_maps_change_behind_the_flag
      [CollectionOp.AddInventoryGroup (FInventorySlots.ctor.InitializeInventory 1 [(1, "Bag")]),
        CollectionOp.GetGroupByID 1, CollectionOp.GetInventoryGroups,
        CollectionOp.writeArray
          (fun gs => gs.map (fun g => g.InitializeInventory 1 [(2, "Belt")]))]
      [] ⟨trivial, trivial, trivial, Or.inl (by decide), trivial⟩ 2).1⟩

/-- C14: for a valid item and a target type ID `t` other than -1, the collection's
`AddItem(item, t)` fails and leaves every group and every object unchanged when
`GetGroupByID(t)` returns no group or the returned group does not support the
item's type; otherwise its result, the group at the returned position and the
objects afterwards are exactly those of `AddItem(item)` on the returned group, and
every group at another position is unchanged. -/
theorem C14_targeted_AddItem_is_strict (h : Heap) (c : FInventorySlotsGroup) (p : ItemPtr)
    (t : Int) (hv : IsValid h p) (ht : t ≠ -1) :
    ((c.GetGroupByID t).2 = none →
      (FInventorySlotsGroup.AddItem h c p t).1.bSuccess = false ∧
      (FInventorySlotsGroup.AddItem h c p t).2.1.InventoryGroups = c.InventoryGroups ∧
      (FInventorySlotsGroup.AddItem h c p t).2.2 = h) ∧
    (∀ i, (c.GetGroupByID t).2 = some i →
      ¬ (FInventorySlotsGroup.groupAt c.InventoryGroups i).IsTypeSupported h p →
      (FInventorySlotsGroup.AddItem h c p t).1.bSuccess = false ∧
      (FInventorySlotsGroup.AddItem h c p t).2.1.InventoryGroups = c.InventoryGroups ∧
      (FInventorySlotsGroup.AddItem h c p t).2.2 = h) ∧
    (∀ i, (c.GetGroupByID t).2 = some i →
      (FInventorySlotsGroup.groupAt c.InventoryGroups i).IsTypeSupported h p →
      (FInventorySlotsGroup.AddItem h c p t).1 =
        ((FInventorySlotsGroup.groupAt c.InventoryGroups i).AddItem h p).1 ∧
      FInventorySlotsGroup.groupAt (FInventorySlotsGroup.AddItem h c p t).2.1.InventoryGroups i =
        ((FInventorySlotsGroup.groupAt c.InventoryGroups i).AddItem h p).2.1 ∧
      (FInventorySlotsGroup.AddItem h c p t).2.2 =
        ((FInventorySlotsGroup.groupAt c.InventoryGroups i).AddItem h p).2.2 ∧
      (FInventorySlotsGroup.AddItem h c p t).2.1.InventoryGroups.length =
        c.InventoryGroups.length ∧
      ∀ j, j ≠ i →
        FInventorySlotsGroup.groupAt (FInventorySlotsGroup.AddItem h c p t).2.1.InventoryGroups j =
          FInventorySlotsGroup.groupAt c.InventoryGroups j) := by
  rw [FInventorySlotsGroup.AddItem_targeted h c p t hv ht]
  refine ⟨?_, ?_, ?_⟩
  · intro hg
    rw [FInventorySlotsGroup.addTargeted_none h c p t hg]
    exact ⟨rfl, FInventorySlotsGroup.GetGroupByID_groups c t, rfl⟩
  · intro i hg hs
    rw [FInventorySlotsGroup.addTargeted_unsupported h c p t i hg hs]
    exact ⟨rfl, FInventorySlotsGroup.GetGroupByID_groups c t, rfl⟩
  · intro i hg hs
    rw [FInventorySlotsGroup.addTargeted_supported h c p t i hg hs]
    refine ⟨rfl, ?_, rfl, ?_, ?_⟩
    · exact groupAt_set_self _ _ _ (FInventorySlotsGroup.GetGroupByID_lt c t i hg)
    · simp
    · intro j hj
      exact groupAt_set_ne _ _ _ _ (fun e => hj e.symm)

/-- C14 on `threeGroups` with an item declaring type ID 0: targeted at type ID 2 the
item is refused by the resolved group 2 (no fallback to group 0, which supports
it), and nothing changes. -/
theorem C14_targeted_AddItem_is_strict_witness :
    (IsValid [mkTypedItem "Key" [0]] (some 0) ∧ (2 : Int) ≠ -1) ∧
    (threeGroups.GetGroupByID 2).2 = some 2 ∧
    (FInventorySlotsGroup.groupAt threeGroups.InventoryGroups 0).IsTypeSupported
      [mkTypedItem "Key" [0]] (some 0) ∧
    (FInventorySlotsGroup.AddItem [mkTypedItem "Key" [0]] threeGroups (some 0) 2).1.bSuccess
      = false ∧
    (FInventorySlotsGroup.AddItem [mkTypedItem "Key" [0]] threeGroups (some 0)
      2).2.1.InventoryGroups = threeGroups.InventoryGroups ∧
    (FInventorySlotsGroup.AddItem [mkTypedItem "Key" [0]] threeGroups (some 0) 2).2.2 =
      [mkTypedItem "Key" [0]] :=
  ⟨⟨by decide, by decide⟩, by decide, by decide,
    (C14_targeted_AddItem_is_strict [mkTypedItem "Key" [0]] threeGroups (some 0) 2 (by decide)
      (by decide)).2.1 2 (by decide) (by decide)⟩

/-- C15: for a valid item, the collection's `AddItem(item)` without a target keeps
the number of groups and leaves every group that does not support the item's type
unchanged.  If it succeeds, there is a supporting group at a position `i` whose
`AddItem`, run on the objects as the loop found them at `i`, produced exactly the
returned result, the new group at `i` and the final objects; every group after `i`
is unchanged and every supporting group before `i` had its `AddItem` run and fail.
It fails exactly when the `AddItem` of every supporting group, run in storage
order, fails. -/
theorem C15_untargeted_AddItem_returns_first_successful_insertion (h : Heap)
    (c : FInventorySlotsGroup) (p : ItemPtr) (hv : IsValid h p) :
    (FInventorySlotsGroup.AddItem h c p (-1)).2.1.InventoryGroups.length =
      c.InventoryGroups.length ∧
    (∀ j, ¬ (FInventorySlotsGroup.groupAt c.InventoryGroups j).IsTypeSupported h p →
      FInventorySlotsGroup.groupAt (FInventorySlotsGroup.AddItem h c p (-1)).2.1.InventoryGroups j =
        FInventorySlotsGroup.groupAt c.InventoryGroups j) ∧
    ((FInventorySlotsGroup.AddItem h c p (-1)).1.bSuccess = true →
      ∃ i, i < c.InventoryGroups.length ∧
        (FInventorySlotsGroup.groupAt c.InventoryGroups i).IsTypeSupported h p ∧
        (FInventorySlotsGroup.groupAt c.InventoryGroups i).AddItem
            (heapAt p h c.InventoryGroups i) p =
          ((FInventorySlotsGroup.AddItem h c p (-1)).1,
            FInventorySlotsGroup.groupAt
              (FInventorySlotsGroup.AddItem h c p (-1)).2.1.InventoryGroups i,
            (FInventorySlotsGroup.AddItem h c p (-1)).2.2) ∧
        (∀ j, i < j →
          FInventorySlotsGroup.groupAt
              (FInventorySlotsGroup.AddItem h c p (-1)).2.1.InventoryGroups j =
            FInventorySlotsGroup.groupAt c.InventoryGroups j) ∧
        ∀ j, j < i → (FInventorySlotsGroup.groupAt c.InventoryGroups j).IsTypeSupported h p →
          ((FInventorySlotsGroup.groupAt c.InventoryGroups j).AddItem
              (heapAt p h c.InventoryGroups j) p).1.bSuccess = false ∧
            FInventorySlotsGroup.groupAt
                (FInventorySlotsGroup.AddItem h c p (-1)).2.1.InventoryGroups j =
              ((FInventorySlotsGroup.groupAt c.InventoryGroups j).AddItem
                (heapAt p h c.InventoryGroups j) p).2.1) ∧
    ((FInventorySlotsGroup.AddItem h c p (-1)).1.bSuccess = false ↔
      ∀ j, j < c.InventoryGroups.length →
        (FInventorySlotsGroup.groupAt c.InventoryGroups j).IsTypeSupported h p →
        ((FInventorySlotsGroup.groupAt c.InventoryGroups j).AddItem
          (heapAt p h c.InventoryGroups j) p).1.bSuccess = false) := by
  rw [FInventorySlotsGroup.AddItem_untargeted h c p hv]
  refine ⟨FInventorySlotsGroup.addLoop_length _ _ _,
    fun j hj => FInventorySlotsGroup.addLoop_unsupported h p _ j hj, ?_, ?_⟩
  · intro hs
    cases hr : (FInventorySlotsGroup.addLoop h p c.InventoryGroups).1 with
    | none => rw [hr] at hs; cases hs
    | some r =>
      obtain ⟨i, h1, h2, _, h4, h5, h6⟩ := FInventorySlotsGroup.addLoop_some h p _ r hr
      exact ⟨i, h1, h2, h4, h5, h6⟩
  · cases hr : (FInventorySlotsGroup.addLoop h p c.InventoryGroups).1 with
    | none =>
      refine ⟨fun _ j hj hs => (FInventorySlotsGroup.addLoop_none h p _ hr j hj hs).1,
        fun _ => rfl⟩
    | some r =>
      obtain ⟨i, h1, h2, h3, h4, _, _⟩ := FInventorySlotsGroup.addLoop_some h p _ r hr
      constructor
      · intro hf
        have hf1 : r.bSuccess = false := hf
        rw [h3] at hf1; cases hf1
      · intro hall
        have := hall i h1 h2
        rw [h4, h3] at this; cases this

/-- C15 on `threeGroups` after a first key was stored: a second key declaring type
ID 1 is refused by the full group 1 and stored by group 2; group 0, which does not
support it, is unchanged. -/
theorem C15_untargeted_AddItem_returns_first_successful_insertion_witness :
    IsValid [mkTypedItem "Key" [1], mkTypedItem "Key" [1]] (some 1) ∧
    (FInventorySlotsGroup.AddItem [mkTypedItem "Key" [1], mkTypedItem "Key" [1]]
      (FInventorySlotsGroup.AddItem [mkTypedItem "Key" [1], mkTypedItem "Key" [1]] threeGroups
        (some 0) (-1)).2.1 (some 1) (-1)).1.bSuccess = true ∧
    ((FInventorySlotsGroup.AddItem [mkTypedItem "Key" [1], mkTypedItem "Key" [1]]
      (FInventorySlotsGroup.AddItem [mkTypedItem "Key" [1], mkTypedItem "Key" [1]] threeGroups
        (some 0) (-1)).2.1 (some 1) (-1)).2.1.InventoryGroups.map (fun g => g.Slots)) =
      [[⟨none, 0, 1⟩], [⟨some 0, 1, 1⟩], [⟨some 1, 1, 1⟩]] ∧
    FInventorySlotsGroup.groupAt (FInventorySlotsGroup.AddItem
      [mkTypedItem "Key" [1], mkTypedItem "Key" [1]]
      (FInventorySlotsGroup.AddItem [mkTypedItem "Key" [1], mkTypedItem "Key" [1]] threeGroups
        (some 0) (-1)).2.1 (some 1) (-1)).2.1.InventoryGroups 0 =
      FInventorySlotsGroup.groupAt (FInventorySlotsGroup.AddItem
        [mkTypedItem "Key" [1], mkTypedItem "Key" [1]] threeGroups
        (some 0) (-1)).2.1.InventoryGroups 0 :=
  ⟨by decide, by decide, by decide,
    (C15_untargeted_AddItem_returns_first_successful_insertion
      [mkTypedItem "Key" [1], mkTypedItem "Key" [1]]
      (FInventorySlotsGroup.AddItem [mkTypedItem "Key" [1], mkTypedItem "Key" [1]] threeGroups
        (some 0) (-1)).2.1 (some 1) (by decide)).2.1 0 (by decide)⟩

/-- C16, counterexample: a world subsystem as constructed (pooling on, default
prewarm count 10, not strict) with no engine subsystem and no pool for class 7.
After `PrewarmPool(7, 5)` the pool holds 15 items, because creating the pool
prewarmed it with 10 first; after six `GetItemFromPool(7, owner)` calls the
counters are `HitCount = 6` and `MissCount = 0`: the sixth call did not find the
pool empty and recorded no miss. -/
theorem C16_counterexample_sixth_call_is_a_hit :
    ((UItemPoolSubsystem.PrewarmPool ⟨[], UItemPoolSubsystem.ctor, none⟩ (some 7) 5).World.pool
      7).map (fun P => P.AvailableItems.length) = some 15 ∧
    ((repeatGet (some 7) (some 0) 6
      (UItemPoolSubsystem.PrewarmPool ⟨[], UItemPoolSubsystem.ctor, none⟩ (some 7) 5)).World.pool
      7).map (fun P => (P.HitCount, P.MissCount, P.AvailableItems.length)) = some (6, 0, 9) := by
  constructor <;> decide

/-- C16, amended: in a world subsystem with pooling enabled and no pool yet for
`ClassA`, `PrewarmPool(ClassA, 5)` creates the pool, which prewarms it with the
default prewarm count `d` (taken as 0 when negative), and adds 5 items.  Any `n`
consecutive `GetItemFromPool(ClassA, owner)` calls with `n ≤ d + 5`, so five of
them in particular, leave `HitCount = n` and `MissCount = 0`.  When there is no
engine subsystem to fall back on, call number `d + 6` finds the pool empty and
records a miss: it returns no instance under the strict limit, and without it a
newly constructed instance (for a non-null owner) that is put in the active list.
The sixth call is that call only when `d` is 0. -/
theorem C16_hits_until_the_prewarmed_pool_is_empty (w : PoolWorld) (ClassA : Nat)
    (Outer : Option Nat) (he : w.World.bEnablePooling = true)
    (hno : w.World.pool ClassA = none) :
    (∀ n, n ≤ w.World.DefaultPrewarmCount.toNat + 5 →
      ∃ P, (repeatGet (some ClassA) Outer n
          (UItemPoolSubsystem.PrewarmPool w (some ClassA) 5)).World.pool ClassA = some P ∧
        P.HitCount = n ∧ P.MissCount = 0 ∧
        P.AvailableItems.length = w.World.DefaultPrewarmCount.toNat + 5 - n) ∧
    (w.Engine = none →
      ∃ P, (UItemPoolSubsystem.GetItemFromPool
          (repeatGet (some ClassA) Outer (w.World.DefaultPrewarmCount.toNat + 5)
            (UItemPoolSubsystem.PrewarmPool w (some ClassA) 5)) (some ClassA) Outer).1.World.pool
          ClassA = some P ∧
        P.HitCount = w.World.DefaultPrewarmCount.toNat + 5 ∧ P.MissCount = 1 ∧
        (w.World.bDefaultStrictLimit = true →
          (UItemPoolSubsystem.GetItemFromPool
            (repeatGet (some ClassA) Outer (w.World.DefaultPrewarmCount.toNat + 5)
              (UItemPoolSubsystem.PrewarmPool w (some ClassA) 5)) (some ClassA) Outer).2 = none) ∧
        (w.World.bDefaultStrictLimit = false → ∀ o, Outer = some o →
          (UItemPoolSubsystem.GetItemFromPool
            (repeatGet (some ClassA) Outer (w.World.DefaultPrewarmCount.toNat + 5)
              (UItemPoolSubsystem.PrewarmPool w (some ClassA) 5)) (some ClassA) Outer).2 =
            some (repeatGet (some ClassA) Outer (w.World.DefaultPrewarmCount.toNat + 5)
              (UItemPoolSubsystem.PrewarmPool w (some ClassA) 5)).Objects.length ∧
          some (repeatGet (some ClassA) Outer (w.World.DefaultPrewarmCount.toNat + 5)
              (UItemPoolSubsystem.PrewarmPool w (some ClassA) 5)).Objects.length ∈
            P.ActiveItems)) := by
  obtain ⟨h1, h2, h3⟩ := UItemPoolSubsystem.PrewarmPool_world_absent w ClassA 5 (by decide) hno
  have h5 : (5 : Int).toNat = 5 := rfl
  rw [h5] at h2
  constructor
  · intro n hn
    obtain ⟨P, a1, a2, a3, a4, _⟩ := UItemPoolSubsystem.repeatGet_hits ClassA Outer n _ _
      w.Objects.length _ (h1.trans he) h2 rfl hn
    refine ⟨P, a1, by simpa using a3, a4, ?_⟩
    rw [a2, freshPtrs_length]
  · intro hE
    obtain ⟨P, a1, a2, a3, a4, a5, _, a7, a8, _⟩ := UItemPoolSubsystem.repeatGet_hits ClassA Outer
      (w.World.DefaultPrewarmCount.toNat + 5) _ _ w.Objects.length _ (h1.trans he) h2 rfl
      (le_refl _)
    simp only [Nat.sub_self, freshPtrs_zero] at a2
    simp only at a3 a4 a5
    rw [UItemPoolSubsystem.GetItemFromPool_alone _ ClassA Outer P a7 a1 a2 (a8.trans (h3.trans hE))]
    by_cases hs : P.bStrictLimit = true
    · rw [PoolTier.missOrActivate_strict _ _ _ _ hs]
      refine ⟨_, UItemPoolSubsystem.pool_setPool_self _ _ _, by simpa using a3, by simp [a4],
        fun _ => rfl, ?_⟩
      intro hf
      rw [a5, hf] at hs; cases hs
    · cases Outer with
      | none =>
        rw [PoolTier.missOrActivate_ownerless _ _ _ hs]
        refine ⟨_, UItemPoolSubsystem.pool_setPool_self _ _ _, by simpa using a3, by simp [a4],
          ?_, ?_⟩
        · intro ht; rw [a5] at hs; exact absurd ht hs
        · intro _ o ho; cases ho
      | some o =>
        rw [PoolTier.missOrActivate_fresh _ _ _ _ hs]
        refine ⟨_, UItemPoolSubsystem.pool_setPool_self _ _ _, by simpa using a3, by simp [a4],
          ?_, ?_⟩
        · intro ht; rw [a5] at hs; exact absurd ht hs
        · intro _ o1 _
          exact ⟨rfl, by simp⟩

/-- C16, amended, on a strict subsystem whose default prewarm count is 0: after
`PrewarmPool(7, 5)` five requests are hits, and the sixth is a miss that returns no
instance. -/
theorem C16_hits_until_the_prewarmed_pool_is_empty_witness :
    ((PoolWorld.mk [] ⟨[], true, 100, 0, true, false⟩ none).World.bEnablePooling = true ∧
      (PoolWorld.mk [] ⟨[], true, 100, 0, true, false⟩ none).World.pool 7 = none) ∧
    (∃ P, (repeatGet (some 7) (some 0) 5
          (UItemPoolSubsystem.PrewarmPool (PoolWorld.mk [] ⟨[], true, 100, 0, true, false⟩ none)
            (some 7) 5)).World.pool 7 = some P ∧
        P.HitCount = (5 : Nat) ∧ P.MissCount = 0 ∧ P.AvailableItems.length = 0 + 5 - 5) ∧
    ((UItemPoolSubsystem.GetItemFromPool (repeatGet (some 7) (some 0) 5
          (UItemPoolSubsystem.PrewarmPool (PoolWorld.mk [] ⟨[], true, 100, 0, true, false⟩ none)
            (some 7) 5)) (some 7) (some 0)).1.World.pool 7).map
        (fun P => (P.HitCount, P.MissCount)) = some (5, 1) ∧
    (UItemPoolSubsystem.GetItemFromPool (repeatGet (some 7) (some 0) 5
          (UItemPoolSubsystem.PrewarmPool (PoolWorld.mk [] ⟨[], true, 100, 0, true, false⟩ none)
            (some 7) 5)) (some 7) (some 0)).2 = none :=
  ⟨⟨rfl, rfl⟩,
    (C16_hits_until_the_prewarmed_pool_is_empty
      (PoolWorld.mk [] ⟨[], true, 100, 0, true, false⟩ none) 7 (some 0) rfl rfl).1 5 (by decide),
    by decide, by decide⟩

/-- C17, counterexample: the world's pool and the engine's pool for class 7 are both
empty and neither is strict.  `GetItemFromPool(7, owner)` on the world's subsystem
returns an instance, but the world pool's `MissCount` stays 0: the engine
subsystem constructed the instance and counted the miss, and the instance is
recorded in the active lists of both pools. -/
theorem C17_counterexample_miss_not_counted_when_fallback_constructs :
    (twoTierEmpty.World.pool 7).map (fun P => (P.AvailableItems, P.MissCount, P.bStrictLimit))
      = some ([], 0, false) ∧
    (UItemPoolSubsystem.GetItemFromPool twoTierEmpty (some 7) (some 0)).2 = some 0 ∧
    ((UItemPoolSubsystem.GetItemFromPool twoTierEmpty (some 7) (some 0)).1.World.pool 7).map
      (fun P => (P.MissCount, P.ActiveItems)) = some (0, [some 0]) ∧
    ((UItemPoolSubsystem.GetItemFromPool twoTierEmpty (some 7) (some 0)).1.Engine.bind
      (fun e => e.pool 7)).map (fun P => (P.MissCount, P.ActiveItems)) = some (1, [some 0]) := by
  refine ⟨by decide, by decide, by decide, by decide⟩

/-- C17, amended: with pooling enabled and an empty available list for the class,
`GetItemFromPool` of the engine subsystem counts one miss on the pool, returns no
instance if the pool is strict, and otherwise, for a non-null owner, returns a
newly constructed instance of the class that is recorded in the active list (for
a null owner it returns no instance).  `GetItemFromPool` of the world's subsystem
does the same on its own pool when there is no engine subsystem, or when the
engine subsystem has pooling enabled and its pool for the class is empty and
strict, in which case the engine pool counts a miss as well.  (A non-strict engine
pool constructs the instance itself and the world's pool counts no miss.) -/
theorem C17_miss_honours_the_strict_limit (objs : ObjectTable) (s : UItemPoolSubsystem)
    (c : Nat) (Outer : Option Nat) (P : FItemPool) (he : s.bEnablePooling = true)
    (hp : s.pool c = some P) (hl : P.AvailableItems = []) :
    (∃ Q, (UEngineItemPoolSubsystem.GetItemFromPool objs s (some c) Outer).2.1.pool c = some Q ∧
      MissOutcome objs P c Outer (UEngineItemPoolSubsystem.GetItemFromPool objs s (some c) Outer).1
        Q (UEngineItemPoolSubsystem.GetItemFromPool objs s (some c) Outer).2.2) ∧
    (∃ Q, (UItemPoolSubsystem.GetItemFromPool ⟨objs, s, none⟩ (some c) Outer).1.World.pool c =
        some Q ∧
      MissOutcome objs P c Outer
        (UItemPoolSubsystem.GetItemFromPool ⟨objs, s, none⟩ (some c) Outer).1.Objects Q
        (UItemPoolSubsystem.GetItemFromPool ⟨objs, s, none⟩ (some c) Outer).2) ∧
    ∀ (e : UEngineItemPoolSubsystem) (EP : FItemPool), e.bEnablePooling = true →
      UItemPoolSubsystem.pool e c = some EP → EP.AvailableItems = [] → EP.bStrictLimit = true →
      (∃ Q, (UItemPoolSubsystem.GetItemFromPool ⟨objs, s, some e⟩ (some c) Outer).1.World.pool c =
          some Q ∧
        MissOutcome objs P c Outer
          (UItemPoolSubsystem.GetItemFromPool ⟨objs, s, some e⟩ (some c) Outer).1.Objects Q
          (UItemPoolSubsystem.GetItemFromPool ⟨objs, s, some e⟩ (some c) Outer).2) ∧
      ((UItemPoolSubsystem.GetItemFromPool ⟨objs, s, some e⟩ (some c) Outer).1.Engine.bind
        (fun x => UItemPoolSubsystem.pool x c)).map (fun Q => Q.MissCount) =
          some (EP.MissCount + 1) := by
  refine ⟨?_, ?_, ?_⟩
  · rw [UEngineItemPoolSubsystem.GetItemFromPool_engine_found objs s c Outer P he hp,
      UEngineItemPoolSubsystem.getFound_empty _ _ _ _ _ hl]
    exact ⟨_, UItemPoolSubsystem.pool_setPool_self _ _ _,
      PoolTier.missOrActivate_outcome objs P c Outer⟩
  · rw [UItemPoolSubsystem.GetItemFromPool_alone ⟨objs, s, none⟩ c Outer P he hp hl rfl]
    exact ⟨_, UItemPoolSubsystem.pool_setPool_self _ _ _,
      PoolTier.missOrActivate_outcome objs P c Outer⟩
  · intro e EP hee hep hel hes
    have hE : UEngineItemPoolSubsystem.GetItemFromPool objs e (some c) Outer =
        (objs, UItemPoolSubsystem.setPool e c { EP with MissCount := EP.MissCount + 1 }, none) := by
      rw [UEngineItemPoolSubsystem.GetItemFromPool_engine_found objs e c Outer EP hee hep,
        UEngineItemPoolSubsystem.getFound_empty _ _ _ _ _ hel,
        PoolTier.missOrActivate_strict _ _ _ _ hes]
    rw [UItemPoolSubsystem.GetItemFromPool_found ⟨objs, s, some e⟩ c Outer P he hp,
      UItemPoolSubsystem.getFound_engine _ _ _ _ _ _ hl, hE]
    refine ⟨⟨_, UItemPoolSubsystem.pool_setPool_self _ _ _,
      PoolTier.missOrActivate_outcome objs P c Outer⟩, ?_⟩
    simp [UItemPoolSubsystem.served, UItemPoolSubsystem.pool_setPool_self]

/-- C17, amended, on a strict empty pool for class 7 with no engine subsystem: the
request returns no instance and the miss is counted. -/
theorem C17_miss_honours_the_strict_limit_witness :
    ((⟨[(7, emptyPool true)], true, 100, 10, false, true⟩ : UItemPoolSubsystem).bEnablePooling
        = true ∧
      (⟨[(7, emptyPool true)], true, 100, 10, false, true⟩ : UItemPoolSubsystem).pool 7 =
        some (emptyPool true) ∧ (emptyPool true).AvailableItems = []) ∧
    ∃ Q, (UItemPoolSubsystem.GetItemFromPool
        ⟨[], ⟨[(7, emptyPool true)], true, 100, 10, false, true⟩, none⟩ (some 7)
          (some 0)).1.World.pool 7 = some Q ∧
      MissOutcome [] (emptyPool true) 7 (some 0)
        (UItemPoolSubsystem.GetItemFromPool
          ⟨[], ⟨[(7, emptyPool true)], true, 100, 10, false, true⟩, none⟩ (some 7)
            (some 0)).1.Objects Q
        (UItemPoolSubsystem.GetItemFromPool
          ⟨[], ⟨[(7, emptyPool true)], true, 100, 10, false, true⟩, none⟩ (some 7) (some 0)).2 :=
  ⟨⟨rfl, by decide, rfl⟩,
    (C17_miss_honours_the_strict_limit [] ⟨[(7, emptyPool true)], true, 100, 10, false, true⟩ 7
      (some 0) (emptyPool true) rfl (by decide) rfl).2.1⟩

/-- C18: with pooling enabled, for an item object whose class has a pool `P` that
already holds `maxSize` (or more) available items, `ReturnItemToPool(item)` takes
the item out of the active list; with auto-grow it raises `maxSize` by exactly one
and appends the item to the available list; without auto-grow it counts one
overflow and leaves the available list and `maxSize` as they were, and the item is
marked as garbage by the engine subsystem, while the world's subsystem passes it to
`ReturnItemToPool` of the engine subsystem (or marks it as garbage when there is
no engine subsystem). -/
theorem C18_return_at_capacity_follows_the_policy (objs : ObjectTable) (s : UItemPoolSubsystem)
    (E : Option UEngineItemPoolSubsystem) (p c : Nat) (P : FItemPool)
    (he : s.bEnablePooling = true) (hc : GetClass objs (some p) = some c)
    (hp : s.pool c = some P) (hfull : P.MaxPoolSize ≤ (P.AvailableItems.length : Int)) :
    (∃ Q, (UEngineItemPoolSubsystem.ReturnItemToPool objs s (some p)).2.pool c = some Q ∧
      ReturnedAtCapacity P Q (some p) ∧
      (P.bAutoGrow = false →
        (UEngineItemPoolSubsystem.ReturnItemToPool objs s (some p)).1 =
          MarkAsGarbage objs (some p))) ∧
    (∃ Q, (UItemPoolSubsystem.ReturnItemToPool ⟨objs, s, E⟩ (some p)).World.pool c = some Q ∧
      ReturnedAtCapacity P Q (some p) ∧
      (P.bAutoGrow = true → (UItemPoolSubsystem.ReturnItemToPool ⟨objs, s, E⟩ (some p)).Engine = E) ∧
      (P.bAutoGrow = false → ∀ e, E = some e →
        (UItemPoolSubsystem.ReturnItemToPool ⟨objs, s, E⟩ (some p)).Objects =
            (UEngineItemPoolSubsystem.ReturnItemToPool objs e (some p)).1 ∧
          (UItemPoolSubsystem.ReturnItemToPool ⟨objs, s, E⟩ (some p)).Engine =
            some (UEngineItemPoolSubsystem.ReturnItemToPool objs e (some p)).2) ∧
      (P.bAutoGrow = false → E = none →
        (UItemPoolSubsystem.ReturnItemToPool ⟨objs, s, E⟩ (some p)).Objects =
            MarkAsGarbage objs (some p) ∧
          (UItemPoolSubsystem.ReturnItemToPool ⟨objs, s, E⟩ (some p)).Engine = none)) := by
  constructor
  · obtain ⟨h1, h2, h3⟩ := PoolTier.acceptReturn_atCapacity .EnginePool objs P (some p) hfull
    rw [UEngineItemPoolSubsystem.ReturnItemToPool_engine_found objs s p c P he hc hp]
    refine ⟨_, UItemPoolSubsystem.pool_setPool_self _ _ _, h1, ?_⟩
    intro hf
    have hn : ¬ (PoolTier.acceptReturn .EnginePool objs P (some p)).2.2 = true := by
      rw [h2, hf]; simp
    show (if _ then _ else _) = _
    rw [if_neg hn, h3 hf]
  · obtain ⟨h1, h2, h3⟩ := PoolTier.acceptReturn_atCapacity .WorldPool objs P (some p) hfull
    rw [UItemPoolSubsystem.ReturnItemToPool_found ⟨objs, s, E⟩ p c P he hc hp]
    unfold UItemPoolSubsystem.returnFound
    by_cases hg : P.bAutoGrow = true
    · rw [if_pos (h2.2 hg)]
      refine ⟨_, UItemPoolSubsystem.pool_setPool_self _ _ _, h1, fun _ => rfl, ?_, ?_⟩
      · intro hf; rw [hf] at hg; cases hg
      · intro hf; rw [hf] at hg; cases hg
    · have hf : P.bAutoGrow = false := by simpa using hg
      rw [if_neg (fun hx => hg (h2.1 hx)), h3 hf]
      refine ⟨_, UItemPoolSubsystem.pool_setPool_self _ _ _, h1, fun ht => absurd ht hg, ?_, ?_⟩
      · intro _ e hE
        subst hE
        exact ⟨rfl, rfl⟩
      · intro _ hE
        subst hE
        exact ⟨rfl, rfl⟩

/-- C18 on a full pool of capacity 1 without auto-grow and with no engine
subsystem: returning the checked-out object 1 counts an overflow, leaves the
available list and the capacity alone and marks the object as garbage. -/
theorem C18_return_at_capacity_follows_the_policy_witness :
    GetClass twoObjects (some 1) = some 7 ∧
    (fullPool false).MaxPoolSize ≤ ((fullPool false).AvailableItems.length : Int) ∧
    (∃ Q, (UItemPoolSubsystem.ReturnItemToPool
        ⟨twoObjects, ⟨[(7, fullPool false)], true, 100, 10, false, true⟩, none⟩
          (some 1)).World.pool 7 = some Q ∧
      ReturnedAtCapacity (fullPool false) Q (some 1)) ∧
    ((UItemPoolSubsystem.ReturnItemToPool
        ⟨twoObjects, ⟨[(7, fullPool false)], true, 100, 10, false, true⟩, none⟩
          (some 1)).Objects.map (fun o => o.Item.bValid)) = [true, false] :=
  ⟨by decide, by decide,
    (fun ⟨Q, h1, h2, _⟩ => ⟨Q, h1, h2⟩)
      (C18_return_at_capacity_follows_the_policy twoObjects
        ⟨[(7, fullPool false)], true, 100, 10, false, true⟩ none 1 7 (fullPool false) rfl
        (by decide) (by decide) (by decide)).2,
    by decide⟩

/-- C19, counterexample: on a world subsystem as constructed, with no engine
subsystem, `ConfigurePool(7, false, false)` creates the pool of class 7 with
auto-grow off, `SetMaxPoolSize(7, 2)` trims it to two items, and
`PrewarmPool(7, 3)` then adds three more: five available items under a `maxSize`
of 2. -/
theorem C19_counterexample_PrewarmPool_exceeds_maxSize :
    (([PoolOp.ConfigurePool (some 7) false false, PoolOp.SetMaxPoolSize (some 7) 2,
        PoolOp.PrewarmPool (some 7) 3].foldl PoolOp.run
      ⟨[], UItemPoolSubsystem.ctor, none⟩).World.pool 7).map
        (fun P => (P.bAutoGrow, P.MaxPoolSize, P.AvailableItems.length)) = some (false, 2, 5) := by
  decide

/-- C19, amended: `PrewarmPool` adds items without looking at `maxSize`, and so does
the prewarming of a new pool.  Without explicit `PrewarmPool` calls the ceiling
holds: start from a state in which every pool of both subsystems holds at most
`maxSize` available items and, in both subsystems, the default prewarm count does
not exceed the non-negative default capacity; after any sequence of
`GetItemFromPool`, `ReturnItemToPool`, `SetMaxPoolSize` and `ConfigurePool` calls
on either subsystem, every pool of both subsystems, with or without auto-grow,
holds at most `maxSize` available items. -/
theorem C19_maxSize_is_a_ceiling_without_PrewarmPool (ops : List TierOp) (w : PoolWorld)
    (hops : ∀ op ∈ ops, op.NoPrewarm) (hw : w.Bounded) :
    (∀ c P, (ops.foldl TierOp.run w).World.pool c = some P →
      (P.AvailableItems.length : Int) ≤ P.MaxPoolSize) ∧
    ∀ e c P, (ops.foldl TierOp.run w).Engine = some e → UItemPoolSubsystem.pool e c = some P →
      (P.AvailableItems.length : Int) ≤ P.MaxPoolSize :=
  ⟨(TierOp_runs_Bounded ops w hops hw).1.2.2,
    fun e c P he hp => ((TierOp_runs_Bounded ops w hops hw).2 e he).2.2 c P hp⟩

/-- C19, amended, on a world subsystem as constructed: the pool of class 7 is
configured without auto-grow, cut to a capacity of 2, and two items are requested
and returned; the pool ends with two available items. -/
theorem C19_maxSize_is_a_ceiling_without_PrewarmPool_witness :
    (PoolWorld.mk [] UItemPoolSubsystem.ctor none).Bounded ∧
    (([TierOp.World (.ConfigurePool (some 7) false false), .World (.SetMaxPoolSize (some 7) 2),
        .World (.GetItemFromPool (some 7) (some 0)), .World (.GetItemFromPool (some 7) (some 0)),
        .World (.GetItemFromPool (some 7) (some 0)),
        .World (.ReturnItemToPool (some 1)), .World (.ReturnItemToPool (some 0)),
        .World (.ReturnItemToPool (some 10))].foldl TierOp.run
      (PoolWorld.mk [] UItemPoolSubsystem.ctor none)).World.pool 7).map
        (fun P => (P.AvailableItems, P.MaxPoolSize, P.OverflowCount)) =
      some ([some 1, some 0], 2, 1) ∧
    ∀ c P, ([TierOp.World (.ConfigurePool (some 7) false false),
        .World (.SetMaxPoolSize (some 7) 2),
        .World (.GetItemFromPool (some 7) (some 0)), .World (.GetItemFromPool (some 7) (some 0)),
        .World (.GetItemFromPool (some 7) (some 0)),
        .World (.ReturnItemToPool (some 1)), .World (.ReturnItemToPool (some 0)),
        .World (.ReturnItemToPool (some 10))].foldl TierOp.run
      (PoolWorld.mk [] UItemPoolSubsystem.ctor none)).World.pool c = some P →
      (P.AvailableItems.length : Int) ≤ P.MaxPoolSize :=
  ⟨fresh_world_Bounded, by decide,
    (C19_maxSize_is_a_ceiling_without_PrewarmPool _ (PoolWorld.mk [] UItemPoolSubsystem.ctor none)
      (by
        intro op hop
        simp only [List.mem_cons, List.mem_singleton, List.not_mem_nil, or_false] at hop
        rcases hop with h | h | h | h | h | h | h | h <;> subst h <;> trivial)
      fresh_world_Bounded).1⟩

/-- C20, counterexample.  First, on a subsystem with one prewarmed item per new pool
and no engine subsystem, an item of class 7 is checked out and then returned
twice: it ends up twice in the available list.  Second, when the world's pool for
class 7 is empty and the engine subsystem supplies the instance, the instance is
recorded in the active list of the world's pool and in the active list of the
engine's pool at the same time. -/
theorem C20_counterexample_double_return_and_fallback_checkout :
    (([PoolOp.GetItemFromPool (some 7) (some 0), .ReturnItemToPool (some 0),
        .ReturnItemToPool (some 0)].foldl PoolOp.run
      ⟨[], ⟨[], true, 100, 1, false, false⟩, none⟩).World.pool 7).map
        (fun P => (P.AvailableItems, P.ActiveItems)) = some ([some 0, some 0], []) ∧
    ((UItemPoolSubsystem.GetItemFromPool twoTierEmpty (some 7) (some 0)).1.World.pool 7).map
      (fun P => P.ActiveItems) = some [some 0] ∧
    ((UItemPoolSubsystem.GetItemFromPool twoTierEmpty (some 7) (some 0)).1.Engine.bind
      (fun e => e.pool 7)).map (fun P => P.ActiveItems) = some [some 0] := by
  refine ⟨by decide, by decide, by decide⟩

/-- C20, amended: take either subsystem on its own (the engine subsystem, or the
world's subsystem when there is no engine subsystem) and start from a state in
which the two lists of every pool repeat no pointer, share none, and hold objects
of the pool's class only (a subsystem without pools is such a state).  After any
sequence of `GetItemFromPool`, `ReturnItemToPool`, `PrewarmPool`, `SetMaxPoolSize`
and `ConfigurePool` calls in which no item is returned while it is in the
available list of its class, every item occurs at most once in the available and
active lists of a pool taken together, and in the lists of one pool only. -/
theorem C20_membership_is_exclusive_without_double_return (ops : List PoolOp)
    (objs : ObjectTable) (s : UItemPoolSubsystem) (h : Exclusive objs s) :
    (NoDoubleReturn (objs, s) ops →
      (∀ c P, UItemPoolSubsystem.pool (ops.foldl PoolOp.runEngine (objs, s)).2 c = some P →
        (P.AvailableItems ++ P.ActiveItems).Nodup) ∧
      ∀ c c1 P P1 x, c ≠ c1 →
        UItemPoolSubsystem.pool (ops.foldl PoolOp.runEngine (objs, s)).2 c = some P →
        UItemPoolSubsystem.pool (ops.foldl PoolOp.runEngine (objs, s)).2 c1 = some P1 →
        x ∈ P.AvailableItems ++ P.ActiveItems → x ∉ P1.AvailableItems ++ P1.ActiveItems) ∧
    (NoDoubleReturnWorld ⟨objs, s, none⟩ ops →
      (∀ c P, (ops.foldl PoolOp.run ⟨objs, s, none⟩).World.pool c = some P →
        (P.AvailableItems ++ P.ActiveItems).Nodup) ∧
      ∀ c c1 P P1 x, c ≠ c1 →
        (ops.foldl PoolOp.run ⟨objs, s, none⟩).World.pool c = some P →
        (ops.foldl PoolOp.run ⟨objs, s, none⟩).World.pool c1 = some P1 →
        x ∈ P.AvailableItems ++ P.ActiveItems → x ∉ P1.AvailableItems ++ P1.ActiveItems) := by
  constructor
  · intro hops
    have hall := runsEngine_Exclusive ops (objs, s) h hops
    exact ⟨fun c P hP => (hall c P hP).1,
      fun c c1 P P1 x hne hP hP1 hx => Exclusive_apart hall c c1 P P1 x hne hP hP1 hx⟩
  · intro hops
    have hall := runs_world_Exclusive ops ⟨objs, s, none⟩ h rfl hops
    exact ⟨fun c P hP => (hall c P hP).1,
      fun c c1 P P1 x hne hP hP1 hx => Exclusive_apart hall c c1 P P1 x hne hP hP1 hx⟩

/-- C20, amended, on an engine subsystem with one prewarmed item per new pool: an
item of class 7 is checked out, returned, checked out again and returned again;
it is once in the available list and the active list is empty. -/
theorem C20_membership_is_exclusive_without_double_return_witness :
    NoDoubleReturn ([], ⟨[], true, 100, 1, false, false⟩)
      [PoolOp.GetItemFromPool (some 7) (some 0), .ReturnItemToPool (some 0),
        .GetItemFromPool (some 7) (some 0), .ReturnItemToPool (some 0)] ∧
    (UItemPoolSubsystem.pool ([PoolOp.GetItemFromPool (some 7) (some 0), .ReturnItemToPool (some 0),
        .GetItemFromPool (some 7) (some 0), .ReturnItemToPool (some 0)].foldl PoolOp.runEngine
      ([], ⟨[], true, 100, 1, false, false⟩)).2 7).map
        (fun P => (P.AvailableItems, P.ActiveItems)) = some ([some 0], []) ∧
    ∀ c P, UItemPoolSubsystem.pool ([PoolOp.GetItemFromPool (some 7) (some 0),
        .ReturnItemToPool (some 0), .GetItemFromPool (some 7) (some 0),
        .ReturnItemToPool (some 0)].foldl PoolOp.runEngine
      ([], ⟨[], true, 100, 1, false, false⟩)).2 c = some P →
      (P.AvailableItems ++ P.ActiveItems).Nodup :=
  ⟨fresh_NoDoubleReturn, by decide,
    ((C20_membership_is_exclusive_without_double_return _ [] ⟨[], true, 100, 1, false, false⟩
      (Exclusive_empty _ _ _ _ _ _)).1 fresh_NoDoubleReturn).1⟩

/-- C21, counterexample: in a world whose subsystem has pooling disabled, returning
the valid item 1 does not destroy it: the item is still alive afterwards (and the
world is unchanged), so it was not marked destroyed.  The same holds for the
engine subsystem. -/
theorem C21_counterexample_return_with_pooling_disabled_keeps_the_item_alive :
    poolingOff.World.bEnablePooling = false ∧
    (poolingOff.Objects.get? 1).map (fun o => o.Item.bValid) = some true ∧
    ((UItemPoolSubsystem.ReturnItemToPool poolingOff (some 1)).Objects.get? 1).map
      (fun o => o.Item.bValid) = some true ∧
    ((UEngineItemPoolSubsystem.ReturnItemToPool poolingOff.Objects poolingOff.World
      (some 1)).1.get? 1).map (fun o => o.Item.bValid) = some true := by
  refine ⟨by decide, by decide, by decide, by decide⟩

/-- C21, amended: with pooling disabled, `ReturnItemToPool(item)` of either
subsystem returns at once: the item objects (the returned item included, which is
not destroyed), all pools and all counters are exactly as before. -/
theorem C21_return_with_pooling_disabled_changes_nothing (w : PoolWorld) (Item : ItemPtr)
    (hd : w.World.bEnablePooling = false) :
    UItemPoolSubsystem.ReturnItemToPool w Item = w ∧
      UEngineItemPoolSubsystem.ReturnItemToPool w.Objects w.World Item = (w.Objects, w.World) := by
  constructor
  · unfold UItemPoolSubsystem.ReturnItemToPool
    rw [if_pos (Or.inr (by simp [hd]))]
  · unfold UEngineItemPoolSubsystem.ReturnItemToPool
    rw [if_pos (Or.inr (by simp [hd]))]

theorem C21_return_with_pooling_disabled_changes_nothing_witness :
    poolingOff.World.bEnablePooling = false ∧
    UItemPoolSubsystem.ReturnItemToPool poolingOff (some 1) = poolingOff ∧
      UEngineItemPoolSubsystem.ReturnItemToPool poolingOff.Objects poolingOff.World (some 1) =
        (poolingOff.Objects, poolingOff.World) :=
  ⟨by decide, C21_return_with_pooling_disabled_changes_nothing poolingOff (some 1) (by decide)⟩

/-- C22: for a slot satisfying the slot invariant and any integer amount,
`AddToStack(amount)` returns `amount` and leaves the slot unchanged when the slot
is empty or `amount ≤ 0`; otherwise it raises `currentStack` by
`a = min(amount, maxStack - currentStack)`, changes nothing else and returns
`amount - a`, which is `≥ 0`.  In both cases added + overflow = amount and
`currentStack` stays within `maxStack`. -/
theorem C22_AddToStack_splits_amount_into_added_and_overflow (s : FInventorySlot) (amount : Int)
    (hs : SlotInvariant s) :
    (s.Item = none ∨ amount ≤ 0 → s.AddToStack amount = (s, amount)) ∧
    (s.Item ≠ none → 0 < amount →
      (s.AddToStack amount).1 =
        { s with CurrentStackSize :=
            s.CurrentStackSize + min amount (s.MaxStackSize - s.CurrentStackSize) } ∧
      (s.AddToStack amount).2 = amount - min amount (s.MaxStackSize - s.CurrentStackSize) ∧
      0 ≤ (s.AddToStack amount).2) ∧
    ((s.AddToStack amount).1.CurrentStackSize - s.CurrentStackSize) + (s.AddToStack amount).2
      = amount ∧
    (s.AddToStack amount).1.CurrentStackSize ≤ (s.AddToStack amount).1.MaxStackSize := by
  have he := s.IsEmpty_iff_of_invariant hs
  have hi := AddToStack_invariant s amount hs
  refine ⟨?_, ?_, ?_, hi.2.2⟩
  · intro h
    exact s.AddToStack_noop amount (h.symm.imp id he.mpr)
  · intro h1 h2
    have hn : ¬ (amount ≤ 0 ∨ s.IsEmpty) := by
      rintro (hx | hx)
      · omega
      · exact h1 (he.mp hx)
    rw [s.AddToStack_adds amount hn]
    refine ⟨rfl, rfl, ?_⟩
    have := min_le_left amount (s.MaxStackSize - s.CurrentStackSize)
    show 0 ≤ amount - min amount (s.MaxStackSize - s.CurrentStackSize)
    omega
  · have := s.AddToStack_sum amount
    omega

theorem C22_AddToStack_splits_amount_into_added_and_overflow_witness :
    SlotInvariant ⟨some 0, 3, 5⟩ ∧
    ((some 0 : ItemPtr) = none ∨ (4 : Int) ≤ 0 →
      (FInventorySlot.mk (some 0) 3 5).AddToStack 4 = (⟨some 0, 3, 5⟩, 4)) ∧
    ((some 0 : ItemPtr) ≠ none → (0 : Int) < 4 →
      ((FInventorySlot.mk (some 0) 3 5).AddToStack 4).1 =
        { (FInventorySlot.mk (some 0) 3 5) with CurrentStackSize := 3 + min 4 (5 - 3) } ∧
      ((FInventorySlot.mk (some 0) 3 5).AddToStack 4).2 = 4 - min 4 (5 - 3) ∧
      0 ≤ ((FInventorySlot.mk (some 0) 3 5).AddToStack 4).2) ∧
    (((FInventorySlot.mk (some 0) 3 5).AddToStack 4).1.CurrentStackSize - 3) +
      ((FInventorySlot.mk (some 0) 3 5).AddToStack 4).2 = 4 ∧
    ((FInventorySlot.mk (some 0) 3 5).AddToStack 4).1.CurrentStackSize ≤
      ((FInventorySlot.mk (some 0) 3 5).AddToStack 4).1.MaxStackSize :=
  ⟨by decide, C22_AddToStack_splits_amount_into_added_and_overflow ⟨some 0, 3, 5⟩ 4 (by decide)⟩

/-- C23, counterexample: both slots satisfy the slot invariant.  (1) The source
holds 4 units of a valid item whose own maximum stack is 2, in a slot of maximum
5, and the target is empty: `TransferTo(3)` returns 3 and takes 3 from the source,
but the target receives 2, so the sum of the two stacks drops from 4 to 3.  (2) The
source holds 3 units of an item that is no longer valid and the target is empty:
`TransferTo(2)` returns 2 and takes 2 from the source while the target stays
empty. -/
theorem C23_counterexample_target_receives_less_than_reported :
    SlotInvariant ⟨some 0, 4, 5⟩ ∧ SlotInvariant FInventorySlot.ctor ∧
    IsValid [mkItem "A" true 2 1] (some 0) ∧
    (FInventorySlot.mk (some 0) 4 5).TransferTo [mkItem "A" true 2 1] FInventorySlot.ctor 3 =
      (⟨some 0, 1, 5⟩, ⟨some 0, 2, 2⟩, 3) ∧
    SlotInvariant ⟨some 0, 3, 5⟩ ∧
    ¬ IsValid [{ mkItem "A" true 5 3 with bValid := false }] (some 0) ∧
    (FInventorySlot.mk (some 0) 3 5).TransferTo [{ mkItem "A" true 5 3 with bValid := false }]
        FInventorySlot.ctor 2 =
      (⟨some 0, 1, 5⟩, ⟨none, 0, 1⟩, 2) := by
  refine ⟨by decide, by decide, by decide, by decide, by decide, by decide, by decide⟩

/-- C23, amended: for two distinct slots satisfying the slot invariant, where a
non-empty source holds a valid item and its `maxStack` equals that item's
maximum stack, `TransferTo(amount)` returns 0 and changes neither slot if the
source is empty, `amount ≤ 0`, or the target is non-empty and holds a different
item ID; otherwise it returns `t = min(amount, source currentStack, target free
space)` (the free space of an empty target being the source item's maximum
stack), `t ≥ 0`, the source stack decreases by `t` (the source being cleared when
it reaches 0 and keeping its item otherwise), the target stack increases by `t`
(an empty target receiving the source's item when `t > 0`), and the sum of the two
stacks is unchanged. -/
theorem C23_TransferTo_moves_the_minimum_for_a_valid_synced_source (h : Heap)
    (s t : FInventorySlot) (amount : Int) (hs : SlotInvariant s) (ht : SlotInvariant t)
    (hv : s.Item ≠ none → IsValid h s.Item ∧ s.MaxStackSize = (h.deref s.Item).MaxStackSize) :
    (s.Item = none ∨ amount ≤ 0 ∨
        (t.Item ≠ none ∧ GetItemID h t.Item ≠ GetItemID h s.Item) →
      s.TransferTo h t amount = (s, t, 0)) ∧
    (s.Item ≠ none → 0 < amount → (t.Item = none ∨ GetItemID h t.Item = GetItemID h s.Item) →
      (s.TransferTo h t amount).2.2 = min amount (min s.CurrentStackSize (targetFreeSpace h s t)) ∧
      0 ≤ (s.TransferTo h t amount).2.2 ∧
      (s.TransferTo h t amount).1.CurrentStackSize =
        s.CurrentStackSize - (s.TransferTo h t amount).2.2 ∧
      (s.CurrentStackSize - (s.TransferTo h t amount).2.2 = 0 →
        (s.TransferTo h t amount).1 = s.ClearSlot) ∧
      (s.CurrentStackSize - (s.TransferTo h t amount).2.2 ≠ 0 →
        (s.TransferTo h t amount).1.Item = s.Item) ∧
      (s.TransferTo h t amount).2.1.CurrentStackSize =
        t.CurrentStackSize + (s.TransferTo h t amount).2.2 ∧
      (0 < (s.TransferTo h t amount).2.2 →
        (s.TransferTo h t amount).2.1.Item = if t.Item = none then s.Item else t.Item) ∧
      (s.TransferTo h t amount).1.CurrentStackSize + (s.TransferTo h t amount).2.1.CurrentStackSize
        = s.CurrentStackSize + t.CurrentStackSize) := by
  have hes := s.IsEmpty_iff_of_invariant hs
  have het := t.IsEmpty_iff_of_invariant ht
  obtain ⟨hs1, hs2, hs3⟩ := hs
  obtain ⟨ht1, ht2, ht3⟩ := ht
  constructor
  · rintro (hx | hx | hx)
    · exact TransferTo_blocked h s t amount (Or.inl (Or.inr (hes.mpr hx)))
    · exact TransferTo_blocked h s t amount (Or.inl (Or.inl hx))
    · refine TransferTo_blocked h s t amount (Or.inr (Or.inl ⟨fun he => hx.1 (het.mp he), ?_⟩))
      unfold CanStackItem
      split
      · exact fun hf => hf
      · exact hx.2
  · intro hsi ha htid
    obtain ⟨hvalid, hmax⟩ := hv hsi
    have hscur : 0 < s.CurrentStackSize := by
      have : s.CurrentStackSize ≠ 0 := fun hz => hsi (hs1.mpr hz)
      omega
    have h1 : ¬ (amount ≤ 0 ∨ s.IsEmpty) := by
      rintro (hx | hx)
      · omega
      · exact hsi (hes.mp hx)
    by_cases hte : t.Item = none
    · -- the target is empty: the item is set with the amount moved
      have htE : t.IsEmpty := het.mpr hte
      have htc : t.CurrentStackSize = 0 := ht1.mp hte
      have hfree : targetFreeSpace h s t = s.MaxStackSize := by
        unfold targetFreeSpace; rw [if_pos hte, hmax]
      have hmin : min (min amount s.CurrentStackSize)
          (if t.IsEmpty then s.MaxStackSize else t.GetAvailableSpace) =
          min amount s.CurrentStackSize := by
        rw [if_pos htE]; exact min_eq_left (le_trans (min_le_right _ _) hs3)
      have hpos : 0 < min amount s.CurrentStackSize := lt_min ha hscur
      have h2 : ¬ (¬ t.IsEmpty ∧ ¬ CanStackItem h t s.Item) := fun hx => hx.1 htE
      have h3 : ¬ min (min amount s.CurrentStackSize)
          (if t.IsEmpty then s.MaxStackSize else t.GetAvailableSpace) ≤ 0 := by
        rw [hmin]; omega
      have hr : min amount (min s.CurrentStackSize s.MaxStackSize) = min amount s.CurrentStackSize := by
        rw [min_eq_left hs3]
      have hle : min amount s.CurrentStackSize ≤ s.CurrentStackSize := min_le_right _ _
      have hset : t.SetItem h s.Item (min amount s.CurrentStackSize) =
          ⟨s.Item, min amount s.CurrentStackSize, s.MaxStackSize⟩ := by
        rw [SetItem, if_neg (not_not_intro hvalid), ← hmax]
        have hc : Clamp (min amount s.CurrentStackSize) 0 s.MaxStackSize =
            min amount s.CurrentStackSize := by
          unfold Clamp
          rw [min_eq_left (le_trans hle hs3), max_eq_left (le_of_lt hpos)]
        rw [hc]
      rw [TransferTo_moves h s t amount h1 h2 h3, hmin, if_pos htE, hfree, hset, hr, if_pos hte]
      generalize min amount s.CurrentStackSize = m at hpos hle
      by_cases hall : m = s.CurrentStackSize
      · rw [RemoveFromStack_all s _ hpos hall]
        have hcl : s.ClearSlot.CurrentStackSize = 0 := rfl
        dsimp only
        refine ⟨rfl, le_of_lt hpos, ?_, fun _ => rfl, fun hx => absurd ?_ hx, ?_,
          fun _ => rfl, ?_⟩ <;> omega
      · rw [RemoveFromStack_part s _ hpos (lt_of_le_of_ne hle hall)]
        dsimp only
        refine ⟨rfl, le_of_lt hpos, rfl, fun hx => absurd ?_ hall, fun _ => rfl, ?_,
          fun _ => rfl, ?_⟩ <;> omega
    · -- the target holds the same item ID
      have htE : ¬ t.IsEmpty := fun hx => hte (het.mp hx)
      have hid : GetItemID h t.Item = GetItemID h s.Item := htid.resolve_left hte
      have hfree : targetFreeSpace h s t = t.MaxStackSize - t.CurrentStackSize := by
        unfold targetFreeSpace; rw [if_neg hte]
      have hassoc : min (min amount s.CurrentStackSize) (t.MaxStackSize - t.CurrentStackSize) =
          min amount (min s.CurrentStackSize (t.MaxStackSize - t.CurrentStackSize)) :=
        min_assoc _ _ _
      rw [hfree]
      by_cases hfull : t.CurrentStackSize = t.MaxStackSize
      · -- a full target takes nothing
        have hz : min amount (min s.CurrentStackSize (t.MaxStackSize - t.CurrentStackSize)) = 0 := by
          rw [hfull, sub_self, min_eq_right (le_of_lt hscur), min_eq_right (le_of_lt ha)]
        rw [TransferTo_blocked h s t amount (Or.inr (Or.inr (by
          rw [if_neg htE]; unfold GetAvailableSpace; rw [hassoc, hz]))), hz]
        dsimp only
        refine ⟨rfl, le_refl _, ?_, fun hx => absurd ?_ (ne_of_gt hscur),
          fun _ => rfl, ?_, fun hx => absurd hx (lt_irrefl _), rfl⟩ <;> omega
      · have hroom : 0 < t.MaxStackSize - t.CurrentStackSize := by omega
        have hpos : 0 < min (min amount s.CurrentStackSize)
            (t.MaxStackSize - t.CurrentStackSize) := lt_min (lt_min ha hscur) hroom
        have hcan : CanStackItem h t s.Item := by
          unfold CanStackItem
          rw [if_neg]
          · exact hid
          · rintro (hx | hx | hx)
            · exact htE hx
            · exact hx hvalid
            · unfold IsFull at hx; omega
        have h2 : ¬ (¬ t.IsEmpty ∧ ¬ CanStackItem h t s.Item) := fun hx => hx.2 hcan
        have h3 : ¬ min (min amount s.CurrentStackSize)
            (if t.IsEmpty then s.MaxStackSize else t.GetAvailableSpace) ≤ 0 := by
          rw [if_neg htE]; unfold GetAvailableSpace; omega
        rw [TransferTo_moves h s t amount h1 h2 h3]
        simp only [if_neg htE, GetAvailableSpace, if_neg hte]
        rw [← hassoc]
        generalize hm : min (min amount s.CurrentStackSize)
          (t.MaxStackSize - t.CurrentStackSize) = m at hpos
        have hm1 : m ≤ s.CurrentStackSize := by
          rw [← hm]; exact le_trans (min_le_left _ _) (min_le_right _ _)
        have hm2 : m ≤ t.MaxStackSize - t.CurrentStackSize := by
          rw [← hm]; exact min_le_right _ _
        have hadd : t.AddToStack m = ({ t with CurrentStackSize := t.CurrentStackSize + m }, 0) := by
          rw [t.AddToStack_adds m (by rintro (hx | hx); omega; exact htE hx)]
          rw [min_eq_left hm2, sub_self]
        rw [hadd]
        by_cases hall : m = s.CurrentStackSize
        · rw [RemoveFromStack_all s _ hpos hall]
          have hcl : s.ClearSlot.CurrentStackSize = 0 := rfl
          dsimp only
          refine ⟨rfl, le_of_lt hpos, ?_, fun _ => rfl, fun hx => absurd ?_ hx, rfl,
            fun _ => rfl, ?_⟩ <;> omega
        · rw [RemoveFromStack_part s _ hpos (lt_of_le_of_ne hm1 hall)]
          dsimp only
          refine ⟨rfl, le_of_lt hpos, rfl, fun hx => absurd ?_ hall, fun _ => rfl, rfl,
            fun _ => rfl, ?_⟩ <;> omega

theorem C23_TransferTo_moves_the_minimum_for_a_valid_synced_source_witness :
    SlotInvariant transferSource ∧ SlotInvariant transferTarget ∧
    (transferSource.Item ≠ none →
      IsValid transferHeap transferSource.Item ∧
        transferSource.MaxStackSize = (transferHeap.deref transferSource.Item).MaxStackSize) ∧
    (transferSource.Item = none ∨ (3 : Int) ≤ 0 ∨
        (transferTarget.Item ≠ none ∧
          GetItemID transferHeap transferTarget.Item ≠ GetItemID transferHeap transferSource.Item) →
      transferSource.TransferTo transferHeap transferTarget 3 =
        (transferSource, transferTarget, 0)) ∧
    (transferSource.Item ≠ none → (0 : Int) < 3 →
      (transferTarget.Item = none ∨
        GetItemID transferHeap transferTarget.Item = GetItemID transferHeap transferSource.Item) →
      (transferSource.TransferTo transferHeap transferTarget 3).2.2 =
        min 3 (min transferSource.CurrentStackSize
          (targetFreeSpace transferHeap transferSource transferTarget)) ∧
      0 ≤ (transferSource.TransferTo transferHeap transferTarget 3).2.2 ∧
      (transferSource.TransferTo transferHeap transferTarget 3).1.CurrentStackSize =
        transferSource.CurrentStackSize -
          (transferSource.TransferTo transferHeap transferTarget 3).2.2 ∧
      (transferSource.CurrentStackSize -
          (transferSource.TransferTo transferHeap transferTarget 3).2.2 = 0 →
        (transferSource.TransferTo transferHeap transferTarget 3).1 = transferSource.ClearSlot) ∧
      (transferSource.CurrentStackSize -
          (transferSource.TransferTo transferHeap transferTarget 3).2.2 ≠ 0 →
        (transferSource.TransferTo transferHeap transferTarget 3).1.Item = transferSource.Item) ∧
      (transferSource.TransferTo transferHeap transferTarget 3).2.1.CurrentStackSize =
        transferTarget.CurrentStackSize +
          (transferSource.TransferTo transferHeap transferTarget 3).2.2 ∧
      (0 < (transferSource.TransferTo transferHeap transferTarget 3).2.2 →
        (transferSource.TransferTo transferHeap transferTarget 3).2.1.Item =
          if transferTarget.Item = none then transferSource.Item else transferTarget.Item) ∧
      (transferSource.TransferTo transferHeap transferTarget 3).1.CurrentStackSize +
          (transferSource.TransferTo transferHeap transferTarget 3).2.1.CurrentStackSize
        = transferSource.CurrentStackSize + transferTarget.CurrentStackSize) :=
  ⟨by decide, by decide, by decide,
    C23_TransferTo_moves_the_minimum_for_a_valid_synced_source transferHeap transferSource
      transferTarget 3 (by decide) (by decide) (by decide)⟩

/-- C24: for a slot satisfying the slot invariant and any amount `x`, if
`overflow = AddToStack(x)` then the following `RemoveFromStack(x - overflow)`
returns `x - overflow` whenever that is positive, and leaves the slot exactly as
it was before the `AddToStack`: same item, same `currentStack` (and same
`maxStack`). -/
theorem C24_AddToStack_then_RemoveFromStack_round_trip (s : FInventorySlot) (x : Int)
    (hs : SlotInvariant s) :
    (0 < x - (s.AddToStack x).2 →
      ((s.AddToStack x).1.RemoveFromStack (x - (s.AddToStack x).2)).2 = x - (s.AddToStack x).2) ∧
    ((s.AddToStack x).1.RemoveFromStack (x - (s.AddToStack x).2)).1.Item = s.Item ∧
    ((s.AddToStack x).1.RemoveFromStack (x - (s.AddToStack x).2)).1.CurrentStackSize
      = s.CurrentStackSize ∧
    ((s.AddToStack x).1.RemoveFromStack (x - (s.AddToStack x).2)).1 = s := by
  have he := s.IsEmpty_iff_of_invariant hs
  obtain ⟨hs1, hs2, hs3⟩ := hs
  by_cases hn : x ≤ 0 ∨ s.IsEmpty
  · rw [s.AddToStack_noop x hn]
    simp only [sub_self]
    rw [RemoveFromStack_noop s 0 (le_refl _)]
    exact ⟨fun hx => absurd hx (lt_irrefl _), rfl, rfl, rfl⟩
  · rw [s.AddToStack_adds x hn]
    simp only [sub_sub_cancel]
    push_neg at hn
    have hsi : s.Item ≠ none := fun hx => hn.2 (he.mpr hx)
    have hscur : 0 < s.CurrentStackSize := by
      have : s.CurrentStackSize ≠ 0 := fun hz => hsi (hs1.mpr hz)
      omega
    generalize hm : min x (s.MaxStackSize - s.CurrentStackSize) = m
    have hm0 : 0 ≤ m := by rw [← hm]; exact le_min (by omega) (by omega)
    by_cases hz : m = 0
    · subst hz
      rw [RemoveFromStack_noop _ 0 (le_refl _)]
      refine ⟨fun hx => absurd hx (lt_irrefl _), rfl, ?_, ?_⟩
      · show s.CurrentStackSize + 0 = _; omega
      · cases s; simp
    · have hpos : 0 < m := by omega
      rw [RemoveFromStack_part _ m hpos (by show m < s.CurrentStackSize + m; omega)]
      refine ⟨fun _ => rfl, rfl, ?_, ?_⟩
      · show s.CurrentStackSize + m - m = _; omega
      · cases s; simp

theorem C24_AddToStack_then_RemoveFromStack_round_trip_witness :
    SlotInvariant ⟨some 0, 3, 5⟩ ∧
    ((0 : Int) < 4 - ((FInventorySlot.mk (some 0) 3 5).AddToStack 4).2 →
      (((FInventorySlot.mk (some 0) 3 5).AddToStack 4).1.RemoveFromStack
        (4 - ((FInventorySlot.mk (some 0) 3 5).AddToStack 4).2)).2 =
          4 - ((FInventorySlot.mk (some 0) 3 5).AddToStack 4).2) ∧
    (((FInventorySlot.mk (some 0) 3 5).AddToStack 4).1.RemoveFromStack
      (4 - ((FInventorySlot.mk (some 0) 3 5).AddToStack 4).2)).1.Item = some 0 ∧
    (((FInventorySlot.mk (some 0) 3 5).AddToStack 4).1.RemoveFromStack
      (4 - ((FInventorySlot.mk (some 0) 3 5).AddToStack 4).2)).1.CurrentStackSize = 3 ∧
    (((FInventorySlot.mk (some 0) 3 5).AddToStack 4).1.RemoveFromStack
      (4 - ((FInventorySlot.mk (some 0) 3 5).AddToStack 4).2)).1 = ⟨some 0, 3, 5⟩ :=
  ⟨by decide, C24_AddToStack_then_RemoveFromStack_round_trip ⟨some 0, 3, 5⟩ 4 (by decide)⟩

/-- C25: for every `Size ≥ 0` and type map, `InitializeInventory(Size, map)` leaves
the group with exactly `Size` slots, all of them default-constructed and empty,
and `MaxSlotSize = Size`; and after any further sequence of the group operations
`AddItem`, `AddItemToSlot`, `AddStackAmount`, `RemoveItem`,
`RemoveStackAmountFromSlot`, `DestroyItemAtSlot`, `SwapSlots`, `SplitStack`,
`ConsolidateAndSort` and `ClearAllSlots`, with any arguments, the number of slots
still equals `MaxSlotSize` (which is still `Size`), so that
`GetOccupiedSlotCount + GetFreeSlotCount` equals the number of slots, both counts
being non-negative. -/
theorem C25_group_size_is_fixed (g0 : FInventorySlots) (Size : Int)
    (NewTypeIDMap : List (Int × String)) (h : Heap) (ops : List GroupOp) (hs : 0 ≤ Size) :
    ((g0.InitializeInventory Size NewTypeIDMap).Slots.length : Int) = Size ∧
    (∀ s ∈ (g0.InitializeInventory Size NewTypeIDMap).Slots,
      s = FInventorySlot.ctor ∧ s.IsEmpty) ∧
    (g0.InitializeInventory Size NewTypeIDMap).MaxSlotSize = Size ∧
    ((ops.foldl GroupOp.run (g0.InitializeInventory Size NewTypeIDMap, h)).1.Slots.length : Int) =
      (ops.foldl GroupOp.run (g0.InitializeInventory Size NewTypeIDMap, h)).1.MaxSlotSize ∧
    (ops.foldl GroupOp.run (g0.InitializeInventory Size NewTypeIDMap, h)).1.MaxSlotSize = Size ∧
    (ops.foldl GroupOp.run (g0.InitializeInventory Size NewTypeIDMap, h)).1.GetOccupiedSlotCount +
        (ops.foldl GroupOp.run (g0.InitializeInventory Size NewTypeIDMap, h)).1.GetFreeSlotCount =
      ((ops.foldl GroupOp.run (g0.InitializeInventory Size NewTypeIDMap, h)).1.Slots.length : Int) ∧
    0 ≤ (ops.foldl GroupOp.run (g0.InitializeInventory Size NewTypeIDMap, h)).1.GetOccupiedSlotCount ∧
    0 ≤ (ops.foldl GroupOp.run (g0.InitializeInventory Size NewTypeIDMap, h)).1.GetFreeSlotCount := by
  have hk := GroupOp_runs_SizeKept ops (g0.InitializeInventory Size NewTypeIDMap, h)
  have hlen : ((g0.InitializeInventory Size NewTypeIDMap).Slots.length : Int) = Size := by
    simp [InitializeInventory, Int.toNat_of_nonneg hs]
  have hmax : (g0.InitializeInventory Size NewTypeIDMap).MaxSlotSize = Size := rfl
  obtain ⟨h1, h2⟩ := hk
  simp only at h1 h2
  have hb := occupiedLoop_bounds
    (ops.foldl GroupOp.run (g0.InitializeInventory Size NewTypeIDMap, h)).1.Slots 0
  refine ⟨hlen, ?_, hmax, ?_, ?_, ?_, ?_, ?_⟩
  · intro s hmem
    have : s = FInventorySlot.ctor := by
      simp only [InitializeInventory] at hmem
      exact List.eq_of_mem_replicate hmem
    subst this
    exact ⟨rfl, Or.inl rfl⟩
  · rw [h1, h2, hlen, hmax]
  · rw [h2, hmax]
  · unfold GetFreeSlotCount
    rw [h1, h2, hlen, hmax]; omega
  · unfold GetOccupiedSlotCount; omega
  · unfold GetFreeSlotCount GetOccupiedSlotCount
    rw [h2, hmax]
    rw [h1] at hb
    omega

theorem C25_group_size_is_fixed_witness :
    (0 : Int) ≤ 2 ∧
    (((FInventorySlots.ctor.InitializeInventory 2 [(0, "Bag")]).Slots.length : Int) = 2 ∧
    (∀ s ∈ (FInventorySlots.ctor.InitializeInventory 2 [(0, "Bag")]).Slots,
      s = FInventorySlot.ctor ∧ s.IsEmpty) ∧
    (FInventorySlots.ctor.InitializeInventory 2 [(0, "Bag")]).MaxSlotSize = 2 ∧
    (([GroupOp.AddItem (some 0), GroupOp.SwapSlots 0 1, GroupOp.AddStackAmount (some 0) 4,
        GroupOp.RemoveStackAmountFromSlot 1 2].foldl GroupOp.run
      (FInventorySlots.ctor.InitializeInventory 2 [(0, "Bag")], [mkItem "A" true 5 3])).1.Slots.length
        : Int) =
      ([GroupOp.AddItem (some 0), GroupOp.SwapSlots 0 1, GroupOp.AddStackAmount (some 0) 4,
        GroupOp.RemoveStackAmountFromSlot 1 2].foldl GroupOp.run
      (FInventorySlots.ctor.InitializeInventory 2 [(0, "Bag")], [mkItem "A" true 5 3])).1.MaxSlotSize ∧
    ([GroupOp.AddItem (some 0), GroupOp.SwapSlots 0 1, GroupOp.AddStackAmount (some 0) 4,
        GroupOp.RemoveStackAmountFromSlot 1 2].foldl GroupOp.run
      (FInventorySlots.ctor.InitializeInventory 2 [(0, "Bag")], [mkItem "A" true 5 3])).1.MaxSlotSize
        = 2 ∧
    ([GroupOp.AddItem (some 0), GroupOp.SwapSlots 0 1, GroupOp.AddStackAmount (some 0) 4,
        GroupOp.RemoveStackAmountFromSlot 1 2].foldl GroupOp.run
      (FInventorySlots.ctor.InitializeInventory 2 [(0, "Bag")],
        [mkItem "A" true 5 3])).1.GetOccupiedSlotCount +
      ([GroupOp.AddItem (some 0), GroupOp.SwapSlots 0 1, GroupOp.AddStackAmount (some 0) 4,
        GroupOp.RemoveStackAmountFromSlot 1 2].foldl GroupOp.run
      (FInventorySlots.ctor.InitializeInventory 2 [(0, "Bag")],
        [mkItem "A" true 5 3])).1.GetFreeSlotCount =
      (([GroupOp.AddItem (some 0), GroupOp.SwapSlots 0 1, GroupOp.AddStackAmount (some 0) 4,
        GroupOp.RemoveStackAmountFromSlot 1 2].foldl GroupOp.run
      (FInventorySlots.ctor.InitializeInventory 2 [(0, "Bag")],
        [mkItem "A" true 5 3])).1.Slots.length : Int) ∧
    0 ≤ ([GroupOp.AddItem (some 0), GroupOp.SwapSlots 0 1, GroupOp.AddStackAmount (some 0) 4,
        GroupOp.RemoveStackAmountFromSlot 1 2].foldl GroupOp.run
      (FInventorySlots.ctor.InitializeInventory 2 [(0, "Bag")],
        [mkItem "A" true 5 3])).1.GetOccupiedSlotCount ∧
    0 ≤ ([GroupOp.AddItem (some 0), GroupOp.SwapSlots 0 1, GroupOp.AddStackAmount (some 0) 4,
        GroupOp.RemoveStackAmountFromSlot 1 2].foldl GroupOp.run
      (FInventorySlots.ctor.InitializeInventory 2 [(0, "Bag")],
        [mkItem "A" true 5 3])).1.GetFreeSlotCount) :=
  ⟨by decide, C25_group_size_is_fixed FInventorySlots.ctor 2 [(0, "Bag")] [mkItem "A" true 5 3]
    [GroupOp.AddItem (some 0), GroupOp.SwapSlots 0 1, GroupOp.AddStackAmount (some 0) 4,
      GroupOp.RemoveStackAmountFromSlot 1 2] (by decide)⟩

/-- C26, failing input: a group of one empty slot that allows type 0, a valid
stackable item of that type with maximum stack 5, and `Amount = 8`.
`AddStackAmount` returns 0, yet the sum of the stacks goes from 0 to 5, not to
`0 + (8 - 0) = 8`: the remainder is placed with `SetItem`, which clamps it to the
item's maximum stack, and the 3 units that did not fit are not reported. -/
theorem C26_AddStackAmount_reports_zero_but_stores_less :
    IsValid [mkItem "A" true 5 1] (some 0) ∧
    (bag 1).IsTypeSupported [mkItem "A" true 5 1] (some 0) ∧
    sumStacks (bag 1).Slots = 0 ∧
    ((bag 1).AddStackAmount [mkItem "A" true 5 1] (some 0) 8).1 = 0 ∧
    ((bag 1).AddStackAmount [mkItem "A" true 5 1] (some 0) 8).2.Slots = [⟨some 0, 5, 5⟩] ∧
    sumStacks ((bag 1).AddStackAmount [mkItem "A" true 5 1] (some 0) 8).2.Slots = 5 := by
  refine ⟨by decide, by decide, by decide, by decide, by decide, by decide⟩

/-- C27, counterexample: a group of two empty slots that allows type 0 and a valid
item of that type whose current stack is 7 with maximum stack 5.
`AddItemToSlot(item, 1)` succeeds and places the item at index 1, but the slot
holds 5 units, not the item's current stack of 7, and the item still records 7. -/
theorem C27_counterexample_quantity_is_clamped_to_maxStack :
    IsValid [mkItem "A" true 5 7] (some 0) ∧
    (bag 2).IsTypeSupported [mkItem "A" true 5 7] (some 0) ∧
    IsValidIndex (bag 2).Slots 1 ∧ (slotAt (bag 2).Slots 1).IsEmpty ∧
    (Heap.deref [mkItem "A" true 5 7] (some 0)).CurrentStackSize = 7 ∧
    ((bag 2).AddItemToSlot [mkItem "A" true 5 7] (some 0) 1).1 = .Ok ∧
    ((bag 2).AddItemToSlot [mkItem "A" true 5 7] (some 0) 1).2.1.Slots =
      [FInventorySlot.ctor, ⟨some 0, 5, 5⟩] ∧
    ((bag 2).AddItemToSlot [mkItem "A" true 5 7] (some 0) 1).2.2 = [mkItem "A" true 5 7] := by
  refine ⟨by decide, by decide, by decide, by decide, by decide, by decide, by decide, by decide⟩

/-- C27, amended: for every group, valid type-supported item and index: if the
index is valid and the target slot is empty, `AddItemToSlot` succeeds and places
the item at exactly that index with the item's current stack clamped into
`[0, maxStack]` (so with the item's current stack when `0 ≤ stack ≤ maxStack`) and
the item's maximum stack, leaving every other slot, the number of slots and the
item objects unchanged; if the index is valid and the target slot holds an item
with a different item ID (or the new item is not stackable), the result, the
resulting group and the resulting item objects are those of `AddItem(item)` on the
same group; and an out-of-range index fails and leaves the group and the item
objects unchanged. -/
theorem C27_AddItemToSlot_treats_the_index_as_a_hint (h : Heap) (g : FInventorySlots)
    (p : ItemPtr) (i : Int) (hv : IsValid h p) (hs : g.IsTypeSupported h p) :
    (IsValidIndex g.Slots i → (slotAt g.Slots i).IsEmpty →
      (AddItemToSlot h g p i).1 = .Ok ∧
      (AddItemToSlot h g p i).2.2 = h ∧
      slotAt (AddItemToSlot h g p i).2.1.Slots i =
        ⟨p, Clamp (h.deref p).CurrentStackSize 0 (h.deref p).MaxStackSize,
          (h.deref p).MaxStackSize⟩ ∧
      (0 ≤ (h.deref p).CurrentStackSize →
        (h.deref p).CurrentStackSize ≤ (h.deref p).MaxStackSize →
        (slotAt (AddItemToSlot h g p i).2.1.Slots i).CurrentStackSize =
          (h.deref p).CurrentStackSize) ∧
      (AddItemToSlot h g p i).2.1.Slots.length = g.Slots.length ∧
      (∀ j : Nat, j ≠ i.toNat →
        (AddItemToSlot h g p i).2.1.Slots.getD j FInventorySlot.ctor =
          g.Slots.getD j FInventorySlot.ctor)) ∧
    (IsValidIndex g.Slots i → ¬ (slotAt g.Slots i).IsEmpty →
      (GetItemID h (slotAt g.Slots i).Item ≠ GetItemID h p ∨ (h.deref p).bIsStackable = false) →
      AddItemToSlot h g p i = AddItem h g p) ∧
    (¬ IsValidIndex g.Slots i →
      (AddItemToSlot h g p i).1.bSuccess = false ∧ (AddItemToSlot h g p i).2 = (g, h)) := by
  refine ⟨fun hi he => ?_, fun hi he hd => AddItemToSlot_fallback h g p i hv hi hs he hd,
    fun hi => ?_⟩
  · rw [AddItemToSlot_empty h g p i hv hi hs he]
    refine ⟨rfl, rfl, ?_, ?_, ?_, ?_⟩
    · exact slotAt_set_self _ _ _ hi
    · intro h0 h1
      show (slotAt (g.Slots.set i.toNat _) i).CurrentStackSize = _
      rw [slotAt_set_self _ _ _ hi]
      show Clamp _ 0 _ = _
      unfold Clamp
      rw [min_eq_left h1, max_eq_left h0]
    · exact List.length_set _ _ _
    · intro j hj
      show (g.Slots.set i.toNat _).getD j _ = _
      rw [getD_set, if_neg (fun hx => hj hx.1.symm)]
  · rw [AddItemToSlot_out_of_range h g p i hv hi]
    exact ⟨rfl, rfl⟩

theorem C27_AddItemToSlot_treats_the_index_as_a_hint_witness :
    IsValid mergeHeap (some 1) ∧ (bag 2).IsTypeSupported mergeHeap (some 1) ∧
    ((IsValidIndex (bag 2).Slots 1 → (slotAt (bag 2).Slots 1).IsEmpty →
      (AddItemToSlot mergeHeap (bag 2) (some 1) 1).1 = .Ok ∧
      (AddItemToSlot mergeHeap (bag 2) (some 1) 1).2.2 = mergeHeap ∧
      slotAt (AddItemToSlot mergeHeap (bag 2) (some 1) 1).2.1.Slots 1 =
        ⟨some 1, Clamp (mergeHeap.deref (some 1)).CurrentStackSize 0
            (mergeHeap.deref (some 1)).MaxStackSize,
          (mergeHeap.deref (some 1)).MaxStackSize⟩ ∧
      (0 ≤ (mergeHeap.deref (some 1)).CurrentStackSize →
        (mergeHeap.deref (some 1)).CurrentStackSize ≤ (mergeHeap.deref (some 1)).MaxStackSize →
        (slotAt (AddItemToSlot mergeHeap (bag 2) (some 1) 1).2.1.Slots 1).CurrentStackSize =
          (mergeHeap.deref (some 1)).CurrentStackSize) ∧
      (AddItemToSlot mergeHeap (bag 2) (some 1) 1).2.1.Slots.length = (bag 2).Slots.length ∧
      (∀ j : Nat, j ≠ (1 : Int).toNat →
        (AddItemToSlot mergeHeap (bag 2) (some 1) 1).2.1.Slots.getD j FInventorySlot.ctor =
          (bag 2).Slots.getD j FInventorySlot.ctor)) ∧
    (IsValidIndex (bag 2).Slots 1 → ¬ (slotAt (bag 2).Slots 1).IsEmpty →
      (GetItemID mergeHeap (slotAt (bag 2).Slots 1).Item ≠ GetItemID mergeHeap (some 1) ∨
        (mergeHeap.deref (some 1)).bIsStackable = false) →
      AddItemToSlot mergeHeap (bag 2) (some 1) 1 = AddItem mergeHeap (bag 2) (some 1)) ∧
    (¬ IsValidIndex (bag 2).Slots 1 →
      (AddItemToSlot mergeHeap (bag 2) (some 1) 1).1.bSuccess = false ∧
        (AddItemToSlot mergeHeap (bag 2) (some 1) 1).2 = (bag 2, mergeHeap))) :=
  ⟨by decide, by decide,
    C27_AddItemToSlot_treats_the_index_as_a_hint mergeHeap (bag 2) (some 1) 1 (by decide)
      (by decide)⟩

/-- C28, failing input: a collection with one initialised group of two slots
receives, by two successful `AddItem` calls, a valid "A" item of 3 units and a
valid "A" item of 2 units (maximum stack 5); slot 0 then holds 5 units of the
first item.  `TransferItem(0, 0, 0, 1)` returns success, and the total quantity of
"A" over all slots of all groups drops from 5 to 3. -/
theorem C28_TransferItem_after_merge_loses_quantity :
    ((FInventorySlotsGroup.ctor.AddInventoryGroup (bag 2)).AddItem mergeHeap (some 0) (-1)).1.bSuccess
      = true ∧
    mergedCollection.1.bSuccess = true ∧
    mergedCollection.2.1.InventoryGroups.map (fun g => g.Slots) =
      [[⟨some 0, 5, 5⟩, FInventorySlot.ctor]] ∧
    mergedCollection.2.1.GetGlobalTotalItemCount mergedCollection.2.2 "A" = 5 ∧
    (mergedCollection.2.1.TransferItem mergedCollection.2.2 0 0 0 1).1 = .Ok ∧
    (mergedCollection.2.1.TransferItem mergedCollection.2.2 0 0 0 1).2.1.InventoryGroups.map
      (fun g => g.Slots) = [[FInventorySlot.ctor, ⟨some 0, 3, 5⟩]] ∧
    (mergedCollection.2.1.TransferItem mergedCollection.2.2 0 0 0 1).2.1.GetGlobalTotalItemCount
      (mergedCollection.2.1.TransferItem mergedCollection.2.2 0 0 0 1).2.2 "A" = 3 := by
  refine ⟨by decide, by decide, by decide, by decide, by decide, by decide, by decide⟩

/-- C29, failing input: a group initialised with two slots receives, by `AddItem`,
a valid "A" item of 3 units and then a valid "A" item of 2 units (maximum stack
5).  Both calls succeed; afterwards slot 0 is non-empty, holds the first item
and has `CurrentStackSize = 5`, while that item's own `CurrentStackSize` is still
3. -/
theorem C29_slot_and_item_disagree_after_a_merge :
    ((bag 2).AddItem mergeHeap (some 0)).1.bSuccess = true ∧
    (((bag 2).AddItem mergeHeap (some 0)).2.1.AddItem ((bag 2).AddItem mergeHeap (some 0)).2.2
      (some 1)).1.bSuccess = true ∧
    mergedGroup.1.Slots = [⟨some 0, 5, 5⟩, FInventorySlot.ctor] ∧
    ¬ (slotAt mergedGroup.1.Slots 0).IsEmpty ∧
    (slotAt mergedGroup.1.Slots 0).CurrentStackSize = 5 ∧
    (mergedGroup.2.deref (slotAt mergedGroup.1.Slots 0).Item).CurrentStackSize = 3 := by
  refine ⟨by decide, by decide, by decide, by decide, by decide, by decide⟩

/-- C30, counterexample: pooling is enabled, the world's pool for class 7 is empty
and the engine's pool holds object 0.  One `GetItemFromPool(7, owner)` on the
world's subsystem returns object 0, and the world pool's `HitCount + MissCount` is
0 before and 0 after: the request was counted by the engine's pool only. -/
theorem C30_counterexample_request_served_by_engine_is_not_counted :
    engineStocked.World.bEnablePooling = true ∧
    (engineStocked.World.pool 7).map (fun P => P.HitCount + P.MissCount) = some 0 ∧
    (UItemPoolSubsystem.GetItemFromPool engineStocked (some 7) (some 0)).2 = some 0 ∧
    ((UItemPoolSubsystem.GetItemFromPool engineStocked (some 7) (some 0)).1.World.pool 7).map
      (fun P => P.HitCount + P.MissCount) = some 0 ∧
    ((UItemPoolSubsystem.GetItemFromPool engineStocked (some 7) (some 0)).1.Engine.bind
      (fun e => e.pool 7)).map (fun P => P.HitCount + P.MissCount) = some 1 := by
  refine ⟨by decide, by decide, by decide, by decide, by decide⟩

/-- C30, amended: with pooling enabled, one `GetItemFromPool(c, owner)` on the
world's subsystem works on the pool `P` of the class (the existing one, or a newly
created one whose counters are 0) and leaves it as `Q`, where: if the available
list of `P` is non-empty, `HitCount + MissCount` grows by exactly one (a hit when
the popped entry is an instance, which is then returned; a miss when it is null);
if the list is empty and the engine subsystem is absent or hands back nothing, it
is a miss and `MissCount` grows by one; and if the list is empty and the engine
subsystem hands back an instance, that instance is returned and neither counter
of `P` changes. -/
theorem C30_request_counted_unless_served_by_engine (w : PoolWorld) (c : Nat)
    (Outer : Option Nat) (he : w.World.bEnablePooling = true) :
    ∃ P Q, requestedPool w c = some P ∧
      (∀ P0, w.World.pool c = some P0 → P = P0) ∧
      (w.World.pool c = none → P.HitCount = 0 ∧ P.MissCount = 0) ∧
      (UItemPoolSubsystem.GetItemFromPool w (some c) Outer).1.World.pool c = some Q ∧
      (¬ (P.AvailableItems = [] ∧ engineAnswer w c Outer ≠ none) →
        Q.HitCount + Q.MissCount = P.HitCount + P.MissCount + 1) ∧
      (∀ l p, P.AvailableItems = l ++ [some p] →
        (UItemPoolSubsystem.GetItemFromPool w (some c) Outer).2 = some p ∧
          Q.HitCount = P.HitCount + 1 ∧ Q.MissCount = P.MissCount) ∧
      (∀ l, P.AvailableItems = l ++ [none] →
        Q.HitCount = P.HitCount ∧ Q.MissCount = P.MissCount + 1) ∧
      (P.AvailableItems = [] → engineAnswer w c Outer = none →
        Q.HitCount = P.HitCount ∧ Q.MissCount = P.MissCount + 1) ∧
      (P.AvailableItems = [] → engineAnswer w c Outer ≠ none →
        (UItemPoolSubsystem.GetItemFromPool w (some c) Outer).2 = engineAnswer w c Outer ∧
          Q.HitCount = P.HitCount ∧ Q.MissCount = P.MissCount) := by
  have hP : ∃ P, requestedPool w c = some P ∧ (∀ P0, w.World.pool c = some P0 → P = P0) ∧
      (w.World.pool c = none → P.HitCount = 0 ∧ P.MissCount = 0) := by
    cases hw : w.World.pool c with
    | some P0 =>
      refine ⟨P0, UItemPoolSubsystem.requestedPool_found w c P0 hw, ?_, ?_⟩
      · intro P1 h1; exact Option.some.inj h1
      · intro h; cases h
    | none =>
      obtain ⟨P, h1, h2, h3⟩ := UItemPoolSubsystem.requestedPool_created w c hw
      refine ⟨P, h1, ?_, fun _ => ⟨h2, h3⟩⟩
      intro P0 h0; cases h0
  obtain ⟨P, hreq, hold, hnew⟩ := hP
  obtain ⟨Q, hQ, hne, hemp⟩ := UItemPoolSubsystem.getFound_counts
    (PoolTier.findOrCreate UItemPoolSubsystem.CreatePool w.Objects w.World c).1
    (PoolTier.findOrCreate UItemPoolSubsystem.CreatePool w.Objects w.World c).2 w.Engine c P Outer
    (engineAnswer w c Outer) (by unfold engineAnswer; rfl)
  rw [← UItemPoolSubsystem.GetItemFromPool_requested w c Outer P he hreq] at hQ hne hemp
  refine ⟨P, Q, hreq, hold, hnew, hQ, ?_, ?_, ?_, ?_, ?_⟩
  · intro hn
    by_cases hl : P.AvailableItems = []
    · have ha : engineAnswer w c Outer = none := by
        by_contra hx; exact hn ⟨hl, hx⟩
      obtain ⟨h1, h2, _⟩ := hemp hl
      rw [h1, h2, if_pos ha]; ring
    · obtain ⟨_, h1, h2⟩ := hne hl
      rw [h1, h2]
      by_cases hj : P.AvailableItems.getLast?.join = none
      · rw [if_pos hj, if_pos hj]; ring
      · rw [if_neg hj, if_neg hj]; ring
  · intro l p hl
    have hj : P.AvailableItems.getLast?.join = some p := by rw [hl]; simp
    obtain ⟨h0, h1, h2⟩ := hne (by rw [hl]; simp)
    rw [hj] at h0 h1 h2
    exact ⟨h0 (by simp), by simpa using h1, by simpa using h2⟩
  · intro l hl
    have hj : P.AvailableItems.getLast?.join = none := by rw [hl]; simp
    obtain ⟨_, h1, h2⟩ := hne (by rw [hl]; simp)
    rw [hj] at h1 h2
    exact ⟨by simpa using h1, by simpa using h2⟩
  · intro hl ha
    obtain ⟨h1, h2, _⟩ := hemp hl
    rw [ha] at h2
    exact ⟨h1, by simpa using h2⟩
  · intro hl ha
    obtain ⟨h1, h2, h3⟩ := hemp hl
    rw [if_neg ha] at h2
    exact ⟨h3 ha, h1, by simpa using h2⟩

theorem C30_request_counted_unless_served_by_engine_witness :
    engineStocked.World.bEnablePooling = true ∧
    ∃ P Q, requestedPool engineStocked 7 = some P ∧
      (∀ P0, engineStocked.World.pool 7 = some P0 → P = P0) ∧
      (engineStocked.World.pool 7 = none → P.HitCount = 0 ∧ P.MissCount = 0) ∧
      (UItemPoolSubsystem.GetItemFromPool engineStocked (some 7) (some 0)).1.World.pool 7 = some Q ∧
      (¬ (P.AvailableItems = [] ∧ engineAnswer engineStocked 7 (some 0) ≠ none) →
        Q.HitCount + Q.MissCount = P.HitCount + P.MissCount + 1) ∧
      (∀ l p, P.AvailableItems = l ++ [some p] →
        (UItemPoolSubsystem.GetItemFromPool engineStocked (some 7) (some 0)).2 = some p ∧
          Q.HitCount = P.HitCount + 1 ∧ Q.MissCount = P.MissCount) ∧
      (∀ l, P.AvailableItems = l ++ [none] →
        Q.HitCount = P.HitCount ∧ Q.MissCount = P.MissCount + 1) ∧
      (P.AvailableItems = [] → engineAnswer engineStocked 7 (some 0) = none →
        Q.HitCount = P.HitCount ∧ Q.MissCount = P.MissCount + 1) ∧
      (P.AvailableItems = [] → engineAnswer engineStocked 7 (some 0) ≠ none →
        (UItemPoolSubsystem.GetItemFromPool engineStocked (some 7) (some 0)).2 =
            engineAnswer engineStocked 7 (some 0) ∧
          Q.HitCount = P.HitCount ∧ Q.MissCount = P.MissCount) :=
  ⟨by decide, C30_request_counted_unless_served_by_engine engineStocked 7 (some 0) (by decide)⟩

end InventorySystem
